import Mathlib

/-!
# MapServer WMS front end (mapwms.c): a shallow embedding

The definitions below follow `src/mapserver/mapwms.c` function by function.
C strings are `String` (a nullable `char *` is `Option String`), `int` is `Int`,
`double` is the type `double` below (rounded arithmetic), arrays are lists.  Code that lives in other
files of MapServer (string splitting, metadata lookup, projections, renderers...)
is collected in the record `Env` and passed as a parameter.
-/

namespace MapServer

/-! ## Constants of the headers -/

/-- Modelled from the spec: return code SUCCESS of mapserver.h (header not among the sources). -/
def MS_SUCCESS : Int := 0

/-- Modelled from the spec: return code FAILURE of mapserver.h (header not among the sources). -/
def MS_FAILURE : Int := 1

/-- Modelled from the spec: return code DONE of mapserver.h, "not a WMS request". -/
def MS_DONE : Int := 2

/-- Modelled from the spec: layer status OFF of mapserver.h. -/
def MS_OFF : Int := 0

/-- Modelled from the spec: layer status ON of mapserver.h. -/
def MS_ON : Int := 1

/-- Modelled from the spec: layer status DEFAULT of mapserver.h. -/
def MS_DEFAULT : Int := 2

/-- Modelled from the spec: boolean true of mapserver.h. -/
def MS_TRUE : Int := 1

/-- Modelled from the spec: boolean false of mapserver.h. -/
def MS_FALSE : Int := 0

/-- Modelled from the spec: the "no override" marker of mapserver.h. -/
def MS_NOOVERRIDE : Int := -1111

/-- Modelled from the spec: version token NOTSET of mapows.h; negative, as the tests
`nVersion < 0` and `nVersion <= 0` of mapwms.c expect. -/
def OWS_VERSION_NOTSET : Int := -1

/-- Modelled from the spec: version token BADFORMAT of mapows.h. -/
def OWS_VERSION_BADFORMAT : Int := -2

/-- Modelled from the spec: version token 1.0.0 of mapows.h, encoded major*0x10000 + minor*0x100 + patch. -/
def OWS_1_0_0 : Int := 0x010000

/-- Modelled from the spec: version token 1.0.7 of mapows.h. -/
def OWS_1_0_7 : Int := 0x010007

/-- Modelled from the spec: version token 1.1.0 of mapows.h. -/
def OWS_1_1_0 : Int := 0x010100

/-- Modelled from the spec: version token 1.1.1 of mapows.h. -/
def OWS_1_1_1 : Int := 0x010101

/-! ## C string helpers -/

/-- The test `strcasecmp(a, b) == 0`: equality after ASCII lower-casing. -/
def strcaseEq (a b : String) : Bool :=
  a.data.map Char.toLower == b.data.map Char.toLower

/-- The test `strncasecmp(a, b, n) == 0`: case-insensitive equality of the first `n` characters. -/
def strncaseEq (a b : String) (n : Nat) : Bool :=
  (a.data.take n).map Char.toLower == (b.data.take n).map Char.toLower

/-- The test `p && strcasecmp(p, b) == 0` for a nullable string `p`. -/
def optCaseEq (p : Option String) (b : String) : Bool :=
  match p with
  | some a => strcaseEq a b
  | none => false

/-- A store `a[i] = v` into a C array held as a list.  A store past the end of the list
is kept (the list grows, padded with 0), so that a write beyond the expected bound stays visible. -/
def arrSet (a : List Int) (i : Nat) (v : Int) : List Int :=
  if i < a.length then a.set i v else a ++ List.replicate (i - a.length) 0 ++ [v]

/-! ## The type double -/

/-- A value of the C type `double` (IEEE 754 binary64, every operation rounded to nearest with
ties to even, as the compiler does with SSE2 arithmetic): a finite value, which is a rational,
an infinity (`negative` is its sign) or a NaN.  The sign of a zero is not kept. -/
inductive double where
  | fin (q : ℚ)
  | inf (negative : Bool)
  | nan
deriving DecidableEq, Inhabited

/-- The integer nearest to `n / d`, the even one of the two when `n / d` is half way. -/
def roundNearestEven (n d : Nat) : Nat :=
  if 2 * (n % d) < d then n / d
  else if d < 2 * (n % d) then n / d + 1
  else if (n / d) % 2 = 0 then n / d
  else n / d + 1

/-- The least `j` from `j` on with `n < 2 ^ (2 ^ j)`, looked for in at most `fuel` steps. -/
def log2Bits (n : Nat) : Nat → Nat → Nat
  | 0, j => j
  | fuel + 1, j => if n < 2 ^ (2 ^ j) then j else log2Bits n fuel (j + 1)

/-- The greatest `k + i` with `i < 2 ^ j` and `2 ^ (k + i) ≤ n`, found bit by bit. -/
def log2Search (n : Nat) : Nat → Nat → Nat
  | 0, k => k
  | j + 1, k => if 2 ^ (k + 2 ^ j) ≤ n then log2Search n j (k + 2 ^ j) else log2Search n j k

/-- The exponent `k` with `2^k ≤ n < 2^(k+1)`, for positive `n`. -/
def natLog2 (n : Nat) : Nat := log2Search n (log2Bits n n 0) 0

/-- The exponent `e` with `2^e ≤ n / d < 2^(e+1)`, for positive `n` and `d`. -/
def floorLog2 (n d : Nat) : Int :=
  let k : Int := (natLog2 n : Int) - (natLog2 d : Int)
  if d * 2 ^ k.toNat ≤ n * 2 ^ (-k).toNat then k else k - 1

/-- The `double` nearest to the rational `q`: 53 significant bits, exponents from -1022
(below it the values are denormal, multiples of 2^-1074) to 1023, and an infinity for a
result of magnitude 2^1024 or more. -/
def roundDouble (q : ℚ) : double :=
  if q = 0 then double.fin 0
  else
    let n := q.num.natAbs
    let e := max (floorLog2 n q.den) (-1022)
    let p := e - 52
    let m := roundNearestEven (n * 2 ^ (-p).toNat) (q.den * 2 ^ p.toNat)
    if 1023 < e ∨ (e = 1023 ∧ 2 ^ 53 ≤ m) then double.inf (decide (q < 0))
    else double.fin (mkRat ((if q < 0 then -1 else 1) * ((m * 2 ^ p.toNat : Nat) : Int))
      (2 ^ (-p).toNat))

/-- The conversion `(double)i` of an integer. -/
def double.ofInt (i : Int) : double := roundDouble i

/-- The negation `-a`. -/
def double.neg : double → double
  | double.fin a => double.fin (-a)
  | double.inf s => double.inf (!s)
  | double.nan => double.nan

/-- The sum `a + b`. -/
def double.add : double → double → double
  | double.fin a, double.fin b => roundDouble (a + b)
  | double.fin _, double.inf s => double.inf s
  | double.inf s, double.fin _ => double.inf s
  | double.inf s, double.inf t => if s = t then double.inf s else double.nan
  | _, _ => double.nan

/-- The difference `a - b`. -/
def double.sub (a b : double) : double := double.add a (double.neg b)

/-- The product `a * b`. -/
def double.mul : double → double → double
  | double.fin a, double.fin b => roundDouble (a * b)
  | double.fin a, double.inf s => if a = 0 then double.nan else double.inf (xor s (decide (a < 0)))
  | double.inf s, double.fin b => if b = 0 then double.nan else double.inf (xor s (decide (b < 0)))
  | double.inf s, double.inf t => double.inf (xor s t)
  | _, _ => double.nan

/-- The quotient `a / b`; a zero divisor is taken as positive. -/
def double.div : double → double → double
  | double.fin a, double.fin b =>
    if b = 0 then (if a = 0 then double.nan else double.inf (decide (a < 0)))
    else roundDouble (a / b)
  | double.fin _, double.inf _ => double.fin 0
  | double.inf s, double.fin b => double.inf (xor s (decide (b < 0)))
  | _, _ => double.nan

/-- The comparison `a < b`, false when an operand is a NaN. -/
def double.lt : double → double → Bool
  | double.fin a, double.fin b => decide (a < b)
  | double.fin _, double.inf s => !s
  | double.inf s, double.fin _ => s
  | double.inf s, double.inf t => s && !t
  | _, _ => false

/-- The comparison `a <= b`, false when an operand is a NaN. -/
def double.le : double → double → Bool
  | double.fin a, double.fin b => decide (a ≤ b)
  | double.fin _, double.inf s => !s
  | double.inf s, double.fin _ => s
  | double.inf s, double.inf t => s || !t
  | _, _ => false

instance (n : Nat) : OfNat double n := ⟨double.fin n⟩

instance : OfScientific double :=
  ⟨fun m s e => roundDouble (OfScientific.ofScientific m s e)⟩

instance : Neg double := ⟨double.neg⟩

instance : Add double := ⟨double.add⟩

instance : Sub double := ⟨double.sub⟩

instance : Mul double := ⟨double.mul⟩

instance : Div double := ⟨double.div⟩

instance : LT double := ⟨fun a b => double.lt a b = true⟩

instance : LE double := ⟨fun a b => double.le a b = true⟩

instance (a b : double) : Decidable (a < b) :=
  inferInstanceAs (Decidable (double.lt a b = true))

instance (a b : double) : Decidable (a ≤ b) :=
  inferInstanceAs (Decidable (double.le a b = true))

/-- Modelled from the spec: the macro `MS_ABS(a)` of mapserver.h, `((a) < 0) ? -(a) : (a)`
(the `|…|` of the non-square pixel test). -/
def MS_ABS (a : double) : double := if a < 0 then -a else a

/-- The rational number `q` is a `double`: rounding leaves it as it is. -/
def isDouble (q : ℚ) : Prop := roundDouble q = double.fin q

instance (q : ℚ) : Decidable (isDouble q) :=
  inferInstanceAs (Decidable (roundDouble q = double.fin q))

/-! ## Data model -/

/-- The rectangle `rectObj`. -/
structure rectObj where
  minx : double
  miny : double
  maxx : double
  maxy : double

/-- The colour `colorObj` (only the fields written by the WMS code). -/
structure colorObj where
  red : Int
  green : Int
  blue : Int

/-- The projection `projectionObj`: its argument strings (`numargs` is their number). -/
structure projectionObj where
  args : List String

/-- The count `numargs` of a projection. -/
def projectionObj.numargs (p : projectionObj) : Int := p.args.length

/-- The output format `outputFormatObj` (the fields read by the WMS code); `renderer` is 1
(MS_RENDER_WITH_GD) unless set otherwise. -/
structure outputFormatObj where
  name : String
  driver : String
  mimetype : Option String
  renderer : Int := 1

/-- The class `classObj` (the fields read by the WMS code). -/
structure classObj where
  name : Option String
  group : Option String

/-- The layer `layerObj` (the fields read or written by the WMS code).
`timefilter` records the last `(time, item)` handed to `msLayerSetTimeFilter`; `resultcache`,
when not NULL, holds the pairs `(tileindex, shapeindex)` of its results; `items` holds the
`numitems` field names. -/
structure layerObj where
  name : Option String
  group : Option String
  status : Int
  type : Int
  metadata : List (String × String)
  projection : projectionObj
  transform : Int
  project : Int
  classes : List classObj
  classgroup : Option String
  timefilter : Option (String × String)
  connectiontype : Int := 0
  tolerance : double := 0
  toleranceunits : Int := 0
  resultcache : Option (List (Int × Int)) := none
  items : List String := []

/-- The map `mapObj` (the fields read or written by the WMS code).
`layers` holds `numlayers` layers; `webmetadata` is `map->web.metadata`, `webempty` is
`map->web.empty`, `legendkeysizex` and `legendkeysizey` are `map->legend.keysizex/y`. -/
structure mapObj where
  name : Option String
  layers : List layerObj
  layerorder : List Int
  extent : rectObj
  width : Int
  height : Int
  maxsize : Int
  imagetype : Option String
  imagecolor : colorObj
  outputformat : Option outputFormatObj
  projection : projectionObj
  units : Int
  configoptions : List (String × String)
  webmetadata : List (String × String)
  debug : Int
  resolution : double := 72
  legendkeysizex : Int := 20
  legendkeysizey : Int := 10
  webempty : Option String := none

/-- The counter `map->numlayers`. -/
def mapObj.numlayers (m : mapObj) : Nat := m.layers.length

/-- The decoded request `cgiRequestObj`: `ParamNames[i]`, `ParamValues[i]` for `i < NumParams`. -/
structure cgiRequestObj where
  params : List (String × String)

/-- One item written to the response stream. -/
inductive Output where
  | printf (text : String)
  | errorImage (blank : Int)
  | errorXML (errors : List String)
  | mapContext
deriving DecidableEq

/-- The state a WMS call works on: the map, the file-level static `wms_exception_format`,
the error list fed by `msSetError`, the response written so far, the pattern last handed to
`msSetLimitedPattersToUse`, and a log `raised` of the arguments `(nVersion, exception_code)`
of every call of `msWMSException`. -/
structure wmsState where
  map : mapObj
  wms_exception_format : Option String
  errors : List String
  out : List Output
  timepattern : Option String
  raised : List (Int × Option String)

/-- Functions of MapServer that mapwms.c calls and that live in other files. -/
structure Env where
  msStringSplit : String → Char → List String
  parseVersionDigits : String → Int
  msOWSGetVersionString : Int → String
  msOWSLookupMetadata : List (String × String) → String → String → Option String
  msOWSNegotiateUpdateSequence : String → Option String → Int
  msOWSGetSchemasLocation : mapObj → String
  msEncodeHTMLEntities : String → String
  msOWSPrintEncodeMetadata : List (String × String) → String → String → String → String → String
  msOWSGetOnlineResource : mapObj → String → String → cgiRequestObj → Option String
  msOWSMakeAllLayersUnique : mapObj → Int × mapObj
  msInsertHashTable : List (String × String) → String → String → List (String × String)
  msWriteMapContext : mapObj → Int
  msGetVersion : String
  OWS_DEFAULT_SCHEMAS_LOCATION : String
  capabilitiesRest : mapObj → Int → String → List Output
  atoi : String → Int
  atof : String → double
  strtol16 : String → Int
  ogrEnabled : Int
  msAdjustExtent : rectObj → Int → Int → rectObj
  msSLDApplySLDURL : mapObj → String → Int × mapObj
  msSLDApplySLD : mapObj → String → Int × mapObj
  msSelectOutputFormat : mapObj → String → Option outputFormatObj
  msApplyOutputFormat : Option outputFormatObj → outputFormatObj → Int → Option outputFormatObj
  msValidateTimeValue : String → String → Int
  msTimeMatchPattern : String → String → Int
  msOWSGetEPSGProj : projectionObj → List (String × String) → Option String
  msTestConfigOption : List (String × String) → String → Int → Int
  msSetConfigOption : List (String × String) → String → String → List (String × String)
  msLoadProjectionString : projectionObj → String → Int × projectionObj
  msProjectionsDiffer : projectionObj → projectionObj → Int
  msGetProjectionString : projectionObj → String
  GetMapserverUnitUsingProj : projectionObj → Int
  msStringTrimBlanks : String → String
  msStringTrimLeft : String → String

/-- The operation handlers the dispatcher routes to (functions of mapwms.c taken here as
parameters of the dispatcher: its routing does not look into them). -/
structure Handlers where
  msWMSGetLegendGraphic : wmsState → Int → cgiRequestObj → Int × wmsState
  msWMSGetStyles : wmsState → Int → cgiRequestObj → Int × wmsState
  msWMSGetMap : wmsState → Int → cgiRequestObj → Int × wmsState
  msWMSFeatureInfo : wmsState → Int → cgiRequestObj → Int × wmsState
  msWMSDescribeLayer : wmsState → Int → cgiRequestObj → Int × wmsState

/-- The call `msSetError(code, message, routine)`: the message joins the error list. -/
def msSetError (st : wmsState) (message : String) : wmsState :=
  { st with errors := st.errors ++ [message] }

/-- The call `msIO_printf`. -/
def emit (st : wmsState) (items : List Output) : wmsState :=
  { st with out := st.out ++ items }

/-! ## msWMSException -/

/-- The default exception format chosen by `msWMSException` when `wms_exception_format` is still NULL. -/
def defaultExceptionFormat (nVersion : Int) : String :=
  if nVersion ≤ OWS_1_0_0 then "INIMAGE"
  else if nVersion ≤ OWS_1_0_7 then "SE_XML"
  else "application/vnd.ogc.se_xml"

/-- The XML prologue of a service exception report, by version (the three branches of the
last `else` of `msWMSException`). -/
def exceptionProlog (env : Env) (m : mapObj) (nVersion : Int) (schemalocation : String) : List Output :=
  let enc := Output.printf (env.msOWSPrintEncodeMetadata m.webmetadata "MO" "encoding"
    "<?xml version='1.0' encoding=\"%s\" standalone=\"no\" ?>\n" "ISO-8859-1")
  if nVersion ≤ OWS_1_0_7 then
    [Output.printf "Content-type: text/xml\n\n", enc,
     Output.printf "<!DOCTYPE ServiceExceptionReport SYSTEM \"http://www.digitalearth.gov/wmt/xml/exception_1_0_1.dtd\">\n",
     Output.printf "<ServiceExceptionReport version=\"1.0.1\">\n"]
  else if nVersion ≤ OWS_1_1_0 then
    [Output.printf "Content-type: application/vnd.ogc.se_xml\n\n", enc,
     Output.printf ("<!DOCTYPE ServiceExceptionReport SYSTEM \"" ++ schemalocation ++ "/wms/1.1.0/exception_1_1_0.dtd\">\n"),
     Output.printf "<ServiceExceptionReport version=\"1.1.0\">\n"]
  else
    [Output.printf "Content-type: application/vnd.ogc.se_xml\n\n", enc,
     Output.printf ("<!DOCTYPE ServiceExceptionReport SYSTEM \"" ++ schemalocation ++ "/wms/1.1.1/exception_1_1_1.dtd\">\n"),
     Output.printf "<ServiceExceptionReport version=\"1.1.1\">\n"]

/-- The function `msWMSException(map, nVersion, exception_code)`: reports the current error in
the exception format in force, clears the error list and returns `MS_FAILURE`. -/
def msWMSException (env : Env) (st : wmsState) (nVersion : Int) (exception_code : Option String) :
    Int × wmsState :=
  let nV : Int := if nVersion ≤ 0 then OWS_1_1_1 else nVersion
  let schemalocation := env.msEncodeHTMLEntities (env.msOWSGetSchemasLocation st.map)
  let fmt : String :=
    match st.wms_exception_format with
    | some f => f
    | none => defaultExceptionFormat nV
  let body : List Output :=
    if strcaseEq fmt "INIMAGE" || strcaseEq fmt "BLANK" ||
       strcaseEq fmt "application/vnd.ogc.se_inimage" ||
       strcaseEq fmt "application/vnd.ogc.se_blank" then
      let blank : Int :=
        if strcaseEq fmt "BLANK" || strcaseEq fmt "application/vnd.ogc.se_blank" then 1 else 0
      [Output.errorImage blank]
    else if strcaseEq fmt "WMS_XML" then
      [Output.printf "Content-type: text/xml\n\n",
       Output.printf "<WMTException version=\"1.0.0\">\n",
       Output.errorXML st.errors,
       Output.printf "</WMTException>\n"]
    else
      exceptionProlog env st.map nV schemalocation ++
      [match exception_code with
       | some c => Output.printf ("<ServiceException code=\"" ++ c ++ "\">\n")
       | none => Output.printf "<ServiceException>\n",
       Output.errorXML st.errors,
       Output.printf "</ServiceException>\n",
       Output.printf "</ServiceExceptionReport>\n"]
  (MS_FAILURE,
   { st with
     wms_exception_format := some fmt
     out := st.out ++ body
     errors := []
     raised := st.raised ++ [(nVersion, exception_code)] })

/-! ## msWMSGetCapabilities -/

/-- The version `msWMSGetCapabilities` answers with (the `nVersion` left by lines 1628-1656):
a negative value defaults to 1.1.1, then the value is floored to a supported version. -/
def capabilitiesVersion (nVersion : Int) : Int :=
  let nVersion := if nVersion < 0 then OWS_1_1_1 else nVersion
  if nVersion < OWS_1_0_7 then OWS_1_0_0
  else if nVersion < OWS_1_1_0 then OWS_1_0_7
  else if nVersion = OWS_1_1_0 then OWS_1_1_0
  else OWS_1_1_1

/-- The `dtd_url` built in the same four branches of `msWMSGetCapabilities`. -/
def capabilitiesDtdUrl (env : Env) (nVersion : Int) (schemalocation : String) : String :=
  let nVersion := if nVersion < 0 then OWS_1_1_1 else nVersion
  if nVersion < OWS_1_0_7 then schemalocation ++ "/wms/1.0.0/capabilities_1_0_0.dtd"
  else if nVersion < OWS_1_1_0 then schemalocation ++ "/wms/1.0.7/capabilities_1_0_7.dtd"
  else if nVersion = OWS_1_1_0 then schemalocation ++ "/wms/1.1.0/capabilities_1_1_0.dtd"
  else if strcaseEq schemalocation env.OWS_DEFAULT_SCHEMAS_LOCATION then
    schemalocation ++ "/wms/1.1.1/WMS_MS_Capabilities.dtd"
  else schemalocation ++ "/wms/1.1.1/capabilities_1_1_1.dtd"

/-- The Content-type header of the capabilities document for the floored version. -/
def capabilitiesMime (nVersion : Int) : String :=
  if nVersion ≤ OWS_1_0_7 then "text/xml" else "application/vnd.ogc.wms_xml"

/-- The Service `<Name>` of the capabilities document for the floored version. -/
def capabilitiesServiceName (nVersion : Int) : String :=
  if nVersion ≤ OWS_1_0_7 then "GetMap" else "OGC:WMS"

/-- The lines of the capabilities document between the Content-type header and the Service
`<Name>` (lines 1673-1699); `nVersion` is the floored version. -/
def capabilitiesProlog (env : Env) (m : mapObj) (nVersion : Int) (dtd_url : String) : List Output :=
  [Output.printf (env.msOWSPrintEncodeMetadata m.webmetadata "MO" "encoding"
     "<?xml version='1.0' encoding=\"%s\" standalone=\"no\" ?>\n" "ISO-8859-1"),
   Output.printf ("<!DOCTYPE WMT_MS_Capabilities SYSTEM \"" ++ dtd_url ++ "\"\n"),
   Output.printf " [\n",
   Output.printf " <!ELEMENT VendorSpecificCapabilities EMPTY>\n",
   Output.printf " ]>  <!-- end of DOCTYPE declaration -->\n\n",
   Output.printf ("<WMT_MS_Capabilities version=\"" ++ env.msOWSGetVersionString nVersion ++ "\"")] ++
  (match env.msOWSLookupMetadata m.webmetadata "MO" "updatesequence" with
   | some u => [Output.printf (" updateSequence=\"" ++ u ++ "\"")]
   | none => []) ++
  [Output.printf ">\n",
   Output.printf ("\n<!-- " ++ env.msGetVersion ++ " -->\n\n"),
   Output.printf "<Service>\n"]

/-- The head of the capabilities document, from the Content-type header to the Service
`<Name>` (lines 1668-1705); `nVersion` is the floored version. -/
def capabilitiesHead (env : Env) (m : mapObj) (nVersion : Int) (dtd_url : String) : List Output :=
  [Output.printf ("Content-type: " ++ capabilitiesMime nVersion ++ "\n\n")] ++
  capabilitiesProlog env m nVersion dtd_url ++
  [Output.printf ("  <Name>" ++ capabilitiesServiceName nVersion ++ "</Name>\n")]

/-- The function `msWMSGetCapabilities(map, nVersion, req, requested_updatesequence)`.
The document after the Service `<Name>` (lines 1707-2020, which end in `return(MS_SUCCESS)`)
is produced by `env.capabilitiesRest`. -/
def msWMSGetCapabilities (env : Env) (st : wmsState) (nVersion : Int) (req : cgiRequestObj)
    (requested_updatesequence : Option String) : Int × wmsState :=
  let updatesequence := env.msOWSLookupMetadata st.map.webmetadata "MO" "updatesequence"
  let i : Int :=
    match requested_updatesequence with
    | some r => env.msOWSNegotiateUpdateSequence r updatesequence
    | none => -1
  if requested_updatesequence.isSome ∧ i = 0 then
    msWMSException env
      (msSetError st ("UPDATESEQUENCE parameter (" ++ requested_updatesequence.getD "" ++
        ") is equal to server (" ++ updatesequence.getD "(null)" ++ ")"))
      nVersion (some "CurrentUpdateSequence")
  else if requested_updatesequence.isSome ∧ i > 0 then
    msWMSException env
      (msSetError st ("UPDATESEQUENCE parameter (" ++ requested_updatesequence.getD "" ++
        ") is higher than server (" ++ updatesequence.getD "(null)" ++ ")"))
      nVersion (some "InvalidUpdateSequence")
  else
    let schemalocation := env.msEncodeHTMLEntities (env.msOWSGetSchemasLocation st.map)
    let dtd_url := capabilitiesDtdUrl env nVersion schemalocation
    let nVersion := capabilitiesVersion nVersion
    match env.msOWSGetOnlineResource st.map "MO" "onlineresource" req with
    | none => msWMSException env st nVersion none
    | some script_url =>
      let script_url_encoded := env.msEncodeHTMLEntities script_url
      (MS_SUCCESS,
       emit st (capabilitiesHead env st.map nVersion dtd_url ++
                env.capabilitiesRest st.map nVersion script_url_encoded))

/-! ## msWMSDispatch: the scan of the common parameters -/

/-- The variables filled by the first loop of `msWMSDispatch`; `wms_exception_format` is the
file-level static, the others are locals initialised to NULL. -/
structure dispatchVars where
  version : Option String
  updatesequence : Option String
  request : Option String
  service : Option String
  format : Option String
  wms_exception_format : Option String

/-- One turn of the first loop of `msWMSDispatch` (the `if / else if` chain on the parameter name). -/
def dispatchScanStep (v : dispatchVars) (p : String × String) : dispatchVars :=
  if strcaseEq p.1 "VERSION" then { v with version := some p.2 }
  else if strcaseEq p.1 "WMTVER" && v.version.isNone then { v with version := some p.2 }
  else if strcaseEq p.1 "UPDATESEQUENCE" then { v with updatesequence := some p.2 }
  else if strcaseEq p.1 "REQUEST" then { v with request := some p.2 }
  else if strcaseEq p.1 "EXCEPTIONS" then { v with wms_exception_format := some p.2 }
  else if strcaseEq p.1 "SERVICE" then { v with service := some p.2 }
  else if strcaseEq p.1 "FORMAT" then { v with format := some p.2 }
  else v

/-- The first loop of `msWMSDispatch` over all parameters of the request. -/
def dispatchScan (wef : Option String) (params : List (String × String)) : dispatchVars :=
  params.foldl dispatchScanStep
    { version := none, updatesequence := none, request := none, service := none,
      format := none, wms_exception_format := wef }

/-- Modelled from the spec: `msOWSParseVersionString` of mapows.c, which is not among the sources.
Following the Dispatcher's step 4, an absent VERSION gives NOTSET; for a string the token
(a version number or BADFORMAT) is computed by `env.parseVersionDigits`. -/
def msOWSParseVersionString (env : Env) (version : Option String) : Int :=
  match version with
  | none => OWS_VERSION_NOTSET
  | some s => env.parseVersionDigits s

/-- The test `request && (strcasecmp(request, a) == 0 || strcasecmp(request, b) == 0)`. -/
def requestIs (request : Option String) (a b : String) : Bool :=
  optCaseEq request a || optCaseEq request b

/-- The ASCII picture `msWMSDispatch` answers a GetMap with FORMAT=image/txt with
(its first two lines; the remaining lines of the literal are left out). -/
def asciiGlobe : String :=
  ".\n               ,,ggddY\"\"\"Ybbgg,,\n          ,agd888b,_ \"Y8, ___'\"\"Ybga,\n"

/-! ## msWMSSetTimePattern and msWMSApplyTime -/

/-- The function `msWMSSetTimePattern(timepatternstring, timestring)`: the pattern handed to
`msSetLimitedPattersToUse`, if any. -/
def msWMSSetTimePattern (env : Env) (timepatternstring : String) (timestring : String) :
    Option String :=
  let time : Option String :=
    if !(timestring.data.contains ',') && !(timestring.data.contains '/') then some timestring
    else
      match env.msStringSplit timestring ',' with
      | [] => none
      | a0 :: _ =>
        match env.msStringSplit a0 '/' with
        | [t0, _] => some t0
        | _ => some a0
  match time with
  | none => none
  | some time =>
    ((env.msStringSplit timepatternstring ',').filter (fun t => decide (t.length > 0))).map
        (fun t => env.msStringTrimLeft (env.msStringTrimBlanks t))
      |>.find? (fun tmpstr => env.msTimeMatchPattern time tmpstr == MS_TRUE)

/-- The call `msLayerSetTimeFilter(lp, timestring, timefield)`, recorded on the layer. -/
def msLayerSetTimeFilter (lp : layerObj) (timestring timefield : String) : layerObj :=
  { lp with timefilter := some (timestring, timefield) }

/-- The body of the layer loop of `msWMSApplyTime` for one layer: either the exception to
return (error message and code) or the layer after the time filter was set. -/
def applyTimeLayer (env : Env) (time : Option String) (lp : layerObj) :
    Except (String × String) layerObj :=
  if lp.status ≠ MS_ON ∧ lp.status ≠ MS_DEFAULT then .ok lp
  else
    let timeextent := env.msOWSLookupMetadata lp.metadata "MO" "timeextent"
    let timefield := env.msOWSLookupMetadata lp.metadata "MO" "timeitem"
    let timedefault := env.msOWSLookupMetadata lp.metadata "MO" "timedefault"
    match timeextent, timefield with
    | some timeextent, some timefield =>
      if time.isNone ∨ (time.getD "").length ≤ 0 then
        match timedefault with
        | none =>
          .error ("No Time value was given, and no default time value defined.",
                  "MissingDimensionValue")
        | some timedefault =>
          if env.msValidateTimeValue timedefault timeextent = MS_FALSE then
            .error ("No Time value was given, and the default time value " ++ timedefault ++
                    " is invalid or outside the time extent defined " ++ timeextent,
                    "InvalidDimensionValue")
          else .ok (msLayerSetTimeFilter lp timedefault timefield)
      else
        let t := time.getD ""
        if env.msValidateTimeValue t timeextent = MS_FALSE then
          match timedefault with
          | none =>
            .error ("Time value(s) " ++ t ++ " given is invalid or outside the time extent defined (" ++
                    timeextent ++ ").", "InvalidDimensionValue")
          | some timedefault =>
            if env.msValidateTimeValue timedefault timeextent = MS_FALSE then
              .error ("Time value(s) " ++ t ++ " given is invalid or outside the time extent defined (" ++
                      timeextent ++ "), and default time set is invalid (" ++ timedefault ++ ")",
                      "InvalidDimensionValue")
            else .ok (msLayerSetTimeFilter lp timedefault timefield)
        else .ok (msLayerSetTimeFilter lp t timefield)
    | _, _ => .ok lp

/-- The layer loop of `msWMSApplyTime`: `done` are the layers already handled, `todo` the
layers still to visit.  An exception returns at once, with the layers as they are then. -/
def applyTimeLoop (env : Env) (version : Int) (time : Option String) (st : wmsState) :
    List layerObj → List layerObj → Except (Int × wmsState) (List layerObj)
  | done, [] => .ok done
  | done, lp :: todo =>
    match applyTimeLayer env time lp with
    | .error (msg, code) =>
      .error (msWMSException env
        (msSetError { st with map := { st.map with layers := done ++ lp :: todo } } msg)
        version (some code))
    | .ok lp2 => applyTimeLoop env version time st (done ++ [lp2]) todo

/-- The function `msWMSApplyTime(map, version, time)`. -/
def msWMSApplyTime (env : Env) (st : wmsState) (version : Int) (time : Option String) :
    Int × wmsState :=
  match applyTimeLoop env version time st [] st.map.layers with
  | .error r => r
  | .ok layers =>
    let st := { st with map := { st.map with layers := layers } }
    let timpattern := env.msOWSLookupMetadata st.map.webmetadata "MO" "timeformat"
    match timpattern, time with
    | some tp, some t =>
      if t.length > 0 then
        match msWMSSetTimePattern env tp t with
        | some pat => (MS_SUCCESS, { st with timepattern := some pat })
        | none => (MS_SUCCESS, st)
      else (MS_SUCCESS, st)
    | _, _ => (MS_SUCCESS, st)

/-! ## msWMSLoadGetMapParams: the LAYERS parameter -/

/-- The locals of `msWMSLoadGetMapParams` that live across the parameter loop. -/
structure gmpVars where
  adjust_extent : Int
  nLayerOrder : Nat
  transparent : Int
  format : Option outputFormatObj
  validlayers : Int
  invalidlayers : Int
  styles : Option String
  epsgbuf : String
  srsbuffer : String
  timerequest : Int
  stime : Option String
  srsfound : Int
  bboxfound : Int
  formatfound : Int
  widthfound : Int
  heightfound : Int
  request : Option String

/-- The initial values of the locals of `msWMSLoadGetMapParams`. -/
def gmpVars.init : gmpVars :=
  { adjust_extent := MS_FALSE, nLayerOrder := 0, transparent := MS_NOOVERRIDE, format := none,
    validlayers := 0, invalidlayers := 0, styles := none, epsgbuf := "", srsbuffer := "",
    timerequest := 0, stime := none, srsfound := 0, bboxfound := 0, formatfound := 0,
    widthfound := 0, heightfound := 0, request := none }

/-- The selection test of lines 446-449 (and 851-854): the token equals, ignoring case, the
layer name, the map name or the layer group. -/
def layerMatches (mapname : Option String) (lp : layerObj) (tok : String) : Bool :=
  optCaseEq lp.name tok || optCaseEq mapname tok || optCaseEq lp.group tok

/-- The loop of lines 427-428: `layerorder[iLayer] = iLayer` for `iLayer < numlayers`. -/
def identityOrder (lo : List Int) (numlayers : Nat) : List Int :=
  (List.range numlayers).foldl (fun lo iLayer => arrSet lo iLayer iLayer) lo

/-- The loop of lines 430-438 from layer index `j` on: a layer that is not DEFAULT is
switched OFF, a DEFAULT layer is stored at `layerorder[nLayerOrder++]`. -/
def keepDefaults : Nat → List layerObj → List Int → Nat → List layerObj × List Int × Nat
  | _, [], lo, nLayerOrder => ([], lo, nLayerOrder)
  | j, lp :: rest, lo, nLayerOrder =>
    if lp.status ≠ MS_DEFAULT then
      let r := keepDefaults (j + 1) rest lo nLayerOrder
      ({ lp with status := MS_OFF } :: r.1, r.2.1, r.2.2)
    else
      let r := keepDefaults (j + 1) rest (arrSet lo nLayerOrder j) (nLayerOrder + 1)
      (lp :: r.1, r.2.1, r.2.2)

/-- The result of the inner loop of lines 443-459 for one token. -/
structure turnOnResult where
  layers : List layerObj
  lo : List Int
  nLayerOrder : Nat
  validlayers : Int
  layerfound : Int

/-- The inner loop of lines 443-459 from layer index `j` on, for the token `tok`: a matching
layer that is not DEFAULT is stored at `layerorder[nLayerOrder++]` and switched ON; every
match counts in `validlayers` and sets `layerfound`. -/
def turnOn (mapname : Option String) (tok : String) :
    Nat → List layerObj → List Int → Nat → Int → Int → turnOnResult
  | _, [], lo, nLayerOrder, validlayers, layerfound =>
    { layers := [], lo := lo, nLayerOrder := nLayerOrder, validlayers := validlayers,
      layerfound := layerfound }
  | j, lp :: rest, lo, nLayerOrder, validlayers, layerfound =>
    if layerMatches mapname lp tok then
      if lp.status ≠ MS_DEFAULT then
        let r := turnOn mapname tok (j + 1) rest (arrSet lo nLayerOrder j) (nLayerOrder + 1)
                   (validlayers + 1) 1
        { r with layers := { lp with status := MS_ON } :: r.layers }
      else
        let r := turnOn mapname tok (j + 1) rest lo nLayerOrder (validlayers + 1) 1
        { r with layers := lp :: r.layers }
    else
      let r := turnOn mapname tok (j + 1) rest lo nLayerOrder validlayers layerfound
      { r with layers := lp :: r.layers }

/-- The state of the outer loop of lines 440-463. -/
structure selectResult where
  layers : List layerObj
  lo : List Int
  nLayerOrder : Nat
  validlayers : Int
  invalidlayers : Int

/-- The outer loop of lines 440-463 over the requested tokens. -/
def selectLayers (mapname : Option String) : List String → selectResult → selectResult
  | [], s => s
  | tok :: toks, s =>
    let r := turnOn mapname tok 0 s.layers s.lo s.nLayerOrder s.validlayers 0
    selectLayers mapname toks
      { layers := r.layers, lo := r.lo, nLayerOrder := r.nLayerOrder,
        validlayers := r.validlayers,
        invalidlayers := if r.layerfound = 0 then s.invalidlayers + 1 else s.invalidlayers }

/-- The loop of lines 466-470 from layer index `j` on: every layer whose status is OFF is
stored at `layerorder[nLayerOrder++]`. -/
def offAtEnd : Nat → List layerObj → List Int → Nat → List Int × Nat
  | _, [], lo, nLayerOrder => (lo, nLayerOrder)
  | j, lp :: rest, lo, nLayerOrder =>
    if lp.status = MS_OFF then offAtEnd (j + 1) rest (arrSet lo nLayerOrder j) (nLayerOrder + 1)
    else offAtEnd (j + 1) rest lo nLayerOrder

/-- Lines 427-470 of `msWMSLoadGetMapParams`: the processing of one LAYERS value once it was
split into the tokens `layers` (at least one). -/
def processLayers (m : mapObj) (v : gmpVars) (layers : List String) : mapObj × gmpVars :=
  let lo0 := identityOrder m.layerorder m.numlayers
  let r1 := keepDefaults 0 m.layers lo0 v.nLayerOrder
  let r2 := selectLayers m.name layers
    { layers := r1.1, lo := r1.2.1, nLayerOrder := r1.2.2,
      validlayers := v.validlayers, invalidlayers := v.invalidlayers }
  let r3 := offAtEnd 0 r2.layers r2.lo r2.nLayerOrder
  ({ m with layers := r2.layers, layerorder := r3.1 },
   { v with nLayerOrder := r3.2, validlayers := r2.validlayers,
            invalidlayers := r2.invalidlayers })

/-- The branch `LAYERS` of the parameter loop of `msWMSLoadGetMapParams` (lines 415-473). -/
def loadLayersParam (env : Env) (st : wmsState) (nVersion : Int) (v : gmpVars) (value : String) :
    Except (Int × wmsState) (wmsState × gmpVars) :=
  let layers := env.msStringSplit value ','
  if layers.length < 1 then
    .error (msWMSException env
      (msSetError st "At least one layer name required in LAYERS.") nVersion none)
  else
    let r := processLayers st.map v layers
    .ok ({ st with map := r.1 }, r.2)

/-! ## msWMSLoadGetMapParams: the parameter loop -/

/-- The SLD / SLD_BODY step of the parameter loop (lines 393-413). -/
def loadSLDParam (env : Env) (st : wmsState) (nVersion : Int) (name value : String) :
    Except (Int × wmsState) wmsState :=
  if strcaseEq name "SLD" || strcaseEq name "SLD_BODY" then
    if env.ogrEnabled = 0 then
      .error (msWMSException env (msSetError st "OGR support is not available.") nVersion none)
    else
      let r1 : Except (Int × wmsState) wmsState :=
        if strcaseEq name "SLD" then
          let r := env.msSLDApplySLDURL st.map value
          if r.1 ≠ MS_SUCCESS then .error (msWMSException env { st with map := r.2 } nVersion none)
          else .ok { st with map := r.2 }
        else .ok st
      match r1 with
      | .error e => .error e
      | .ok st =>
        if strcaseEq name "SLD_BODY" then
          let r := env.msSLDApplySLD st.map value
          if r.1 ≠ MS_SUCCESS then .error (msWMSException env { st with map := r.2 } nVersion none)
          else .ok { st with map := r.2 }
        else .ok st
  else .ok st

/-- The driver test of lines 561-565 on a selected output format. -/
def supportedDriver (driver : String) : Bool :=
  strncaseEq driver "GD/" 3 || strncaseEq driver "GDAL/" 5 ||
  strncaseEq driver "AGG/" 4 || strncaseEq driver "SVG" 3

/-- The branch `SRS` of the parameter loop (lines 478-520). -/
def loadSrsParam (env : Env) (st : wmsState) (nVersion : Int) (v : gmpVars) (value : String) :
    Except (Int × wmsState) (wmsState × gmpVars) :=
  let v := { v with srsfound := 1 }
  if strncaseEq value "EPSG:" 5 then
    let code := String.mk ((value.data.drop 5).take 20)
    .ok (st, { v with srsbuffer := "init=epsg:" ++ code, epsgbuf := "EPSG:" ++ code })
  else if strncaseEq value "AUTO:" 5 then
    .ok (st, { v with srsbuffer := String.mk (value.data.take 99) })
  else
    .error (msWMSException env
      (msSetError st "Unsupported SRS namespace (only EPSG and AUTO currently supported).")
      nVersion (some "InvalidSRS"))

/-- The branch `BBOX` of the parameter loop (lines 521-548). -/
def loadBboxParam (env : Env) (st : wmsState) (nVersion : Int) (v : gmpVars) (value : String) :
    Except (Int × wmsState) (wmsState × gmpVars) :=
  let v := { v with bboxfound := 1 }
  let tokens := env.msStringSplit value ','
  if tokens.length ≠ 4 then
    .error (msWMSException env (msSetError st "Wrong number of arguments for BBOX.")
      nVersion none)
  else
    let ext : rectObj :=
      { minx := env.atof (tokens.getD 0 ""), miny := env.atof (tokens.getD 1 ""),
        maxx := env.atof (tokens.getD 2 ""), maxy := env.atof (tokens.getD 3 "") }
    let st := { st with map := { st.map with extent := ext } }
    if ext.minx ≥ ext.maxx ∨ ext.miny ≥ ext.maxy then
      .error (msWMSException env (msSetError st "Invalid values for BBOX.") nVersion none)
    else .ok (st, { v with adjust_extent := MS_TRUE })

/-- The branch `FORMAT` of the parameter loop (lines 557-576). -/
def loadFormatParam (env : Env) (st : wmsState) (nVersion : Int) (v : gmpVars) (value : String) :
    Except (Int × wmsState) (wmsState × gmpVars) :=
  let v := { v with formatfound := 1, format := env.msSelectOutputFormat st.map value }
  match v.format with
  | none =>
    .error (msWMSException env
      (msSetError st ("Unsupported output format (" ++ value ++ ")."))
      nVersion (some "InvalidFormat"))
  | some f =>
    if !supportedDriver f.driver then
      .error (msWMSException env
        (msSetError st ("Unsupported output format (" ++ value ++ ")."))
        nVersion (some "InvalidFormat"))
    else .ok ({ st with map := { st.map with imagetype := some value } }, v)

/-- The branch `BGCOLOR` of the parameter loop (lines 580-586): the colour read from the
hexadecimal value `c`. -/
def bgcolor (c : Int) : colorObj :=
  { red := (Int.tdiv c 0x10000) % 256, green := (Int.tdiv c 0x100) % 256, blue := c % 256 }

/-- The `if / else if` chain of the parameter loop after the LAYERS branch (lines 474-594). -/
def loadOtherParam (env : Env) (nVersion : Int) (st : wmsState) (v : gmpVars)
    (name value : String) : Except (Int × wmsState) (wmsState × gmpVars) :=
  if strcaseEq name "STYLES" then .ok (st, { v with styles := some value })
  else if strcaseEq name "SRS" then loadSrsParam env st nVersion v value
  else if strcaseEq name "BBOX" then loadBboxParam env st nVersion v value
  else if strcaseEq name "WIDTH" then
    .ok ({ st with map := { st.map with width := env.atoi value } }, { v with widthfound := 1 })
  else if strcaseEq name "HEIGHT" then
    .ok ({ st with map := { st.map with height := env.atoi value } }, { v with heightfound := 1 })
  else if strcaseEq name "FORMAT" then loadFormatParam env st nVersion v value
  else if strcaseEq name "TRANSPARENT" then
    .ok (st, { v with transparent := if strcaseEq value "TRUE" then 1 else 0 })
  else if strcaseEq name "BGCOLOR" then
    .ok ({ st with map := { st.map with imagecolor := bgcolor (env.strtol16 value) } }, v)
  else if strcaseEq name "TIME" then
    .ok (st, { v with stime := some value, timerequest := 1 })
  else .ok (st, v)

/-- One turn of the parameter loop of `msWMSLoadGetMapParams` (lines 385-594) for the
parameter `(name, value)`: an exception returns at once. -/
def gmpScanStep (env : Env) (nVersion : Int) (st : wmsState) (v : gmpVars) (p : String × String) :
    Except (Int × wmsState) (wmsState × gmpVars) :=
  let name := p.1
  let value := p.2
  let v := if strcaseEq name "REQUEST" then { v with request := some value } else v
  match loadSLDParam env st nVersion name value with
  | .error e => .error e
  | .ok st =>
    if strcaseEq name "LAYERS" then loadLayersParam env st nVersion v value
    else loadOtherParam env nVersion st v name value

/-- The parameter loop of `msWMSLoadGetMapParams` over the entries `names[i]`, `values[i]`. -/
def gmpScan (env : Env) (nVersion : Int) :
    List (String × String) → wmsState → gmpVars → Except (Int × wmsState) (wmsState × gmpVars)
  | [], st, v => .ok (st, v)
  | p :: ps, st, v =>
    match gmpScanStep env nVersion st v p with
    | .error e => .error e
    | .ok r => gmpScan env nVersion ps r.1 r.2

/-! ## msWMSLoadGetMapParams: the validations after the loop -/

/-- The test of lines 656-671 (and 682-697): `epsgbuf` occurs, ignoring case, among the
space-separated codes that `msOWSGetEPSGProj` reports. -/
def epsgListed (env : Env) (proj : projectionObj) (metadata : List (String × String))
    (epsgbuf : String) : Bool :=
  match env.msOWSGetEPSGProj proj metadata with
  | none => false
  | some projstring => (env.msStringSplit projstring ' ').any (fun t => strcaseEq t epsgbuf)

/-- The loop of lines 776-796: every layer that has no projection, is not OFF and is
transformed receives the original projection of the map; a load failure returns at once. -/
def propagateProjection (env : Env) (nVersion : Int) (st : wmsState) (original_srs : String) :
    List layerObj → List layerObj → Except (Int × wmsState) (List layerObj)
  | done, [] => .ok done
  | done, lp :: todo =>
    if lp.projection.numargs ≤ 0 ∧ lp.status ≠ MS_OFF ∧ lp.transform = MS_TRUE then
      let r := env.msLoadProjectionString lp.projection original_srs
      if r.1 ≠ 0 then
        .error (msWMSException env
          { st with map := { st.map with layers := done ++ { lp with projection := r.2 } :: todo } }
          nVersion none)
      else
        propagateProjection env nVersion st original_srs
          (done ++ [{ lp with projection := r.2, project := MS_TRUE }]) todo
    else propagateProjection env nVersion st original_srs (done ++ [lp]) todo

/-- The value of the local `layers` in the STYLES block (lines 837-846): the split of the
last LAYERS parameter, NULL when there is none. -/
def stylesLayers (env : Env) (params : List (String × String)) : Option (List String) :=
  params.foldl (fun acc p => if strcaseEq p.1 "LAYERS" then some (env.msStringSplit p.2 ',') else acc)
    none

/-- The loop of lines 849-878 for one style token `style` paired with the LAYERS token `tok`:
every matching layer takes the style as class group when one of its classes has this group;
a matching layer without such a class stops with `false`. -/
def bindStyle (mapname : Option String) (tok style : String) :
    List layerObj → List layerObj → List layerObj × Bool
  | done, [] => (done, true)
  | done, lp :: todo =>
    if layerMatches mapname lp tok then
      if lp.classes.any (fun c => optCaseEq c.group style) then
        bindStyle mapname tok style (done ++ [{ lp with classgroup := some style }]) todo
      else (done ++ lp :: todo, false)
    else bindStyle mapname tok style (done ++ [lp]) todo

/-- The loop of lines 832-891 over the STYLES tokens from index `i` on; `n` is their number. -/
def stylesLoop (env : Env) (nVersion : Int) (params : List (String × String)) (styles : String)
    (n : Nat) : Nat → List String → wmsState → Except (Int × wmsState) wmsState
  | _, [], st => .ok st
  | i, token :: tokens, st =>
    if token.length > 0 ∧ !strcaseEq token "default" then
      match stylesLayers env params with
      | some layers =>
        if layers.length = n then
          let r := bindStyle st.map.name (layers.getD i "") token [] st.map.layers
          let st := { st with map := { st.map with layers := r.1 } }
          if r.2 then stylesLoop env nVersion params styles n (i + 1) tokens st
          else
            .error (msWMSException env
              (msSetError st ("Style (" ++ token ++ ") not defined on layer."))
              nVersion (some "StyleNotDefined"))
        else
          .error (msWMSException env
            (msSetError st ("Invalid style (" ++ styles ++ "). Mapserver is expecting an empty string for the STYLES : STYLES= or STYLES=,,, or using keyword default  STYLES=default,default, ..."))
            nVersion (some "StyleNotDefined"))
      | none =>
        .error (msWMSException env
          (msSetError st ("Invalid style (" ++ styles ++ "). Mapserver is expecting an empty string for the STYLES : STYLES= or STYLES=,,, or using keyword default  STYLES=default,default, ..."))
          nVersion (some "StyleNotDefined"))
    else stylesLoop env nVersion params styles n (i + 1) tokens st

/-- The half-pixel adjustment of lines 902-913, in `double` arithmetic. -/
def adjustHalfPixel (m : mapObj) : mapObj :=
  let dx := (m.extent.maxx - m.extent.minx) / double.ofInt m.width
  let minx := m.extent.minx + dx * 0.5
  let maxx := m.extent.maxx - dx * 0.5
  let dy := (m.extent.maxy - m.extent.miny) / double.ofInt m.height
  let miny := m.extent.miny + dy * 0.5
  let maxy := m.extent.maxy - dy * 0.5
  { m with extent := { minx := minx, miny := miny, maxx := maxx, maxy := maxy } }

/-- No operation of the half-pixel adjustment of the bounds `a` and `c` of an extent, on an
image of `w` pixels, rounds: the difference, the conversion of `w`, the quotient, its half,
the sum and the difference that give the new bounds are doubles. -/
def halfPixelExact (a c : ℚ) (w : Int) : Prop :=
  isDouble (c - a) ∧ isDouble w ∧ isDouble ((c - a) / w) ∧ isDouble ((c - a) / w * (1 / 2)) ∧
  isDouble (a + (c - a) / w * (1 / 2)) ∧ isDouble (c - (c - a) / w * (1 / 2))

/-- The check of the required parameters of lines 915-946. -/
def requiredParams (env : Env) (nVersion : Int) (st : wmsState) (v : gmpVars) : Int × wmsState :=
  match v.request with
  | none => (MS_SUCCESS, st)
  | some request =>
    if strcaseEq request "DescribeLayer" then (MS_SUCCESS, st)
    else if v.srsfound = 0 then
      msWMSException env (msSetError st "Missing required parameter SRS") nVersion
        (some "MissingParameterValue")
    else if v.bboxfound = 0 then
      msWMSException env (msSetError st "Missing required parameter BBOX") nVersion
        (some "MissingParameterValue")
    else if v.formatfound = 0 ∧ (strcaseEq request "GetMap" || strcaseEq request "map") then
      msWMSException env (msSetError st "Missing required parameter FORMAT") nVersion
        (some "MissingParameterValue")
    else if v.widthfound = 0 then
      msWMSException env (msSetError st "Missing required parameter WIDTH") nVersion
        (some "MissingParameterValue")
    else if v.heightfound = 0 then
      msWMSException env (msSetError st "Missing required parameter HEIGHT") nVersion
        (some "MissingParameterValue")
    else (MS_SUCCESS, st)

/-- The part of `msWMSLoadGetMapParams` after the CRS checks of the layers: lines 709-948
(image size, non-square pixels, projection propagation, SRS load, STYLES, half-pixel
adjustment, required parameters). -/
def gmpFinish (env : Env) (nVersion : Int) (params : List (String × String)) (st : wmsState)
    (v : gmpVars) : Int × wmsState :=
  let m := st.map
  if m.width > m.maxsize ∨ m.height > m.maxsize ∨ m.width < 1 ∨ m.height < 1 then
    msWMSException env
      (msSetError { st with map := { m with width := 400, height := 300 } }
        "Image size out of range, WIDTH and HEIGHT must be between 1 and %d pixels.")
      nVersion none
  else
    let nonsquare0 := env.msTestConfigOption m.configoptions "MS_NONSQUARE" MS_FALSE
    let dx : double := MS_ABS (m.extent.maxx - m.extent.minx)
    let dy : double := MS_ABS (m.extent.maxy - m.extent.miny)
    let reqy : double := double.ofInt m.width * dy / dx
    let enable : Bool := nonsquare0 = 0 ∧ MS_ABS (reqy - double.ofInt m.height) > 1.0
    let m : mapObj :=
      if enable then { m with configoptions := env.msSetConfigOption m.configoptions "MS_NONSQUARE" "YES" }
      else m
    let nonsquare_enabled : Bool := nonsquare0 ≠ 0 ∨ enable
    let st := { st with map := m }
    let afterPropagation : Except (Int × wmsState) wmsState :=
      if v.srsbuffer.length > 1 ∨ nonsquare_enabled then
        if m.projection.numargs ≤ 0 then
          .error (msWMSException env
            (msSetError st "Cannot set new SRS on a map that doesn't have any projection set. Please make sure your mapfile has a projection defined at the top level.")
            nVersion (some "InvalidSRS"))
        else
          let loaded : Int × projectionObj :=
            if v.srsbuffer.length > 1 then env.msLoadProjectionString { args := [] } v.srsbuffer
            else (0, { args := [] })
          if loaded.1 ≠ 0 then .error (msWMSException env st nVersion none)
          else if nonsquare_enabled ∨ env.msProjectionsDiffer m.projection loaded.2 ≠ 0 then
            match propagateProjection env nVersion st (env.msGetProjectionString m.projection)
                    [] m.layers with
            | .error e => .error e
            | .ok layers => .ok { st with map := { m with layers := layers } }
          else .ok st
      else .ok st
    match afterPropagation with
    | .error e => e
    | .ok st =>
      let afterSrs : Except (Int × wmsState) wmsState :=
        if v.srsbuffer.length > 1 then
          let r := env.msLoadProjectionString st.map.projection v.srsbuffer
          let st := { st with map := { st.map with projection := r.2 } }
          if r.1 ≠ 0 then .error (msWMSException env st nVersion none)
          else
            let iUnits := env.GetMapserverUnitUsingProj r.2
            if iUnits ≠ -1 then .ok { st with map := { st.map with units := iUnits } }
            else .ok st
        else .ok st
      match afterSrs with
      | .error e => e
      | .ok st =>
        let afterStyles : Except (Int × wmsState) wmsState :=
          match v.styles with
          | none => .ok st
          | some styles =>
            if styles.length > 0 then
              let tokens := env.msStringSplit styles ','
              stylesLoop env nVersion params styles tokens.length 0 tokens st
            else .ok st
        match afterStyles with
        | .error e => e
        | .ok st =>
          let st := if v.adjust_extent ≠ 0 then { st with map := adjustHalfPixel st.map } else st
          requiredParams env nVersion st v

/-- The function `msWMSLoadGetMapParams(map, nVersion, names, values, numentries)`. -/
def msWMSLoadGetMapParams (env : Env) (st : wmsState) (nVersion : Int)
    (params : List (String × String)) : Int × wmsState :=
  let st := { st with map := { st.map with
    extent := env.msAdjustExtent st.map.extent st.map.width st.map.height } }
  match gmpScan env nVersion params st gmpVars.init with
  | .error e => e
  | .ok (st, v) =>
    -- a default time of a selected layer counts as a TIME request
    let timerequest : Bool :=
      v.timerequest ≠ 0 ∨
      st.map.layers.any (fun lp =>
        (lp.status = MS_ON ∨ lp.status = MS_DEFAULT) ∧
        (env.msOWSLookupMetadata lp.metadata "MO" "timedefault").isSome)
    let timed : Int × wmsState :=
      if timerequest then msWMSApplyTime env st nVersion v.stime else (MS_SUCCESS, st)
    if timed.1 = MS_FAILURE then (MS_FAILURE, timed.2)
    else
      let st := timed.2
      let st :=
        match v.format with
        | some f =>
          { st with map := { st.map with
              outputformat := env.msApplyOutputFormat st.map.outputformat f v.transparent } }
        | none => st
      if v.validlayers = 0 ∨ v.invalidlayers > 0 then
        msWMSException env (msSetError st "Invalid layer(s) given in the LAYERS parameter.")
          nVersion (some "LayerNotDefined")
      else if v.epsgbuf.length > 1 ∧ !epsgListed env st.map.projection st.map.webmetadata v.epsgbuf ∧
              st.map.layers.any (fun lp =>
                lp.status = MS_ON ∧ !epsgListed env lp.projection lp.metadata v.epsgbuf) then
        msWMSException env
          (msSetError st "Invalid SRS given : SRS must be valid for all requested layers.")
          nVersion (some "InvalidSRS")
      else gmpFinish env nVersion params st v

/-! ## msWMSDispatch -/

/-- The function `msWMSDispatch(map, req)` (built with USE_WMS_SVR), on the state `st` whose
field `wms_exception_format` is the file-level static. -/
def msWMSDispatch (env : Env) (h : Handlers) (st : wmsState) (req : cgiRequestObj) :
    Int × wmsState :=
  let vars := dispatchScan st.wms_exception_format req.params
  let st := { st with wms_exception_format := vars.wms_exception_format }
  let version := vars.version
  let request := vars.request
  let service := vars.service
  let format := vars.format
  let updatesequence := vars.updatesequence
  -- if SERVICE is not specified, this is not a WMS request
  if service.isNone then (MS_DONE, st)
  -- If SERVICE is specified then it MUST be "WMS"
  else if service.isSome ∧ !optCaseEq service "WMS" then (MS_DONE, st)
  else
    let nVersion := msOWSParseVersionString env version
    if nVersion = OWS_VERSION_BADFORMAT then msWMSException env st OWS_VERSION_NOTSET none
    else if request.isSome ∧ service.isNone ∧ requestIs request "capabilities" "GetCapabilities" ∧
            (nVersion ≥ OWS_1_0_7 ∨ nVersion = OWS_VERSION_NOTSET) then
      msWMSException env (msSetError st "Required SERVICE parameter missing.") nVersion
        (some "ServiceNotDefined")
    else if requestIs request "capabilities" "GetCapabilities" then
      let nVersion := if nVersion = OWS_VERSION_NOTSET then OWS_1_1_1 else nVersion
      let u := env.msOWSMakeAllLayersUnique st.map
      let st := { st with map := u.2 }
      if u.1 ≠ MS_SUCCESS then msWMSException env st nVersion none
      else msWMSGetCapabilities env st nVersion req updatesequence
    else if requestIs request "context" "GetContext" then
      let getcontext_enabled := env.msOWSLookupMetadata st.map.webmetadata "MO" "getcontext_enabled"
      let st :=
        if nVersion ≠ OWS_VERSION_NOTSET then
          let md := env.msInsertHashTable st.map.webmetadata "wms_context_version"
            (env.msOWSGetVersionString nVersion)
          { st with map := { st.map with webmetadata := md } }
        else st
      let nVersion := OWS_1_1_1
      if getcontext_enabled.isNone ∨ env.atoi (getcontext_enabled.getD "") = 0 then
        msWMSException env (msSetError st "GetContext not enabled on this server.") nVersion none
      else
        let u := env.msOWSMakeAllLayersUnique st.map
        let st := { st with map := u.2 }
        if u.1 ≠ MS_SUCCESS then msWMSException env st nVersion none
        else
          let st := emit st [Output.printf "Content-type: text/xml\n\n"]
          if env.msWriteMapContext st.map ≠ MS_SUCCESS then msWMSException env st nVersion none
          else (MS_SUCCESS, emit st [Output.mapContext])
    else if optCaseEq request "GetMap" ∧ optCaseEq format "image/txt" then
      (MS_SUCCESS, emit st [Output.printf "Content-type: text/plain\n\n", Output.printf asciiGlobe])
    -- If SERVICE, VERSION and REQUEST not included than this isn't a WMS req
    else if service.isNone ∧ nVersion = OWS_VERSION_NOTSET ∧ request.isNone then (MS_DONE, st)
    else if nVersion = OWS_VERSION_NOTSET then
      msWMSException env (msSetError st "Incomplete WMS request: VERSION parameter missing")
        OWS_VERSION_NOTSET none
    else
      match request with
      | none =>
        msWMSException env (msSetError st "Incomplete WMS request: REQUEST parameter missing")
          nVersion none
      | some request =>
        let u := env.msOWSMakeAllLayersUnique st.map
        let st := { st with map := u.2 }
        if u.1 ≠ MS_SUCCESS then msWMSException env st nVersion none
        else if strcaseEq request "GetLegendGraphic" then h.msWMSGetLegendGraphic st nVersion req
        else if strcaseEq request "GetStyles" then h.msWMSGetStyles st nVersion req
        else
          let bound : Int × wmsState :=
            if strcaseEq request "map" || strcaseEq request "GetMap" ||
               strcaseEq request "feature_info" || strcaseEq request "GetFeatureInfo" ||
               strcaseEq request "DescribeLayer" then
              msWMSLoadGetMapParams env st nVersion req.params
            else (MS_SUCCESS, st)
          if bound.1 ≠ MS_SUCCESS then bound
          else
            let st := bound.2
            if strcaseEq request "map" || strcaseEq request "GetMap" then
              h.msWMSGetMap st nVersion req
            else if strcaseEq request "feature_info" || strcaseEq request "GetFeatureInfo" then
              h.msWMSFeatureInfo st nVersion req
            else if strcaseEq request "DescribeLayer" then
              h.msWMSDescribeLayer (emit st [Output.printf "Content-type: text/xml\n\n"]) nVersion req
            else if optCaseEq service "WMS" then
              msWMSException env (msSetError st "Incomplete or unsupported WMS request")
                nVersion none
            else (MS_DONE, st)

/-! ## The request as the claims speak of it -/

/-- The value of the last parameter whose name equals `name` ignoring case, if any. -/
def lastParam (name : String) (params : List (String × String)) : Option String :=
  params.foldl (fun acc p => if strcaseEq p.1 name then some p.2 else acc) none

/-- No parameter of the list is named `name` (ignoring case). -/
def noParam (name : String) (params : List (String × String)) : Bool :=
  params.all (fun p => !strcaseEq p.1 name)

/-! ## A concrete environment, used to run the model on explicit requests -/

/-- Splitting at every occurrence of `ch` (the current token is `cur`, reversed). -/
def splitAt (ch : Char) : List Char → List Char → List String
  | cur, [] => [String.mk cur.reverse]
  | cur, c :: cs => if c = ch then String.mk cur.reverse :: splitAt ch [] cs else splitAt ch (c :: cur) cs

/-- The value of a run of leading decimal digits, from the accumulator `acc`. -/
def digitsValue : Nat → List Char → Nat
  | acc, [] => acc
  | acc, c :: cs => if c.isDigit then digitsValue (acc * 10 + (c.toNat - 48)) cs else acc

/-- Decimal reading of an optionally signed integer, as `atoi` does. -/
def sampleAtoi (s : String) : Int :=
  match s.data with
  | '-' :: cs => -(digitsValue 0 cs : Int)
  | cs => (digitsValue 0 cs : Int)

/-- Version strings `x.y` or `x.y.z` read as major*0x10000 + minor*0x100 + patch; any other
shape is BADFORMAT. -/
def sampleParseVersion (s : String) : Int :=
  match splitAt '.' [] s.data with
  | [a, b] => sampleAtoi a * 0x10000 + sampleAtoi b * 0x100
  | [a, b, c] => sampleAtoi a * 0x10000 + sampleAtoi b * 0x100 + sampleAtoi c
  | _ => OWS_VERSION_BADFORMAT

/-- Metadata lookup with the namespaces of "MO": the key `wms_name`, then `ows_name`. -/
def sampleLookup (md : List (String × String)) (_ns name : String) : Option String :=
  match md.lookup ("wms_" ++ name) with
  | some v => some v
  | none => md.lookup ("ows_" ++ name)

/-- A concrete environment: real splitting and number reading, collaborators that succeed
and leave the map alone. -/
def sampleEnv : Env where
  msStringSplit := fun s ch => splitAt ch [] s.data
  parseVersionDigits := sampleParseVersion
  msOWSGetVersionString := fun v => if v = OWS_1_0_0 then "1.0.0" else if v = OWS_1_0_7 then "1.0.7"
    else if v = OWS_1_1_0 then "1.1.0" else "1.1.1"
  msOWSLookupMetadata := sampleLookup
  msOWSNegotiateUpdateSequence := fun r u =>
    match u with
    | none => -1
    | some u => if sampleAtoi r < sampleAtoi u then -1 else if sampleAtoi r = sampleAtoi u then 0 else 1
  msOWSGetSchemasLocation := fun _ => "http://schemas.opengis.net"
  msEncodeHTMLEntities := fun s => s
  msOWSPrintEncodeMetadata := fun _ _ _ _ _ => "<?xml version='1.0' encoding=\"ISO-8859-1\" standalone=\"no\" ?>\n"
  msOWSGetOnlineResource := fun _ _ _ _ => some "http://localhost/cgi-bin/mapserv?"
  msOWSMakeAllLayersUnique := fun m => (MS_SUCCESS, m)
  msInsertHashTable := fun md k v => (k, v) :: md
  msWriteMapContext := fun _ => MS_SUCCESS
  msGetVersion := "MapServer"
  OWS_DEFAULT_SCHEMAS_LOCATION := "http://schemas.opengis.net"
  capabilitiesRest := fun _ _ _ => [Output.printf "</WMT_MS_Capabilities>\n"]
  atoi := sampleAtoi
  atof := fun s => double.ofInt (sampleAtoi s)
  strtol16 := fun _ => 0
  ogrEnabled := 1
  msAdjustExtent := fun r _ _ => r
  msSLDApplySLDURL := fun m _ => (MS_SUCCESS, m)
  msSLDApplySLD := fun m _ => (MS_SUCCESS, m)
  msSelectOutputFormat := fun _ v => some { name := v, driver := "GD/PNG", mimetype := some v }
  msApplyOutputFormat := fun _ f _ => some f
  msValidateTimeValue := fun _ _ => MS_TRUE
  msTimeMatchPattern := fun _ _ => MS_FALSE
  msOWSGetEPSGProj := fun _ md => sampleLookup md "MO" "srs"
  msTestConfigOption := fun opts k _ => if (opts.lookup k).isSome then MS_TRUE else MS_FALSE
  msSetConfigOption := fun opts k v => (k, v) :: opts
  msLoadProjectionString := fun _ s => (0, { args := [s] })
  msProjectionsDiffer := fun a b => if a.args = b.args then MS_FALSE else MS_TRUE
  msGetProjectionString := fun p => String.join p.args
  GetMapserverUnitUsingProj := fun _ => -1
  msStringTrimBlanks := fun s => s
  msStringTrimLeft := fun s => s

/-- The digits at the head of a list of characters: their value from the accumulator `acc`,
their count from `n`, and the characters that follow them. -/
def scanDigits : Nat → Nat → List Char → Nat × Nat × List Char
  | acc, n, [] => (acc, n, [])
  | acc, n, c :: cs =>
    if c.isDigit then scanDigits (acc * 10 + (c.toNat - 48)) (n + 1) cs else (acc, n, c :: cs)

/-- Decimal reading of a number as `atof` does: an optional sign, digits, an optional
fraction and an optional exponent; the value is rounded to the nearest `double`. -/
def sampleAtof (s : String) : double :=
  let signed : Bool × List Char :=
    match s.data with
    | '-' :: cs => (true, cs)
    | '+' :: cs => (false, cs)
    | cs => (false, cs)
  let whole := scanDigits 0 0 signed.2
  let fraction : Nat × Nat × List Char :=
    match whole.2.2 with
    | '.' :: cs => scanDigits 0 0 cs
    | cs => (0, 0, cs)
  let exponent : Int :=
    match fraction.2.2 with
    | 'e' :: '-' :: cs => -((scanDigits 0 0 cs).1 : Int)
    | 'e' :: '+' :: cs => ((scanDigits 0 0 cs).1 : Int)
    | 'e' :: cs => ((scanDigits 0 0 cs).1 : Int)
    | 'E' :: '-' :: cs => -((scanDigits 0 0 cs).1 : Int)
    | 'E' :: '+' :: cs => ((scanDigits 0 0 cs).1 : Int)
    | 'E' :: cs => ((scanDigits 0 0 cs).1 : Int)
    | _ => 0
  let mantissa : ℚ := ((whole.1 * 10 ^ fraction.2.1 + fraction.1 : Nat) : ℚ) / (10 ^ fraction.2.1 : Nat)
  let value : ℚ := mantissa * (10 ^ exponent.toNat : Nat) / (10 ^ (-exponent).toNat : Nat)
  roundDouble (if signed.1 then -value else value)

/-- The environment `sampleEnv` with the decimal `atof`. -/
def sampleEnvDecimal : Env := { sampleEnv with atof := sampleAtof }

/-- Handlers that answer MS_SUCCESS and write one line naming the operation. -/
def sampleHandlers : Handlers where
  msWMSGetLegendGraphic := fun st _ _ => (MS_SUCCESS, emit st [Output.printf "GetLegendGraphic"])
  msWMSGetStyles := fun st _ _ => (MS_SUCCESS, emit st [Output.printf "GetStyles"])
  msWMSGetMap := fun st _ _ => (MS_SUCCESS, emit st [Output.printf "GetMap"])
  msWMSFeatureInfo := fun st _ _ => (MS_SUCCESS, emit st [Output.printf "GetFeatureInfo"])
  msWMSDescribeLayer := fun st _ _ => (MS_SUCCESS, emit st [Output.printf "DescribeLayer"])

/-- A layer with the given name, group and status and nothing else set. -/
def sampleLayer (name : String) (group : Option String) (status : Int) : layerObj :=
  { name := some name, group := group, status := status, type := 0, metadata := [],
    projection := { args := [] }, transform := MS_TRUE, project := MS_FALSE, classes := [],
    classgroup := none, timefilter := none }

/-- A 400 x 300 map named `demo` over the extent (0,0)-(4,3) in EPSG:4326 with the given layers
and the identity layer order. -/
def sampleMap (layers : List layerObj) : mapObj :=
  { name := some "demo", layers := layers,
    layerorder := (List.range layers.length).map (fun i => (i : Int)),
    extent := { minx := 0, miny := 0, maxx := 4, maxy := 3 }, width := 400, height := 300,
    maxsize := 2048, imagetype := none, imagecolor := { red := 255, green := 255, blue := 255 },
    outputformat := none, projection := { args := ["init=epsg:4326"] }, units := 0,
    configoptions := [], webmetadata := [("wms_srs", "EPSG:4326")], debug := 0 }

/-- The state of a fresh process working on map `m`: no exception format chosen, no error,
nothing written. -/
def freshState (m : mapObj) : wmsState :=
  { map := m, wms_exception_format := none, errors := [], out := [], timepattern := none,
    raised := [] }

/-! ## The layer order and the statuses as the claims describe them -/

/-- The indices, counted from `j`, of the layers that satisfy `p`, in source order. -/
def layerIndices (p : layerObj → Bool) : Nat → List layerObj → List Int
  | _, [] => []
  | j, lp :: rest =>
    if p lp then (j : Int) :: layerIndices p (j + 1) rest else layerIndices p (j + 1) rest

/-- The stores `lo[n] = v0, lo[n+1] = v1, ...` one after the other. -/
def pushAll (lo : List Int) (n : Nat) : List Int → List Int
  | [] => lo
  | v :: vs => pushAll (arrSet lo n v) (n + 1) vs

/-- The status the LAYERS processing is said to leave on a layer: DEFAULT stays, any other
layer is ON when a token selects it and OFF when none does. -/
def selectedStatus (mapname : Option String) (tokens : List String) (lp : layerObj) : Int :=
  if lp.status = MS_DEFAULT then MS_DEFAULT
  else if tokens.any (fun tok => layerMatches mapname lp tok) then MS_ON
  else MS_OFF

/-- The layer order the LAYERS processing is said to produce: the DEFAULT layers, then for
each token in request order the layers it selects among those that are not DEFAULT, then
the layers of `final` left OFF; each group in source order. -/
def expectedOrder (mapname : Option String) (tokens : List String) (layers final : List layerObj) :
    List Int :=
  layerIndices (fun lp => lp.status == MS_DEFAULT) 0 layers ++
  (tokens.map (fun tok =>
    layerIndices (fun lp => layerMatches mapname lp tok && lp.status != MS_DEFAULT) 0 layers)).flatten ++
  layerIndices (fun lp => lp.status == MS_OFF) 0 final

/-- The tokens select pairwise disjoint sets of layers. -/
def disjointTokens (mapname : Option String) (tokens : List String) (layers : List layerObj) : Prop :=
  tokens.Pairwise (fun a b =>
    ∀ lp ∈ layers, ¬ (layerMatches mapname lp a = true ∧ layerMatches mapname lp b = true))

/-! ## msWMSLoadGetMapParams step by step -/

/-- The first statement of `msWMSLoadGetMapParams` (line 381): `msAdjustExtent` on the extent of
the map, before any parameter is read. -/
def gmpEnter (env : Env) (st : wmsState) : wmsState :=
  { st with map := { st.map with
    extent := env.msAdjustExtent st.map.extent st.map.width st.map.height } }

/-- Lines 597-625 of `msWMSLoadGetMapParams`: the time filters are applied when the request has
a TIME parameter or a selected layer has a default time; the pair is the value of
`msWMSApplyTime` (MS_SUCCESS and the unchanged state when it is not called). -/
def gmpTimeStep (env : Env) (nVersion : Int) (st : wmsState) (v : gmpVars) : Int × wmsState :=
  let timerequest : Bool :=
    v.timerequest ≠ 0 ∨
    st.map.layers.any (fun lp =>
      (lp.status = MS_ON ∨ lp.status = MS_DEFAULT) ∧
      (env.msOWSLookupMetadata lp.metadata "MO" "timedefault").isSome)
  if timerequest then msWMSApplyTime env st nVersion v.stime else (MS_SUCCESS, st)

/-- Lines 627-633 of `msWMSLoadGetMapParams`: the selected output format is applied. -/
def gmpFormatStep (env : Env) (st : wmsState) (v : gmpVars) : wmsState :=
  match v.format with
  | some f =>
    { st with map := { st.map with
        outputformat := env.msApplyOutputFormat st.map.outputformat f v.transparent } }
  | none => st

/-- The test of line 638: no valid layer, or an invalid token. -/
abbrev layersInvalid (v : gmpVars) : Prop := v.validlayers = 0 ∨ v.invalidlayers > 0

/-- The outcome of lines 651-707: the cached EPSG code is listed neither by the map nor by
some layer with status ON. -/
abbrev crsInvalid (env : Env) (st : wmsState) (v : gmpVars) : Prop :=
  v.epsgbuf.length > 1 ∧ !epsgListed env st.map.projection st.map.webmetadata v.epsgbuf ∧
    st.map.layers.any (fun lp =>
      lp.status = MS_ON ∧ !epsgListed env lp.projection lp.metadata v.epsgbuf)

/-- Lines 635-948 of `msWMSLoadGetMapParams`: layer validity, CRS validity, then `gmpFinish`. -/
def gmpChecks (env : Env) (nVersion : Int) (params : List (String × String)) (st : wmsState)
    (v : gmpVars) : Int × wmsState :=
  if layersInvalid v then
    msWMSException env (msSetError st "Invalid layer(s) given in the LAYERS parameter.")
      nVersion (some "LayerNotDefined")
  else if crsInvalid env st v then
    msWMSException env
      (msSetError st "Invalid SRS given : SRS must be valid for all requested layers.")
      nVersion (some "InvalidSRS")
  else gmpFinish env nVersion params st v

/-- Lines 597-948 of `msWMSLoadGetMapParams`: everything after the parameter loop. -/
def gmpAfterScan (env : Env) (nVersion : Int) (params : List (String × String)) (st : wmsState)
    (v : gmpVars) : Int × wmsState :=
  if (gmpTimeStep env nVersion st v).1 = MS_FAILURE then (MS_FAILURE, (gmpTimeStep env nVersion st v).2)
  else gmpChecks env nVersion params (gmpFormatStep env (gmpTimeStep env nVersion st v).2 v) v

/-- The test of lines 711-712: the image size is out of range. -/
abbrev sizeInvalid (m : mapObj) : Prop :=
  m.width > m.maxsize ∨ m.height > m.maxsize ∨ m.width < 1 ∨ m.height < 1

/-- The pixel-shape test of lines 724-742: the map, with the option MS_NONSQUARE set when the
test enables it, and the final value of `nonsquare_enabled`. -/
def nonsquareStep (env : Env) (m : mapObj) : mapObj × Bool :=
  let nonsquare0 := env.msTestConfigOption m.configoptions "MS_NONSQUARE" MS_FALSE
  let dx : double := MS_ABS (m.extent.maxx - m.extent.minx)
  let dy : double := MS_ABS (m.extent.maxy - m.extent.miny)
  let reqy : double := double.ofInt m.width * dy / dx
  let enable : Bool := nonsquare0 = 0 ∧ MS_ABS (reqy - double.ofInt m.height) > 1.0
  let m2 : mapObj :=
    if enable then { m with configoptions := env.msSetConfigOption m.configoptions "MS_NONSQUARE" "YES" }
    else m
  let nonsquare_enabled : Bool := nonsquare0 ≠ 0 ∨ enable
  (m2, nonsquare_enabled)

/-- The projection propagation of lines 750-802, on the state left by the pixel-shape test. -/
def propagateStep (env : Env) (nVersion : Int) (st : wmsState) (v : gmpVars)
    (nonsquare_enabled : Bool) : Except (Int × wmsState) wmsState :=
  if v.srsbuffer.length > 1 ∨ nonsquare_enabled then
    if st.map.projection.numargs ≤ 0 then
      .error (msWMSException env
        (msSetError st "Cannot set new SRS on a map that doesn't have any projection set. Please make sure your mapfile has a projection defined at the top level.")
        nVersion (some "InvalidSRS"))
    else
      let loaded : Int × projectionObj :=
        if v.srsbuffer.length > 1 then env.msLoadProjectionString { args := [] } v.srsbuffer
        else (0, { args := [] })
      if loaded.1 ≠ 0 then .error (msWMSException env st nVersion none)
      else if nonsquare_enabled ∨ env.msProjectionsDiffer st.map.projection loaded.2 ≠ 0 then
        match propagateProjection env nVersion st (env.msGetProjectionString st.map.projection)
                [] st.map.layers with
        | .error e => .error e
        | .ok layers => .ok { st with map := { st.map with layers := layers } }
      else .ok st
  else .ok st

/-- The load of the requested SRS into the map projection, lines 806-814. -/
def srsStep (env : Env) (nVersion : Int) (st : wmsState) (v : gmpVars) :
    Except (Int × wmsState) wmsState :=
  if v.srsbuffer.length > 1 then
    let r := env.msLoadProjectionString st.map.projection v.srsbuffer
    let st := { st with map := { st.map with projection := r.2 } }
    if r.1 ≠ 0 then .error (msWMSException env st nVersion none)
    else
      let iUnits := env.GetMapserverUnitUsingProj r.2
      if iUnits ≠ -1 then .ok { st with map := { st.map with units := iUnits } }
      else .ok st
  else .ok st

/-- The STYLES block of lines 823-894. -/
def stylesStep (env : Env) (nVersion : Int) (params : List (String × String)) (st : wmsState)
    (v : gmpVars) : Except (Int × wmsState) wmsState :=
  match v.styles with
  | none => .ok st
  | some styles =>
    if styles.length > 0 then
      let tokens := env.msStringSplit styles ','
      stylesLoop env nVersion params styles tokens.length 0 tokens st
    else .ok st

/-- Lines 902-948: the half-pixel adjustment when a BBOX was read, then the check of the
required parameters. -/
def finishStep (env : Env) (nVersion : Int) (st : wmsState) (v : gmpVars) : Int × wmsState :=
  let st := if v.adjust_extent ≠ 0 then { st with map := adjustHalfPixel st.map } else st
  requiredParams env nVersion st v

/-- Lines 722-948 of `msWMSLoadGetMapParams`: what follows the image-size check. -/
def gmpAfterSize (env : Env) (nVersion : Int) (params : List (String × String)) (st : wmsState)
    (v : gmpVars) : Int × wmsState :=
  match propagateStep env nVersion { st with map := (nonsquareStep env st.map).1 } v
          (nonsquareStep env st.map).2 with
  | .error e => e
  | .ok st =>
    match srsStep env nVersion st v with
    | .error e => e
    | .ok st =>
      match stylesStep env nVersion params st v with
      | .error e => e
      | .ok st => finishStep env nVersion st v

/-- The SLD collaborators work on layers: they leave the extent and the projection of the map
alone. -/
def sldKeepsFrame (env : Env) : Prop :=
  ∀ (m : mapObj) (s : String),
    (env.msSLDApplySLDURL m s).2.extent = m.extent ∧
    (env.msSLDApplySLDURL m s).2.projection = m.projection ∧
    (env.msSLDApplySLD m s).2.extent = m.extent ∧
    (env.msSLDApplySLD m s).2.projection = m.projection

/-- The call reaches the STYLES block with the variables `v` and the state `stS`: the
parameter loop ends without exception, and the time filters, the validity of the layers, of
the CRS and of the image size, the projection propagation and the SRS load all pass. -/
def gmpReachesStyles (env : Env) (nVersion : Int) (params : List (String × String))
    (st : wmsState) (v : gmpVars) (stS : wmsState) : Prop :=
  ∃ (st1 stP : wmsState),
    gmpScan env nVersion params (gmpEnter env st) gmpVars.init = .ok (st1, v) ∧
    (gmpTimeStep env nVersion st1 v).1 ≠ MS_FAILURE ∧
    ¬ layersInvalid v ∧
    ¬ crsInvalid env (gmpFormatStep env (gmpTimeStep env nVersion st1 v).2 v) v ∧
    ¬ sizeInvalid (gmpFormatStep env (gmpTimeStep env nVersion st1 v).2 v).map ∧
    propagateStep env nVersion
      { gmpFormatStep env (gmpTimeStep env nVersion st1 v).2 v with
        map := (nonsquareStep env (gmpFormatStep env (gmpTimeStep env nVersion st1 v).2 v).map).1 }
      v (nonsquareStep env (gmpFormatStep env (gmpTimeStep env nVersion st1 v).2 v).map).2
      = .ok stP ∧
    srsStep env nVersion stP v = .ok stS

/-- The call reaches the end of the STYLES block with the variables `v` and the state `stY`:
every validation before the half-pixel adjustment and the required parameters passes. -/
def gmpReaches (env : Env) (nVersion : Int) (params : List (String × String))
    (st : wmsState) (v : gmpVars) (stY : wmsState) : Prop :=
  ∃ stS : wmsState, gmpReachesStyles env nVersion params st v stS ∧
    stylesStep env nVersion params stS v = .ok stY

/-- Some LAYERS parameter of the request has a token that matches no layer of the map (by
layer name, map name or group) when the parameter loop reaches it. -/
def unmatchedLayersToken (env : Env) (nVersion : Int) (st : wmsState)
    (params : List (String × String)) : Prop :=
  ∃ (pre post : List (String × String)) (name value : String) (st1 : wmsState) (v1 : gmpVars)
    (tok : String),
    params = pre ++ (name, value) :: post ∧ strcaseEq name "LAYERS" = true ∧
    gmpScan env nVersion pre (gmpEnter env st) gmpVars.init = .ok (st1, v1) ∧
    tok ∈ env.msStringSplit value ',' ∧
    ∀ lp ∈ st1.map.layers, layerMatches st1.map.name lp tok = false

/-- The extent, width and height of a map. -/
def mapFrame (m : mapObj) : rectObj × Int × Int := (m.extent, m.width, m.height)

/-- The layer `lp` after the STYLES positions from `i` on were bound: every token that is
neither empty nor `default` and whose LAYERS token matches the layer becomes its class group,
a later position overwriting an earlier one. -/
def boundLayer (mapname : Option String) (layers : List String) :
    Nat → List String → layerObj → layerObj
  | _, [], lp => lp
  | i, tok :: toks, lp =>
    boundLayer mapname layers (i + 1) toks
      (if (tok.length > 0 ∧ !strcaseEq tok "default") ∧ layerMatches mapname lp (layers.getD i "")
       then { lp with classgroup := some tok } else lp)

/-- The layer is selected (ON or DEFAULT) and its metadata has both `timeextent` and
`timeitem`. -/
def timeAware (env : Env) (lp : layerObj) : Bool :=
  (lp.status = MS_ON ∨ lp.status = MS_DEFAULT) ∧
  (env.msOWSLookupMetadata lp.metadata "MO" "timeextent").isSome ∧
  (env.msOWSLookupMetadata lp.metadata "MO" "timeitem").isSome

/-- The time value a time-aware layer is filtered on, as the claim words it: the request time
when it is non-empty and valid for the extent, otherwise the default when there is one and it is
valid; otherwise the exception code, MissingDimensionValue when the request time is empty and
there is no default, InvalidDimensionValue in every other case. -/
def effectiveTime (env : Env) (time : Option String) (timeextent : String)
    (timedefault : Option String) : Except String String :=
  if (time.getD "").length > 0 ∧ env.msValidateTimeValue (time.getD "") timeextent ≠ MS_FALSE then
    .ok (time.getD "")
  else
    match timedefault with
    | some d =>
      if env.msValidateTimeValue d timeextent ≠ MS_FALSE then .ok d
      else .error "InvalidDimensionValue"
    | none =>
      if (time.getD "").length = 0 then .error "MissingDimensionValue"
      else .error "InvalidDimensionValue"

/-- The layer after a successful `msWMSApplyTime`, or the layer itself when its turn fails. -/
def timeFiltered (env : Env) (time : Option String) (lp : layerObj) : layerObj :=
  match applyTimeLayer env time lp with
  | .ok l => l
  | .error _ => lp

/-! ## msDumpResult and msWMSFeatureInfo -/

/-- Modelled from the spec: error code MS_NOTFOUND of maperror.h. -/
def MS_NOTFOUND : Int := 18

/-- Modelled from the spec: error code MS_NOERR of maperror.h. -/
def MS_NOERR : Int := 0

/-- Modelled from the spec: query mode MS_SINGLE of mapserver.h. -/
def MS_SINGLE : Int := 0

/-- Modelled from the spec: query mode MS_MULTIPLE of mapserver.h. -/
def MS_MULTIPLE : Int := 1

/-- Modelled from the spec: unit MS_PIXELS of the enumeration MS_UNITS of mapserver.h. -/
def MS_PIXELS : Int := 6

/-- Modelled from the spec: the macro `MS_CELLSIZE(min,max,d)` of mapserver.h,
`(max - min)/(d-1)`. -/
def MS_CELLSIZE (min max : double) (d : Int) : double := (max - min) / double.ofInt (d - 1)

/-- Modelled from the spec: the macro `MS_IMAGE2MAP_X(x,minx,cx)` of mapserver.h. -/
def MS_IMAGE2MAP_X (x minx cx : double) : double := minx + cx * x

/-- Modelled from the spec: the macro `MS_IMAGE2MAP_Y(y,maxy,cy)` of mapserver.h. -/
def MS_IMAGE2MAP_Y (y maxy cy : double) : double := maxy - cy * y

/-- Functions of MapServer that the operation handlers of mapwms.c call and that live in other
files (maplayer.c, mapquery.c, mapgml.c, maptemplate.c, maplegend.c, maputil.c, mapogcsld.c).
`msQueryByPoint` returns its status, the code left in the error object and the map with the
result caches filled; `msLayerGetItems` returns the layer with its items filled. -/
structure OpsEnv where
  msIsLayerQueryable : layerObj → Int
  msQueryByPoint : mapObj → Int → Int → double × double → double → Int → Int × Int × mapObj
  msLayerOpen : layerObj → Int
  msLayerGetItems : layerObj → Int × layerObj
  msLayerGetShape : layerObj → Int → Int → Int × List String
  msLayerClose : layerObj → layerObj
  msGMLWriteQuery : mapObj → List Output
  msReturnURL : mapObj → String → Int × List Output
  msReturnTemplateQuery : mapObj → List (String × String) → double × double → String → Int × List Output
  msInchesPerUnit : Int → double → double
  msDrawLegend : mapObj → Int → Option String
  msCreateLegendIcon : mapObj → layerObj → classObj → Int → Int → Option String
  msSaveImage : mapObj → String → Int × List Output
  msSLDGenerateSLD : mapObj → Option String
  msReplaceSubstring : String → String → String → String

/-- The visibility `itemvisible[k]` that `msDumpResult` computes for the field `item`
(lines 2260-2282): `incitems` and `excitems` are the splits of the metadata `include_items`
and `exclude_items`, empty when the metadata is missing. -/
def itemVisible (incitems excitems : List String) (item : String) : Bool :=
  let vis0 : Bool :=
    if incitems.length = 1 ∧ strcaseEq "all" (incitems.getD 0 "") then true
    else incitems.foldl (fun vis inc => if strcaseEq item inc then true else vis) false
  excitems.foldl (fun vis exc => if strcaseEq item exc then false else vis) vis0

/-- The lines `    %s = '%s'` that `msDumpResult` prints for one shape (lines 2301-2305):
one per visible item, with the value of the same index. -/
def dumpFields (incitems excitems : List String) (items values : List String) : List Output :=
  ((List.range items.length).filter
      (fun k => itemVisible incitems excitems (items.getD k ""))).map
    (fun k => Output.printf ("    " ++ items.getD k "" ++ " = '" ++ values.getD k "" ++ "'\n"))

/-- The loop of lines 2290-2309 of `msDumpResult` over the results of the layer `lp`: an
exception is returned at once (with the state at that point), otherwise the state after the
loop and the number of results. -/
def dumpShapes (env : Env) (q : OpsEnv) (nVersion : Int) (incitems excitems : List String)
    (lp : layerObj) : List (Int × Int) → wmsState → Int → Except (Int × wmsState) (wmsState × Int)
  | [], st, numresults => .ok (st, numresults)
  | r :: rest, st, numresults =>
    let shape := q.msLayerGetShape lp r.1 r.2
    if shape.1 ≠ MS_SUCCESS then .error (msWMSException env st nVersion none)
    else
      let st := emit st [Output.printf ("  Feature " ++ toString r.2 ++ ": \n")]
      let st := emit st (dumpFields incitems excitems lp.items shape.2)
      dumpShapes env q nVersion incitems excitems lp rest st (numresults + 1)

/-- The body of the layer loop of `msDumpResult` (lines 2225-2315) for the layer `lp`;
`done` and `todo` are the layers before and after it. -/
def dumpLayer (env : Env) (q : OpsEnv) (nVersion : Int) (st : wmsState) (numresults : Int)
    (done : List layerObj) (lp : layerObj) (todo : List layerObj) :
    Except (Int × wmsState) (wmsState × Int × layerObj) :=
  match lp.resultcache with
  | none => .ok (st, numresults, lp)
  | some results =>
    if lp.status ≠ MS_ON ∨ results.length = 0 then .ok (st, numresults, lp)
    else if q.msLayerOpen lp ≠ MS_SUCCESS then .error (msWMSException env st nVersion none)
    else
      let g := q.msLayerGetItems lp
      let st := { st with map := { st.map with layers := done ++ g.2 :: todo } }
      if g.1 ≠ MS_SUCCESS then .error (msWMSException env st nVersion none)
      else
        let lp := g.2
        let incitems : List String :=
          match env.msOWSLookupMetadata lp.metadata "MO" "include_items" with
          | some value => env.msStringSplit value ','
          | none => []
        let excitems : List String :=
          match env.msOWSLookupMetadata lp.metadata "MO" "exclude_items" with
          | some value => env.msStringSplit value ','
          | none => []
        let st := emit st [Output.printf ("\nLayer '" ++ lp.name.getD "(null)" ++ "'\n")]
        match dumpShapes env q nVersion incitems excitems lp results st numresults with
        | .error e => .error e
        | .ok r =>
          let lp := q.msLayerClose lp
          .ok ({ r.1 with map := { r.1.map with layers := done ++ lp :: todo } }, r.2, lp)

/-- The layer loop of `msDumpResult`. -/
def dumpLayers (env : Env) (q : OpsEnv) (nVersion : Int) :
    List layerObj → List layerObj → wmsState → Int → Int × wmsState
  | _, [], st, numresults => (numresults, st)
  | done, lp :: todo, st, numresults =>
    match dumpLayer env q nVersion st numresults done lp todo with
    | .error e => e
    | .ok r => dumpLayers env q nVersion (done ++ [r.2.2]) todo r.1 r.2.1

/-- The function `msDumpResult(map, bFormatHtml, nVersion)`: the value returned (the number of
results, or the value of `msWMSException`) and the state. -/
def msDumpResult (env : Env) (q : OpsEnv) (st : wmsState) (nVersion : Int) : Int × wmsState :=
  dumpLayers env q nVersion [] st.map.layers st 0

/-- The locals of `msWMSFeatureInfo` that live across its parameter loop. -/
structure featureInfoVars where
  feature_count : Int
  numlayers_found : Int
  pointx : double
  pointy : double
  info_format : String
  query_layer : Int

/-- The initial values of the locals of `msWMSFeatureInfo`. -/
def featureInfoVars.init : featureInfoVars :=
  { feature_count := 1, numlayers_found := 0, pointx := -1, pointy := -1, info_format := "MIME",
    query_layer := 0 }

/-- The body of the loop of lines 2350-2359 for the layer and count `acc` and the token `tok`:
a match switches the layer ON and counts. -/
def queryLayerTurn (mapname : Option String) (acc : layerObj × Int) (tok : String) :
    layerObj × Int :=
  if layerMatches mapname acc.1 tok then ({ acc.1 with status := MS_ON }, acc.2 + 1) else acc

/-- The loops of lines 2347-2360 for one layer: the layer is forced OFF, then switched ON by
every token that matches it; the count is the number of matches. -/
def queryLayerStatus (mapname : Option String) (tokens : List String) (lp : layerObj) :
    layerObj × Int :=
  tokens.foldl (queryLayerTurn mapname) ({ lp with status := MS_OFF }, 0)

/-- One turn of the parameter loop of `msWMSFeatureInfo` (lines 2335-2386). -/
def featureInfoStep (env : Env) (nVersion : Int) (st : wmsState) (v : featureInfoVars)
    (p : String × String) : Except (Int × wmsState) (wmsState × featureInfoVars) :=
  if strcaseEq p.1 "QUERY_LAYERS" then
    let v := { v with query_layer := 1 }
    let layers := env.msStringSplit p.2 ','
    if layers.length < 1 ∨ (env.msStringTrimLeft p.2).length < 1 then
      .error (msWMSException env
        (msSetError st "At least one layer name required in QUERY_LAYERS.")
        nVersion (some "LayerNotDefined"))
    else
      let rs := st.map.layers.map (queryLayerStatus st.map.name layers)
      .ok ({ st with map := { st.map with layers := rs.map (fun r => r.1) } },
           { v with numlayers_found := v.numlayers_found + (rs.map (fun r => r.2)).sum })
  else if strcaseEq p.1 "INFO_FORMAT" then .ok (st, { v with info_format := p.2 })
  else if strcaseEq p.1 "FEATURE_COUNT" then .ok (st, { v with feature_count := env.atoi p.2 })
  else if strcaseEq p.1 "X" then .ok (st, { v with pointx := env.atof p.2 })
  else if strcaseEq p.1 "Y" then .ok (st, { v with pointy := env.atof p.2 })
  else if strcaseEq p.1 "RADIUS" then
    .ok ({ st with map := { st.map with layers := st.map.layers.map (fun lp =>
            { lp with tolerance := double.ofInt (env.atoi p.2), toleranceunits := MS_PIXELS }) } }, v)
  else .ok (st, v)

/-- The parameter loop of `msWMSFeatureInfo`. -/
def featureInfoScan (env : Env) (nVersion : Int) :
    List (String × String) → wmsState → featureInfoVars →
      Except (Int × wmsState) (wmsState × featureInfoVars)
  | [], st, v => .ok (st, v)
  | p :: ps, st, v =>
    match featureInfoStep env nVersion st v p with
    | .error e => .error e
    | .ok r => featureInfoScan env nVersion ps r.1 r.2

/-! ## msTranslateWMS2Mapserv -/

/-- The entries that one turn of the loop of `msTranslateWMS2Mapserv` stores at
`names[tmpNumentries]`, `values[tmpNumentries]` for the entry `p`.  `msReplaceSubstring` is
the function of that name of mapstring.c. -/
def translateEntry (env : Env) (msReplaceSubstring : String → String → String → String)
    (p : String × String) : List (String × String) :=
  if strcaseEq "X" p.1 then [("img.x", p.2)]
  else if strcaseEq "Y" p.1 then [("img.y", p.2)]
  else if strcaseEq "LAYERS" p.1 then
    (env.msStringSplit p.2 ',').map (fun layer => ("layer", layer))
  else if strcaseEq "QUERY_LAYERS" p.1 then
    (env.msStringSplit p.2 ',').map (fun layer => ("qlayer", layer))
  else if strcaseEq "BBOX" p.1 then [("imgext", msReplaceSubstring p.2 "," " ")]
  else []

/-- The function `msTranslateWMS2Mapserv(names, values, numentries)`: the value returned and
the entries `names[i]`, `values[i]` for `i < *numentries` when it returns.  The loop runs over
the entries the arrays held at the call; the room of the arrays is not modelled. -/
def msTranslateWMS2Mapserv (env : Env) (msReplaceSubstring : String → String → String → String)
    (entries : List (String × String)) : Int × List (String × String) :=
  (MS_SUCCESS,
   entries.foldl (fun acc p => acc ++ translateEntry env msReplaceSubstring p) entries)

/-- A replacement of every comma by a blank, for the call
`msReplaceSubstring(imgext, ",", " ")`. -/
def sampleReplace (s _old _new : String) : String :=
  String.mk (s.data.map (fun c => if c = ',' then ' ' else c))

/-! ## msWMSFeatureInfo: the response and the function -/

/-- The response part of `msWMSFeatureInfo` (lines 2436-2497), after the query returned
`query_status` as error code. -/
def featureInfoRespond (env : Env) (q : OpsEnv) (nVersion : Int)
    (params : List (String × String)) (st : wmsState) (v : featureInfoVars) (point : double × double)
    (query_status : Int) : Int × wmsState :=
  let pszMimeType := env.msOWSLookupMetadata st.map.webmetadata "MO" "FEATURE_INFO_MIME_TYPE"
  if strcaseEq v.info_format "MIME" || strcaseEq v.info_format "text/plain" then
    let st := emit st [Output.printf "Content-type: text/plain\n\n",
                       Output.printf "GetFeatureInfo results:\n"]
    let r := msDumpResult env q st nVersion
    if r.1 = 0 then (MS_SUCCESS, emit r.2 [Output.printf "\n  Search returned no results.\n"])
    else (MS_SUCCESS, r.2)
  else if strncaseEq v.info_format "GML" 3 || strcaseEq v.info_format "application/vnd.ogc.gml" then
    let st :=
      if nVersion ≤ OWS_1_0_7 then emit st [Output.printf "Content-type: text/xml\n\n"]
      else emit st [Output.printf "Content-type: application/vnd.ogc.gml\n\n"]
    (MS_SUCCESS, emit st (q.msGMLWriteQuery st.map))
  else if pszMimeType = some v.info_format then
    -- Translate some vars from WMS to mapserv
    let translated := (msTranslateWMS2Mapserv env q.msReplaceSubstring (params.map (fun p =>
      if strcaseEq p.1 "QUERY_LAYERS" then (p.1, env.msStringTrimLeft p.2) else p))).2
    match (if query_status = MS_NOTFOUND then st.map.webempty else none) with
    | some empty =>
      let r := q.msReturnURL st.map empty
      if r.1 ≠ MS_SUCCESS then msWMSException env (emit st r.2) nVersion none
      else (MS_SUCCESS, emit st r.2)
    | none =>
      let r := q.msReturnTemplateQuery st.map translated point v.info_format
      if r.1 ≠ MS_SUCCESS then msWMSException env (emit st r.2) nVersion none
      else (MS_SUCCESS, emit st r.2)
  else
    msWMSException env
      (msSetError st ("Unsupported INFO_FORMAT value (" ++ v.info_format ++ ")."))
      nVersion none

/-- The part of `msWMSFeatureInfo` after its parameter loop (lines 2388-2499). -/
def featureInfoAfterScan (env : Env) (q : OpsEnv) (nVersion : Int)
    (params : List (String × String)) (st : wmsState) (v : featureInfoVars) : Int × wmsState :=
  if v.numlayers_found = 0 then
    if v.query_layer ≠ 0 then
      msWMSException env
        (msSetError st "Layer(s) specified in QUERY_LAYERS parameter is not offered by the service instance.")
        nVersion (some "LayerNotDefined")
    else
      msWMSException env
        (msSetError st "Required QUERY_LAYERS parameter missing for getFeatureInfo.")
        nVersion (some "LayerNotDefined")
  else if st.map.layers.any (fun lp => lp.status = MS_ON ∧ q.msIsLayerQueryable lp = 0) then
    msWMSException env (msSetError st "Requested layer(s) are not queryable.")
      nVersion (some "LayerNotQueryable")
  else if v.pointx = -1 ∨ v.pointy = -1 then
    msWMSException env (msSetError st "Required X/Y parameters missing for getFeatureInfo.")
      nVersion none
  else
    let cellx := MS_CELLSIZE st.map.extent.minx st.map.extent.maxx st.map.width
    let celly := MS_CELLSIZE st.map.extent.miny st.map.extent.maxy st.map.height
    let point : double × double :=
      (MS_IMAGE2MAP_X v.pointx st.map.extent.minx cellx,
       MS_IMAGE2MAP_Y v.pointy st.map.extent.maxy celly)
    let feature_count := if v.feature_count < 1 then 1 else v.feature_count
    let r := q.msQueryByPoint st.map (-1) (if feature_count = 1 then MS_SINGLE else MS_MULTIPLE)
      point 0 feature_count
    let st := { st with map := r.2.2 }
    if r.1 ≠ MS_SUCCESS ∧ r.2.1 ≠ MS_NOTFOUND then msWMSException env st nVersion none
    else
      featureInfoRespond env q nVersion params st v point
        (if r.1 ≠ MS_SUCCESS then r.2.1 else MS_NOERR)

/-- The function `msWMSFeatureInfo(map, nVersion, names, values, numentries)`. -/
def msWMSFeatureInfo (env : Env) (q : OpsEnv) (st : wmsState) (nVersion : Int)
    (params : List (String × String)) : Int × wmsState :=
  match featureInfoScan env nVersion params st featureInfoVars.init with
  | .error e => e
  | .ok r => featureInfoAfterScan env q nVersion params r.1 r.2

/-- A concrete set of collaborators for the operation handlers: raster layers (type 3) are not
queryable, a query finds the feature 7 in every layer that is ON, every layer has the fields
`id` and `name`. -/
def sampleOps : OpsEnv where
  msIsLayerQueryable := fun lp => if lp.type = 3 then MS_FALSE else MS_TRUE
  msQueryByPoint := fun m _ _ _ _ _ =>
    (MS_SUCCESS, MS_NOERR,
      { m with layers := m.layers.map (fun lp =>
          if lp.status = MS_ON then { lp with resultcache := some [(0, 7)] } else lp) })
  msLayerOpen := fun _ => MS_SUCCESS
  msLayerGetItems := fun lp => (MS_SUCCESS, { lp with items := ["id", "name"] })
  msLayerGetShape := fun _ _ _ => (MS_SUCCESS, ["7", "Main"])
  msLayerClose := fun lp => { lp with items := [] }
  msGMLWriteQuery := fun _ => [Output.printf "<msGMLOutput/>\n"]
  msReturnURL := fun _ _ => (MS_SUCCESS, [])
  msReturnTemplateQuery := fun _ _ _ _ => (MS_SUCCESS, [])
  msInchesPerUnit := fun _ _ => 1
  msDrawLegend := fun _ _ => some "legend"
  msCreateLegendIcon := fun _ _ _ _ _ => some "icon"
  msSaveImage := fun _ img => (MS_SUCCESS, [Output.printf img])
  msSLDGenerateSLD := fun _ => some "<StyledLayerDescriptor/>"
  msReplaceSubstring := sampleReplace

/-- The map of one layer `parcels` with the fields `id` and `name`, ON and with the result 7,
whose metadata has the given include_items and exclude_items. -/
def sampleDumpState (metadata : List (String × String)) : wmsState :=
  freshState (sampleMap [{ sampleLayer "parcels" none MS_ON with
    metadata := metadata, resultcache := some [(0, 7)] }])

/-! ## msWMSDescribeLayer -/

/-- Modelled from the spec: layer type MS_LAYER_POINT of the enumeration MS_LAYER_TYPE of
mapserver.h. -/
def MS_LAYER_POINT : Int := 0

/-- Modelled from the spec: layer type MS_LAYER_LINE of mapserver.h. -/
def MS_LAYER_LINE : Int := 1

/-- Modelled from the spec: layer type MS_LAYER_POLYGON of mapserver.h. -/
def MS_LAYER_POLYGON : Int := 2

/-- Modelled from the spec: layer type MS_LAYER_RASTER of mapserver.h. -/
def MS_LAYER_RASTER : Int := 3

/-- Modelled from the spec: connection type MS_WMS of the enumeration MS_CONNECTION_TYPE of
mapserver.h. -/
def MS_WMS : Int := 7

/-- Modelled from the spec: renderer MS_RENDER_WITH_GD of mapserver.h. -/
def MS_RENDER_WITH_GD : Int := 1

/-- Modelled from the spec: renderer MS_RENDER_WITH_AGG of mapserver.h. -/
def MS_RENDER_WITH_AGG : Int := 7

/-- The map-level online resource of lines 2538-2545 for the namespaces `ns` ("FO" or "CO"):
the metadata value, NULL when it is missing or empty. -/
def mapOnlineResource (env : Env) (ns : String) (m : mapObj) : Option String :=
  match env.msOWSLookupMetadata m.webmetadata ns "onlineresource" with
  | some s => if s.length = 0 then none else some s
  | none => none

/-- The online resource of lines 2556-2564 for the layer `lp`: the layer-level metadata value,
replaced by the map-level one when it is NULL or empty. -/
def layerOnlineResource (env : Env) (ns : String) (m : mapObj) (lp : layerObj) : Option String :=
  match env.msOWSLookupMetadata lp.metadata ns "onlineresource" with
  | some s => if s.length = 0 then mapOnlineResource env ns m else some s
  | none => mapOnlineResource env ns m

/-- The element written by lines 2566-2602 for the layer `lp`. -/
def describeOne (env : Env) (m : mapObj) (lp : layerObj) : List Output :=
  let pszLayerName := env.msEncodeHTMLEntities (lp.name.getD "")
  match layerOnlineResource env "FO" m lp,
        (decide (lp.type = MS_LAYER_POINT ∨ lp.type = MS_LAYER_LINE ∨ lp.type = MS_LAYER_POLYGON)) with
  | some wfs, true =>
    let enc := env.msEncodeHTMLEntities wfs
    [Output.printf ("<LayerDescription name=\"" ++ pszLayerName ++ "\" wfs=\"" ++ enc ++
        "\" owsType=\"WFS\" owsURL=\"" ++ enc ++ "\">\n"),
     Output.printf ("<Query typeName=\"" ++ pszLayerName ++ "\" />\n"),
     Output.printf "</LayerDescription>\n"]
  | _, _ =>
    match layerOnlineResource env "CO" m lp,
          (decide (lp.type = MS_LAYER_RASTER ∧ lp.connectiontype ≠ MS_WMS)) with
    | some wcs, true =>
      let enc := env.msEncodeHTMLEntities wcs
      [Output.printf ("<LayerDescription name=\"" ++ pszLayerName ++ "\"  owsType=\"WCS\" owsURL=\"" ++
          enc ++ "\">\n"),
       Output.printf ("<Query typeName=\"" ++ pszLayerName ++ "\" />\n"),
       Output.printf "</LayerDescription>\n"]
    | _, _ =>
      [Output.printf ("<LayerDescription name=\"" ++ pszLayerName ++ "\"></LayerDescription>\n")]

/-- The inner loop of lines 2549-2604 for the requested name `tok`: the element of the first
layer whose name equals it ignoring case, nothing when there is none. -/
def describeToken (env : Env) (m : mapObj) (tok : String) : List Output :=
  match m.layers.find? (fun lp => optCaseEq lp.name tok) with
  | some lp => describeOne env m lp
  | none => []

/-- The function `msWMSDescribeLayer(map, nVersion, names, values, numentries)`; `layers` is the
split of the last LAYERS parameter, empty when there is none. -/
def msWMSDescribeLayer (env : Env) (st : wmsState) (_nVersion : Int)
    (params : List (String × String)) : Int × wmsState :=
  let layers : List String := (stylesLayers env params).getD []
  let version : Option String :=
    params.foldl (fun acc p => if strcaseEq p.1 "VERSION" then some p.2 else acc) none
  let schemalocation := env.msEncodeHTMLEntities (env.msOWSGetSchemasLocation st.map)
  let st := emit st
    [Output.printf (env.msOWSPrintEncodeMetadata st.map.webmetadata "MO" "encoding"
        "<?xml version='1.0' encoding=\"%s\"?>\n" "ISO-8859-1"),
     Output.printf ("<!DOCTYPE WMS_DescribeLayerResponse SYSTEM \"" ++ schemalocation ++
        "/wms/1.1.1/WMS_DescribeLayerResponse.dtd\">\n"),
     Output.printf ("<WMS_DescribeLayerResponse version=\"" ++ version.getD "(null)" ++ "\" >\n")]
  let st := emit st (layers.map (describeToken env st.map)).flatten
  (MS_SUCCESS, emit st [Output.printf "</WMS_DescribeLayerResponse>\n"])

/-! ## msWMSGetLegendGraphic -/

/-- The locals of `msWMSGetLegendGraphic` that its parameter loop sets. -/
structure legendVars where
  pszLayer : Option String
  pszFormat : Option String
  psRule : Option String
  psScale : Option String
  pszStyle : Option String
  nWidth : Int
  nHeight : Int

/-- The initial values of the locals of `msWMSGetLegendGraphic`. -/
def legendVars.init : legendVars :=
  { pszLayer := none, pszFormat := none, psRule := none, psScale := none, pszStyle := none,
    nWidth := -1, nHeight := -1 }

/-- One turn of the parameter loop of `msWMSGetLegendGraphic` (lines 2637-2669).  The branches
SLD, SLD_BODY, RULE, SCALE and STYLE stand between `#ifdef USE_OGR` and `#endif`: they exist
only when `ogrEnabled` is not 0. -/
def legendScanStep (env : Env) (acc : wmsState × legendVars) (p : String × String) :
    wmsState × legendVars :=
  let st := acc.1
  let v := acc.2
  if strcaseEq p.1 "LAYER" then (st, { v with pszLayer := some p.2 })
  else if strcaseEq p.1 "WIDTH" then (st, { v with nWidth := env.atoi p.2 })
  else if strcaseEq p.1 "HEIGHT" then (st, { v with nHeight := env.atoi p.2 })
  else if strcaseEq p.1 "FORMAT" then (st, { v with pszFormat := some p.2 })
  else if env.ogrEnabled ≠ 0 then
    if strcaseEq p.1 "SLD" ∧ p.2.length > 0 then
      ({ st with map := (env.msSLDApplySLDURL st.map p.2).2 }, v)
    else if strcaseEq p.1 "SLD_BODY" ∧ p.2.length > 0 then
      ({ st with map := (env.msSLDApplySLD st.map p.2).2 }, v)
    else if strcaseEq p.1 "RULE" then (st, { v with psRule := some p.2 })
    else if strcaseEq p.1 "SCALE" then (st, { v with psScale := some p.2 })
    else if strcaseEq p.1 "STYLE" then (st, { v with pszStyle := some p.2 })
    else (st, v)
  else (st, v)

/-- The class that the loop of lines 2779-2793 stops at for the rule `rule`, if any. -/
def legendRuleClass (lp : layerObj) (rule : String) : Option classObj :=
  lp.classes.find? (fun c =>
    !(lp.classgroup.isSome && !optCaseEq c.group (lp.classgroup.getD "")) &&
    (decide ((c.name.getD "").length > 0) && optCaseEq c.name rule))

/-- Lines 2747-2832 of `msWMSGetLegendGraphic`: the image `img` of the legend for the layer
`lp` of index `idx` (NULL when the drawing function fails), or the exception InvalidRule. -/
def legendImage (env : Env) (q : OpsEnv) (nVersion : Int) (st : wmsState) (v : legendVars)
    (idx : Nat) (lp : layerObj) : Except (Int × wmsState) (wmsState × Option String) :=
  match v.psRule with
  | none =>
    let layers := st.map.layers.enum.map (fun il =>
      if il.1 = idx then { il.2 with status := MS_ON } else { il.2 with status := MS_OFF })
    let st := { st with map := { st.map with layers := layers } }
    match v.psScale with
    | some psScale =>
      let scale := env.atof psScale
      let m := { st.map with width := 600, height := 600 }
      let cellsize := (scale / m.resolution) / q.msInchesPerUnit m.units 0
      let m := { m with extent :=
        { minx := 0.0 - cellsize * double.ofInt m.width / 2.0,
          miny := 0.0 - cellsize * double.ofInt m.height / 2.0,
          maxx := 0.0 + cellsize * double.ofInt m.width / 2.0,
          maxy := 0.0 + cellsize * double.ofInt m.height / 2.0 } }
      .ok ({ st with map := m }, q.msDrawLegend m MS_FALSE)
    | none => .ok (st, q.msDrawLegend st.map MS_TRUE)
  | some psRule =>
    let img : Option String :=
      match legendRuleClass lp psRule with
      | some c =>
        let nWidth :=
          if v.nWidth < 0 then (if st.map.legendkeysizex > 0 then st.map.legendkeysizex else 20)
          else v.nWidth
        let nHeight :=
          if v.nHeight < 0 then (if st.map.legendkeysizey > 0 then st.map.legendkeysizey else 20)
          else v.nHeight
        q.msCreateLegendIcon st.map lp c nWidth nHeight
      | none => none
    match img with
    | none =>
      .error (msWMSException env (msSetError st ("Unavailable RULE (" ++ psRule ++ ")."))
        nVersion (some "InvalidRule"))
    | some i => .ok (st, some i)

/-- Lines 2746-2843 of `msWMSGetLegendGraphic`: the drawing and the sending of the legend for
the layer `lp` of index `idx`, once layer, format and style are accepted. -/
def legendDraw (env : Env) (q : OpsEnv) (nVersion : Int) (st : wmsState) (v : legendVars)
    (idx : Nat) (lp : layerObj) : Int × wmsState :=
  match legendImage env q nVersion st v idx lp with
  | .error e => e
  | .ok (st, none) => msWMSException env st nVersion none
  | .ok (st, some img) =>
    let mime : String :=
      match st.map.outputformat with
      | some f => f.mimetype.getD "unknown"
      | none => "unknown"
    let st := emit st [Output.printf ("Content-type: " ++ mime ++ "\n\n")]
    let r := q.msSaveImage st.map img
    if r.1 ≠ MS_SUCCESS then msWMSException env (emit st r.2) nVersion none
    else (MS_SUCCESS, emit st r.2)

/-- Lines 2724-2744 of `msWMSGetLegendGraphic`: the check of the STYLE parameter against the
classes of the layer `lp` of index `idx`; a style that is accepted becomes the class group of
the layer. -/
def legendStyle (env : Env) (nVersion : Int) (st : wmsState) (v : legendVars) (idx : Nat)
    (lp : layerObj) : Except (Int × wmsState) (wmsState × layerObj) :=
  match v.pszStyle with
  | some style =>
    if style.length > 0 ∧ !strcaseEq style "default" then
      if lp.classes.any (fun c => optCaseEq c.group style) then
        .ok ({ st with map := { st.map with layers := st.map.layers.enum.map (fun il =>
                if il.1 = idx then { il.2 with classgroup := some style } else il.2) } },
             { lp with classgroup := some style })
      else
        .error (msWMSException env
          (msSetError st "style used in the STYLE parameter is not defined on the layer.")
          nVersion (some "StyleNotDefined"))
    else .ok (st, lp)
  | none => .ok (st, lp)

/-- The part of `msWMSGetLegendGraphic` after its parameter loop (lines 2671-2838). -/
def legendAfterScan (env : Env) (q : OpsEnv) (nVersion : Int) (st : wmsState) (v : legendVars) :
    Int × wmsState :=
  match v.pszLayer with
  | none =>
    msWMSException env
      (msSetError st "Mandatory LAYER parameter missing in GetLegendGraphic request.")
      nVersion (some "LayerNotDefined")
  | some pszLayer =>
    match v.pszFormat with
    | none =>
      msWMSException env
        (msSetError st "Mandatory FORMAT parameter missing in GetLegendGraphic request.")
        nVersion (some "InvalidFormat")
    | some pszFormat =>
      match st.map.layers.enum.find? (fun il => optCaseEq il.2.name pszLayer) with
      | none =>
        msWMSException env (msSetError st "Invalid layer given in the LAYER parameter.")
          nVersion (some "LayerNotDefined")
      | some il =>
        let psFormat := env.msSelectOutputFormat st.map pszFormat
        if psFormat.isNone ∨
           ((psFormat.map (fun f => f.renderer)).getD 0 ≠ MS_RENDER_WITH_GD ∧
            (psFormat.map (fun f => f.renderer)).getD 0 ≠ MS_RENDER_WITH_AGG) then
          msWMSException env
            (msSetError st ("Unsupported output format (" ++ pszFormat ++ ")."))
            nVersion (some "InvalidFormat")
        else
          let st := { st with map := { st.map with outputformat :=
            match psFormat with
            | some f => env.msApplyOutputFormat st.map.outputformat f MS_NOOVERRIDE
            | none => st.map.outputformat } }
          match legendStyle env nVersion st v il.1 il.2 with
          | .error e => e
          | .ok r => legendDraw env q nVersion r.1 v il.1 r.2

/-- The function `msWMSGetLegendGraphic(map, nVersion, names, values, numentries)`. -/
def msWMSGetLegendGraphic (env : Env) (q : OpsEnv) (st : wmsState) (nVersion : Int)
    (params : List (String × String)) : Int × wmsState :=
  legendAfterScan env q nVersion (params.foldl (legendScanStep env) (st, legendVars.init)).1
    (params.foldl (legendScanStep env) (st, legendVars.init)).2

/-! ## msWMSGetStyles -/

/-- The loop of lines 2877-2886 for the token `tok`: every layer of that name is switched ON,
and `validlayer` becomes 1 when there is one. -/
def stylesTurnOn (acc : List layerObj × Int) (tok : String) : List layerObj × Int :=
  (acc.1.map (fun lp => if optCaseEq lp.name tok then { lp with status := MS_ON } else lp),
   if acc.1.any (fun lp => optCaseEq lp.name tok) then 1 else acc.2)

/-- One turn of the parameter loop of `msWMSGetStyles` (lines 2862-2891); the second
component is `validlayer`. -/
def getStylesStep (env : Env) (nVersion : Int) (st : wmsState) (validlayer : Int)
    (p : String × String) : Except (Int × wmsState) (wmsState × Int) :=
  if strcaseEq p.1 "LAYERS" then
    let layers := env.msStringSplit p.2 ','
    if layers.length < 1 then
      .error (msWMSException env (msSetError st "At least one layer name required in LAYERS.")
        nVersion none)
    else
      let r := layers.foldl stylesTurnOn
        (st.map.layers.map (fun lp => { lp with status := MS_OFF }), validlayer)
      .ok ({ st with map := { st.map with layers := r.1 } }, r.2)
  else .ok (st, validlayer)

/-- The parameter loop of `msWMSGetStyles`. -/
def getStylesScan (env : Env) (nVersion : Int) :
    List (String × String) → wmsState → Int → Except (Int × wmsState) (wmsState × Int)
  | [], st, validlayer => .ok (st, validlayer)
  | p :: ps, st, validlayer =>
    match getStylesStep env nVersion st validlayer p with
    | .error e => .error e
    | .ok r => getStylesScan env nVersion ps r.1 r.2

/-- The function `msWMSGetStyles(map, nVersion, names, values, numentries)`. -/
def msWMSGetStyles (env : Env) (q : OpsEnv) (st : wmsState) (nVersion : Int)
    (params : List (String × String)) : Int × wmsState :=
  match getStylesScan env nVersion params st 0 with
  | .error e => e
  | .ok r =>
    if r.2 = 0 then
      msWMSException env (msSetError r.1 "Invalid layer(s) given in the LAYERS parameter.")
        nVersion (some "LayerNotDefined")
    else
      let st := emit r.1 [Output.printf "Content-type: application/vnd.ogc.sld+xml\n\n"]
      match q.msSLDGenerateSLD st.map with
      | some sld => (MS_SUCCESS, emit st [Output.printf (sld ++ "\n")])
      | none => (MS_SUCCESS, st)

/-- The concrete environment of a build without OGR (`USE_OGR` not defined). -/
def sampleEnvNoOgr : Env := { sampleEnv with ogrEnabled := 0 }

/-- A map whose only layer `roads` has one class, of group `day`. -/
def legendMap : mapObj :=
  sampleMap [{ sampleLayer "roads" none MS_OFF with
    classes := [{ name := some "major", group := some "day" }] }]

/-! ## mapcopy.c: the clone of the map -/

/-- Modelled from the spec: the macro `MS_COPYSTELEM(name)` of mapcopy.h, the assignment
`dst->name = src->name` ("Scalar fields: byte-copied"); `d` and `s` are the member `name` of
the destination and of the source. -/
def MS_COPYSTELEM {α : Type} (_d s : α) : α := s

/-- Modelled from the spec: the macro `MS_COPYSTRING(dst, src)` of mapcopy.h ("Owned strings:
duplicated; the destination pre-existing string is freed first. NULL source yields NULL
destination"). -/
def MS_COPYSTRING (_d s : Option String) : Option String := s

/-- Modelled from the spec: the macro `MS_COPYCOLOR(dst, src)` of mapcopy.h, which copies the
components of a colour. -/
def MS_COPYCOLOR (_d s : colorObj) : colorObj := s

/-- Modelled from the spec: the macro `MS_COPYRECT(dst, src)` of mapcopy.h, which copies the
four bounds of a rectangle. -/
def MS_COPYRECT (_d s : rectObj) : rectObj := s

/-- The rectangle with all bounds 0, the value read where the model has no entry. -/
instance : Inhabited rectObj := ⟨{ minx := 0, miny := 0, maxx := 0, maxy := 0 }⟩

/-- The projection without arguments, the value read where the model has no entry. -/
instance : Inhabited projectionObj := ⟨{ args := [] }⟩

/-- An output format without name, the value read where the model has no entry. -/
instance : Inhabited outputFormatObj := ⟨{ name := "", driver := "", mimetype := none }⟩

/-- The colour with all components 0, the value read where the model has no entry. -/
instance : Inhabited colorObj := ⟨{ red := 0, green := 0, blue := 0 }⟩

/-- The expression `expressionObj` (the fields written by `msCopyExpression`). -/
structure expressionObj where
  string : Option String
  type : Int
  compiled : Int
deriving Inhabited

/-- The style `styleObj` (the fields written by `msCopyStyle`); `bindings` holds the pairs
`(item, index)` of the `MS_STYLE_BINDING_LENGTH` entries of the array of that name. -/
structure styleObj where
  bindings : List (Option String × Int)
  numbindings : Int
  color : colorObj
  outlinecolor : colorObj
  backgroundcolor : colorObj
  mincolor : colorObj
  maxcolor : colorObj
  symbolname : Option String
  symbol : Int
  size : Int
  minsize : Int
  maxsize : Int
  width : Int
  minwidth : Int
  maxwidth : Int
  offsetx : Int
  offsety : Int
  antialias : Int
  angle : double
  minvalue : double
  maxvalue : double
  opacity : Int
  rangeitem : Option String
  rangeitemindex : Int
deriving Inhabited

/-- The label `labelObj` (the fields written by `msCopyLabel`); `bindings` holds the pairs
`(item, index)` of the `MS_LABEL_BINDING_LENGTH` entries of the array of that name. -/
structure labelObj where
  bindings : List (Option String × Int)
  numbindings : Int
  font : Option String
  type : Int
  color : colorObj
  outlinecolor : colorObj
  shadowcolor : colorObj
  shadowsizex : Int
  shadowsizey : Int
  backgroundcolor : colorObj
  backgroundshadowcolor : colorObj
  backgroundshadowsizex : Int
  backgroundshadowsizey : Int
  size : Int
  minsize : Int
  maxsize : Int
  position : Int
  offsetx : Int
  offsety : Int
  angle : double
  autoangle : Int
  autofollow : Int
  buffer : Int
  antialias : Int
  wrap : Int
  minfeaturesize : Int
  autominfeaturesize : Int
  mindistance : Int
  partials : Int
  force : Int
  priority : Int
  encoding : Option String
deriving Inhabited

/-- The join `joinObj` (the fields written by `msCopyJoin`); `from_` and `to_` are the members `from` and `to`,
`joininfo` is a pointer (`none` is NULL). -/
structure joinObj where
  name : Option String
  table : Option String
  from_ : Option String
  to_ : Option String
  header : Option String
  template : Option String
  footer : Option String
  type : Int
  connection : Option String
  connectiontype : Int
  joininfo : Option Nat
deriving Inhabited

/-- The shape `shapeObj` of an inline feature; `msCopyLayer` only hands it to
`insertFeatureList`. -/
structure shapeObj where
  type : Int
  index : Int
  text : Option String
deriving Inhabited

/-- The class `classObj` as mapcopy.c sees it (the fields written by `msCopyClass`).
`styles` holds the entries of the array `styles[]` that are allocated, and `styles = []` is
the pointer NULL; `numstyles` is the counter of that name; `stylesReleased` tells that the
array `styles` has been handed to `msFree` while the member `styles` still holds its
address; `layer` is the address of the parent layer (`none` is NULL). -/
structure Copy.classObj where
  expression : expressionObj
  status : Int
  styles : List styleObj
  numstyles : Nat
  stylesReleased : Bool
  label : labelObj
  keyimage : Option String
  name : Option String
  title : Option String
  text : expressionObj
  template : Option String
  type : Int
  metadata : List (String × String)
  minscaledenom : double
  maxscaledenom : double
  layer : Option Nat
  debug : Int
deriving Inhabited

/-- The layer `layerObj` as mapcopy.c sees it (the fields written by `msCopyLayer`).
`classes` holds the entries of the array `class[]` that are allocated and `numclasses` is the
counter of that name; `joins` and `numjoins` likewise; `features` is the list of the inline
features, `processing` with `numprocessing` the processing directives. -/
structure Copy.layerObj where
  index : Int
  classitem : Option String
  classitemindex : Int
  classes : List Copy.classObj
  numclasses : Nat
  header : Option String
  footer : Option String
  template : Option String
  name : Option String
  group : Option String
  data : Option String
  status : Int
  type : Int
  annotate : Int
  tolerance : double
  toleranceunits : Int
  symbolscaledenom : double
  scalefactor : double
  minscaledenom : double
  maxscaledenom : double
  labelminscaledenom : double
  labelmaxscaledenom : double
  sizeunits : Int
  maxfeatures : Int
  offsite : colorObj
  transform : Int
  labelcache : Int
  postlabelcache : Int
  labelitem : Option String
  labelitemindex : Int
  tileitem : Option String
  tileitemindex : Int
  tileindex : Option String
  projection : projectionObj
  project : Int
  units : Int
  features : List shapeObj
  connection : Option String
  connectiontype : Int
  plugin_library : Option String
  plugin_library_original : Option String
  filter : expressionObj
  filteritem : Option String
  filteritemindex : Int
  styleitem : Option String
  styleitemindex : Int
  requires : Option String
  labelrequires : Option String
  metadata : List (String × String)
  opacity : Int
  dump : Int
  debug : Int
  processing : List String
  numprocessing : Nat
  numjoins : Nat
  joins : List joinObj
  extent : rectObj
deriving Inhabited

/-- The font set `fontSetObj` (the fields written by `msCopyFontSet`); `map` is the address of
the parent map. -/
structure fontSetObj where
  filename : Option String
  numfonts : Int
  fonts : List (String × String)
  map : Option Nat
deriving Inhabited

/-- The symbol set `symbolSetObj`, which `msCopyMap` only hands to `msCopySymbolSet`. -/
structure symbolSetObj where
  filename : Option String
  numsymbols : Int
  map : Option Nat
deriving Inhabited

/-- The reference map `referenceMapObj` (the fields written by `msCopyReferenceMap`). -/
structure referenceMapObj where
  extent : rectObj
  height : Int
  width : Int
  color : colorObj
  outlinecolor : colorObj
  image : Option String
  status : Int
  marker : Int
  markername : Option String
  markersize : Int
  minboxsize : Int
  maxboxsize : Int
  map : Option Nat
deriving Inhabited

/-- The scale bar `scalebarObj` (the fields written by `msCopyScalebar`). -/
structure scalebarObj where
  imagecolor : colorObj
  height : Int
  width : Int
  style : Int
  intervals : Int
  label : labelObj
  color : colorObj
  backgroundcolor : colorObj
  outlinecolor : colorObj
  units : Int
  status : Int
  position : Int
  transparent : Int
  interlace : Int
  postlabelcache : Int
  align : Int
deriving Inhabited

/-- The legend `legendObj` (the fields written by `msCopyLegend`). -/
structure legendObj where
  imagecolor : colorObj
  label : labelObj
  keysizex : Int
  keysizey : Int
  keyspacingx : Int
  keyspacingy : Int
  outlinecolor : colorObj
  status : Int
  height : Int
  width : Int
  position : Int
  transparent : Int
  interlace : Int
  postlabelcache : Int
  template : Option String
  map : Option Nat
deriving Inhabited

/-- The query map `queryMapObj` (the fields written by `msCopyQueryMap`). -/
structure queryMapObj where
  height : Int
  width : Int
  status : Int
  style : Int
  color : colorObj
deriving Inhabited

/-- The web object `webObj` (the fields written by `msCopyWeb`). -/
structure webObj where
  log : Option String
  imagepath : Option String
  imageurl : Option String
  map : Option Nat
  template : Option String
  header : Option String
  footer : Option String
  empty : Option String
  error : Option String
  extent : rectObj
  minscaledenom : double
  maxscaledenom : double
  mintemplate : Option String
  maxtemplate : Option String
  metadata : List (String × String)
  queryformat : Option String
  legendformat : Option String
  browseformat : Option String
deriving Inhabited

/-- The map `mapObj` as mapcopy.c sees it (the fields written by `msCopyMap`).  `layers`
holds the entries of the array `layers[]` that are allocated and `numlayers` is the counter
of that name; `layerorder` holds the entries of the array of that name. -/
structure Copy.mapObj where
  name : Option String
  status : Int
  height : Int
  width : Int
  layers : List Copy.layerObj
  numlayers : Nat
  fontset : fontSetObj
  symbolset : symbolSetObj
  transparent : Int
  interlace : Int
  imagequality : Int
  extent : rectObj
  cellsize : double
  units : Int
  scaledenom : double
  resolution : double
  shapepath : Option String
  mappath : Option String
  imagecolor : colorObj
  outputformat : Option outputFormatObj
  outputformatlist : List outputFormatObj
  numoutputformats : Nat
  imagetype : Option String
  projection : projectionObj
  reference : referenceMapObj
  scalebar : scalebarObj
  legend : legendObj
  querymap : queryMapObj
  web : webObj
  layerorder : List Int
  debug : Int
  datapattern : Option String
  templatepattern : Option String
  configoptions : List (String × String)
deriving Inhabited

/-- Functions of MapServer that mapcopy.c calls and that live in other files.
`hashKeys t` is the sequence of keys that `msNextKeyFromHashTable` yields on `t` before it
answers NULL; `msGrowClassStyles`, `msGrowLayerClasses` and `msGrowMapLayers` answer `none`
for NULL and otherwise the object they were given, with room for one more entry; `initStyle`
answers its status and the initialised style; `initClass`, `initJoin`, `initLayer`,
`initReferenceMap` and `initScalebar` answer the initialised object; `msProcessProjection`
answers its status and the projection with its handle rebuilt; `layerAddress m i` is the
address of the layer `i` of the map at the address `m`; `msAppendOutputFormat` and
`msLayerAddProcessing` work on a list and its counter. -/
structure CopyEnv where
  hashKeys : List (String × String) → List String
  msLookupHashTable : List (String × String) → String → Option String
  msInsertHashTable : List (String × String) → String → Option String → List (String × String)
  msGrowClassStyles : Copy.classObj → Option Copy.classObj
  initStyle : styleObj → Int × styleObj
  msGrowLayerClasses : Copy.layerObj → Option Copy.layerObj
  initClass : Copy.classObj → Copy.classObj
  msProcessProjection : projectionObj → Int × projectionObj
  insertFeatureList : List shapeObj → shapeObj → List shapeObj
  msLayerAddProcessing : List String × Nat → String → List String × Nat
  initJoin : joinObj → joinObj
  msGrowMapLayers : Copy.mapObj → Option Copy.mapObj
  initLayer : Copy.layerObj → Option Nat → Copy.layerObj
  layerAddress : Option Nat → Nat → Option Nat
  msCopySymbolSet : symbolSetObj → symbolSetObj → Option Nat → Int × symbolSetObj
  initReferenceMap : referenceMapObj → referenceMapObj
  initScalebar : scalebarObj → scalebarObj
  msCloneOutputFormat : outputFormatObj → outputFormatObj
  msAppendOutputFormat : List outputFormatObj × Nat → outputFormatObj → List outputFormatObj × Nat
  msSelectOutputFormat : List outputFormatObj → Option String → Option outputFormatObj
  msApplyOutputFormat : Option outputFormatObj → Option outputFormatObj → Option outputFormatObj

/-- The function `msCopyHashTable(dst, src)`: every key of the source is inserted in the
destination with its value. -/
def msCopyHashTable (env : CopyEnv) (dst src : List (String × String)) :
    Int × List (String × String) :=
  (MS_SUCCESS,
   (env.hashKeys src).foldl (fun d key => env.msInsertHashTable d key (env.msLookupHashTable src key))
     dst)

/-- The function `msCopyExpression(dst, src)`. -/
def msCopyExpression (dst src : expressionObj) : Int × expressionObj :=
  (MS_SUCCESS,
   { string := MS_COPYSTRING dst.string src.string,
     type := MS_COPYSTELEM dst.type src.type,
     compiled := MS_FALSE })

/-- The function `msCopyLabel(dst, src)`; the loop over the bindings copies every entry. -/
def msCopyLabel (dst src : labelObj) : Int × labelObj :=
  (MS_SUCCESS,
   { bindings := src.bindings.map (fun b => (MS_COPYSTRING none b.1, b.2)),
     numbindings := MS_COPYSTELEM dst.numbindings src.numbindings,
     font := MS_COPYSTRING dst.font src.font,
     type := MS_COPYSTELEM dst.type src.type,
     color := MS_COPYCOLOR dst.color src.color,
     outlinecolor := MS_COPYCOLOR dst.outlinecolor src.outlinecolor,
     shadowcolor := MS_COPYCOLOR dst.shadowcolor src.shadowcolor,
     shadowsizex := MS_COPYSTELEM dst.shadowsizex src.shadowsizex,
     shadowsizey := MS_COPYSTELEM dst.shadowsizey src.shadowsizey,
     backgroundcolor := MS_COPYCOLOR dst.backgroundcolor src.backgroundcolor,
     backgroundshadowcolor := MS_COPYCOLOR dst.backgroundshadowcolor src.backgroundshadowcolor,
     backgroundshadowsizex := MS_COPYSTELEM dst.backgroundshadowsizex src.backgroundshadowsizex,
     backgroundshadowsizey := MS_COPYSTELEM dst.backgroundshadowsizey src.backgroundshadowsizey,
     size := MS_COPYSTELEM dst.size src.size,
     minsize := MS_COPYSTELEM dst.minsize src.minsize,
     maxsize := MS_COPYSTELEM dst.maxsize src.maxsize,
     position := MS_COPYSTELEM dst.position src.position,
     offsetx := MS_COPYSTELEM dst.offsetx src.offsetx,
     offsety := MS_COPYSTELEM dst.offsety src.offsety,
     angle := MS_COPYSTELEM dst.angle src.angle,
     autoangle := MS_COPYSTELEM dst.autoangle src.autoangle,
     autofollow := MS_COPYSTELEM dst.autofollow src.autofollow,
     buffer := MS_COPYSTELEM dst.buffer src.buffer,
     antialias := MS_COPYSTELEM dst.antialias src.antialias,
     wrap := MS_COPYSTELEM dst.wrap src.wrap,
     minfeaturesize := MS_COPYSTELEM dst.minfeaturesize src.minfeaturesize,
     autominfeaturesize := MS_COPYSTELEM dst.autominfeaturesize src.autominfeaturesize,
     mindistance := MS_COPYSTELEM dst.mindistance src.mindistance,
     partials := MS_COPYSTELEM dst.partials src.partials,
     force := MS_COPYSTELEM dst.force src.force,
     priority := MS_COPYSTELEM dst.priority src.priority,
     encoding := MS_COPYSTRING dst.encoding src.encoding })

/-- The function `msCopyStyle(dst, src)`; the loop over the bindings copies every entry. -/
def msCopyStyle (dst src : styleObj) : Int × styleObj :=
  (MS_SUCCESS,
   { bindings := src.bindings.map (fun b => (MS_COPYSTRING none b.1, b.2)),
     numbindings := MS_COPYSTELEM dst.numbindings src.numbindings,
     color := MS_COPYCOLOR dst.color src.color,
     outlinecolor := MS_COPYCOLOR dst.outlinecolor src.outlinecolor,
     backgroundcolor := MS_COPYCOLOR dst.backgroundcolor src.backgroundcolor,
     mincolor := MS_COPYCOLOR dst.mincolor src.mincolor,
     maxcolor := MS_COPYCOLOR dst.maxcolor src.maxcolor,
     symbolname := MS_COPYSTRING dst.symbolname src.symbolname,
     symbol := MS_COPYSTELEM dst.symbol src.symbol,
     size := MS_COPYSTELEM dst.size src.size,
     minsize := MS_COPYSTELEM dst.minsize src.minsize,
     maxsize := MS_COPYSTELEM dst.maxsize src.maxsize,
     width := MS_COPYSTELEM dst.width src.width,
     minwidth := MS_COPYSTELEM dst.minwidth src.minwidth,
     maxwidth := MS_COPYSTELEM dst.maxwidth src.maxwidth,
     offsetx := MS_COPYSTELEM dst.offsetx src.offsetx,
     offsety := MS_COPYSTELEM dst.offsety src.offsety,
     antialias := MS_COPYSTELEM dst.antialias src.antialias,
     angle := MS_COPYSTELEM dst.angle src.angle,
     minvalue := MS_COPYSTELEM dst.minvalue src.minvalue,
     maxvalue := MS_COPYSTELEM dst.maxvalue src.maxvalue,
     opacity := MS_COPYSTELEM dst.opacity src.opacity,
     rangeitem := MS_COPYSTRING dst.rangeitem src.rangeitem,
     rangeitemindex := MS_COPYSTELEM dst.rangeitemindex src.rangeitemindex })

/-- The loop of lines 426-440 of `msCopyClass`, with `k` turns left and the index `i`; the
state is the destination and the error list.  The answer `none` stands for a run without
defined behaviour: the array `styles` is used after it was released, or it does not hold the
entry `styles[i]` after `msGrowClassStyles`.  An entry of the source that the model does not
hold is read as the default value. -/
def copyClassStyles (env : CopyEnv) (src : Copy.classObj) :
    Nat → Nat → Copy.classObj → List String → Option (Int × Copy.classObj × List String)
  | 0, _, dst, errors => some (MS_SUCCESS, dst, errors)
  | k + 1, i, dst, errors =>
    if dst.stylesReleased = true then none
    else
      match env.msGrowClassStyles dst with
      | none => some (MS_FAILURE, dst, errors)
      | some dst =>
        if dst.stylesReleased = true then none
        else
          match dst.styles[i]? with
          | none => none
          | some s =>
            let r := env.initStyle s
            let dst := { dst with styles := dst.styles.set i r.2 }
            if r.1 ≠ MS_SUCCESS then some (MS_FAILURE, dst, errors ++ ["Failed to init style."])
            else
              let c := msCopyStyle r.2 (src.styles.getD i default)
              let dst := { dst with styles := dst.styles.set i c.2 }
              if c.1 ≠ MS_SUCCESS then some (MS_FAILURE, dst, errors ++ ["Failed to copy style."])
              else copyClassStyles env src k (i + 1) { dst with numstyles := dst.numstyles + 1 }
                errors

/-- Lines 441-472 of `msCopyClass`, after the loop over the styles: the label and the
members that follow it. -/
def copyClassRest (env : CopyEnv) (errors : List String) (dst src : Copy.classObj) :
    Int × Copy.classObj × List String :=
  let l := msCopyLabel dst.label src.label
  let dst := { dst with label := l.2 }
  if l.1 ≠ MS_SUCCESS then (MS_FAILURE, dst, errors ++ ["Failed to copy label."])
  else
    let dst := { dst with
      keyimage := MS_COPYSTRING dst.keyimage src.keyimage,
      name := MS_COPYSTRING dst.name src.name,
      title := MS_COPYSTRING dst.title src.title }
    let t := msCopyExpression dst.text src.text
    let dst := { dst with text := t.2 }
    if t.1 ≠ MS_SUCCESS then (MS_FAILURE, dst, errors ++ ["Failed to copy text."])
    else
      let dst := { dst with
        template := MS_COPYSTRING dst.template src.template,
        type := MS_COPYSTELEM dst.type src.type }
      let dst := { dst with metadata := (msCopyHashTable env dst.metadata src.metadata).2 }
      let dst := { dst with
        minscaledenom := MS_COPYSTELEM dst.minscaledenom src.minscaledenom,
        maxscaledenom := MS_COPYSTELEM dst.maxscaledenom src.maxscaledenom,
        layer := MS_COPYSTELEM dst.layer src.layer,
        debug := MS_COPYSTELEM dst.debug src.debug }
      (MS_SUCCESS, dst, errors)

/-- Lines 415-424 of `msCopyClass`: the styles of the destination below `numstyles` are
released, then the array `styles` itself, and `numstyles` is set to 0.  The member `styles`
is not reset: unless it was NULL it keeps the address of the released array.  The answer
`none` stands for a run without defined behaviour: the array was released before, or it
holds fewer entries than `numstyles` tells. -/
def freeClassStyles (dst : Copy.classObj) : Option Copy.classObj :=
  if dst.stylesReleased = true ∨ dst.styles.length < dst.numstyles then none
  else some { dst with stylesReleased := !dst.styles.isEmpty, numstyles := 0 }

/-- The function `msCopyClass(dst, src, layer)`: the status, the destination and the error
list when it returns.  The styles of the destination are released first (lines 415-424), and
the loop over the styles of the source works on the array that these lines leave.  The
answer `none` stands for a run without defined behaviour, in these lines or in the loop. -/
def msCopyClass (env : CopyEnv) (errors : List String) (dst src : Copy.classObj)
    (_layer : Option Nat) : Option (Int × Copy.classObj × List String) :=
  let e := msCopyExpression dst.expression src.expression
  let dst := { dst with expression := e.2 }
  if e.1 ≠ MS_SUCCESS then some (MS_FAILURE, dst, errors ++ ["Failed to copy expression."])
  else
    let dst := { dst with status := MS_COPYSTELEM dst.status src.status }
    match freeClassStyles dst with
    | none => none
    | some dst =>
      match copyClassStyles env src src.numstyles 0 dst errors with
      | none => none
      | some r =>
        if r.1 ≠ MS_SUCCESS then some r
        else some (copyClassRest env r.2.2 r.2.1 src)

/-- The function `msCopyProjection(dst, src)` (built with USE_PROJ): the arguments of the
source replace those of the destination, and the handle is rebuilt by `msProcessProjection`
when there is an argument. -/
def msCopyProjection (env : CopyEnv) (_dst src : projectionObj) : Int × projectionObj :=
  let dst : projectionObj := { args := src.args }
  if dst.numargs ≠ 0 then
    if (env.msProcessProjection dst).1 ≠ MS_SUCCESS then (MS_FAILURE, (env.msProcessProjection dst).2)
    else (MS_SUCCESS, (env.msProcessProjection dst).2)
  else (MS_SUCCESS, dst)

/-- The function `msCopyJoin(dst, src)`. -/
def msCopyJoin (dst src : joinObj) : Int × joinObj :=
  (MS_SUCCESS,
   { name := MS_COPYSTRING dst.name src.name,
     table := MS_COPYSTRING dst.table src.table,
     from_ := MS_COPYSTRING dst.from_ src.from_,
     to_ := MS_COPYSTRING dst.to_ src.to_,
     header := MS_COPYSTRING dst.header src.header,
     template := MS_COPYSTRING dst.template src.template,
     footer := MS_COPYSTRING dst.footer src.footer,
     type := src.type,
     connection := MS_COPYSTRING dst.connection src.connection,
     connectiontype := MS_COPYSTELEM dst.connectiontype src.connectiontype,
     joininfo := none })

/-- The function `msCopyFontSet(dst, src, map)`. -/
def msCopyFontSet (env : CopyEnv) (dst src : fontSetObj) (map : Option Nat) : Int × fontSetObj :=
  let dst := { dst with
    filename := MS_COPYSTRING dst.filename src.filename,
    numfonts := MS_COPYSTELEM dst.numfonts src.numfonts }
  let h := msCopyHashTable env dst.fonts src.fonts
  let dst := { dst with fonts := h.2 }
  if h.1 ≠ MS_SUCCESS then (MS_FAILURE, dst)
  else (MS_SUCCESS, { dst with map := map })

/-- The function `msCopyQueryMap(dst, src)`. -/
def msCopyQueryMap (dst src : queryMapObj) : Int × queryMapObj :=
  (MS_SUCCESS,
   { height := MS_COPYSTELEM dst.height src.height,
     width := MS_COPYSTELEM dst.width src.width,
     status := MS_COPYSTELEM dst.status src.status,
     style := MS_COPYSTELEM dst.style src.style,
     color := MS_COPYCOLOR dst.color src.color })

/-- The function `msCopyWeb(dst, src, map)`. -/
def msCopyWeb (env : CopyEnv) (dst src : webObj) (map : Option Nat) : Int × webObj :=
  let dst := { dst with
    log := MS_COPYSTRING dst.log src.log,
    imagepath := MS_COPYSTRING dst.imagepath src.imagepath,
    imageurl := MS_COPYSTRING dst.imageurl src.imageurl,
    map := map,
    template := MS_COPYSTRING dst.template src.template,
    header := MS_COPYSTRING dst.header src.header,
    footer := MS_COPYSTRING dst.footer src.footer,
    empty := MS_COPYSTRING dst.empty src.empty,
    error := MS_COPYSTRING dst.error src.error,
    extent := MS_COPYRECT dst.extent src.extent,
    minscaledenom := MS_COPYSTELEM dst.minscaledenom src.minscaledenom,
    maxscaledenom := MS_COPYSTELEM dst.maxscaledenom src.maxscaledenom,
    mintemplate := MS_COPYSTRING dst.mintemplate src.mintemplate,
    maxtemplate := MS_COPYSTRING dst.maxtemplate src.maxtemplate }
  let h := msCopyHashTable env dst.metadata src.metadata
  let dst := { dst with metadata := h.2 }
  if h.1 ≠ MS_SUCCESS then (MS_FAILURE, dst)
  else
    (MS_SUCCESS,
     { dst with
       queryformat := MS_COPYSTRING dst.queryformat src.queryformat,
       legendformat := MS_COPYSTRING dst.legendformat src.legendformat,
       browseformat := MS_COPYSTRING dst.browseformat src.browseformat })

/-- The function `msCopyReferenceMap(dst, src, map)`. -/
def msCopyReferenceMap (env : CopyEnv) (dst src : referenceMapObj) (map : Option Nat) :
    Int × referenceMapObj :=
  let dst := env.initReferenceMap dst
  (MS_SUCCESS,
   { extent := MS_COPYRECT dst.extent src.extent,
     height := MS_COPYSTELEM dst.height src.height,
     width := MS_COPYSTELEM dst.width src.width,
     color := MS_COPYCOLOR dst.color src.color,
     outlinecolor := MS_COPYCOLOR dst.outlinecolor src.outlinecolor,
     image := MS_COPYSTRING dst.image src.image,
     status := MS_COPYSTELEM dst.status src.status,
     marker := MS_COPYSTELEM dst.marker src.marker,
     markername := MS_COPYSTRING dst.markername src.markername,
     markersize := MS_COPYSTELEM dst.markersize src.markersize,
     minboxsize := MS_COPYSTELEM dst.minboxsize src.minboxsize,
     maxboxsize := MS_COPYSTELEM dst.maxboxsize src.maxboxsize,
     map := map })

/-- The function `msCopyScalebar(dst, src)`. -/
def msCopyScalebar (env : CopyEnv) (dst src : scalebarObj) : Int × scalebarObj :=
  let dst := env.initScalebar dst
  let dst := { dst with
    imagecolor := MS_COPYCOLOR dst.imagecolor src.imagecolor,
    height := MS_COPYSTELEM dst.height src.height,
    width := MS_COPYSTELEM dst.width src.width,
    style := MS_COPYSTELEM dst.style src.style,
    intervals := MS_COPYSTELEM dst.intervals src.intervals }
  let l := msCopyLabel dst.label src.label
  let dst := { dst with label := l.2 }
  if l.1 ≠ MS_SUCCESS then (MS_FAILURE, dst)
  else
    (MS_SUCCESS,
     { dst with
       color := MS_COPYCOLOR dst.color src.color,
       backgroundcolor := MS_COPYCOLOR dst.backgroundcolor src.backgroundcolor,
       outlinecolor := MS_COPYCOLOR dst.outlinecolor src.outlinecolor,
       units := MS_COPYSTELEM dst.units src.units,
       status := MS_COPYSTELEM dst.status src.status,
       position := MS_COPYSTELEM dst.position src.position,
       transparent := MS_COPYSTELEM dst.transparent src.transparent,
       interlace := MS_COPYSTELEM dst.interlace src.interlace,
       postlabelcache := MS_COPYSTELEM dst.postlabelcache src.postlabelcache,
       align := MS_COPYSTELEM dst.align src.align })

/-- The function `msCopyLegend(dst, src, map)`. -/
def msCopyLegend (dst src : legendObj) (map : Option Nat) : Int × legendObj :=
  let dst := { dst with imagecolor := MS_COPYCOLOR dst.imagecolor src.imagecolor }
  let l := msCopyLabel dst.label src.label
  let dst := { dst with label := l.2 }
  if l.1 ≠ MS_SUCCESS then (MS_FAILURE, dst)
  else
    (MS_SUCCESS,
     { dst with
       keysizex := MS_COPYSTELEM dst.keysizex src.keysizex,
       keysizey := MS_COPYSTELEM dst.keysizey src.keysizey,
       keyspacingx := MS_COPYSTELEM dst.keyspacingx src.keyspacingx,
       keyspacingy := MS_COPYSTELEM dst.keyspacingy src.keyspacingy,
       outlinecolor := MS_COPYCOLOR dst.outlinecolor src.outlinecolor,
       status := MS_COPYSTELEM dst.status src.status,
       height := MS_COPYSTELEM dst.height src.height,
       width := MS_COPYSTELEM dst.width src.width,
       position := MS_COPYSTELEM dst.position src.position,
       transparent := MS_COPYSTELEM dst.transparent src.transparent,
       interlace := MS_COPYSTELEM dst.interlace src.interlace,
       postlabelcache := MS_COPYSTELEM dst.postlabelcache src.postlabelcache,
       template := MS_COPYSTRING dst.template src.template,
       map := map })

/-- The loop of lines 731-746 of `msCopyLayer`, with `k` turns left and the index `i`; `dstp`
is the address of the destination layer, which the loop hands to `msCopyClass`.  The answer
`none` stands for a run without defined behaviour: the array `class` does not hold the entry
`class[i]` after `msGrowLayerClasses`, or `msCopyClass` has no defined behaviour.  An entry
of the source that the model does not hold is read as the default value. -/
def copyLayerClasses (env : CopyEnv) (dstp : Option Nat) (src : Copy.layerObj) :
    Nat → Nat → Copy.layerObj → List String → Option (Int × Copy.layerObj × List String)
  | 0, _, dst, errors => some (MS_SUCCESS, dst, errors)
  | k + 1, i, dst, errors =>
    match env.msGrowLayerClasses dst with
    | none => some (MS_FAILURE, dst, errors)
    | some dst =>
      match dst.classes[i]? with
      | none => none
      | some c =>
        match msCopyClass env errors (env.initClass c) (src.classes.getD i default) dstp with
        | none => none
        | some r =>
          let dst := { dst with classes := dst.classes.set i r.2.1 }
          if r.1 ≠ MS_SUCCESS then some (MS_FAILURE, dst, r.2.2 ++ ["Failed to copy class."])
          else copyLayerClasses env dstp src k (i + 1)
            { dst with numclasses := dst.numclasses + 1 } r.2.2

/-- Lines 721-746 of `msCopyLayer(dst, src)`, for the destination layer at the address
`dstp`: the copy of `index`, `classitem` and `classitemindex` and the loop over the classes
of the source. -/
def msCopyLayerClasses (env : CopyEnv) (errors : List String) (dstp : Option Nat)
    (dst src : Copy.layerObj) : Option (Int × Copy.layerObj × List String) :=
  let dst := { dst with
    index := MS_COPYSTELEM dst.index src.index,
    classitem := MS_COPYSTRING dst.classitem src.classitem,
    classitemindex := MS_COPYSTELEM dst.classitemindex src.classitemindex }
  copyLayerClasses env dstp src src.numclasses 0 dst errors

/-- The loop of lines 837-842 of `msCopyLayer` over the joins, with `k` turns left and the
index `i`.  The answer `none` stands for a run without defined behaviour: the array `joins`
does not hold the entry `joins[i]`.  An entry of the source that the model does not hold is
read as the default value. -/
def copyLayerJoins (env : CopyEnv) (src : Copy.layerObj) :
    Nat → Nat → Copy.layerObj → Option (Int × Copy.layerObj)
  | 0, _, dst => some (MS_SUCCESS, dst)
  | k + 1, i, dst =>
    match dst.joins[i]? with
    | none => none
    | some j =>
      let r := msCopyJoin (env.initJoin j) (src.joins.getD i default)
      let dst := { dst with joins := dst.joins.set i r.2 }
      if r.1 ≠ MS_SUCCESS then some (MS_FAILURE, dst)
      else copyLayerJoins env src k (i + 1) dst

/-- Lines 747-787 of `msCopyLayer`: the members copied between the loop over the classes and
the projection. -/
def copyLayerHead (dst src : Copy.layerObj) : Copy.layerObj :=
  { dst with
    header := MS_COPYSTRING dst.header src.header,
    footer := MS_COPYSTRING dst.footer src.footer,
    template := MS_COPYSTRING dst.template src.template,
    name := MS_COPYSTRING dst.name src.name,
    group := MS_COPYSTRING dst.group src.group,
    data := MS_COPYSTRING dst.data src.data,
    status := MS_COPYSTELEM dst.status src.status,
    type := MS_COPYSTELEM dst.type src.type,
    annotate := MS_COPYSTELEM dst.annotate src.annotate,
    tolerance := MS_COPYSTELEM dst.tolerance src.tolerance,
    toleranceunits := MS_COPYSTELEM dst.toleranceunits src.toleranceunits,
    symbolscaledenom := MS_COPYSTELEM dst.symbolscaledenom src.symbolscaledenom,
    scalefactor := MS_COPYSTELEM dst.scalefactor src.scalefactor,
    minscaledenom := MS_COPYSTELEM dst.minscaledenom src.minscaledenom,
    maxscaledenom := MS_COPYSTELEM dst.maxscaledenom src.maxscaledenom,
    labelminscaledenom := MS_COPYSTELEM dst.labelminscaledenom src.labelminscaledenom,
    labelmaxscaledenom := MS_COPYSTELEM dst.labelmaxscaledenom src.labelmaxscaledenom,
    sizeunits := MS_COPYSTELEM dst.sizeunits src.sizeunits,
    maxfeatures := MS_COPYSTELEM dst.maxfeatures src.maxfeatures,
    offsite := MS_COPYCOLOR dst.offsite src.offsite,
    transform := MS_COPYSTELEM dst.transform src.transform,
    labelcache := MS_COPYSTELEM dst.labelcache src.labelcache,
    postlabelcache := MS_COPYSTELEM dst.postlabelcache src.postlabelcache,
    labelitem := MS_COPYSTRING dst.labelitem src.labelitem,
    labelitemindex := MS_COPYSTELEM dst.labelitemindex src.labelitemindex,
    tileitem := MS_COPYSTRING dst.tileitem src.tileitem,
    tileitemindex := MS_COPYSTELEM dst.tileitemindex src.tileitemindex,
    tileindex := MS_COPYSTRING dst.tileindex src.tileindex }

/-- Lines 795-835 of `msCopyLayer`, after the filter is copied: the members copied up to the
processing directives, and `numjoins`. -/
def copyLayerTail (env : CopyEnv) (dst src : Copy.layerObj) : Copy.layerObj :=
  let dst := { dst with
    filteritem := MS_COPYSTRING dst.filteritem src.filteritem,
    filteritemindex := MS_COPYSTELEM dst.filteritemindex src.filteritemindex,
    styleitem := MS_COPYSTRING dst.styleitem src.styleitem,
    styleitemindex := MS_COPYSTELEM dst.styleitemindex src.styleitemindex,
    requires := MS_COPYSTRING dst.requires src.requires,
    labelrequires := MS_COPYSTRING dst.labelrequires src.labelrequires }
  let dst := { dst with metadata := (msCopyHashTable env dst.metadata src.metadata).2 }
  let dst := { dst with
    opacity := MS_COPYSTELEM dst.opacity src.opacity,
    dump := MS_COPYSTELEM dst.dump src.dump,
    debug := MS_COPYSTELEM dst.debug src.debug }
  let p := (List.range src.numprocessing).foldl
    (fun acc i => env.msLayerAddProcessing acc (src.processing.getD i ""))
    (dst.processing, dst.numprocessing)
  { dst with processing := p.1, numprocessing := p.2,
             numjoins := MS_COPYSTELEM dst.numjoins src.numjoins }

/-- Lines 747-853 of `msCopyLayer`, after the loop over the classes. -/
def copyLayerRest (env : CopyEnv) (errors : List String) (dst src : Copy.layerObj) :
    Option (Int × Copy.layerObj × List String) :=
  let dst := copyLayerHead dst src
  let p := msCopyProjection env dst.projection src.projection
  let dst := { dst with projection := p.2 }
  if p.1 ≠ MS_SUCCESS then some (MS_FAILURE, dst, errors ++ ["Failed to copy projection."])
  else
    let dst := { dst with
      project := MS_COPYSTELEM dst.project src.project,
      units := MS_COPYSTELEM dst.units src.units }
    let dst := { dst with features := src.features.foldl env.insertFeatureList dst.features }
    let dst := { dst with
      connection := MS_COPYSTRING dst.connection src.connection,
      connectiontype := MS_COPYSTELEM dst.connectiontype src.connectiontype,
      plugin_library := MS_COPYSTRING dst.plugin_library src.plugin_library,
      plugin_library_original :=
          MS_COPYSTRING dst.plugin_library_original src.plugin_library_original }
    let f := msCopyExpression dst.filter src.filter
    let dst := { dst with filter := f.2 }
    if f.1 ≠ MS_SUCCESS then some (MS_FAILURE, dst, errors ++ ["Failed to copy filter."])
    else
      let dst := copyLayerTail env dst src
      match copyLayerJoins env src dst.numjoins 0 dst with
      | none => none
      | some j =>
        if j.1 ≠ MS_SUCCESS then some (MS_FAILURE, j.2, errors)
        else some (MS_SUCCESS, { j.2 with extent := MS_COPYRECT j.2.extent src.extent }, errors)

/-- The function `msCopyLayer(dst, src)`, for the destination layer at the address `dstp`: the
status, the destination and the error list when it returns; `none` stands for a run without
defined behaviour, in the loop over the classes or in the loop over the joins. -/
def msCopyLayer (env : CopyEnv) (errors : List String) (dstp : Option Nat)
    (dst src : Copy.layerObj) : Option (Int × Copy.layerObj × List String) :=
  match msCopyLayerClasses env errors dstp dst src with
  | none => none
  | some r =>
    if r.1 ≠ MS_SUCCESS then some r
    else copyLayerRest env r.2.2 r.2.1 src

/-- The loop of lines 876-887 of `msCopyMap` over the layers, with `k` turns left and the
index `i`; `dstp` is the address of the destination map.  The answer `none` stands for a run
without defined behaviour: the array `layers` does not hold the entry `layers[i]` after
`msGrowMapLayers`, or `msCopyLayer` has no defined behaviour.  An entry of the source that
the model does not hold is read as the default value. -/
def copyMapLayers (env : CopyEnv) (dstp : Option Nat) (src : Copy.mapObj) :
    Nat → Nat → Copy.mapObj → List String → Option (Int × Copy.mapObj × List String)
  | 0, _, dst, errors => some (MS_SUCCESS, dst, errors)
  | k + 1, i, dst, errors =>
    match env.msGrowMapLayers dst with
    | none => some (MS_FAILURE, dst, errors)
    | some dst =>
      match dst.layers[i]? with
      | none => none
      | some l =>
        match msCopyLayer env errors (env.layerAddress dstp i) (env.initLayer l dstp)
            (src.layers.getD i default) with
        | none => none
        | some r =>
          let dst := { dst with layers := dst.layers.set i r.2.1 }
          if r.1 ≠ MS_SUCCESS then some (MS_FAILURE, dst, r.2.2 ++ ["Failed to copy layer."])
          else copyMapLayers env dstp src k (i + 1) { dst with numlayers := dst.numlayers + 1 }
            r.2.2

/-- The loop of lines 983-985 of `msCopyMap`: `layerorder[i]` is copied for every `i` below
`n`.  An entry of the source that the model does not hold is read as 0, and a store to an
entry that the destination does not hold is lost. -/
def copyLayerorder (src : List Int) (n : Nat) (dst : List Int) : List Int :=
  (List.range n).foldl (fun lo i => lo.set i (MS_COPYSTELEM (lo.getD i 0) (src.getD i 0))) dst

/-- Lines 900-948 of `msCopyMap`: the members copied after the symbol set, the output formats
and the active output format. -/
def copyMapFormats (env : CopyEnv) (dst src : Copy.mapObj) : Copy.mapObj :=
  let dst := { dst with
    transparent := MS_COPYSTELEM dst.transparent src.transparent,
    interlace := MS_COPYSTELEM dst.interlace src.interlace,
    imagequality := MS_COPYSTELEM dst.imagequality src.imagequality,
    extent := MS_COPYRECT dst.extent src.extent,
    cellsize := MS_COPYSTELEM dst.cellsize src.cellsize,
    units := MS_COPYSTELEM dst.units src.units,
    scaledenom := MS_COPYSTELEM dst.scaledenom src.scaledenom,
    resolution := MS_COPYSTELEM dst.resolution src.resolution,
    shapepath := MS_COPYSTRING dst.shapepath src.shapepath,
    mappath := MS_COPYSTRING dst.mappath src.mappath,
    imagecolor := MS_COPYCOLOR dst.imagecolor src.imagecolor }
  -- clear existing destination format list
  let dst := { dst with outputformatlist := [], outputformat := none, numoutputformats := 0 }
  let fl := (List.range src.numoutputformats).foldl
    (fun acc i =>
      env.msAppendOutputFormat acc (env.msCloneOutputFormat (src.outputformatlist.getD i default)))
    (dst.outputformatlist, dst.numoutputformats)
  let dst := { dst with outputformatlist := fl.1, numoutputformats := fl.2 }
  -- set the active output format
  let dst := { dst with imagetype := MS_COPYSTRING dst.imagetype src.imagetype }
  let format := env.msSelectOutputFormat dst.outputformatlist dst.imagetype
  { dst with outputformat := env.msApplyOutputFormat dst.outputformat format }

/-- Lines 983-993 of `msCopyMap`: the layer order, the last members and the configuration
options. -/
def copyMapEnd (env : CopyEnv) (errors : List String) (dst src : Copy.mapObj) :
    Int × Copy.mapObj × List String :=
  let dst := { dst with layerorder := copyLayerorder src.layerorder dst.numlayers dst.layerorder }
  let dst := { dst with
    debug := MS_COPYSTELEM dst.debug src.debug,
    datapattern := MS_COPYSTRING dst.datapattern src.datapattern,
    templatepattern := MS_COPYSTRING dst.templatepattern src.templatepattern }
  let h := msCopyHashTable env dst.configoptions src.configoptions
  let dst := { dst with configoptions := h.2 }
  if h.1 ≠ MS_SUCCESS then (MS_FAILURE, dst, errors)
  else (MS_SUCCESS, dst, errors)

/-- Lines 889-993 of `msCopyMap`: everything after the loop over the layers. -/
def copyMapRest (env : CopyEnv) (errors : List String) (dstp : Option Nat)
    (dst src : Copy.mapObj) : Int × Copy.mapObj × List String :=
  let f := msCopyFontSet env dst.fontset src.fontset dstp
  let dst := { dst with fontset := f.2 }
  if f.1 ≠ MS_SUCCESS then (MS_FAILURE, dst, errors ++ ["Failed to copy fontset."])
  else
    let y := env.msCopySymbolSet dst.symbolset src.symbolset dstp
    let dst := { dst with symbolset := y.2 }
    if y.1 ≠ MS_SUCCESS then (MS_FAILURE, dst, errors ++ ["Failed to copy symbolset."])
    else
      let dst := copyMapFormats env dst src
      let p := msCopyProjection env dst.projection src.projection
      let dst := { dst with projection := p.2 }
      if p.1 ≠ MS_SUCCESS then (MS_FAILURE, dst, errors ++ ["Failed to copy projection."])
      else
        let r := msCopyReferenceMap env dst.reference src.reference dstp
        let dst := { dst with reference := r.2 }
        if r.1 ≠ MS_SUCCESS then (MS_FAILURE, dst, errors ++ ["Failed to copy reference."])
        else
          let b := msCopyScalebar env dst.scalebar src.scalebar
          let dst := { dst with scalebar := b.2 }
          if b.1 ≠ MS_SUCCESS then (MS_FAILURE, dst, errors ++ ["Failed to copy scalebar."])
          else
            let l := msCopyLegend dst.legend src.legend dstp
            let dst := { dst with legend := l.2 }
            if l.1 ≠ MS_SUCCESS then (MS_FAILURE, dst, errors ++ ["Failed to copy legend."])
            else
              let q := msCopyQueryMap dst.querymap src.querymap
              let dst := { dst with querymap := q.2 }
              if q.1 ≠ MS_SUCCESS then (MS_FAILURE, dst, errors ++ ["Failed to copy querymap."])
              else
                let w := msCopyWeb env dst.web src.web dstp
                let dst := { dst with web := w.2 }
                if w.1 ≠ MS_SUCCESS then (MS_FAILURE, dst, errors ++ ["Failed to copy web."])
                else copyMapEnd env errors dst src

/-- The function `msCopyMap(dst, src)`, for the destination map at the address `dstp`: the
status, the destination and the error list when it returns; `none` stands for a run without
defined behaviour in the loop over the layers. -/
def msCopyMap (env : CopyEnv) (errors : List String) (dstp : Option Nat)
    (dst src : Copy.mapObj) : Option (Int × Copy.mapObj × List String) :=
  let dst := { dst with
    name := MS_COPYSTRING dst.name src.name,
    status := MS_COPYSTELEM dst.status src.status,
    height := MS_COPYSTELEM dst.height src.height,
    width := MS_COPYSTELEM dst.width src.width }
  match copyMapLayers env dstp src src.numlayers 0 dst errors with
  | none => none
  | some r =>
    if r.1 ≠ MS_SUCCESS then some r
    else some (copyMapRest env r.2.2 dstp r.2.1 src)

/-- A concrete set of collaborators for mapcopy.c: allocations succeed, an array is
extended with new entries up to the one at the counter (the layer order grows with the
layers), the `init` functions answer the default value, but for `initLayer`, which answers a
layer with an array of twenty joins, `msProcessProjection` fails on the argument `bad`, the
layer `i` of the map at the address `m` is at the address `m + 1 + i`. -/
def sampleCopyEnv : CopyEnv where
  hashKeys := fun t => t.map Prod.fst
  msLookupHashTable := fun t key => t.lookup key
  msInsertHashTable := fun t key value => t ++ [(key, value.getD "")]
  msGrowClassStyles := fun c =>
    some { c with styles := c.styles ++ List.replicate (c.numstyles + 1 - c.styles.length) default }
  initStyle := fun _ => (MS_SUCCESS, default)
  msGrowLayerClasses := fun l =>
    some { l with
      classes := l.classes ++ List.replicate (l.numclasses + 1 - l.classes.length) default }
  initClass := fun _ => default
  msProcessProjection := fun p => (if "bad" ∈ p.args then MS_FAILURE else MS_SUCCESS, p)
  insertFeatureList := fun l s => l ++ [s]
  msLayerAddProcessing := fun acc s => (acc.1 ++ [s], acc.2 + 1)
  initJoin := fun _ => default
  msGrowMapLayers := fun m =>
    some { m with
      layers := m.layers ++ List.replicate (m.numlayers + 1 - m.layers.length) default,
      layerorder := m.layerorder ++ List.replicate (m.numlayers + 1 - m.layerorder.length) 0 }
  initLayer := fun _ _ => { (default : Copy.layerObj) with joins := List.replicate 20 default }
  layerAddress := fun m i => m.map (fun a => a + 1 + i)
  msCopySymbolSet := fun _ src map => (MS_SUCCESS, { src with map := map })
  initReferenceMap := fun _ => default
  initScalebar := fun _ => default
  msCloneOutputFormat := fun f => f
  msAppendOutputFormat := fun acc f => (acc.1 ++ [f], acc.2 + 1)
  msSelectOutputFormat := fun l t => l.find? (fun f => some f.name = t)
  msApplyOutputFormat := fun _ f => f

/-- A class named `name` without styles whose parent is the layer at the address `parent`. -/
def sampleClass (name : String) (parent : Nat) : Copy.classObj :=
  { (default : Copy.classObj) with name := some name, layer := some parent }

/-- Modelled from the spec: what `msGrowLayerClasses` of maplayer.c does when it does not
answer NULL ("the destination grows its capacity"): the entry `class[numclasses]` is
allocated, the entries that were allocated are kept, and no other member changes. -/
def growsClasses (env : CopyEnv) : Prop :=
  ∀ l l2, env.msGrowLayerClasses l = some l2 →
    l2.numclasses = l.numclasses ∧ l.numclasses < l2.classes.length ∧
    (∀ j, j < l.classes.length → l2.classes[j]? = l.classes[j]?) ∧
    l2.index = l.index ∧ l2.classitem = l.classitem ∧ l2.classitemindex = l.classitemindex ∧
    l2.joins = l.joins

/-- A layer with the classes `major` and `minor`, both with the layer at the address
`parent` as parent. -/
def sampleCopyLayer (parent : Nat) : Copy.layerObj :=
  { (default : Copy.layerObj) with
    classes := [sampleClass "major" parent, sampleClass "minor" parent], numclasses := 2 }

/-- Modelled from the spec: what `msGrowClassStyles` of mapfile.c does when it does not answer
NULL ("the destination grows its capacity"): the entry `styles[numstyles]` is allocated, the
entries that were allocated are kept, the counter is not changed, and an array that was not
released is not released. -/
def growsStyles (env : CopyEnv) : Prop :=
  ∀ c c2, env.msGrowClassStyles c = some c2 →
    c2.numstyles = c.numstyles ∧ c.numstyles < c2.styles.length ∧
    (∀ j, j < c.styles.length → c2.styles[j]? = c.styles[j]?) ∧
    (c.stylesReleased = false → c2.stylesReleased = false)

/-- Modelled from the spec: what `msGrowMapLayers` of mapobject.c does when it does not answer
NULL: the entry `layers[numlayers]` is allocated and `layerorder` has room for it, the entries
that were allocated are kept, and the counter is not changed. -/
def growsLayers (env : CopyEnv) : Prop :=
  ∀ m m2, env.msGrowMapLayers m = some m2 →
    m2.numlayers = m.numlayers ∧ m.numlayers < m2.layers.length ∧
    (∀ j, j < m.layers.length → m2.layers[j]? = m.layers[j]?) ∧
    m.numlayers < m2.layerorder.length

/-- Modelled from the spec: what `initClass` of mapfile.c leaves ("initializes a child"): a
class without styles, whose member `styles` is NULL. -/
def freshClasses (env : CopyEnv) : Prop :=
  ∀ c, (env.initClass c).styles = [] ∧ (env.initClass c).numstyles = 0 ∧
    (env.initClass c).stylesReleased = false

/-- A class with `n` styles. -/
def sampleStyledClass (n : Nat) : Copy.classObj :=
  { (default : Copy.classObj) with styles := List.replicate n default, numstyles := n }

/-- The join named `owners` on the table `owners.dbf`. -/
def sampleJoin : joinObj :=
  { (default : joinObj) with name := some "owners", table := some "owners.dbf" }

/-- A map with two layers, the second drawn first: a layer with the classes `major` and
`minor`, and a layer with one class of two styles, the join `owners` and a projection. -/
def sampleCopyMap : Copy.mapObj :=
  { (default : Copy.mapObj) with
    layers := [sampleCopyLayer 1,
      { (default : Copy.layerObj) with
        classes := [sampleStyledClass 2], numclasses := 1, numjoins := 1, joins := [sampleJoin],
        projection := { args := ["init=epsg:4326"] } }],
    numlayers := 2,
    layerorder := [1, 0] }

/-- The map `sampleCopyMap` with a second layer whose projection cannot be rebuilt. -/
def sampleBadMap : Copy.mapObj :=
  { (default : Copy.mapObj) with
    layers := [sampleCopyLayer 1,
      { (default : Copy.layerObj) with projection := { args := ["bad"] } }],
    numlayers := 2,
    layerorder := [0, 1] }

/-- The state in which a process that has answered the request `earlier` on a clone of `m`
starts the next request on a fresh clone of `m`: only the static `wms_exception_format` is
what the earlier call left. -/
def afterRequest (env : Env) (h : Handlers) (m : mapObj) (earlier : cgiRequestObj) : wmsState :=
  { freshState m with
    wms_exception_format := (msWMSDispatch env h (freshState m) earlier).2.wms_exception_format }

/-! ## The nested groups of the capabilities -/

/-- The test `strncmp(a, b, n) == 0`: equality of the first `n` characters. -/
def strncmpEq (a b : String) (n : Nat) : Bool :=
  a.data.take n == b.data.take n

/-- The function `msWMSIsSubGroup(currentGroups, currentLevel, otherGroups, numOtherGroups)`.
An entry of an index past the end of a list is read as the empty string. -/
def msWMSIsSubGroup (currentGroups : List String) (currentLevel : Nat)
    (otherGroups : List String) (numOtherGroups : Nat) : Int :=
  -- no match if otherGroups[] has less levels than currentLevel
  if numOtherGroups ≤ currentLevel then MS_FALSE
  -- compare all groups below the current level
  else if (List.range (currentLevel + 1)).all (fun i =>
      strncmpEq (currentGroups.getD i "") (otherGroups.getD i "")
        (currentGroups.getD i "").length) then MS_TRUE
  else MS_FALSE

/-! ## msWMSGetMap -/

/-- Functions of MapServer that `msWMSGetMap` calls and that live in other files.
`msDrawMap m querymap` answers the map it leaves and the image (`none` is NULL);
`drawSLDQuery m` stands for lines 2158-2197, which draw the map of a request whose SLD has a
spatial filter with `msPrepareImage`, `msDrawQueryLayer` and `msDrawLayer`: it answers the map
and the image left by these lines. -/
structure DrawEnv where
  msLookupHashTable : List (String × String) → String → Option String
  msDrawMap : mapObj → Int → mapObj × Option String
  drawSLDQuery : mapObj → mapObj × Option String

/-- Lines 2137-2199 of `msWMSGetMap`: the map and the image `img` (`none` is NULL) left by the
drawing.  The request asks for an SLD when it has a non-empty SLD or SLD_BODY parameter; the
SLD has a spatial filter when a layer has the metadata `tmp_wms_sld_query`. -/
def getMapImage (d : DrawEnv) (m : mapObj) (params : List (String × String)) :
    mapObj × Option String :=
  let sldrequested : Bool := params.any (fun p =>
    (strcaseEq p.1 "SLD" && decide (p.2.length > 0)) ||
    (strcaseEq p.1 "SLD_BODY" && decide (p.2.length > 0)))
  let sldspatialfilter : Bool :=
    sldrequested &&
      m.layers.any (fun lp => (d.msLookupHashTable lp.metadata "tmp_wms_sld_query").isSome)
  if sldrequested && sldspatialfilter then d.drawSLDQuery m
  else d.msDrawMap m MS_FALSE

/-- The function `msWMSGetMap(map, nVersion, names, values, numentries)`. -/
def msWMSGetMap (env : Env) (q : OpsEnv) (d : DrawEnv) (st : wmsState) (nVersion : Int)
    (params : List (String × String)) : Int × wmsState :=
  let drawn := getMapImage d st.map params
  let st := { st with map := drawn.1 }
  match drawn.2 with
  | none => msWMSException env st nVersion none
  | some img =>
    let st :=
      match env.msOWSLookupMetadata st.map.webmetadata "MO" "http_max_age" with
      | some http_max_age =>
        emit st [Output.printf ("Cache-Control: max-age=" ++ http_max_age ++ "\n")]
      | none => st
    let mime : String :=
      match st.map.outputformat with
      | some f => f.mimetype.getD "unknown"
      | none => "unknown"
    let st := emit st [Output.printf ("Content-type: " ++ mime ++ "\n\n")]
    let r := q.msSaveImage st.map img
    if r.1 ≠ MS_SUCCESS then msWMSException env (emit st r.2) nVersion none
    else (MS_SUCCESS, emit st r.2)

/-- The operation handlers of mapwms.c, as `msWMSDispatch` calls them with the names and the
values of the request. -/
def wmsHandlers (env : Env) (q : OpsEnv) (d : DrawEnv) : Handlers where
  msWMSGetLegendGraphic := fun st nVersion req => msWMSGetLegendGraphic env q st nVersion req.params
  msWMSGetStyles := fun st nVersion req => msWMSGetStyles env q st nVersion req.params
  msWMSGetMap := fun st nVersion req => msWMSGetMap env q d st nVersion req.params
  msWMSFeatureInfo := fun st nVersion req => msWMSFeatureInfo env q st nVersion req.params
  msWMSDescribeLayer := fun st nVersion req => msWMSDescribeLayer env st nVersion req.params

/-- Concrete drawing functions: the map is left alone and the image is `map`. -/
def sampleDraw : DrawEnv where
  msLookupHashTable := fun md key => md.lookup key
  msDrawMap := fun m _ => (m, some "map")
  drawSLDQuery := fun m => (m, some "map")

/-! ## The layer section of the capabilities -/

/-- One call made by the layer section of `msWMSGetCapabilities` (lines 1925-2008) and by the
functions of the nested groups, in the order of the calls: `openGroup` is
`msIO_printf("    <Layer>\n")`, `title t` is `msIO_printf("    <Title>%s</Title>\n", t)`,
`closeGroup` is `msIO_printf("    </Layer>\n")`, `errorComment e` is
`msIO_fprintf(stdout, "<!-- ERROR: %s -->\n", e)`, `groupHeader g` stands for lines 1967-1981
(the warning, the name, the title and the abstract of the group `g`, printed by functions of
mapows.c), and `dumpLayer i indent` is the call
`msDumpLayer(map, GET_LAYER(map, i), nVersion, script_url_encoded, indent)`. -/
inductive capItem where
  | openGroup
  | title (t : String)
  | closeGroup
  | errorComment (e : String)
  | groupHeader (g : String)
  | dumpLayer (index : Nat) (indent : String)
deriving DecidableEq

/-- The state of the layer section: the array `pabLayerProcessed` and the calls made so
far. -/
structure groupState where
  pabLayerProcessed : List Bool
  items : List capItem

/-- The member `group` of `GET_LAYER(map, i)`; NULL for an index past the last layer. -/
def layerGroup (m : mapObj) (i : Nat) : Option String :=
  (m.layers[i]?).bind (fun lp => lp.group)

/-- One turn of the loop of `msWMSPrepareNestedGroups` (lines 1478-1508), for the layer `lp`:
the array `nestedGroups[i]` (`numNestedGroups[i]` is its length) and the error message of
the turn, if there is one. -/
def prepareNestedGroup (env : Env) (lp : layerObj) : List String × Option String :=
  match env.msOWSLookupMetadata lp.metadata "MO" "layer_group" with
  | none => ([], none)
  | some groups =>
    if groups.length ≠ 0 then
      if lp.group ≠ none ∧ (lp.group.getD "").length ≠ 0 then
        ([], some "It is not allowed to set both the GROUP and WMS_LAYER_GROUP for a layer")
      else if groups.data.head? ≠ some '/' then
        ([], some "The WMS_LAYER_GROUP metadata does not start with a '/'")
      else
        -- split into subgroups, starting after the first '/'
        (env.msStringSplit (String.mk (groups.data.drop 1)) '/', none)
    else ([], none)

/-- The function `msWMSPrepareNestedGroups(map, nVersion, nestedGroups, numNestedGroups)`:
the array `nestedGroups` and the error messages, in the order of the layers; each message is
handed to `msSetError` and printed as an `errorComment`. -/
def msWMSPrepareNestedGroups (env : Env) (m : mapObj) : List (List String) × List String :=
  (m.layers.map (fun lp => (prepareNestedGroup env lp).1),
   m.layers.filterMap (fun lp => (prepareNestedGroup env lp).2))

/-- The call `msDumpLayer(map, GET_LAYER(map, index), nVersion, script_url_encoded, indent)`
followed by `pabLayerProcessed[index] = 1`. -/
def dumpAndMark (st : groupState) (index : Nat) (indent : String) : groupState :=
  { pabLayerProcessed := st.pabLayerProcessed.set index true,
    items := st.items ++ [capItem.dumpLayer index indent] }

/-- The function `msWMSPrintNestedGroups(map, nVersion, pabLayerProcessed, index, level,
nestedGroups, numNestedGroups, script_url_encoded)` for a map of `numlayers` layers, with
`fuel` bounding the depth of the recursion: `none` when the bound is reached. -/
def msWMSPrintNestedGroups (numlayers : Nat) (nestedGroups : List (List String)) :
    Nat → groupState → Nat → Nat → Option groupState
  | 0, _, _, _ => none
  | fuel + 1, st, index, level =>
    if (nestedGroups.getD index []).length ≤ level then
      -- we are at the deepest level of the group branchings, so add layer now
      some (dumpAndMark st index "")
    else
      -- Beginning of a new group... enclose the group in a layer block
      let st := { st with items := st.items ++
        [capItem.openGroup, capItem.title ((nestedGroups.getD index []).getD level "")] }
      -- Look for one group deeper in the current layer
      (if st.pabLayerProcessed.getD index false = false then
        msWMSPrintNestedGroups numlayers nestedGroups fuel st index (level + 1)
       else some st).bind fun st =>
      -- look for subgroups in other layers
      ((List.range' (index + 1) (numlayers - (index + 1))).foldlM
        (fun st j =>
          if msWMSIsSubGroup (nestedGroups.getD index []) level (nestedGroups.getD j [])
              (nestedGroups.getD j []).length ≠ MS_FALSE then
            if st.pabLayerProcessed.getD j false = false then
              msWMSPrintNestedGroups numlayers nestedGroups fuel st j (level + 1)
            else some st
          else some st) st).bind fun st =>
      -- Close group layer block
      some { st with items := st.items ++ [capItem.closeGroup] }

/-- One turn of the loop of lines 1963-1972 over the layers of a group: the layer `j` is
dumped when it is not processed and has the group `g`. -/
def dumpGroupLayer (m : mapObj) (g : String) (st : groupState) (j : Nat) : groupState :=
  if st.pabLayerProcessed.getD j false = false ∧ layerGroup m j = some g then
    dumpAndMark st j "  "
  else st

/-- One turn of the loop of lines 1942-1977 over the layers, for the layer `i`. -/
def capabilitiesLayer (m : mapObj) (nestedGroups : List (List String)) (fuel : Nat)
    (st : groupState) (i : Nat) : Option groupState :=
  -- Layer has already been handled
  if st.pabLayerProcessed.getD i false ≠ false then some st
  else if (nestedGroups.getD i []).length > 0 then
    -- Has nested groups.
    msWMSPrintNestedGroups m.layers.length nestedGroups fuel st i 0
  else if layerGroup m i = none ∨ ((layerGroup m i).getD "").length = 0 then
    -- This layer is not part of a group... dump it directly
    some (dumpAndMark st i "")
  else
    -- Beginning of a new group... enclose the group in a layer block
    let g := (layerGroup m i).getD ""
    let st := { st with items := st.items ++ [capItem.openGroup, capItem.groupHeader g] }
    -- Dump all layers for this group
    let st := (List.range' i (m.layers.length - i)).foldl (dumpGroupLayer m g) st
    -- Close group layer block
    some { st with items := st.items ++ [capItem.closeGroup] }

/-- The layer section of `msWMSGetCapabilities` (lines 1925-2008) for the map `m`: the state
after the loop over the layers, the arrays being allocated with zeros by `calloc`. -/
def capabilitiesLayers (env : Env) (m : mapObj) (fuel : Nat) : Option groupState :=
  if m.layers.length ≠ 0 then
    (List.range m.layers.length).foldlM
      (capabilitiesLayer m (msWMSPrepareNestedGroups env m).1 fuel)
      { pabLayerProcessed := List.replicate m.layers.length false,
        items := (msWMSPrepareNestedGroups env m).2.map capItem.errorComment }
  else some { pabLayerProcessed := [], items := [] }

/-- The number of calls of `msDumpLayer` for the layer `i` among `items`. -/
def dumpCount (items : List capItem) (i : Nat) : Nat :=
  items.countP (fun e => match e with
    | capItem.dumpLayer k _ => k == i
    | _ => false)

/-- The greatest number of nested groups of a layer. -/
def groupDepth (nestedGroups : List (List String)) : Nat :=
  (nestedGroups.map List.length).foldr max 0

/-- A layer named `name` with the metadata `wms_layer_group` set to `path`. -/
def sampleNestedLayer (name path : String) : layerObj :=
  { sampleLayer name none MS_ON with metadata := [("wms_layer_group", path)] }

/-- A map with nested groups, two flat groups whose layers alternate, and a layer without
group. -/
def sampleGroupMap : mapObj :=
  sampleMap [sampleNestedLayer "rivers" "/water/lines", sampleLayer "roads" (some "transport") MS_ON,
    sampleLayer "parcels" (some "cadastre") MS_ON, sampleNestedLayer "lakes" "/water/areas",
    sampleLayer "rails" (some "transport") MS_ON, sampleLayer "points" none MS_ON,
    sampleNestedLayer "canals" "/water/lines", sampleNestedLayer "sea" "/water"]

/-- The layers of the flat group `g`, dumped in the order of the layers with the indent of a
group. -/
def groupBlock (m : mapObj) (g : String) : List capItem :=
  ((List.range m.layers.length).filter (fun j => layerGroup m j = some g)).map
    (fun j => capItem.dumpLayer j "  ")

/-- The state `st2` continues the state `st` with the calls `new`: no layer is taken back,
and `new` dumps exactly the layers that `st2` marks and `st` does not, each once. -/
def groupExt (st st2 : groupState) (new : List capItem) : Prop :=
  st2.items = st.items ++ new ∧
  st2.pabLayerProcessed.length = st.pabLayerProcessed.length ∧
  (∀ k, st.pabLayerProcessed.getD k false = true → st2.pabLayerProcessed.getD k false = true) ∧
  (∀ k, dumpCount new k =
    if st2.pabLayerProcessed.getD k false = true ∧ st.pabLayerProcessed.getD k false = false
    then 1 else 0)

/-- The state `st2` continues the state `st` with the calls `new` of the nested groups: only
layers with nested groups are marked, no header of a flat group is printed, and as many
groups are closed as are opened. -/
def nestedExt (nestedGroups : List (List String)) (st st2 : groupState)
    (new : List capItem) : Prop :=
  groupExt st st2 new ∧
  (∀ k, (nestedGroups.getD k []).length = 0 →
    st2.pabLayerProcessed.getD k false = st.pabLayerProcessed.getD k false) ∧
  (∀ g, capItem.groupHeader g ∉ new) ∧
  new.count capItem.openGroup = new.count capItem.closeGroup

/-- The invariant of the loop over the layers before the turn `i`: the layers below `i` are
processed, a layer is dumped once when it is processed and not at all otherwise, as many
groups are closed as are opened, and the header of a flat group is printed once, followed by
all the layers of the group, when a layer of the group is processed, and not at all
otherwise. -/
def layersInv (m : mapObj) (i : Nat) (st : groupState) : Prop :=
  st.pabLayerProcessed.length = m.layers.length ∧
  (∀ k, k < i → st.pabLayerProcessed.getD k false = true) ∧
  (∀ k, dumpCount st.items k = if st.pabLayerProcessed.getD k false = true then 1 else 0) ∧
  st.items.count capItem.openGroup = st.items.count capItem.closeGroup ∧
  (∀ j g, layerGroup m j = some g → g.length ≠ 0 →
    if st.pabLayerProcessed.getD j false = true then
      st.items.count (capItem.groupHeader g) = 1 ∧
      ∃ pre post, st.items = pre ++ [capItem.openGroup, capItem.groupHeader g] ++
        groupBlock m g ++ [capItem.closeGroup] ++ post
    else st.items.count (capItem.groupHeader g) = 0)

/-! # Theorems -/

/-! ## The comparisons of double -/

theorem double_lt_not_ge (a b : double) (h : a < b) : ¬ a ≥ b := by
  intro h2
  have h1 : double.lt a b = true := h
  have h3 : double.le b a = true := h2
  cases a <;> cases b <;> simp only [double.lt, double.le, decide_eq_true_eq] at h1 h3
  · exact absurd h1 (not_lt.2 h3)
  all_goals (revert h1 h3; simp)
  all_goals (intro x y; exact ⟨y, x⟩)

theorem double_add_fin (a b : ℚ) : double.fin a + double.fin b = roundDouble (a + b) := rfl

theorem double_sub_fin (a b : ℚ) : double.fin a - double.fin b = roundDouble (a - b) := by
  show roundDouble (a + -b) = roundDouble (a - b)
  rw [sub_eq_add_neg]

theorem double_mul_fin (a b : ℚ) : double.fin a * double.fin b = roundDouble (a * b) := rfl

theorem double_div_fin (a b : ℚ) (hb : b ≠ 0) :
    double.fin a / double.fin b = roundDouble (a / b) := by
  show (if b = 0 then (if a = 0 then double.nan else double.inf (decide (a < 0)))
    else roundDouble (a / b)) = roundDouble (a / b)
  rw [if_neg hb]

theorem double_lt_fin (a b : ℚ) : double.fin a < double.fin b ↔ a < b := by
  show double.lt (double.fin a) (double.fin b) = true ↔ a < b
  unfold double.lt
  exact decide_eq_true_iff

theorem double_le_fin (a b : ℚ) : double.fin a ≤ double.fin b ↔ a ≤ b := by
  show double.le (double.fin a) (double.fin b) = true ↔ a ≤ b
  unfold double.le
  exact decide_eq_true_iff

theorem double_zero : (0 : double) = double.fin 0 := by
  show double.fin ((0 : Nat) : ℚ) = double.fin 0
  rw [Nat.cast_zero]

theorem MS_ABS_fin (x : ℚ) : MS_ABS (double.fin x) = double.fin |x| := by
  unfold MS_ABS
  rw [double_zero]
  by_cases hx : x < 0
  · rw [if_pos ((double_lt_fin x 0).2 hx), abs_of_neg hx]
    rfl
  · rw [if_neg (fun h => hx ((double_lt_fin x 0).1 h)), abs_of_nonneg (not_lt.1 hx)]

theorem double_one : (1.0 : double) = double.fin 1 := by decide!

theorem double_half : (0.5 : double) = double.fin (1 / 2) := by decide!

theorem halfPixel_order (a c w : ℚ) (h : a < c) (hw : 2 ≤ w) :
    a + (c - a) / (2 * w) < c - (c - a) / (2 * w) := by
  have hxp : 0 < (c - a) / (2 * w) := div_pos (by linarith) (by linarith)
  have hx : (c - a) / (2 * w) * (2 * w) = c - a :=
    div_mul_cancel₀ _ (ne_of_gt (by linarith))
  nlinarith [mul_pos hxp (by linarith : (0 : ℚ) < w - 1)]

theorem halfPixel_exact (a c : ℚ) (w : Int) (hw : 0 < w) (he : halfPixelExact a c w) :
    double.fin a + (double.fin c - double.fin a) / double.ofInt w * 0.5 =
      double.fin (a + (c - a) / (2 * w)) ∧
    double.fin c - (double.fin c - double.fin a) / double.ofInt w * 0.5 =
      double.fin (c - (c - a) / (2 * w)) := by
  obtain ⟨e1, e2, e3, e4, e5, e6⟩ := he
  unfold isDouble at e1 e2 e3 e4 e5 e6
  have w1 : double.ofInt w = double.fin (w : ℚ) := e2
  have hw0 : (w : ℚ) ≠ 0 := by
    have : (0 : ℚ) < w := by exact_mod_cast hw
    exact ne_of_gt this
  have hq : (c - a) / (w : ℚ) * (1 / 2) = (c - a) / (2 * w) := by
    rw [mul_one_div, div_div, mul_comm]
  rw [double_sub_fin, e1, w1, double_div_fin _ _ hw0, e3, double_half, double_mul_fin, e4,
    double_add_fin, e5, double_sub_fin, e6, hq]
  exact ⟨rfl, rfl⟩

/-! ## The scan of the dispatcher -/

theorem strcaseEq_excl (n2 : String) {a n1 : String} (h : strcaseEq n1 n2 = false)
    (h1 : strcaseEq a n1 = true) : strcaseEq a n2 = false := by
  unfold strcaseEq at *
  rw [beq_iff_eq] at h1
  rw [h1]
  exact h

theorem lastParam_foldl_none (name : String) (params : List (String × String))
    (h : noParam name params = true) (acc : Option String) :
    params.foldl (fun acc p => if strcaseEq p.1 name then some p.2 else acc) acc = acc := by
  induction params generalizing acc with
  | nil => rfl
  | cons p ps ih =>
    simp only [noParam, List.all_cons, Bool.and_eq_true, Bool.not_eq_true'] at h
    simp only [List.foldl_cons, h.1]
    exact ih h.2 acc

theorem lastParam_eq_none (name : String) (params : List (String × String))
    (h : noParam name params = true) : lastParam name params = none :=
  lastParam_foldl_none name params h none

theorem dispatchScanStep_service (v : dispatchVars) (p : String × String) :
    (dispatchScanStep v p).service = if strcaseEq p.1 "SERVICE" then some p.2 else v.service := by
  unfold dispatchScanStep
  by_cases hS : strcaseEq p.1 "SERVICE" = true
  · have h1 := strcaseEq_excl "VERSION" (by decide) hS
    have h2 := strcaseEq_excl "WMTVER" (by decide) hS
    have h3 := strcaseEq_excl "UPDATESEQUENCE" (by decide) hS
    have h4 := strcaseEq_excl "REQUEST" (by decide) hS
    have h5 := strcaseEq_excl "EXCEPTIONS" (by decide) hS
    simp [hS, h1, h2, h3, h4, h5]
  · split_ifs <;> simp_all

theorem dispatchScan_service_aux (params : List (String × String)) (v : dispatchVars) :
    (params.foldl dispatchScanStep v).service =
      params.foldl (fun acc p => if strcaseEq p.1 "SERVICE" then some p.2 else acc) v.service := by
  induction params generalizing v with
  | nil => rfl
  | cons p ps ih =>
    simp only [List.foldl_cons]
    rw [ih, dispatchScanStep_service]

theorem dispatchScan_service (wef : Option String) (params : List (String × String)) :
    (dispatchScan wef params).service = lastParam "SERVICE" params :=
  dispatchScan_service_aux params _

theorem dispatchScanStep_request (v : dispatchVars) (p : String × String) :
    (dispatchScanStep v p).request = if strcaseEq p.1 "REQUEST" then some p.2 else v.request := by
  unfold dispatchScanStep
  by_cases hS : strcaseEq p.1 "REQUEST" = true
  · have h1 := strcaseEq_excl "VERSION" (by decide) hS
    have h2 := strcaseEq_excl "WMTVER" (by decide) hS
    have h3 := strcaseEq_excl "UPDATESEQUENCE" (by decide) hS
    simp [hS, h1, h2, h3]
  · split_ifs <;> simp_all

theorem dispatchScan_request_aux (params : List (String × String)) (v : dispatchVars) :
    (params.foldl dispatchScanStep v).request =
      params.foldl (fun acc p => if strcaseEq p.1 "REQUEST" then some p.2 else acc) v.request := by
  induction params generalizing v with
  | nil => rfl
  | cons p ps ih =>
    simp only [List.foldl_cons]
    rw [ih, dispatchScanStep_request]

theorem dispatchScan_request (wef : Option String) (params : List (String × String)) :
    (dispatchScan wef params).request = lastParam "REQUEST" params :=
  dispatchScan_request_aux params _

theorem dispatchScanStep_format (v : dispatchVars) (p : String × String) :
    (dispatchScanStep v p).format = if strcaseEq p.1 "FORMAT" then some p.2 else v.format := by
  unfold dispatchScanStep
  by_cases hS : strcaseEq p.1 "FORMAT" = true
  · have h1 := strcaseEq_excl "VERSION" (by decide) hS
    have h2 := strcaseEq_excl "WMTVER" (by decide) hS
    have h3 := strcaseEq_excl "UPDATESEQUENCE" (by decide) hS
    have h4 := strcaseEq_excl "REQUEST" (by decide) hS
    have h5 := strcaseEq_excl "EXCEPTIONS" (by decide) hS
    have h6 := strcaseEq_excl "SERVICE" (by decide) hS
    simp [hS, h1, h2, h3, h4, h5, h6]
  · split_ifs <;> simp_all

theorem dispatchScan_format_aux (params : List (String × String)) (v : dispatchVars) :
    (params.foldl dispatchScanStep v).format =
      params.foldl (fun acc p => if strcaseEq p.1 "FORMAT" then some p.2 else acc) v.format := by
  induction params generalizing v with
  | nil => rfl
  | cons p ps ih =>
    simp only [List.foldl_cons]
    rw [ih, dispatchScanStep_format]

theorem dispatchScan_format (wef : Option String) (params : List (String × String)) :
    (dispatchScan wef params).format = lastParam "FORMAT" params :=
  dispatchScan_format_aux params _

theorem dispatchScan_version_aux (params : List (String × String)) (v : dispatchVars)
    (hV : noParam "VERSION" params = true) (hW : noParam "WMTVER" params = true) :
    (params.foldl dispatchScanStep v).version = v.version := by
  induction params generalizing v with
  | nil => rfl
  | cons p ps ih =>
    simp only [noParam, List.all_cons, Bool.and_eq_true, Bool.not_eq_true'] at hV hW
    simp only [List.foldl_cons]
    rw [ih _ hV.2 hW.2]
    unfold dispatchScanStep
    simp only [hV.1, hW.1]
    split_ifs <;> simp_all

theorem dispatchScan_version_none (wef : Option String) (params : List (String × String))
    (hV : noParam "VERSION" params = true) (hW : noParam "WMTVER" params = true) :
    (dispatchScan wef params).version = none :=
  dispatchScan_version_aux params _ hV hW

theorem msWMSException_fst (env : Env) (st : wmsState) (nVersion : Int) (code : Option String) :
    (msWMSException env st nVersion code).1 = MS_FAILURE := rfl

theorem msWMSException_raised (env : Env) (st : wmsState) (nVersion : Int) (code : Option String) :
    (msWMSException env st nVersion code).2.raised = st.raised ++ [(nVersion, code)] := rfl

theorem msWMSException_map (env : Env) (st : wmsState) (nVersion : Int) (code : Option String) :
    (msWMSException env st nVersion code).2.map = st.map := rfl

/-! ## The dispatcher -/

/-- C1: a request in which no parameter is named SERVICE, VERSION, WMTVER or REQUEST (ignoring
case) makes `msWMSDispatch` return MS_DONE; nothing is written to the response and no
exception is raised. -/
theorem dispatch_no_wms_params_done (env : Env) (h : Handlers) (st : wmsState) (req : cgiRequestObj)
    (hS : noParam "SERVICE" req.params = true) (_hV : noParam "VERSION" req.params = true)
    (_hW : noParam "WMTVER" req.params = true) (_hR : noParam "REQUEST" req.params = true) :
    (msWMSDispatch env h st req).1 = MS_DONE ∧
    (msWMSDispatch env h st req).2.out = st.out ∧
    (msWMSDispatch env h st req).2.raised = st.raised := by
  have hs : (dispatchScan st.wms_exception_format req.params).service = none := by
    rw [dispatchScan_service, lastParam_eq_none _ _ hS]
  simp [msWMSDispatch, hs]

/-- C1 at the request `?FOO=bar`. -/
theorem dispatch_no_wms_params_done_witness :
    (msWMSDispatch sampleEnv sampleHandlers (freshState (sampleMap [])) ⟨[("FOO", "bar")]⟩).1 = MS_DONE ∧
    (msWMSDispatch sampleEnv sampleHandlers (freshState (sampleMap [])) ⟨[("FOO", "bar")]⟩).2.out = [] ∧
    (msWMSDispatch sampleEnv sampleHandlers (freshState (sampleMap [])) ⟨[("FOO", "bar")]⟩).2.raised = [] :=
  dispatch_no_wms_params_done sampleEnv sampleHandlers (freshState (sampleMap [])) ⟨[("FOO", "bar")]⟩
    (by decide) (by decide) (by decide) (by decide)

/-- C2: a GetCapabilities request that carries no SERVICE parameter never reaches the
ServiceNotDefined report: the early test `service == NULL` makes `msWMSDispatch` return
MS_DONE, whatever the version is, with nothing written and no exception raised. -/
theorem dispatch_capabilities_without_service_done (env : Env) (h : Handlers) (st : wmsState)
    (req : cgiRequestObj) (r : String)
    (_hR : lastParam "REQUEST" req.params = some r)
    (_hr : strcaseEq r "GetCapabilities" = true ∨ strcaseEq r "capabilities" = true)
    (hS : noParam "SERVICE" req.params = true) :
    (msWMSDispatch env h st req).1 = MS_DONE ∧
    (msWMSDispatch env h st req).2.out = st.out ∧
    (msWMSDispatch env h st req).2.raised = st.raised := by
  have hs : (dispatchScan st.wms_exception_format req.params).service = none := by
    rw [dispatchScan_service, lastParam_eq_none _ _ hS]
  simp [msWMSDispatch, hs]

/-- C2 at the request `?REQUEST=GetCapabilities&VERSION=1.1.1`. -/
theorem dispatch_capabilities_without_service_done_witness :
    (msWMSDispatch sampleEnv sampleHandlers (freshState (sampleMap []))
      ⟨[("REQUEST", "GetCapabilities"), ("VERSION", "1.1.1")]⟩).1 = MS_DONE ∧
    (msWMSDispatch sampleEnv sampleHandlers (freshState (sampleMap []))
      ⟨[("REQUEST", "GetCapabilities"), ("VERSION", "1.1.1")]⟩).2.out = [] ∧
    (msWMSDispatch sampleEnv sampleHandlers (freshState (sampleMap []))
      ⟨[("REQUEST", "GetCapabilities"), ("VERSION", "1.1.1")]⟩).2.raised = [] :=
  dispatch_capabilities_without_service_done sampleEnv sampleHandlers (freshState (sampleMap []))
    ⟨[("REQUEST", "GetCapabilities"), ("VERSION", "1.1.1")]⟩ "GetCapabilities"
    (by decide) (Or.inl (by decide)) (by decide)

/-- C3 fails as stated: with SERVICE=WMS and no version, `REQUEST=GetMap&FORMAT=image/txt` is
answered with MS_SUCCESS and no exception, and so is `REQUEST=GetContext` on a map whose
metadata enables GetContext. -/
theorem dispatch_version_missing_counterexample :
    ((msWMSDispatch sampleEnv sampleHandlers (freshState (sampleMap []))
        ⟨[("SERVICE", "WMS"), ("REQUEST", "GetMap"), ("FORMAT", "image/txt")]⟩).1 = MS_SUCCESS ∧
     (msWMSDispatch sampleEnv sampleHandlers (freshState (sampleMap []))
        ⟨[("SERVICE", "WMS"), ("REQUEST", "GetMap"), ("FORMAT", "image/txt")]⟩).2.raised = []) ∧
    ((msWMSDispatch sampleEnv sampleHandlers
        (freshState { sampleMap [] with webmetadata := [("wms_getcontext_enabled", "1")] })
        ⟨[("SERVICE", "WMS"), ("REQUEST", "GetContext")]⟩).1 = MS_SUCCESS ∧
     (msWMSDispatch sampleEnv sampleHandlers
        (freshState { sampleMap [] with webmetadata := [("wms_getcontext_enabled", "1")] })
        ⟨[("SERVICE", "WMS"), ("REQUEST", "GetContext")]⟩).2.raised = []) := by
  decide

/-- C3 (amended): with SERVICE=WMS, neither VERSION nor WMTVER, and a REQUEST among GetMap, map,
GetFeatureInfo, feature_info, DescribeLayer, GetLegendGraphic, GetStyles (ignoring case), other
than a GetMap whose FORMAT is image/txt, `msWMSDispatch` reports "VERSION parameter missing"
through `msWMSException` and returns MS_FAILURE; the map is left as it was and no handler
takes part in the result. -/
theorem dispatch_version_missing_exception (env : Env) (h : Handlers) (st : wmsState)
    (req : cgiRequestObj) (s r : String)
    (hS : lastParam "SERVICE" req.params = some s) (hs : strcaseEq s "WMS" = true)
    (hV : noParam "VERSION" req.params = true) (hW : noParam "WMTVER" req.params = true)
    (hR : lastParam "REQUEST" req.params = some r)
    (hr : strcaseEq r "GetMap" = true ∨ strcaseEq r "map" = true ∨
          strcaseEq r "GetFeatureInfo" = true ∨ strcaseEq r "feature_info" = true ∨
          strcaseEq r "DescribeLayer" = true ∨ strcaseEq r "GetLegendGraphic" = true ∨
          strcaseEq r "GetStyles" = true)
    (hF : ¬ (strcaseEq r "GetMap" = true ∧ optCaseEq (lastParam "FORMAT" req.params) "image/txt" = true)) :
    msWMSDispatch env h st req =
      msWMSException env
        (msSetError { st with wms_exception_format :=
            (dispatchScan st.wms_exception_format req.params).wms_exception_format }
          "Incomplete WMS request: VERSION parameter missing")
        OWS_VERSION_NOTSET none ∧
    (msWMSDispatch env h st req).1 = MS_FAILURE ∧
    (msWMSDispatch env h st req).2.raised = st.raised ++ [(OWS_VERSION_NOTSET, none)] ∧
    (msWMSDispatch env h st req).2.map = st.map ∧
    ∀ h2 : Handlers, msWMSDispatch env h2 st req = msWMSDispatch env h st req := by
  have e1 := dispatchScan_service st.wms_exception_format req.params
  have e2 := dispatchScan_request st.wms_exception_format req.params
  have e3 := dispatchScan_format st.wms_exception_format req.params
  have e4 := dispatchScan_version_none st.wms_exception_format req.params hV hW
  rw [hS] at e1
  rw [hR] at e2
  have c1 : strcaseEq r "capabilities" = false := by
    rcases hr with h | h | h | h | h | h | h <;> exact strcaseEq_excl _ (by decide) h
  have c2 : strcaseEq r "GetCapabilities" = false := by
    rcases hr with h | h | h | h | h | h | h <;> exact strcaseEq_excl _ (by decide) h
  have c3 : strcaseEq r "context" = false := by
    rcases hr with h | h | h | h | h | h | h <;> exact strcaseEq_excl _ (by decide) h
  have c4 : strcaseEq r "GetContext" = false := by
    rcases hr with h | h | h | h | h | h | h <;> exact strcaseEq_excl _ (by decide) h
  have key : ∀ h0 : Handlers, msWMSDispatch env h0 st req =
      msWMSException env
        (msSetError { st with wms_exception_format :=
            (dispatchScan st.wms_exception_format req.params).wms_exception_format }
          "Incomplete WMS request: VERSION parameter missing")
        OWS_VERSION_NOTSET none := by
    intro h0
    rw [← e3] at hF
    simp only [msWMSDispatch, e1, e2, e4, msOWSParseVersionString, requestIs, optCaseEq, hs, c1, c2,
      c3, c4]
    simp [OWS_VERSION_NOTSET, OWS_VERSION_BADFORMAT]
    intro hg hf
    exact absurd ⟨hg, by simpa [optCaseEq] using hf⟩ hF
  refine ⟨key h, ?_, ?_, ?_, ?_⟩
  · rw [key h]; rfl
  · rw [key h]; rfl
  · rw [key h]; rfl
  · intro h2; rw [key h2, key h]

/-- C3 (amended) at the request `?SERVICE=WMS&REQUEST=GetMap&LAYERS=a`. -/
theorem dispatch_version_missing_exception_witness :
    (msWMSDispatch sampleEnv sampleHandlers (freshState (sampleMap [sampleLayer "a" none MS_OFF]))
      ⟨[("SERVICE", "WMS"), ("REQUEST", "GetMap"), ("LAYERS", "a")]⟩).1 = MS_FAILURE ∧
    (msWMSDispatch sampleEnv sampleHandlers (freshState (sampleMap [sampleLayer "a" none MS_OFF]))
      ⟨[("SERVICE", "WMS"), ("REQUEST", "GetMap"), ("LAYERS", "a")]⟩).2.raised =
        [(OWS_VERSION_NOTSET, none)] :=
  have w := dispatch_version_missing_exception sampleEnv sampleHandlers
    (freshState (sampleMap [sampleLayer "a" none MS_OFF]))
    ⟨[("SERVICE", "WMS"), ("REQUEST", "GetMap"), ("LAYERS", "a")]⟩ "WMS" "GetMap"
    (by decide) (by decide) (by decide) (by decide) (by decide) (Or.inl (by decide)) (by decide)
  ⟨w.2.1, w.2.2.1⟩

/-- C4: with SERVICE=WMS, a version that parses to a version number, a REQUEST that is none of
the recognised operation names, and a successful uniquification of the layer names,
`msWMSDispatch` reports "Incomplete or unsupported WMS request" through `msWMSException` and
returns MS_FAILURE; the map is the one uniquification left, so the layer statuses and the
layer order are untouched when uniquification does not touch them. -/
theorem dispatch_unknown_request_exception (env : Env) (h : Handlers) (st : wmsState)
    (req : cgiRequestObj) (s r : String)
    (hS : lastParam "SERVICE" req.params = some s) (hs : strcaseEq s "WMS" = true)
    (hv1 : msOWSParseVersionString env (dispatchScan st.wms_exception_format req.params).version
            ≠ OWS_VERSION_NOTSET)
    (hv2 : msOWSParseVersionString env (dispatchScan st.wms_exception_format req.params).version
            ≠ OWS_VERSION_BADFORMAT)
    (hR : lastParam "REQUEST" req.params = some r)
    (hr : strcaseEq r "capabilities" = false ∧ strcaseEq r "GetCapabilities" = false ∧
          strcaseEq r "context" = false ∧ strcaseEq r "GetContext" = false ∧
          strcaseEq r "map" = false ∧ strcaseEq r "GetMap" = false ∧
          strcaseEq r "feature_info" = false ∧ strcaseEq r "GetFeatureInfo" = false ∧
          strcaseEq r "DescribeLayer" = false ∧ strcaseEq r "GetLegendGraphic" = false ∧
          strcaseEq r "GetStyles" = false)
    (hU : (env.msOWSMakeAllLayersUnique st.map).1 = MS_SUCCESS)
    (hP : (env.msOWSMakeAllLayersUnique st.map).2.layers.map (fun lp => lp.status) =
            st.map.layers.map (fun lp => lp.status) ∧
          (env.msOWSMakeAllLayersUnique st.map).2.layerorder = st.map.layerorder) :
    msWMSDispatch env h st req =
      msWMSException env
        (msSetError { st with
            wms_exception_format :=
              (dispatchScan st.wms_exception_format req.params).wms_exception_format
            map := (env.msOWSMakeAllLayersUnique st.map).2 }
          "Incomplete or unsupported WMS request")
        (msOWSParseVersionString env (dispatchScan st.wms_exception_format req.params).version)
        none ∧
    (msWMSDispatch env h st req).1 = MS_FAILURE ∧
    (msWMSDispatch env h st req).2.raised = st.raised ++
      [(msOWSParseVersionString env (dispatchScan st.wms_exception_format req.params).version, none)] ∧
    (msWMSDispatch env h st req).2.map.layers.map (fun lp => lp.status) =
      st.map.layers.map (fun lp => lp.status) ∧
    (msWMSDispatch env h st req).2.map.layerorder = st.map.layerorder := by
  have e1 := dispatchScan_service st.wms_exception_format req.params
  have e2 := dispatchScan_request st.wms_exception_format req.params
  rw [hS] at e1
  rw [hR] at e2
  obtain ⟨c1, c2, c3, c4, c5, c6, c7, c8, c9, c10, c11⟩ := hr
  have key : msWMSDispatch env h st req =
      msWMSException env
        (msSetError { st with
            wms_exception_format :=
              (dispatchScan st.wms_exception_format req.params).wms_exception_format
            map := (env.msOWSMakeAllLayersUnique st.map).2 }
          "Incomplete or unsupported WMS request")
        (msOWSParseVersionString env (dispatchScan st.wms_exception_format req.params).version)
        none := by
    simp only [msWMSDispatch, e1, e2, requestIs, optCaseEq, hs, c1, c2, c3, c4, c5, c6, c7, c8, c9,
      c10, c11]
    simp [hv1, hv2, hU]
  refine ⟨key, ?_, ?_, ?_, ?_⟩
  · rw [key]; rfl
  · rw [key]; rfl
  · rw [key]; exact hP.1
  · rw [key]; exact hP.2

/-- C4 at the request `?SERVICE=WMS&VERSION=1.1.1&REQUEST=GetTile` on a map with one layer. -/
theorem dispatch_unknown_request_exception_witness :
    (msWMSDispatch sampleEnv sampleHandlers (freshState (sampleMap [sampleLayer "a" none MS_ON]))
      ⟨[("SERVICE", "WMS"), ("VERSION", "1.1.1"), ("REQUEST", "GetTile")]⟩).1 = MS_FAILURE ∧
    (msWMSDispatch sampleEnv sampleHandlers (freshState (sampleMap [sampleLayer "a" none MS_ON]))
      ⟨[("SERVICE", "WMS"), ("VERSION", "1.1.1"), ("REQUEST", "GetTile")]⟩).2.map.layerorder = [0] :=
  have w := dispatch_unknown_request_exception sampleEnv sampleHandlers
    (freshState (sampleMap [sampleLayer "a" none MS_ON]))
    ⟨[("SERVICE", "WMS"), ("VERSION", "1.1.1"), ("REQUEST", "GetTile")]⟩ "WMS" "GetTile"
    (by decide) (by decide) (by decide) (by decide) (by decide) (by decide) (by decide)
    ⟨by decide, by decide⟩
  ⟨w.2.1, w.2.2.2.2⟩

/-! ## GetCapabilities -/

/-- C5: the version `msWMSGetCapabilities` answers with is a function of the requested version
`v`: 1.0.0 for a version number below 1.0.7, 1.0.7 from 1.0.7 up to but not including 1.1.0,
1.1.0 for 1.1.0, and 1.1.1 otherwise, which includes every negative token (version not set);
the result is one of the four supported versions and flooring twice is flooring once. -/
theorem capabilitiesVersion_floor (v : Int) :
    (0 ≤ v → v < OWS_1_0_7 → capabilitiesVersion v = OWS_1_0_0) ∧
    (OWS_1_0_7 ≤ v → v < OWS_1_1_0 → capabilitiesVersion v = OWS_1_0_7) ∧
    (v = OWS_1_1_0 → capabilitiesVersion v = OWS_1_1_0) ∧
    (OWS_1_1_0 < v → capabilitiesVersion v = OWS_1_1_1) ∧
    (v < 0 → capabilitiesVersion v = OWS_1_1_1) ∧
    capabilitiesVersion OWS_VERSION_NOTSET = OWS_1_1_1 ∧
    (capabilitiesVersion v = OWS_1_0_0 ∨ capabilitiesVersion v = OWS_1_0_7 ∨
     capabilitiesVersion v = OWS_1_1_0 ∨ capabilitiesVersion v = OWS_1_1_1) ∧
    capabilitiesVersion (capabilitiesVersion v) = capabilitiesVersion v := by
  simp only [capabilitiesVersion, OWS_1_0_0, OWS_1_0_7, OWS_1_1_0, OWS_1_1_1, OWS_VERSION_NOTSET]
  refine ⟨?_, ?_, ?_, ?_, ?_, ?_, ?_, ?_⟩
  · intro h1 h2; split_ifs <;> omega
  · intro h1 h2; split_ifs <;> omega
  · intro h1; split_ifs <;> omega
  · intro h1; split_ifs <;> omega
  · intro h1; split_ifs <;> omega
  · decide
  · split_ifs <;> omega
  · split_ifs <;> omega

/-- C5 at the requested version 1.0.5 (floored to 1.0.0) . -/
theorem capabilitiesVersion_floor_witness :
    capabilitiesVersion 0x010005 = OWS_1_0_0 ∧ capabilitiesVersion 0x010008 = OWS_1_0_7 ∧
    capabilitiesVersion 0x010300 = OWS_1_1_1 ∧ capabilitiesVersion (-2) = OWS_1_1_1 :=
  ⟨(capabilitiesVersion_floor 0x010005).1 (by decide) (by decide),
   (capabilitiesVersion_floor 0x010008).2.1 (by decide) (by decide),
   (capabilitiesVersion_floor 0x010300).2.2.2.1 (by decide),
   (capabilitiesVersion_floor (-2)).2.2.2.2.1 (by decide)⟩

/-- C6: in `msWMSGetCapabilities` with an UPDATESEQUENCE value `r`, when the comparison with the
server value gives 0 the call is `msWMSException` with code CurrentUpdateSequence, when it gives
a positive number the call is `msWMSException` with code InvalidUpdateSequence; both return
MS_FAILURE and write nothing but the exception report.  When the comparison is negative, or no
UPDATESEQUENCE is given, no exception with a code is raised. -/
theorem getCapabilities_updatesequence (env : Env) (st : wmsState) (nVersion : Int)
    (req : cgiRequestObj) (r : String) :
    (env.msOWSNegotiateUpdateSequence r
        (env.msOWSLookupMetadata st.map.webmetadata "MO" "updatesequence") = 0 →
      (msWMSGetCapabilities env st nVersion req (some r)).1 = MS_FAILURE ∧
      (msWMSGetCapabilities env st nVersion req (some r)).2.raised =
        st.raised ++ [(nVersion, some "CurrentUpdateSequence")] ∧
      ∃ msg, msWMSGetCapabilities env st nVersion req (some r) =
        msWMSException env (msSetError st msg) nVersion (some "CurrentUpdateSequence")) ∧
    (env.msOWSNegotiateUpdateSequence r
        (env.msOWSLookupMetadata st.map.webmetadata "MO" "updatesequence") > 0 →
      (msWMSGetCapabilities env st nVersion req (some r)).1 = MS_FAILURE ∧
      (msWMSGetCapabilities env st nVersion req (some r)).2.raised =
        st.raised ++ [(nVersion, some "InvalidUpdateSequence")] ∧
      ∃ msg, msWMSGetCapabilities env st nVersion req (some r) =
        msWMSException env (msSetError st msg) nVersion (some "InvalidUpdateSequence")) ∧
    (env.msOWSNegotiateUpdateSequence r
        (env.msOWSLookupMetadata st.map.webmetadata "MO" "updatesequence") < 0 →
      ∀ e ∈ (msWMSGetCapabilities env st nVersion req (some r)).2.raised, e ∈ st.raised ∨ e.2 = none) ∧
    (∀ e ∈ (msWMSGetCapabilities env st nVersion req none).2.raised, e ∈ st.raised ∨ e.2 = none) := by
  have hnone : ∀ (u : Option String),
      (u.isSome = true → ¬ (match u with
            | some r => env.msOWSNegotiateUpdateSequence r
                (env.msOWSLookupMetadata st.map.webmetadata "MO" "updatesequence")
            | none => -1) = 0 ∧
          ¬ (match u with
            | some r => env.msOWSNegotiateUpdateSequence r
                (env.msOWSLookupMetadata st.map.webmetadata "MO" "updatesequence")
            | none => -1) > 0) →
      ∀ e ∈ (msWMSGetCapabilities env st nVersion req u).2.raised, e ∈ st.raised ∨ e.2 = none := by
    intro u hu e he
    unfold msWMSGetCapabilities at he
    simp only [] at he
    rw [if_neg (fun hc => (hu hc.1).1 hc.2), if_neg (fun hc => (hu hc.1).2 hc.2)] at he
    cases hq : env.msOWSGetOnlineResource st.map "MO" "onlineresource" req with
    | none =>
      rw [hq] at he
      simp only [msWMSException_raised, List.mem_append, List.mem_singleton] at he
      rcases he with he | he
      · exact Or.inl he
      · exact Or.inr (by rw [he])
    | some url =>
      rw [hq] at he
      exact Or.inl he
  refine ⟨?_, ?_, ?_, ?_⟩
  · intro h0
    have key : msWMSGetCapabilities env st nVersion req (some r) =
        msWMSException env (msSetError st ("UPDATESEQUENCE parameter (" ++ r ++
          ") is equal to server (" ++
          (env.msOWSLookupMetadata st.map.webmetadata "MO" "updatesequence").getD "(null)" ++ ")"))
          nVersion (some "CurrentUpdateSequence") := by
      simp [msWMSGetCapabilities, h0]
    exact ⟨by rw [key]; rfl, by rw [key]; rfl, _, key⟩
  · intro h0
    have key : msWMSGetCapabilities env st nVersion req (some r) =
        msWMSException env (msSetError st ("UPDATESEQUENCE parameter (" ++ r ++
          ") is higher than server (" ++
          (env.msOWSLookupMetadata st.map.webmetadata "MO" "updatesequence").getD "(null)" ++ ")"))
          nVersion (some "InvalidUpdateSequence") := by
      have h1 : ¬ env.msOWSNegotiateUpdateSequence r
          (env.msOWSLookupMetadata st.map.webmetadata "MO" "updatesequence") = 0 := by omega
      simp [msWMSGetCapabilities, h0, h1]
    exact ⟨by rw [key]; rfl, by rw [key]; rfl, _, key⟩
  · intro h0
    apply hnone
    intro _
    constructor <;> simp only [] <;> omega
  · apply hnone
    intro hc
    simp at hc

/-- C6 at the scenario "server updatesequence=5, request UPDATESEQUENCE=5". -/
theorem getCapabilities_updatesequence_witness :
    (msWMSGetCapabilities sampleEnv
      (freshState { sampleMap [] with webmetadata := [("wms_updatesequence", "5")] })
      OWS_1_1_1 ⟨[]⟩ (some "5")).1 = MS_FAILURE ∧
    (msWMSGetCapabilities sampleEnv
      (freshState { sampleMap [] with webmetadata := [("wms_updatesequence", "5")] })
      OWS_1_1_1 ⟨[]⟩ (some "5")).2.raised = [(OWS_1_1_1, some "CurrentUpdateSequence")] :=
  have w := (getCapabilities_updatesequence sampleEnv
    (freshState { sampleMap [] with webmetadata := [("wms_updatesequence", "5")] })
    OWS_1_1_1 ⟨[]⟩ "5").1 (by decide)
  ⟨w.1, w.2.1⟩

theorem getCapabilities_success_out (env : Env) (st : wmsState) (nVersion : Int)
    (req : cgiRequestObj) (u : Option String)
    (hok : (msWMSGetCapabilities env st nVersion req u).1 = MS_SUCCESS) :
    ∃ dtd url, (msWMSGetCapabilities env st nVersion req u).2.out =
      st.out ++ (capabilitiesHead env st.map (capabilitiesVersion nVersion) dtd ++
        env.capabilitiesRest st.map (capabilitiesVersion nVersion) url) := by
  have hne : MS_FAILURE ≠ MS_SUCCESS := by decide
  unfold msWMSGetCapabilities at hok ⊢
  simp only [] at hok ⊢
  split_ifs at hok ⊢ with h1 h2
  · exact absurd hok hne
  · exact absurd hok hne
  · cases hq : env.msOWSGetOnlineResource st.map "MO" "onlineresource" req with
    | none =>
      rw [hq] at hok
      exact absurd hok hne
    | some url => exact ⟨_, _, rfl⟩

/-- C7: a successful `msWMSGetCapabilities` writes, right after what was already written, the
Content-type header and later the Service `<Name>` that belong to the floored version: text/xml
and GetMap when it is at most 1.0.7, application/vnd.ogc.wms_xml and OGC:WMS otherwise; the
rest of the document follows the name.  In particular, when `msWMSDispatch` answers a request
with SERVICE=WMS, REQUEST=GetCapabilities and no VERSION or WMTVER with MS_SUCCESS, the document
is the one of version 1.1.1: application/vnd.ogc.wms_xml, root element with the version string
of 1.1.1, and OGC:WMS. -/
theorem getCapabilities_mime_and_name (env : Env) (h : Handlers) (st : wmsState)
    (req : cgiRequestObj) :
    (∀ (nVersion : Int) (u : Option String),
      (msWMSGetCapabilities env st nVersion req u).1 = MS_SUCCESS →
      ∃ mid url, (msWMSGetCapabilities env st nVersion req u).2.out =
        st.out ++
        [Output.printf ("Content-type: " ++
          (if capabilitiesVersion nVersion ≤ OWS_1_0_7 then "text/xml"
           else "application/vnd.ogc.wms_xml") ++ "\n\n")] ++ mid ++
        [Output.printf ("  <Name>" ++
          (if capabilitiesVersion nVersion ≤ OWS_1_0_7 then "GetMap" else "OGC:WMS") ++
          "</Name>\n")] ++
        env.capabilitiesRest st.map (capabilitiesVersion nVersion) url) ∧
    (∀ (s r : String), lastParam "SERVICE" req.params = some s → strcaseEq s "WMS" = true →
      lastParam "REQUEST" req.params = some r → strcaseEq r "GetCapabilities" = true →
      noParam "VERSION" req.params = true → noParam "WMTVER" req.params = true →
      (msWMSDispatch env h st req).1 = MS_SUCCESS →
      ∃ mid1 mid2 rest, (msWMSDispatch env h st req).2.out =
        st.out ++ [Output.printf "Content-type: application/vnd.ogc.wms_xml\n\n"] ++ mid1 ++
        [Output.printf ("<WMT_MS_Capabilities version=\"" ++
          env.msOWSGetVersionString OWS_1_1_1 ++ "\"")] ++ mid2 ++
        [Output.printf "  <Name>OGC:WMS</Name>\n"] ++ rest) := by
  constructor
  · intro nVersion u hok
    obtain ⟨dtd, url, hout⟩ := getCapabilities_success_out env st nVersion req u hok
    rw [hout]
    exact ⟨capabilitiesProlog env st.map (capabilitiesVersion nVersion) dtd, url, by
      simp only [capabilitiesHead, capabilitiesMime, capabilitiesServiceName, List.append_assoc]⟩
  · intro s r hS hs hR hr hV hW hok
    have e1 := dispatchScan_service st.wms_exception_format req.params
    have e2 := dispatchScan_request st.wms_exception_format req.params
    have e4 := dispatchScan_version_none st.wms_exception_format req.params hV hW
    rw [hS] at e1
    rw [hR] at e2
    have hne : MS_FAILURE ≠ MS_SUCCESS := by decide
    have hd : msWMSDispatch env h st req =
        if (env.msOWSMakeAllLayersUnique st.map).1 ≠ MS_SUCCESS then
          msWMSException env { st with
            wms_exception_format :=
              (dispatchScan st.wms_exception_format req.params).wms_exception_format
            map := (env.msOWSMakeAllLayersUnique st.map).2 } OWS_1_1_1 none
        else
          msWMSGetCapabilities env { st with
            wms_exception_format :=
              (dispatchScan st.wms_exception_format req.params).wms_exception_format
            map := (env.msOWSMakeAllLayersUnique st.map).2 } OWS_1_1_1 req
            (dispatchScan st.wms_exception_format req.params).updatesequence := by
      simp only [msWMSDispatch, e1, e2, e4, msOWSParseVersionString, requestIs, optCaseEq, hs, hr]
      simp [OWS_VERSION_NOTSET, OWS_VERSION_BADFORMAT, OWS_1_0_7]
    rw [hd] at hok ⊢
    split_ifs at hok ⊢ with hu
    · exact absurd hok hne
    · obtain ⟨dtd, url, hout⟩ := getCapabilities_success_out env _ _ req _ hok
      rw [hout]
      have hv : capabilitiesVersion OWS_1_1_1 = OWS_1_1_1 := by decide
      rw [hv]
      have hm : ¬ OWS_1_1_1 ≤ OWS_1_0_7 := by decide
      have hmem : Output.printf ("<WMT_MS_Capabilities version=\"" ++
          env.msOWSGetVersionString OWS_1_1_1 ++ "\"") ∈
          capabilitiesProlog env (env.msOWSMakeAllLayersUnique st.map).2 OWS_1_1_1 dtd := by
        simp [capabilitiesProlog]
      obtain ⟨mid1, mid2, hsplit⟩ := List.append_of_mem hmem
      refine ⟨mid1, mid2, env.capabilitiesRest (env.msOWSMakeAllLayersUnique st.map).2 OWS_1_1_1 url, ?_⟩
      have hs1 : "Content-type: " ++ "application/vnd.ogc.wms_xml" ++ "\n\n" =
          "Content-type: application/vnd.ogc.wms_xml\n\n" := by decide
      have hs2 : "  <Name>" ++ "OGC:WMS" ++ "</Name>\n" = "  <Name>OGC:WMS</Name>\n" := by decide
      simp only [capabilitiesHead, capabilitiesMime, capabilitiesServiceName, if_neg hm, hsplit,
        List.append_assoc, List.cons_append, List.nil_append, List.singleton_append, hs1, hs2]

/-- C7 at the version 1.0.0 and at the request `?SERVICE=WMS&REQUEST=GetCapabilities`. -/
theorem getCapabilities_mime_and_name_witness :
    (∃ mid url, (msWMSGetCapabilities sampleEnv (freshState (sampleMap [])) OWS_1_0_0 ⟨[]⟩ none).2.out =
        [] ++ [Output.printf ("Content-type: " ++
          (if capabilitiesVersion OWS_1_0_0 ≤ OWS_1_0_7 then "text/xml"
           else "application/vnd.ogc.wms_xml") ++ "\n\n")] ++ mid ++
        [Output.printf ("  <Name>" ++
          (if capabilitiesVersion OWS_1_0_0 ≤ OWS_1_0_7 then "GetMap" else "OGC:WMS") ++
          "</Name>\n")] ++
        sampleEnv.capabilitiesRest (sampleMap []) (capabilitiesVersion OWS_1_0_0) url) ∧
    (∃ mid1 mid2 rest, (msWMSDispatch sampleEnv sampleHandlers (freshState (sampleMap []))
        ⟨[("SERVICE", "WMS"), ("REQUEST", "GetCapabilities")]⟩).2.out =
        [] ++ [Output.printf "Content-type: application/vnd.ogc.wms_xml\n\n"] ++ mid1 ++
        [Output.printf ("<WMT_MS_Capabilities version=\"" ++
          sampleEnv.msOWSGetVersionString OWS_1_1_1 ++ "\"")] ++ mid2 ++
        [Output.printf "  <Name>OGC:WMS</Name>\n"] ++ rest) :=
  ⟨(getCapabilities_mime_and_name sampleEnv sampleHandlers (freshState (sampleMap [])) ⟨[]⟩).1
      OWS_1_0_0 none (by decide),
   (getCapabilities_mime_and_name sampleEnv sampleHandlers (freshState (sampleMap []))
      ⟨[("SERVICE", "WMS"), ("REQUEST", "GetCapabilities")]⟩).2 "WMS" "GetCapabilities"
      (by decide) (by decide) (by decide) (by decide) (by decide) (by decide) (by decide)⟩

/-! ## The LAYERS parameter -/

theorem arrSet_eq (lo : List Int) (n : Nat) (v : Int) (h : n ≤ lo.length) :
    arrSet lo n v = lo.take n ++ v :: lo.drop (n + 1) := by
  unfold arrSet
  split_ifs with hlt
  · exact List.set_eq_take_append_cons_drop ▸ (by simp [List.set_eq_take_append_cons_drop, hlt])
  · have : n = lo.length := by omega
    subst this
    simp

theorem pushAll_eq (vs : List Int) : ∀ (lo : List Int) (n : Nat), n ≤ lo.length →
    pushAll lo n vs = lo.take n ++ vs ++ lo.drop (n + vs.length) := by
  induction vs with
  | nil => intro lo n _; simp [pushAll]
  | cons v vs ih =>
    intro lo n h
    have h1 : n + 1 ≤ (arrSet lo n v).length := by
      rw [arrSet_eq lo n v h]
      simp only [List.length_append, List.length_take, List.length_cons, List.length_drop]
      omega
    rw [pushAll, ih _ _ h1, arrSet_eq lo n v h]
    have ht : (lo.take n ++ v :: lo.drop (n + 1)).take (n + 1) = lo.take n ++ [v] := by
      rw [List.take_append_eq_append_take]
      simp [List.length_take, Nat.min_eq_left h]
    have hd : (lo.take n ++ v :: lo.drop (n + 1)).drop (n + 1 + vs.length) =
        lo.drop (n + (v :: vs).length) := by
      rw [List.drop_append_eq_append_drop]
      simp only [List.length_take, Nat.min_eq_left h]
      have e1 : n + 1 + vs.length - n = (vs.length + 1) := by omega
      have e2 : List.drop (n + 1 + vs.length) (List.take n lo) = [] := by
        apply List.drop_eq_nil_of_le
        simp only [List.length_take]; omega
      rw [e1, e2, List.drop_succ_cons, List.drop_drop, List.nil_append, List.length_cons]
      rw [show n + 1 + vs.length = n + (vs.length + 1) by omega]
    rw [ht, hd]
    simp

theorem pushAll_append (a b : List Int) : ∀ (lo : List Int) (n : Nat),
    pushAll lo n (a ++ b) = pushAll (pushAll lo n a) (n + a.length) b := by
  induction a with
  | nil => intro lo n; simp [pushAll]
  | cons v vs ih =>
    intro lo n
    show pushAll (arrSet lo n v) (n + 1) (vs ++ b) =
      pushAll (pushAll (arrSet lo n v) (n + 1) vs) (n + (vs.length + 1)) b
    rw [ih, show n + 1 + vs.length = n + (vs.length + 1) by omega]

theorem take_pushAll_zero (lo vs : List Int) : (pushAll lo 0 vs).take vs.length = vs := by
  rw [pushAll_eq vs lo 0 (Nat.zero_le _)]
  simp

theorem length_layerIndices (p : layerObj → Bool) (layers : List layerObj) :
    ∀ j, (layerIndices p j layers).length = layers.countP p := by
  induction layers with
  | nil => intro j; rfl
  | cons lp rest ih =>
    intro j
    by_cases hp : p lp = true
    · simp [layerIndices, hp, ih, List.countP_cons_of_pos]
    · simp [layerIndices, hp, ih, List.countP_cons_of_neg]

theorem layerIndices_map (p : layerObj → Bool) (f : layerObj → layerObj)
    (hf : ∀ lp, p (f lp) = p lp) (layers : List layerObj) :
    ∀ j, layerIndices p j (layers.map f) = layerIndices p j layers := by
  induction layers with
  | nil => intro j; rfl
  | cons lp rest ih =>
    intro j
    simp only [List.map_cons, layerIndices, hf, ih]

/-- What the loop of lines 430-438 does to one layer. -/
theorem keepDefaults_eq (layers : List layerObj) : ∀ (j : Nat) (lo : List Int) (n : Nat),
    keepDefaults j layers lo n =
      (layers.map (fun lp => if lp.status ≠ MS_DEFAULT then { lp with status := MS_OFF } else lp),
       pushAll lo n (layerIndices (fun lp => lp.status == MS_DEFAULT) j layers),
       n + (layerIndices (fun lp => lp.status == MS_DEFAULT) j layers).length) := by
  induction layers with
  | nil => intro j lo n; rfl
  | cons lp rest ih =>
    intro j lo n
    by_cases hp : lp.status = MS_DEFAULT
    · simp [keepDefaults, layerIndices, hp, ih, pushAll]
      omega
    · simp [keepDefaults, layerIndices, hp, ih, pushAll]

theorem offAtEnd_eq (layers : List layerObj) : ∀ (j : Nat) (lo : List Int) (n : Nat),
    offAtEnd j layers lo n =
      (pushAll lo n (layerIndices (fun lp => lp.status == MS_OFF) j layers),
       n + (layerIndices (fun lp => lp.status == MS_OFF) j layers).length) := by
  induction layers with
  | nil => intro j lo n; rfl
  | cons lp rest ih =>
    intro j lo n
    by_cases hp : lp.status = MS_OFF
    · simp [offAtEnd, layerIndices, hp, ih, pushAll]
      omega
    · simp [offAtEnd, layerIndices, hp, ih, pushAll]

theorem turnOn_eq (mapname : Option String) (tok : String) (layers : List layerObj) :
    ∀ (j : Nat) (lo : List Int) (n : Nat) (valid found : Int),
    turnOn mapname tok j layers lo n valid found =
      { layers := layers.map (fun lp =>
          if layerMatches mapname lp tok && lp.status != MS_DEFAULT then { lp with status := MS_ON }
          else lp),
        lo := pushAll lo n
          (layerIndices (fun lp => layerMatches mapname lp tok && lp.status != MS_DEFAULT) j layers),
        nLayerOrder := n +
          (layerIndices (fun lp => layerMatches mapname lp tok && lp.status != MS_DEFAULT) j layers).length,
        validlayers := valid + layers.countP (fun lp => layerMatches mapname lp tok),
        layerfound := if layers.any (fun lp => layerMatches mapname lp tok) then 1 else found } := by
  induction layers with
  | nil => intro j lo n valid found; simp [turnOn, layerIndices, pushAll]
  | cons lp rest ih =>
    intro j lo n valid found
    by_cases hm : layerMatches mapname lp tok = true
    · by_cases hp : lp.status = MS_DEFAULT
      · simp [turnOn, layerIndices, hm, hp, ih, pushAll]
        omega
      · simp [turnOn, layerIndices, hm, hp, ih, pushAll]
        constructor <;> omega
    · simp [turnOn, layerIndices, hm, ih, pushAll]

theorem selected_turnOn (mapname : Option String) (tok t : String) (lp : layerObj) :
    (layerMatches mapname
        (if layerMatches mapname lp tok && lp.status != MS_DEFAULT then { lp with status := MS_ON }
         else lp) t &&
      (if layerMatches mapname lp tok && lp.status != MS_DEFAULT then { lp with status := MS_ON }
         else lp).status != MS_DEFAULT) =
    (layerMatches mapname lp t && lp.status != MS_DEFAULT) := by
  by_cases hc : (layerMatches mapname lp tok && lp.status != MS_DEFAULT) = true
  · rw [if_pos hc]
    simp only [Bool.and_eq_true, bne_iff_ne, ne_eq] at hc
    have h1 : (lp.status != MS_DEFAULT) = true := by simpa using hc.2
    have h2 : (MS_ON != MS_DEFAULT) = true := by decide
    simp only [layerMatches, h1, h2]
  · rw [if_neg hc]

theorem selectLayers_eq (mapname : Option String) (toks : List String) : ∀ (s : selectResult),
    (selectLayers mapname toks s).layers =
      toks.foldl (fun ls tok => ls.map (fun lp =>
        if layerMatches mapname lp tok && lp.status != MS_DEFAULT then { lp with status := MS_ON }
        else lp)) s.layers ∧
    (selectLayers mapname toks s).lo =
      pushAll s.lo s.nLayerOrder (toks.map (fun tok =>
        layerIndices (fun lp => layerMatches mapname lp tok && lp.status != MS_DEFAULT) 0
          s.layers)).flatten ∧
    (selectLayers mapname toks s).nLayerOrder =
      s.nLayerOrder + (toks.map (fun tok =>
        layerIndices (fun lp => layerMatches mapname lp tok && lp.status != MS_DEFAULT) 0
          s.layers)).flatten.length := by
  induction toks with
  | nil => intro s; simp [selectLayers, pushAll]
  | cons tok toks ih =>
    intro s
    simp only [selectLayers, turnOn_eq, List.foldl_cons, List.map_cons, List.flatten_cons]
    obtain ⟨h1, h2, h3⟩ := ih
      { layers := s.layers.map (fun lp =>
          if layerMatches mapname lp tok && lp.status != MS_DEFAULT then { lp with status := MS_ON }
          else lp),
        lo := pushAll s.lo s.nLayerOrder
          (layerIndices (fun lp => layerMatches mapname lp tok && lp.status != MS_DEFAULT) 0 s.layers),
        nLayerOrder := s.nLayerOrder +
          (layerIndices (fun lp => layerMatches mapname lp tok && lp.status != MS_DEFAULT) 0 s.layers).length,
        validlayers := s.validlayers + s.layers.countP (fun lp => layerMatches mapname lp tok),
        invalidlayers :=
          if (if s.layers.any (fun lp => layerMatches mapname lp tok) then (1 : Int) else 0) = 0
          then s.invalidlayers + 1 else s.invalidlayers }
    have hmap : ∀ t, layerIndices (fun lp => layerMatches mapname lp t && lp.status != MS_DEFAULT) 0
        (s.layers.map (fun lp =>
          if layerMatches mapname lp tok && lp.status != MS_DEFAULT then { lp with status := MS_ON }
          else lp)) =
        layerIndices (fun lp => layerMatches mapname lp t && lp.status != MS_DEFAULT) 0 s.layers :=
      fun t => layerIndices_map _ _ (fun lp => selected_turnOn mapname tok t lp) s.layers 0
    simp only [hmap] at h2 h3
    refine ⟨h1, ?_, ?_⟩
    · rw [h2, pushAll_append]
    · rw [h3, List.length_append]; omega

theorem foldl_map_layers (f : String → layerObj → layerObj) (toks : List String) :
    ∀ (ls : List layerObj),
    toks.foldl (fun ls tok => ls.map (f tok)) ls =
      ls.map (fun lp => toks.foldl (fun lp tok => f tok lp) lp) := by
  induction toks with
  | nil => intro ls; simp
  | cons tok toks ih =>
    intro ls
    simp only [List.foldl_cons, ih, List.map_map]
    rfl

theorem turnOn_layer_fold (mapname : Option String) (toks : List String) : ∀ (lp : layerObj),
    toks.foldl (fun lp tok =>
        if layerMatches mapname lp tok && lp.status != MS_DEFAULT then { lp with status := MS_ON }
        else lp) lp =
      { lp with status :=
          if lp.status = MS_DEFAULT then MS_DEFAULT
          else if toks.any (fun tok => layerMatches mapname lp tok) then MS_ON
          else lp.status } := by
  induction toks with
  | nil =>
    intro lp
    by_cases hp : lp.status = MS_DEFAULT
    · simp [hp]; rw [← hp]
    · simp [hp]
  | cons tok toks ih =>
    intro lp
    simp only [List.foldl_cons, List.any_cons]
    by_cases hp : lp.status = MS_DEFAULT
    · have hc : (layerMatches mapname lp tok && lp.status != MS_DEFAULT) = false := by simp [hp]
      rw [hc]
      simp only [Bool.false_eq_true, if_false]
      rw [ih]
      simp [hp]
    · by_cases hm : layerMatches mapname lp tok = true
      · have hc : (layerMatches mapname lp tok && lp.status != MS_DEFAULT) = true := by simp [hm, hp]
        rw [hc, if_pos rfl, ih]
        have h2 : ¬ MS_ON = MS_DEFAULT := by decide
        simp [hp, hm, h2]
      · have hc : (layerMatches mapname lp tok && lp.status != MS_DEFAULT) = false := by simp [hm]
        rw [hc]
        simp only [Bool.false_eq_true, if_false]
        rw [ih]
        simp [hp, hm]

theorem selected_reset (mapname : Option String) (t : String) (lp : layerObj) :
    (layerMatches mapname
        (if lp.status ≠ MS_DEFAULT then { lp with status := MS_OFF } else lp) t &&
      (if lp.status ≠ MS_DEFAULT then { lp with status := MS_OFF } else lp).status != MS_DEFAULT) =
    (layerMatches mapname lp t && lp.status != MS_DEFAULT) := by
  by_cases hc : lp.status = MS_DEFAULT
  · simp [hc]
  · have h2 : (MS_OFF != MS_DEFAULT) = true := by decide
    simp [hc, layerMatches, h2]

/-- The layers `processLayers` leaves: every layer with the status the claim predicts. -/
theorem processLayers_layers (m : mapObj) (v : gmpVars) (toks : List String) :
    (processLayers m v toks).1.layers =
      m.layers.map (fun lp => { lp with status := selectedStatus m.name toks lp }) := by
  simp only [processLayers, keepDefaults_eq, (selectLayers_eq m.name toks _).1, foldl_map_layers,
    turnOn_layer_fold, List.map_map]
  apply List.map_congr_left
  intro lp _
  by_cases hc : lp.status = MS_DEFAULT
  · simp [selectedStatus, hc]
  · have h2 : ¬ MS_OFF = MS_DEFAULT := by decide
    simp [selectedStatus, hc, h2, layerMatches]

/-- The layer order `processLayers` leaves: the expected order, stored from `nLayerOrder` on. -/
theorem processLayers_layerorder (m : mapObj) (v : gmpVars) (toks : List String) :
    (processLayers m v toks).1.layerorder =
      pushAll (identityOrder m.layerorder m.numlayers) v.nLayerOrder
        (expectedOrder m.name toks m.layers (processLayers m v toks).1.layers) := by
  have hL : (processLayers m v toks).1.layers =
      (selectLayers m.name toks
        { layers := (keepDefaults 0 m.layers (identityOrder m.layerorder m.numlayers) v.nLayerOrder).1,
          lo := (keepDefaults 0 m.layers (identityOrder m.layerorder m.numlayers) v.nLayerOrder).2.1,
          nLayerOrder := (keepDefaults 0 m.layers (identityOrder m.layerorder m.numlayers) v.nLayerOrder).2.2,
          validlayers := v.validlayers, invalidlayers := v.invalidlayers }).layers := rfl
  rw [expectedOrder, hL]
  simp only [processLayers, offAtEnd_eq, (selectLayers_eq m.name toks _).2.1,
    (selectLayers_eq m.name toks _).2.2, keepDefaults_eq]
  have hmap : ∀ t, layerIndices (fun lp => layerMatches m.name lp t && lp.status != MS_DEFAULT) 0
      (m.layers.map (fun lp => if lp.status ≠ MS_DEFAULT then { lp with status := MS_OFF } else lp)) =
      layerIndices (fun lp => layerMatches m.name lp t && lp.status != MS_DEFAULT) 0 m.layers :=
    fun t => layerIndices_map _ _ (fun lp => selected_reset m.name t lp) m.layers 0
  simp only [hmap]
  rw [pushAll_append, pushAll_append, List.length_append]
  congr 1
  omega

theorem countP_or_disjoint (p q : layerObj → Bool) (l : List layerObj)
    (h : ∀ x ∈ l, ¬ (p x = true ∧ q x = true)) :
    l.countP (fun x => p x || q x) = l.countP p + l.countP q := by
  induction l with
  | nil => rfl
  | cons x xs ih =>
    have hx := h x (List.mem_cons_self _ _)
    have ih2 := ih (fun y hy => h y (List.mem_cons_of_mem _ hy))
    simp only [List.countP_cons, ih2]
    cases hp : p x <;> cases hq : q x <;> simp_all <;> omega

theorem length_selected (mapname : Option String) (layers : List layerObj) (toks : List String)
    (h : disjointTokens mapname toks layers) :
    (toks.map (fun tok =>
      layerIndices (fun lp => layerMatches mapname lp tok && lp.status != MS_DEFAULT) 0
        layers)).flatten.length =
    layers.countP (fun lp =>
      toks.any (fun tok => layerMatches mapname lp tok) && lp.status != MS_DEFAULT) := by
  induction toks with
  | nil => simp
  | cons tok toks ih =>
    unfold disjointTokens at h
    rw [List.pairwise_cons] at h
    have ih2 := ih h.2
    simp only [List.map_cons, List.flatten_cons, List.length_append, length_layerIndices] at ih2 ⊢
    rw [ih2]
    have hd : ∀ x ∈ layers,
        ¬ ((layerMatches mapname x tok && x.status != MS_DEFAULT) = true ∧
           (toks.any (fun t => layerMatches mapname x t) && x.status != MS_DEFAULT) = true) := by
      intro x hx hc
      simp only [Bool.and_eq_true, List.any_eq_true] at hc
      obtain ⟨⟨h1, _⟩, ⟨t, ht, h2⟩, _⟩ := hc
      exact h.1 t ht x hx ⟨h1, h2⟩
    rw [← countP_or_disjoint _ _ layers hd]
    apply List.countP_congr
    intro x _
    simp only [List.any_cons, Bool.and_eq_true, Bool.or_eq_true]
    tauto

theorem count_partition (p q r : layerObj → Bool) (l : List layerObj)
    (h : ∀ x, (p x = true ∧ q x = false ∧ r x = false) ∨ (p x = false ∧ q x = true ∧ r x = false) ∨
              (p x = false ∧ q x = false ∧ r x = true)) :
    l.countP p + l.countP q + l.countP r = l.length := by
  induction l with
  | nil => rfl
  | cons x xs ih =>
    simp only [List.countP_cons, List.length_cons]
    rcases h x with ⟨h1, h2, h3⟩ | ⟨h1, h2, h3⟩ | ⟨h1, h2, h3⟩ <;> simp [h1, h2, h3] <;> omega

theorem length_expectedOrder (mapname : Option String) (layers : List layerObj) (toks : List String)
    (h : disjointTokens mapname toks layers) :
    (expectedOrder mapname toks layers
      (layers.map (fun lp => { lp with status := selectedStatus mapname toks lp }))).length =
    layers.length := by
  simp only [expectedOrder, List.length_append, length_selected mapname layers toks h,
    length_layerIndices, List.countP_map]
  apply count_partition
  intro lp
  have h1 : ¬ MS_DEFAULT = MS_OFF := by decide
  have h2 : ¬ MS_ON = MS_OFF := by decide
  by_cases hd : lp.status = MS_DEFAULT
  · left
    simp [hd, selectedStatus, h1]
  · by_cases ha : toks.any (fun tok => layerMatches mapname lp tok) = true
    · right; left
      simp only [Function.comp, selectedStatus, hd, ha, if_true, if_false]
      simp [hd, h2]
    · right; right
      simp only [Function.comp, selectedStatus, hd, ha, if_false]
      simp [hd]

theorem gmpScanStep_layers (env : Env) (nVersion : Int) (st : wmsState) (v : gmpVars)
    (name value : String) (hn : strcaseEq name "LAYERS" = true) :
    gmpScanStep env nVersion st v (name, value) = loadLayersParam env st nVersion v value := by
  have h1 := strcaseEq_excl "REQUEST" (by decide) hn
  have h2 := strcaseEq_excl "SLD" (by decide) hn
  have h3 := strcaseEq_excl "SLD_BODY" (by decide) hn
  simp [gmpScanStep, loadSLDParam, h1, h2, h3, hn]

theorem loadOtherParam_nLayerOrder (env : Env) (nVersion : Int) (st st2 : wmsState) (v v2 : gmpVars)
    (name value : String)
    (h : loadOtherParam env nVersion st v name value = .ok (st2, v2)) :
    v2.nLayerOrder = v.nLayerOrder := by
  unfold loadOtherParam at h
  split_ifs at h
  all_goals first | (cases h; rfl) | skip
  · unfold loadSrsParam at h
    simp only [] at h
    split_ifs at h <;> (cases h; rfl)
  · unfold loadBboxParam at h
    simp only [] at h
    split_ifs at h
    cases h
    rfl
  · unfold loadFormatParam at h
    simp only [] at h
    split at h
    · cases h
    · split_ifs at h
      cases h
      rfl

theorem gmpScanStep_nLayerOrder (env : Env) (nVersion : Int) (st st2 : wmsState) (v v2 : gmpVars)
    (p : String × String) (hn : strcaseEq p.1 "LAYERS" = false)
    (h : gmpScanStep env nVersion st v p = .ok (st2, v2)) : v2.nLayerOrder = v.nLayerOrder := by
  have hv1 : (if strcaseEq p.1 "REQUEST" = true then { v with request := some p.2 } else v).nLayerOrder
      = v.nLayerOrder := by split_ifs <;> rfl
  unfold gmpScanStep at h
  simp only [] at h
  generalize (if strcaseEq p.1 "REQUEST" = true then { v with request := some p.2 } else v) = v1
    at h hv1
  split at h
  · cases h
  · rw [hn, if_neg Bool.false_ne_true] at h
    rw [loadOtherParam_nLayerOrder env nVersion _ st2 v1 v2 p.1 p.2 h, hv1]

theorem gmpScan_nLayerOrder (env : Env) (nVersion : Int) (pre : List (String × String)) :
    ∀ (st st2 : wmsState) (v v2 : gmpVars), noParam "LAYERS" pre = true →
      gmpScan env nVersion pre st v = .ok (st2, v2) → v2.nLayerOrder = v.nLayerOrder := by
  induction pre with
  | nil =>
    intro st st2 v v2 _ h
    simp only [gmpScan, Except.ok.injEq, Prod.mk.injEq] at h
    rw [h.2]
  | cons p ps ih =>
    intro st st2 v v2 hno h
    simp only [noParam, List.all_cons, Bool.and_eq_true, Bool.not_eq_true'] at hno
    simp only [gmpScan] at h
    split at h
    · cases h
    · rename_i r hr
      have h1 := gmpScanStep_nLayerOrder env nVersion st r.1 v r.2 p hno.1 hr
      have h2 := ih r.1 st2 r.2 v2 hno.2 h
      rw [h2, h1]

/-- C8: the model run on the GetMap request with `LAYERS=a,a` over a map with the two layers
`a` and `b`: `msWMSLoadGetMapParams` returns MS_SUCCESS, layer `a` is stored twice, the entries
below `numlayers` are 0, 0 (no permutation), and the index of `b` is stored at position 2,
past `numlayers`. -/
theorem loadGetMapParams_repeated_token :
    (msWMSLoadGetMapParams sampleEnv
      (freshState (sampleMap [sampleLayer "a" none MS_OFF, sampleLayer "b" none MS_OFF])) OWS_1_1_1
      [("SERVICE", "WMS"), ("VERSION", "1.1.1"), ("REQUEST", "GetMap"), ("LAYERS", "a,a"),
       ("STYLES", ""), ("SRS", "EPSG:4326"), ("BBOX", "0,0,4,3"), ("WIDTH", "400"),
       ("HEIGHT", "300"), ("FORMAT", "image/png")]).1 = MS_SUCCESS ∧
    (msWMSLoadGetMapParams sampleEnv
      (freshState (sampleMap [sampleLayer "a" none MS_OFF, sampleLayer "b" none MS_OFF])) OWS_1_1_1
      [("SERVICE", "WMS"), ("VERSION", "1.1.1"), ("REQUEST", "GetMap"), ("LAYERS", "a,a"),
       ("STYLES", ""), ("SRS", "EPSG:4326"), ("BBOX", "0,0,4,3"), ("WIDTH", "400"),
       ("HEIGHT", "300"), ("FORMAT", "image/png")]).2.map.layerorder = [0, 0, 1] := by
  decide!

/-- C9: in the parameter loop of `msWMSLoadGetMapParams`, when a LAYERS parameter comes after
parameters `pre` none of which is named LAYERS (it is the first LAYERS parameter of the
request) and its tokens select pairwise disjoint sets of layers, then after it is processed
the first `numlayers` entries of `layerorder` are exactly: the layers that were DEFAULT, then
for each token in request order the layers other than DEFAULT that it selects, then the layers
left OFF, each group in source order. -/
theorem layers_layerorder_exact (env : Env) (nVersion : Int) (st0 st : wmsState) (v : gmpVars)
    (pre : List (String × String)) (name value : String)
    (hpre : gmpScan env nVersion pre st0 gmpVars.init = .ok (st, v))
    (hno : noParam "LAYERS" pre = true)
    (hn : strcaseEq name "LAYERS" = true)
    (hne : env.msStringSplit value ',' ≠ [])
    (hd : disjointTokens st.map.name (env.msStringSplit value ',') st.map.layers) :
    ∃ st2 v2, gmpScanStep env nVersion st v (name, value) = .ok (st2, v2) ∧
      st2.map.layerorder.take st.map.numlayers =
        expectedOrder st.map.name (env.msStringSplit value ',') st.map.layers st2.map.layers := by
  have h0 : v.nLayerOrder = 0 := gmpScan_nLayerOrder env nVersion pre st0 st gmpVars.init v hno hpre
  have hlen : ¬ (env.msStringSplit value ',').length < 1 := by
    cases hs : env.msStringSplit value ',' with
    | nil => exact absurd hs hne
    | cons a b => simp
  refine ⟨{ st with map := (processLayers st.map v (env.msStringSplit value ',')).1 },
    (processLayers st.map v (env.msStringSplit value ',')).2, ?_, ?_⟩
  · rw [gmpScanStep_layers env nVersion st v name value hn]
    simp only [loadLayersParam, if_neg hlen]
  · show (processLayers st.map v (env.msStringSplit value ',')).1.layerorder.take st.map.numlayers = _
    have hl := length_expectedOrder st.map.name st.map.layers (env.msStringSplit value ',') hd
    rw [← processLayers_layers st.map v] at hl
    rw [processLayers_layerorder, h0]
    have hn2 : st.map.numlayers = (expectedOrder st.map.name (env.msStringSplit value ',')
        st.map.layers (processLayers st.map v (env.msStringSplit value ',')).1.layers).length := by
      rw [hl]; rfl
    rw [hn2]
    exact take_pushAll_zero _ _

/-- C9 on a map with the layers a (OFF, group g), b (DEFAULT), c (ON), d (OFF, group g) and the
request `SERVICE=WMS&REQUEST=GetMap&LAYERS=c,a`, at its parameter LAYERS. -/
theorem layers_layerorder_exact_witness :
    ∃ st2 v2, gmpScanStep sampleEnv OWS_1_1_1
        (freshState (sampleMap [sampleLayer "a" (some "g") MS_OFF, sampleLayer "b" none MS_DEFAULT,
          sampleLayer "c" none MS_ON, sampleLayer "d" (some "g") MS_OFF]))
        { gmpVars.init with request := some "GetMap" } ("LAYERS", "c,a") = .ok (st2, v2) ∧
      st2.map.layerorder.take 4 =
        expectedOrder (some "demo") ["c", "a"]
          [sampleLayer "a" (some "g") MS_OFF, sampleLayer "b" none MS_DEFAULT,
           sampleLayer "c" none MS_ON, sampleLayer "d" (some "g") MS_OFF] st2.map.layers :=
  layers_layerorder_exact sampleEnv OWS_1_1_1
    (freshState (sampleMap [sampleLayer "a" (some "g") MS_OFF, sampleLayer "b" none MS_DEFAULT,
      sampleLayer "c" none MS_ON, sampleLayer "d" (some "g") MS_OFF]))
    (freshState (sampleMap [sampleLayer "a" (some "g") MS_OFF, sampleLayer "b" none MS_DEFAULT,
      sampleLayer "c" none MS_ON, sampleLayer "d" (some "g") MS_OFF]))
    { gmpVars.init with request := some "GetMap" }
    [("SERVICE", "WMS"), ("REQUEST", "GetMap")] "LAYERS" "c,a"
    rfl (by decide) (by decide) (by decide) (by unfold disjointTokens; decide)

/-- C10: after a LAYERS parameter is processed, every layer is the layer it was with a new
status: DEFAULT exactly when it was DEFAULT; ON exactly when it was not DEFAULT and some token
equals, ignoring case, its name, its group or the map name; OFF exactly when it was not DEFAULT
and no token does, whatever its ON/OFF status was before. -/
theorem layers_status (env : Env) (nVersion : Int) (st : wmsState) (v : gmpVars)
    (name value : String) (hn : strcaseEq name "LAYERS" = true)
    (hne : env.msStringSplit value ',' ≠ []) :
    ∃ st2 v2, gmpScanStep env nVersion st v (name, value) = .ok (st2, v2) ∧
      st2.map.layers = st.map.layers.map (fun lp =>
        { lp with status := selectedStatus st.map.name (env.msStringSplit value ',') lp }) ∧
      ∀ lp : layerObj,
        (selectedStatus st.map.name (env.msStringSplit value ',') lp = MS_DEFAULT ↔
          lp.status = MS_DEFAULT) ∧
        (selectedStatus st.map.name (env.msStringSplit value ',') lp = MS_ON ↔
          lp.status ≠ MS_DEFAULT ∧ ∃ tok ∈ env.msStringSplit value ',',
            (optCaseEq lp.name tok = true ∨ optCaseEq lp.group tok = true ∨
             optCaseEq st.map.name tok = true)) ∧
        (selectedStatus st.map.name (env.msStringSplit value ',') lp = MS_OFF ↔
          lp.status ≠ MS_DEFAULT ∧ ¬ ∃ tok ∈ env.msStringSplit value ',',
            (optCaseEq lp.name tok = true ∨ optCaseEq lp.group tok = true ∨
             optCaseEq st.map.name tok = true)) := by
  have hlen : ¬ (env.msStringSplit value ',').length < 1 := by
    cases hs : env.msStringSplit value ',' with
    | nil => exact absurd hs hne
    | cons a b => simp
  refine ⟨{ st with map := (processLayers st.map v (env.msStringSplit value ',')).1 },
    (processLayers st.map v (env.msStringSplit value ',')).2, ?_, ?_, ?_⟩
  · rw [gmpScanStep_layers env nVersion st v name value hn]
    simp only [loadLayersParam, if_neg hlen]
  · exact processLayers_layers st.map v _
  · intro lp
    have hany : (env.msStringSplit value ',').any (fun tok => layerMatches st.map.name lp tok) = true ↔
        ∃ tok ∈ env.msStringSplit value ',',
          (optCaseEq lp.name tok = true ∨ optCaseEq lp.group tok = true ∨
           optCaseEq st.map.name tok = true) := by
      simp only [List.any_eq_true, layerMatches, Bool.or_eq_true]
      constructor
      · rintro ⟨t, ht, h⟩; exact ⟨t, ht, by tauto⟩
      · rintro ⟨t, ht, h⟩; exact ⟨t, ht, by tauto⟩
    have d1 : ¬ MS_ON = MS_DEFAULT := by decide
    have d2 : ¬ MS_OFF = MS_DEFAULT := by decide
    have d3 : ¬ MS_DEFAULT = MS_ON := by decide
    have d4 : ¬ MS_DEFAULT = MS_OFF := by decide
    have d5 : ¬ MS_ON = MS_OFF := by decide
    have d6 : ¬ MS_OFF = MS_ON := by decide
    rw [← hany]
    unfold selectedStatus
    by_cases h1 : lp.status = MS_DEFAULT
    · simp [h1, d3, d4]
    · by_cases h2 : (env.msStringSplit value ',').any (fun tok => layerMatches st.map.name lp tok) = true
      · simp only [h1, h2, if_true, if_false]
        simp [d1, d5, h1]
      · simp only [h1, h2, if_false]
        simp [d2, d6, h1]

/-- C10 on a map with the layers a (ON) and b (ON) and `LAYERS=B`: a is switched OFF, b is ON. -/
theorem layers_status_witness :
    ∃ st2 v2, gmpScanStep sampleEnv OWS_1_1_1
        (freshState (sampleMap [sampleLayer "a" none MS_ON, sampleLayer "b" none MS_ON]))
        gmpVars.init ("LAYERS", "B") = .ok (st2, v2) ∧
      st2.map.layers.map (fun lp => lp.status) = [MS_OFF, MS_ON] :=
  have w := layers_status sampleEnv OWS_1_1_1
    (freshState (sampleMap [sampleLayer "a" none MS_ON, sampleLayer "b" none MS_ON]))
    gmpVars.init "LAYERS" "B" (by decide) (by decide)
  match w with
  | ⟨st2, v2, h1, h2, _⟩ => ⟨st2, v2, h1, by rw [h2]; decide⟩

/-! ## The steps of msWMSLoadGetMapParams: decomposition lemmas -/

theorem msWMSLoadGetMapParams_eq (env : Env) (st : wmsState) (nVersion : Int)
    (params : List (String × String)) :
    msWMSLoadGetMapParams env st nVersion params =
      match gmpScan env nVersion params (gmpEnter env st) gmpVars.init with
      | .error e => e
      | .ok r => gmpAfterScan env nVersion params r.1 r.2 := by
  unfold msWMSLoadGetMapParams gmpEnter
  simp only []
  split <;> rename_i h <;> rw [h]
  rfl

theorem gmpFinish_eq (env : Env) (nVersion : Int) (params : List (String × String))
    (st : wmsState) (v : gmpVars) :
    gmpFinish env nVersion params st v =
      if sizeInvalid st.map then
        msWMSException env
          (msSetError { st with map := { st.map with width := 400, height := 300 } }
            "Image size out of range, WIDTH and HEIGHT must be between 1 and %d pixels.")
          nVersion none
      else gmpAfterSize env nVersion params st v := by
  rfl

set_option maxHeartbeats 1000000 in
theorem loadOtherParam_vars (env : Env) (nVersion : Int) (st st2 : wmsState) (v v2 : gmpVars)
    (name value : String)
    (h : loadOtherParam env nVersion st v name value = .ok (st2, v2)) :
    v2.request = v.request ∧
    v2.styles = (if strcaseEq name "STYLES" then some value else v.styles) ∧
    (v2.nLayerOrder = v.nLayerOrder ∧ v2.validlayers = v.validlayers ∧
      v2.invalidlayers = v.invalidlayers) ∧
    (strcaseEq name "SRS" = false →
      v2.srsfound = v.srsfound ∧ v2.epsgbuf = v.epsgbuf ∧ v2.srsbuffer = v.srsbuffer) ∧
    (strcaseEq name "BBOX" = false →
      v2.bboxfound = v.bboxfound ∧ v2.adjust_extent = v.adjust_extent) ∧
    (strcaseEq name "WIDTH" = false → v2.widthfound = v.widthfound) ∧
    (strcaseEq name "HEIGHT" = false → v2.heightfound = v.heightfound) ∧
    (strcaseEq name "FORMAT" = false → v2.formatfound = v.formatfound) := by
  unfold loadOtherParam at h
  split_ifs at h
  all_goals first | (cases h; simp_all) | skip
  · unfold loadSrsParam at h
    simp only [] at h
    split_ifs at h <;> (cases h; simp_all)
  · unfold loadBboxParam at h
    simp only [] at h
    split_ifs at h
    cases h
    simp_all
  · unfold loadFormatParam at h
    simp only [] at h
    split at h
    · cases h
    · split_ifs at h
      cases h
      simp_all

theorem loadOtherParam_map (env : Env) (nVersion : Int) (st st2 : wmsState) (v v2 : gmpVars)
    (name value : String)
    (h : loadOtherParam env nVersion st v name value = .ok (st2, v2)) :
    st2.map.layers = st.map.layers ∧ st2.map.name = st.map.name ∧
    st2.map.projection = st.map.projection ∧ st2.map.maxsize = st.map.maxsize ∧
    (strcaseEq name "BBOX" = false → st2.map.extent = st.map.extent) := by
  unfold loadOtherParam at h
  split_ifs at h
  all_goals first | (cases h; simp_all) | skip
  · unfold loadSrsParam at h
    simp only [] at h
    split_ifs at h <;> (cases h; simp_all)
  · unfold loadBboxParam at h
    simp only [] at h
    split_ifs at h
    cases h
    simp_all
  · unfold loadFormatParam at h
    simp only [] at h
    split at h
    · cases h
    · split_ifs at h
      cases h
      simp_all

theorem loadSLDParam_frame (env : Env) (nVersion : Int) (st st2 : wmsState) (name value : String)
    (hk : sldKeepsFrame env)
    (h : loadSLDParam env st nVersion name value = .ok st2) :
    st2.map.extent = st.map.extent ∧ st2.map.projection = st.map.projection := by
  have k := hk st.map value
  unfold loadSLDParam at h
  simp only [] at h
  by_cases h1 : strcaseEq name "SLD" = true
  · have h2 := strcaseEq_excl "SLD_BODY" (by decide) h1
    simp only [h1, h2, Bool.true_or, if_true, Bool.false_eq_true, if_false] at h
    split_ifs at h
    cases h
    exact ⟨k.1, k.2.1⟩
  · by_cases h2 : strcaseEq name "SLD_BODY" = true
    · simp only [h1, h2, Bool.or_true, if_true, Bool.false_eq_true, if_false] at h
      split_ifs at h
      cases h
      exact ⟨k.2.2.1, k.2.2.2⟩
    · simp only [h1, h2, Bool.or_self, Bool.false_eq_true, if_false] at h
      cases h
      exact ⟨rfl, rfl⟩

theorem loadSLDParam_error (env : Env) (nVersion : Int) (st : wmsState) (name value : String)
    (e : Int × wmsState) (h : loadSLDParam env st nVersion name value = .error e) :
    e.1 = MS_FAILURE := by
  unfold loadSLDParam at h
  simp only [] at h
  by_cases h1 : strcaseEq name "SLD" = true
  · have h2 := strcaseEq_excl "SLD_BODY" (by decide) h1
    simp only [h1, h2, Bool.true_or, if_true, Bool.false_eq_true, if_false] at h
    split_ifs at h <;> (cases h; rfl)
  · by_cases h2 : strcaseEq name "SLD_BODY" = true
    · simp only [h1, h2, Bool.or_true, if_true, Bool.false_eq_true, if_false] at h
      split_ifs at h <;> (cases h; rfl)
    · simp only [h1, h2, Bool.or_self, Bool.false_eq_true, if_false] at h
      cases h

theorem loadSLDParam_other (env : Env) (nVersion : Int) (st : wmsState) (name value : String)
    (h1 : strcaseEq name "SLD" = false) (h2 : strcaseEq name "SLD_BODY" = false) :
    loadSLDParam env st nVersion name value = .ok st := by
  simp [loadSLDParam, h1, h2]

theorem loadOtherParam_error (env : Env) (nVersion : Int) (st : wmsState) (v : gmpVars)
    (name value : String) (e : Int × wmsState)
    (h : loadOtherParam env nVersion st v name value = .error e) : e.1 = MS_FAILURE := by
  unfold loadOtherParam at h
  split_ifs at h
  · unfold loadSrsParam at h
    simp only [] at h
    split_ifs at h
    cases h
    rfl
  · unfold loadBboxParam at h
    simp only [] at h
    split_ifs at h <;> (cases h; rfl)
  · unfold loadFormatParam at h
    simp only [] at h
    split at h
    · cases h; rfl
    · split_ifs at h
      cases h
      rfl

/-- The request variable after the REQUEST test that opens a turn of the parameter loop. -/
theorem gmpScanStep_def (env : Env) (nVersion : Int) (st : wmsState) (v : gmpVars)
    (p : String × String) :
    gmpScanStep env nVersion st v p =
      match loadSLDParam env st nVersion p.1 p.2 with
      | .error e => .error e
      | .ok st2 =>
        if strcaseEq p.1 "LAYERS" then
          loadLayersParam env st2 nVersion
            (if strcaseEq p.1 "REQUEST" then { v with request := some p.2 } else v) p.2
        else
          loadOtherParam env nVersion st2
            (if strcaseEq p.1 "REQUEST" then { v with request := some p.2 } else v) p.1 p.2 := rfl

theorem gmpScanStep_error (env : Env) (nVersion : Int) (st : wmsState) (v : gmpVars)
    (p : String × String) (e : Int × wmsState)
    (h : gmpScanStep env nVersion st v p = .error e) : e.1 = MS_FAILURE := by
  rw [gmpScanStep_def] at h
  generalize (if strcaseEq p.1 "REQUEST" = true then { v with request := some p.2 } else v) = v1 at h
  split at h
  · rename_i e2 he
    cases h
    exact loadSLDParam_error env nVersion st p.1 p.2 _ he
  · split_ifs at h
    · unfold loadLayersParam at h
      simp only [] at h
      split_ifs at h
      cases h
      rfl
    · exact loadOtherParam_error env nVersion _ _ p.1 p.2 e h

theorem gmpScan_error (env : Env) (nVersion : Int) (ps : List (String × String)) :
    ∀ (st : wmsState) (v : gmpVars) (e : Int × wmsState),
      gmpScan env nVersion ps st v = .error e → e.1 = MS_FAILURE := by
  induction ps with
  | nil => intro st v e h; cases h
  | cons p ps ih =>
    intro st v e h
    simp only [gmpScan] at h
    split at h
    · rename_i e2 he
      cases h
      exact gmpScanStep_error env nVersion st v p _ he
    · exact ih _ _ e h

theorem gmpScan_append (env : Env) (nVersion : Int) (pre post : List (String × String)) :
    ∀ (st : wmsState) (v : gmpVars),
      gmpScan env nVersion (pre ++ post) st v =
        match gmpScan env nVersion pre st v with
        | .error e => .error e
        | .ok r => gmpScan env nVersion post r.1 r.2 := by
  induction pre with
  | nil => intro st v; rfl
  | cons p ps ih =>
    intro st v
    simp only [List.cons_append, gmpScan]
    split
    · rfl
    · exact ih _ _

theorem gmpScanStep_vars (env : Env) (nVersion : Int) (st st2 : wmsState) (v v2 : gmpVars)
    (p : String × String) (h : gmpScanStep env nVersion st v p = .ok (st2, v2)) :
    v2.request = (if strcaseEq p.1 "REQUEST" then some p.2 else v.request) ∧
    v2.styles = (if strcaseEq p.1 "STYLES" then some p.2 else v.styles) ∧
    (strcaseEq p.1 "LAYERS" = false →
      v2.nLayerOrder = v.nLayerOrder ∧ v2.validlayers = v.validlayers ∧
      v2.invalidlayers = v.invalidlayers) ∧
    (strcaseEq p.1 "SRS" = false →
      v2.srsfound = v.srsfound ∧ v2.epsgbuf = v.epsgbuf ∧ v2.srsbuffer = v.srsbuffer) ∧
    (strcaseEq p.1 "BBOX" = false →
      v2.bboxfound = v.bboxfound ∧ v2.adjust_extent = v.adjust_extent) ∧
    (strcaseEq p.1 "WIDTH" = false → v2.widthfound = v.widthfound) ∧
    (strcaseEq p.1 "HEIGHT" = false → v2.heightfound = v.heightfound) ∧
    (strcaseEq p.1 "FORMAT" = false → v2.formatfound = v.formatfound) := by
  rw [gmpScanStep_def] at h
  have hv1 : ∀ v1 : gmpVars,
      v1 = (if strcaseEq p.1 "REQUEST" = true then { v with request := some p.2 } else v) →
      v1.request = (if strcaseEq p.1 "REQUEST" then some p.2 else v.request) ∧
      v1.styles = v.styles ∧ v1.nLayerOrder = v.nLayerOrder ∧ v1.validlayers = v.validlayers ∧
      v1.invalidlayers = v.invalidlayers ∧ v1.srsfound = v.srsfound ∧ v1.epsgbuf = v.epsgbuf ∧
      v1.srsbuffer = v.srsbuffer ∧ v1.bboxfound = v.bboxfound ∧
      v1.adjust_extent = v.adjust_extent ∧ v1.widthfound = v.widthfound ∧
      v1.heightfound = v.heightfound ∧ v1.formatfound = v.formatfound := by
    intro v1 e
    subst e
    split_ifs <;> simp
  obtain ⟨a1, a2, a3, a4, a5, a6, a7, a8, a9, a10, a11, a12, a13⟩ := hv1 _ rfl
  generalize (if strcaseEq p.1 "REQUEST" = true then { v with request := some p.2 } else v) = v1
    at h a1 a2 a3 a4 a5 a6 a7 a8 a9 a10 a11 a12 a13
  split at h
  · cases h
  · split_ifs at h with hl
    · have hs := strcaseEq_excl "STYLES" (by decide) hl
      unfold loadLayersParam at h
      simp only [] at h
      split_ifs at h
      cases h
      simp [processLayers, hs, hl, a1, a2, a6, a7, a8, a9, a10, a11, a12, a13]
    · obtain ⟨b1, b2, b3, b4, b5, b6, b7, b8⟩ := loadOtherParam_vars env nVersion _ st2 v1 v2 p.1 p.2 h
      refine ⟨by rw [b1, a1], by rw [b2, a2], fun _ => ?_, fun hc => ?_, fun hc => ?_, fun hc => ?_,
        fun hc => ?_, fun hc => ?_⟩
      · rw [b3.1, b3.2.1, b3.2.2, a3, a4, a5]; exact ⟨rfl, rfl, rfl⟩
      · rw [(b4 hc).1, (b4 hc).2.1, (b4 hc).2.2, a6, a7, a8]; exact ⟨rfl, rfl, rfl⟩
      · rw [(b5 hc).1, (b5 hc).2, a9, a10]; exact ⟨rfl, rfl⟩
      · rw [b6 hc, a11]
      · rw [b7 hc, a12]
      · rw [b8 hc, a13]

theorem gmpScanStep_frame (env : Env) (nVersion : Int) (st st2 : wmsState) (v v2 : gmpVars)
    (p : String × String) (hk : sldKeepsFrame env)
    (h : gmpScanStep env nVersion st v p = .ok (st2, v2)) :
    st2.map.projection = st.map.projection ∧
    (strcaseEq p.1 "BBOX" = false → st2.map.extent = st.map.extent) := by
  rw [gmpScanStep_def] at h
  generalize (if strcaseEq p.1 "REQUEST" = true then { v with request := some p.2 } else v) = v1 at h
  split at h
  · cases h
  · rename_i st1 hs
    obtain ⟨k1, k2⟩ := loadSLDParam_frame env nVersion st st1 p.1 p.2 hk hs
    split_ifs at h with hl
    · unfold loadLayersParam at h
      simp only [] at h
      split_ifs at h
      cases h
      simp [processLayers, k1, k2]
    · obtain ⟨_, _, b3, _, b5⟩ := loadOtherParam_map env nVersion _ st2 v1 v2 p.1 p.2 h
      exact ⟨by rw [b3, k2], fun hc => by rw [b5 hc, k1]⟩

/-- An invariant of the parameter loop: a relation that holds across every successful turn,
is reflexive and transitive, holds from the start of the loop to its end. -/
theorem gmpScan_rel (env : Env) (nVersion : Int)
    (R : wmsState × gmpVars → wmsState × gmpVars → Prop)
    (hrefl : ∀ a, R a a) (htrans : ∀ a b c, R a b → R b c → R a c)
    (ps : List (String × String)) :
    ∀ (st st2 : wmsState) (v v2 : gmpVars),
      (∀ p ∈ ps, ∀ (sa sb : wmsState) (va vb : gmpVars),
        gmpScanStep env nVersion sa va p = .ok (sb, vb) → R (sa, va) (sb, vb)) →
      gmpScan env nVersion ps st v = .ok (st2, v2) → R (st, v) (st2, v2) := by
  induction ps with
  | nil =>
    intro st st2 v v2 _ h
    simp only [gmpScan, Except.ok.injEq, Prod.mk.injEq] at h
    rw [← h.1, ← h.2]
    exact hrefl _
  | cons p ps ih =>
    intro st st2 v v2 hstep h
    simp only [gmpScan] at h
    split at h
    · cases h
    · rename_i r hr
      have h1 := hstep p (List.mem_cons_self _ _) st r.1 v r.2 hr
      have h2 := ih r.1 st2 r.2 v2 (fun q hq => hstep q (List.mem_cons_of_mem _ hq)) h
      exact htrans _ _ _ h1 h2

/-- A variable that every turn either sets to the value of the parameter named `name` or
leaves alone holds, after the loop, the value of the last such parameter. -/
theorem gmpScan_last (env : Env) (nVersion : Int) (f : gmpVars → Option String) (name : String)
    (hstep : ∀ (p : String × String) (sa sb : wmsState) (va vb : gmpVars),
      gmpScanStep env nVersion sa va p = .ok (sb, vb) →
      f vb = if strcaseEq p.1 name then some p.2 else f va)
    (ps : List (String × String)) :
    ∀ (st st2 : wmsState) (v v2 : gmpVars),
      gmpScan env nVersion ps st v = .ok (st2, v2) →
      f v2 = ps.foldl (fun acc p => if strcaseEq p.1 name then some p.2 else acc) (f v) := by
  induction ps with
  | nil =>
    intro st st2 v v2 h
    simp only [gmpScan, Except.ok.injEq, Prod.mk.injEq] at h
    rw [← h.2]
    rfl
  | cons p ps ih =>
    intro st st2 v v2 h
    simp only [gmpScan] at h
    split at h
    · cases h
    · rename_i r hr
      rw [ih r.1 st2 r.2 v2 h, hstep p st r.1 v r.2 hr]
      rfl

/-! ## SRS and BBOX in the parameter loop -/

theorem gmpScan_ok_mem (env : Env) (nVersion : Int) (ps : List (String × String)) :
    ∀ (st : wmsState) (v : gmpVars) (r : wmsState × gmpVars),
      gmpScan env nVersion ps st v = .ok r →
      ∀ p ∈ ps, ∃ (sa : wmsState) (va : gmpVars) (rb : wmsState × gmpVars),
        gmpScanStep env nVersion sa va p = .ok rb := by
  induction ps with
  | nil => intro st v r _ p hp; cases hp
  | cons q qs ih =>
    intro st v r h p hp
    simp only [gmpScan] at h
    split at h
    · cases h
    · rename_i r1 hr
      rcases List.mem_cons.1 hp with hq | hq
      · subst hq
        exact ⟨st, v, r1, hr⟩
      · exact ih _ _ r h p hq

/-- A parameter whose turn fails in every state makes `msWMSLoadGetMapParams` return MS_FAILURE. -/
theorem loadGetMapParams_failure_of_bad_param (env : Env) (st : wmsState) (nVersion : Int)
    (params : List (String × String)) (p : String × String) (hp : p ∈ params)
    (hbad : ∀ (sa : wmsState) (va : gmpVars) (rb : wmsState × gmpVars),
      gmpScanStep env nVersion sa va p ≠ .ok rb) :
    (msWMSLoadGetMapParams env st nVersion params).1 = MS_FAILURE := by
  rw [msWMSLoadGetMapParams_eq]
  cases hs : gmpScan env nVersion params (gmpEnter env st) gmpVars.init with
  | error e => exact gmpScan_error env nVersion params _ _ e hs
  | ok r =>
    obtain ⟨sa, va, rb, hb⟩ := gmpScan_ok_mem env nVersion params _ _ r hs p hp
    exact absurd hb (hbad sa va rb)

theorem gmpScanStep_srs (env : Env) (nVersion : Int) (st : wmsState) (v : gmpVars)
    (name value : String) (hn : strcaseEq name "SRS" = true) :
    gmpScanStep env nVersion st v (name, value) = loadSrsParam env st nVersion v value := by
  have h1 := strcaseEq_excl "REQUEST" (by decide) hn
  have h2 := strcaseEq_excl "SLD" (by decide) hn
  have h3 := strcaseEq_excl "SLD_BODY" (by decide) hn
  have h4 := strcaseEq_excl "LAYERS" (by decide) hn
  have h5 := strcaseEq_excl "STYLES" (by decide) hn
  simp [gmpScanStep, loadSLDParam, loadOtherParam, h1, h2, h3, h4, h5, hn]

theorem gmpScanStep_bbox (env : Env) (nVersion : Int) (st : wmsState) (v : gmpVars)
    (name value : String) (hn : strcaseEq name "BBOX" = true) :
    gmpScanStep env nVersion st v (name, value) = loadBboxParam env st nVersion v value := by
  have h1 := strcaseEq_excl "REQUEST" (by decide) hn
  have h2 := strcaseEq_excl "SLD" (by decide) hn
  have h3 := strcaseEq_excl "SLD_BODY" (by decide) hn
  have h4 := strcaseEq_excl "LAYERS" (by decide) hn
  have h5 := strcaseEq_excl "STYLES" (by decide) hn
  have h6 := strcaseEq_excl "SRS" (by decide) hn
  simp [gmpScanStep, loadSLDParam, loadOtherParam, h1, h2, h3, h4, h5, h6, hn]

theorem gmpScan_projection (env : Env) (nVersion : Int) (hk : sldKeepsFrame env)
    (ps : List (String × String)) (st st2 : wmsState) (v v2 : gmpVars)
    (h : gmpScan env nVersion ps st v = .ok (st2, v2)) :
    st2.map.projection = st.map.projection :=
  gmpScan_rel env nVersion (fun a b => b.1.map.projection = a.1.map.projection)
    (fun _ => rfl) (fun _ _ _ h1 h2 => h2.trans h1) ps st st2 v v2
    (fun p _ sa sb va vb hs => (gmpScanStep_frame env nVersion sa sb va vb p hk hs).1) h

/-- C14 fails as stated: the code of `SRS=EPSG:123456789012345678901` has 21 characters and the
scan caches `init=epsg:` followed by its first 20 characters only. -/
theorem srs_cached_counterexample :
    ∃ st2 v2, gmpScanStep sampleEnv OWS_1_1_1 (freshState (sampleMap [])) gmpVars.init
        ("SRS", "EPSG:123456789012345678901") = .ok (st2, v2) ∧
      v2.srsbuffer = "init=epsg:12345678901234567890" ∧
      v2.srsbuffer ≠ "init=epsg:123456789012345678901" :=
  ⟨freshState (sampleMap []),
   { gmpVars.init with srsfound := 1, srsbuffer := "init=epsg:12345678901234567890",
                       epsgbuf := "EPSG:12345678901234567890" },
   by rfl, by decide, by decide⟩

/-- C14 (amended): a request with an SRS parameter whose value begins, ignoring case, with
neither `EPSG:` nor `AUTO:` makes `msWMSLoadGetMapParams` return MS_FAILURE, and when the loop
reaches that parameter the function is the `msWMSException` call with code InvalidSRS.  For a
value with the prefix `EPSG:` the turn leaves the state (the map projection included) as it was
and caches `init=epsg:` followed by the first 20 characters of the code, which is the whole code
when it has at most 20 characters.  The parameter loop as a whole leaves the map projection
alone, given that the SLD collaborators do. -/
theorem srs_scan (env : Env) (st : wmsState) (nVersion : Int) (params : List (String × String)) :
    (∀ p ∈ params, strcaseEq p.1 "SRS" = true → strncaseEq p.2 "EPSG:" 5 = false →
        strncaseEq p.2 "AUTO:" 5 = false →
        (msWMSLoadGetMapParams env st nVersion params).1 = MS_FAILURE) ∧
    (∀ (pre post : List (String × String)) (name value : String) (sa : wmsState) (va : gmpVars),
        params = pre ++ (name, value) :: post → strcaseEq name "SRS" = true →
        strncaseEq value "EPSG:" 5 = false → strncaseEq value "AUTO:" 5 = false →
        gmpScan env nVersion pre (gmpEnter env st) gmpVars.init = .ok (sa, va) →
        msWMSLoadGetMapParams env st nVersion params =
          msWMSException env
            (msSetError sa "Unsupported SRS namespace (only EPSG and AUTO currently supported).")
            nVersion (some "InvalidSRS")) ∧
    (∀ (sa : wmsState) (va : gmpVars) (name value : String), strcaseEq name "SRS" = true →
        strncaseEq value "EPSG:" 5 = true →
        ∃ vb, gmpScanStep env nVersion sa va (name, value) = .ok (sa, vb) ∧
          vb.srsbuffer = "init=epsg:" ++ String.mk ((value.data.drop 5).take 20) ∧
          ((value.data.drop 5).length ≤ 20 →
            vb.srsbuffer = "init=epsg:" ++ String.mk (value.data.drop 5))) ∧
    (sldKeepsFrame env → ∀ (st2 : wmsState) (v2 : gmpVars),
        gmpScan env nVersion params (gmpEnter env st) gmpVars.init = .ok (st2, v2) →
        st2.map.projection = st.map.projection) := by
  refine ⟨?_, ?_, ?_, ?_⟩
  · intro p hp hn h1 h2
    apply loadGetMapParams_failure_of_bad_param env st nVersion params p hp
    intro sa va rb hc
    have e : p = (p.1, p.2) := rfl
    rw [e, gmpScanStep_srs env nVersion sa va p.1 p.2 hn] at hc
    simp [loadSrsParam, h1, h2] at hc
  · intro pre post name value sa va hps hn h1 h2 hpre
    rw [msWMSLoadGetMapParams_eq, hps, gmpScan_append, hpre]
    simp only [gmpScan, gmpScanStep_srs env nVersion sa va name value hn]
    simp [loadSrsParam, h1, h2]
  · intro sa va name value hn h1
    refine ⟨{ va with srsfound := 1,
                      srsbuffer := "init=epsg:" ++ String.mk ((value.data.drop 5).take 20),
                      epsgbuf := "EPSG:" ++ String.mk ((value.data.drop 5).take 20) }, ?_, rfl, ?_⟩
    · rw [gmpScanStep_srs env nVersion sa va name value hn]
      simp only [loadSrsParam, h1, if_true]
    · intro hlen
      simp only []
      rw [List.take_of_length_le hlen]
  · intro hk st2 v2 h
    exact gmpScan_projection env nVersion hk params (gmpEnter env st) st2 _ v2 h

/-- C14 (amended) at the request `REQUEST=GetMap&SRS=CRS:84`. -/
theorem srs_scan_witness :
    (msWMSLoadGetMapParams sampleEnv (freshState (sampleMap [])) OWS_1_1_1
      [("REQUEST", "GetMap"), ("SRS", "CRS:84")]).1 = MS_FAILURE :=
  (srs_scan sampleEnv (freshState (sampleMap [])) OWS_1_1_1
    [("REQUEST", "GetMap"), ("SRS", "CRS:84")]).1 ("SRS", "CRS:84")
    (List.mem_cons_of_mem _ (List.mem_singleton.2 rfl)) (by decide) (by decide) (by decide)

/-- C16: a request with a BBOX parameter whose value does not split into exactly four tokens,
or whose values read with minx >= maxx or miny >= maxy, makes `msWMSLoadGetMapParams` return
MS_FAILURE.  For four values with minx < maxx and miny < maxy the BBOX turn succeeds, raises
nothing and leaves these values as the extent of the map. -/
theorem bbox_scan (env : Env) (st : wmsState) (nVersion : Int) (params : List (String × String)) :
    (∀ p ∈ params, strcaseEq p.1 "BBOX" = true →
        ((env.msStringSplit p.2 ',').length ≠ 4 ∨
         env.atof ((env.msStringSplit p.2 ',').getD 0 "") ≥
           env.atof ((env.msStringSplit p.2 ',').getD 2 "") ∨
         env.atof ((env.msStringSplit p.2 ',').getD 1 "") ≥
           env.atof ((env.msStringSplit p.2 ',').getD 3 "")) →
        (msWMSLoadGetMapParams env st nVersion params).1 = MS_FAILURE) ∧
    (∀ (sa : wmsState) (va : gmpVars) (name value : String), strcaseEq name "BBOX" = true →
        (env.msStringSplit value ',').length = 4 →
        env.atof ((env.msStringSplit value ',').getD 0 "") <
          env.atof ((env.msStringSplit value ',').getD 2 "") →
        env.atof ((env.msStringSplit value ',').getD 1 "") <
          env.atof ((env.msStringSplit value ',').getD 3 "") →
        ∃ sb vb, gmpScanStep env nVersion sa va (name, value) = .ok (sb, vb) ∧
          sb.map.extent.minx = env.atof ((env.msStringSplit value ',').getD 0 "") ∧
          sb.map.extent.miny = env.atof ((env.msStringSplit value ',').getD 1 "") ∧
          sb.map.extent.maxx = env.atof ((env.msStringSplit value ',').getD 2 "") ∧
          sb.map.extent.maxy = env.atof ((env.msStringSplit value ',').getD 3 "") ∧
          sb.raised = sa.raised ∧ sb.out = sa.out ∧
          vb.bboxfound = 1 ∧ vb.adjust_extent = MS_TRUE) := by
  refine ⟨?_, ?_⟩
  · intro p hp hn hbad
    apply loadGetMapParams_failure_of_bad_param env st nVersion params p hp
    intro sa va rb hc
    have e : p = (p.1, p.2) := rfl
    rw [e, gmpScanStep_bbox env nVersion sa va p.1 p.2 hn] at hc
    unfold loadBboxParam at hc
    simp only [] at hc
    split_ifs at hc with h1 h2
    · rcases hbad with hb | hb | hb
      · exact h1 hb
      · exact h2 (Or.inl hb)
      · exact h2 (Or.inr hb)
  · intro sa va name value hn h4 hx hy
    rw [gmpScanStep_bbox env nVersion sa va name value hn]
    unfold loadBboxParam
    simp only []
    have h1 : ¬ (env.msStringSplit value ',').length ≠ 4 := by simp [h4]
    have h2 : ¬ (env.atof ((env.msStringSplit value ',').getD 0 "") ≥
           env.atof ((env.msStringSplit value ',').getD 2 "") ∨
         env.atof ((env.msStringSplit value ',').getD 1 "") ≥
           env.atof ((env.msStringSplit value ',').getD 3 "")) := by
      intro hc
      rcases hc with hc | hc
      · exact double_lt_not_ge _ _ hx hc
      · exact double_lt_not_ge _ _ hy hc
    rw [if_neg h1, if_neg h2]
    exact ⟨_, _, rfl, rfl, rfl, rfl, rfl, rfl, rfl, rfl, rfl⟩

/-- C16 at the request `BBOX=1,0,1,5` (minx equal to maxx). -/
theorem bbox_scan_witness :
    (msWMSLoadGetMapParams sampleEnv (freshState (sampleMap [])) OWS_1_1_1
      [("BBOX", "1,0,1,5")]).1 = MS_FAILURE :=
  (bbox_scan sampleEnv (freshState (sampleMap [])) OWS_1_1_1 [("BBOX", "1,0,1,5")]).1
    ("BBOX", "1,0,1,5") (List.mem_singleton.2 rfl) (by decide) (Or.inr (Or.inl (by decide!)))

/-! ## The validations after the parameter loop -/

theorem gmpChecks_crs (env : Env) (nVersion : Int) (params : List (String × String))
    (st : wmsState) (v : gmpVars) (code : String)
    (hc : v.epsgbuf = "EPSG:" ++ code) (hl : ¬ layersInvalid v) :
    ((epsgListed env st.map.projection st.map.webmetadata ("EPSG:" ++ code) = false ∧
       ∃ lp ∈ st.map.layers, lp.status = MS_ON ∧
         epsgListed env lp.projection lp.metadata ("EPSG:" ++ code) = false) →
      gmpChecks env nVersion params st v =
        msWMSException env
          (msSetError st "Invalid SRS given : SRS must be valid for all requested layers.")
          nVersion (some "InvalidSRS")) ∧
    (¬ (epsgListed env st.map.projection st.map.webmetadata ("EPSG:" ++ code) = false ∧
       ∃ lp ∈ st.map.layers, lp.status = MS_ON ∧
         epsgListed env lp.projection lp.metadata ("EPSG:" ++ code) = false) →
      gmpChecks env nVersion params st v = gmpFinish env nVersion params st v) ∧
    (epsgListed env st.map.projection st.map.webmetadata ("EPSG:" ++ code) = true →
      gmpChecks env nVersion params st v = gmpFinish env nVersion params st v) ∧
    (epsgListed env st.map.projection st.map.webmetadata ("EPSG:" ++ code) = false →
      ∀ lp1 ∈ st.map.layers, ∀ lp2 ∈ st.map.layers,
        lp1.status = MS_ON → epsgListed env lp1.projection lp1.metadata ("EPSG:" ++ code) = true →
        lp2.status = MS_ON → epsgListed env lp2.projection lp2.metadata ("EPSG:" ++ code) = false →
        (gmpChecks env nVersion params st v).1 = MS_FAILURE ∧
        (gmpChecks env nVersion params st v).2.raised =
          st.raised ++ [(nVersion, some "InvalidSRS")]) := by
  have hlen : v.epsgbuf.length > 1 := by
    rw [hc, String.length_append]
    have : "EPSG:".length = 5 := by decide
    omega
  have hiff : crsInvalid env st v ↔
      (epsgListed env st.map.projection st.map.webmetadata ("EPSG:" ++ code) = false ∧
       ∃ lp ∈ st.map.layers, lp.status = MS_ON ∧
         epsgListed env lp.projection lp.metadata ("EPSG:" ++ code) = false) := by
    unfold crsInvalid
    rw [hc] at hlen ⊢
    simp only [hlen, true_and, Bool.and_eq_true, Bool.not_eq_true', List.any_eq_true,
      decide_eq_true_eq]
  have hyes : crsInvalid env st v →
      gmpChecks env nVersion params st v =
        msWMSException env
          (msSetError st "Invalid SRS given : SRS must be valid for all requested layers.")
          nVersion (some "InvalidSRS") := by
    intro h
    unfold gmpChecks
    rw [if_neg hl, if_pos h]
  have hno : ¬ crsInvalid env st v →
      gmpChecks env nVersion params st v = gmpFinish env nVersion params st v := by
    intro h
    unfold gmpChecks
    rw [if_neg hl, if_neg h]
  refine ⟨fun h => hyes (hiff.2 h), fun h => hno (fun hcr => h (hiff.1 hcr)), ?_, ?_⟩
  · intro h
    apply hno
    intro hcr
    have := (hiff.1 hcr).1
    rw [h] at this
    cases this
  · intro h lp1 _ lp2 h2 _ _ hs2 hn2
    rw [hyes (hiff.2 ⟨h, lp2, h2, hs2, hn2⟩)]
    exact ⟨rfl, rfl⟩

/-- C17: at the image-size check `msWMSLoadGetMapParams` raises its exception exactly when
width < 1, height < 1, width > maxsize or height > maxsize; it then returns MS_FAILURE with the
map width 400 and height 300, and otherwise goes on to the pixel-shape test.  A width or a height
of 0 is out of range; a width equal to maxsize is in range. -/
theorem image_size_check (env : Env) (nVersion : Int) (params : List (String × String))
    (st : wmsState) (v : gmpVars) :
    ((st.map.width < 1 ∨ st.map.height < 1 ∨ st.map.width > st.map.maxsize ∨
        st.map.height > st.map.maxsize) →
      gmpFinish env nVersion params st v =
        msWMSException env
          (msSetError { st with map := { st.map with width := 400, height := 300 } }
            "Image size out of range, WIDTH and HEIGHT must be between 1 and %d pixels.")
          nVersion none ∧
      (gmpFinish env nVersion params st v).1 = MS_FAILURE ∧
      (gmpFinish env nVersion params st v).2.map.width = 400 ∧
      (gmpFinish env nVersion params st v).2.map.height = 300 ∧
      (gmpFinish env nVersion params st v).2.raised = st.raised ++ [(nVersion, none)]) ∧
    (¬ (st.map.width < 1 ∨ st.map.height < 1 ∨ st.map.width > st.map.maxsize ∨
        st.map.height > st.map.maxsize) →
      gmpFinish env nVersion params st v = gmpAfterSize env nVersion params st v) ∧
    ((st.map.width = 0 ∨ st.map.height = 0) →
      (gmpFinish env nVersion params st v).1 = MS_FAILURE) ∧
    (st.map.width = st.map.maxsize → 1 ≤ st.map.height → st.map.height ≤ st.map.maxsize →
      1 ≤ st.map.maxsize →
      gmpFinish env nVersion params st v = gmpAfterSize env nVersion params st v) := by
  have hyes : sizeInvalid st.map →
      gmpFinish env nVersion params st v =
        msWMSException env
          (msSetError { st with map := { st.map with width := 400, height := 300 } }
            "Image size out of range, WIDTH and HEIGHT must be between 1 and %d pixels.")
          nVersion none := by
    intro h
    rw [gmpFinish_eq, if_pos h]
  have hno : ¬ sizeInvalid st.map →
      gmpFinish env nVersion params st v = gmpAfterSize env nVersion params st v := by
    intro h
    rw [gmpFinish_eq, if_neg h]
  refine ⟨?_, ?_, ?_, ?_⟩
  · intro h
    have hs : sizeInvalid st.map := by unfold sizeInvalid; omega
    rw [hyes hs]
    exact ⟨rfl, rfl, rfl, rfl, rfl⟩
  · intro h
    apply hno
    unfold sizeInvalid
    omega
  · intro h
    have hs : sizeInvalid st.map := by unfold sizeInvalid; omega
    rw [hyes hs]
    rfl
  · intro h1 h2 h3 h4
    apply hno
    unfold sizeInvalid
    omega

/-- C17 at a map whose width was set to 0. -/
theorem image_size_check_witness :
    (gmpFinish sampleEnv OWS_1_1_1 []
      (freshState { sampleMap [] with width := 0 }) gmpVars.init).1 = MS_FAILURE ∧
    (gmpFinish sampleEnv OWS_1_1_1 []
      (freshState { sampleMap [] with width := 0 }) gmpVars.init).2.map.width = 400 ∧
    (gmpFinish sampleEnv OWS_1_1_1 []
      (freshState { sampleMap [] with width := 0 }) gmpVars.init).2.map.height = 300 :=
  have w := (image_size_check sampleEnv OWS_1_1_1 []
    (freshState { sampleMap [] with width := 0 }) gmpVars.init).1 (Or.inl (by decide))
  ⟨w.2.1, w.2.2.1, w.2.2.2.1⟩

/-- C18, as the code has it: at the pixel-shape test, with MS_NONSQUARE not enabled yet, the
option MS_NONSQUARE is set to YES (and non-square pixels are enabled) exactly when the value
`MS_ABS(width * dy / dx - height)` that the code computes in `double` arithmetic, with
`dx = MS_ABS(maxx - minx)` and `dy = MS_ABS(maxy - miny)`, is greater than 1.0; a computed
value of at most 1.0, so also of exactly 1.0, leaves the map as it is.  When the extent has
positive width and height and no operation of the computation rounds, the computed value is
|width * dy / dx - height| and the option is set exactly when that is greater than 1.  With
the extent (0,0)-(10,5), width 200 and height 200 the option is set. -/
theorem nonsquare_test (env : Env) (m : mapObj)
    (hoff : env.msTestConfigOption m.configoptions "MS_NONSQUARE" MS_FALSE = 0) :
    ((MS_ABS (double.ofInt m.width * MS_ABS (m.extent.maxy - m.extent.miny) /
          MS_ABS (m.extent.maxx - m.extent.minx) - double.ofInt m.height) > 1.0 →
        (nonsquareStep env m).1 =
          { m with configoptions := env.msSetConfigOption m.configoptions "MS_NONSQUARE" "YES" } ∧
        (nonsquareStep env m).2 = true) ∧
      (¬ MS_ABS (double.ofInt m.width * MS_ABS (m.extent.maxy - m.extent.miny) /
          MS_ABS (m.extent.maxx - m.extent.minx) - double.ofInt m.height) > 1.0 →
        (nonsquareStep env m).1 = m ∧ (nonsquareStep env m).2 = false) ∧
      (MS_ABS (double.ofInt m.width * MS_ABS (m.extent.maxy - m.extent.miny) /
          MS_ABS (m.extent.maxx - m.extent.minx) - double.ofInt m.height) = 1.0 →
        (nonsquareStep env m).1 = m ∧ (nonsquareStep env m).2 = false)) ∧
    (∀ a b c d : ℚ,
      m.extent = { minx := double.fin a, miny := double.fin b, maxx := double.fin c,
                   maxy := double.fin d } →
      a < c → b < d →
      isDouble (c - a) → isDouble (d - b) → isDouble m.width → isDouble m.height →
      isDouble (m.width * (d - b)) → isDouble (m.width * (d - b) / (c - a)) →
      isDouble (m.width * (d - b) / (c - a) - m.height) →
      MS_ABS (double.ofInt m.width * MS_ABS (m.extent.maxy - m.extent.miny) /
          MS_ABS (m.extent.maxx - m.extent.minx) - double.ofInt m.height) =
        double.fin |(m.width : ℚ) * (d - b) / (c - a) - (m.height : ℚ)| ∧
      ((nonsquareStep env m).2 = true ↔
        |(m.width : ℚ) * (d - b) / (c - a) - (m.height : ℚ)| > 1)) ∧
    (m.extent.minx = 0 → m.extent.miny = 0 → m.extent.maxx = 10 → m.extent.maxy = 5 →
      m.width = 200 → m.height = 200 →
      (nonsquareStep env m).1.configoptions =
        env.msSetConfigOption m.configoptions "MS_NONSQUARE" "YES" ∧
      (nonsquareStep env m).2 = true) := by
  have key :
      (MS_ABS (double.ofInt m.width * MS_ABS (m.extent.maxy - m.extent.miny) /
          MS_ABS (m.extent.maxx - m.extent.minx) - double.ofInt m.height) > 1.0 →
        (nonsquareStep env m).1 =
          { m with configoptions := env.msSetConfigOption m.configoptions "MS_NONSQUARE" "YES" } ∧
        (nonsquareStep env m).2 = true) ∧
      (¬ MS_ABS (double.ofInt m.width * MS_ABS (m.extent.maxy - m.extent.miny) /
          MS_ABS (m.extent.maxx - m.extent.minx) - double.ofInt m.height) > 1.0 →
        (nonsquareStep env m).1 = m ∧ (nonsquareStep env m).2 = false) := by
    constructor
    · intro h
      simp only [nonsquareStep, hoff, h]
      simp
    · intro h
      simp only [nonsquareStep, hoff, h]
      simp
  refine ⟨⟨key.1, key.2, fun h1 => key.2 ?_⟩, ?_, ?_⟩
  · rw [h1]
    decide!
  · intro a b c d hext hx hy e1 e2 e3 e4 e5 e6 e7
    have hval : MS_ABS (double.ofInt m.width * MS_ABS (m.extent.maxy - m.extent.miny) /
          MS_ABS (m.extent.maxx - m.extent.minx) - double.ofInt m.height) =
        double.fin |(m.width : ℚ) * (d - b) / (c - a) - (m.height : ℚ)| := by
      unfold isDouble at e1 e2 e3 e4 e5 e6 e7
      have w1 : double.ofInt m.width = double.fin (m.width : ℚ) := e3
      have w2 : double.ofInt m.height = double.fin (m.height : ℚ) := e4
      rw [hext]
      simp only []
      rw [double_sub_fin, double_sub_fin, e1, e2, MS_ABS_fin, MS_ABS_fin,
        abs_of_pos (sub_pos.2 hx), abs_of_pos (sub_pos.2 hy), w1, w2, double_mul_fin, e5,
        double_div_fin _ _ (ne_of_gt (sub_pos.2 hx)), e6, double_sub_fin, e7, MS_ABS_fin]
    refine ⟨hval, ?_⟩
    have hiff : MS_ABS (double.ofInt m.width * MS_ABS (m.extent.maxy - m.extent.miny) /
          MS_ABS (m.extent.maxx - m.extent.minx) - double.ofInt m.height) > 1.0 ↔
        |(m.width : ℚ) * (d - b) / (c - a) - (m.height : ℚ)| > 1 := by
      rw [hval, double_one]
      exact double_lt_fin _ _
    constructor
    · intro h
      by_contra hcon
      rw [(key.2 (fun h2 => hcon (hiff.1 h2))).2] at h
      cases h
    · intro h
      exact (key.1 (hiff.2 h)).2
  · intro a b c d w h
    have hbig : MS_ABS (double.ofInt m.width * MS_ABS (m.extent.maxy - m.extent.miny) /
          MS_ABS (m.extent.maxx - m.extent.minx) - double.ofInt m.height) > 1.0 := by
      rw [a, b, c, d, w, h]
      decide!
    have r := key.1 hbig
    rw [r.1]
    exact ⟨rfl, r.2⟩

/-- C18 at the map of the request `BBOX=0,0,10,5&WIDTH=200&HEIGHT=200`. -/
theorem nonsquare_test_witness :
    (nonsquareStep sampleEnv
      { sampleMap [] with extent := { minx := 0, miny := 0, maxx := 10, maxy := 5 },
                          width := 200, height := 200 }).1.configoptions =
      [("MS_NONSQUARE", "YES")] ∧
    (nonsquareStep sampleEnv
      { sampleMap [] with extent := { minx := 0, miny := 0, maxx := 10, maxy := 5 },
                          width := 200, height := 200 }).2 = true :=
  (nonsquare_test sampleEnv
    { sampleMap [] with extent := { minx := 0, miny := 0, maxx := 10, maxy := 5 },
                        width := 200, height := 200 } (by decide)).2.2 rfl rfl rfl rfl rfl rfl

/-- The request `BBOX=0,0,1,0.3333333333333333&WIDTH=3&HEIGHT=2` against C18 as the claim
words it.  The bounds are read as the doubles 0, 0, 1 and 6004799503160661 / 2^54; in exact
arithmetic |width * dy / dx - height| is 1 + 2^-54, greater than 1, so the claim has the
option MS_NONSQUARE set.  The code computes `width * dy` as the double 1.0, the difference
as exactly 1.0, and leaves the option unset. -/
theorem nonsquare_test_counterexample :
    sampleAtof "0" = double.fin 0 ∧ sampleAtof "1" = double.fin 1 ∧
    sampleAtof "0.3333333333333333" = double.fin (6004799503160661 / 18014398509481984) ∧
    |(3 : ℚ) * (6004799503160661 / 18014398509481984 - 0) / (1 - 0) - 2| > 1 ∧
    sampleEnv.msTestConfigOption (sampleMap []).configoptions "MS_NONSQUARE" MS_FALSE = 0 ∧
    (nonsquareStep sampleEnv
      { sampleMap [] with
        extent := { minx := double.fin 0, miny := double.fin 0, maxx := double.fin 1,
                    maxy := double.fin (6004799503160661 / 18014398509481984) },
        width := 3, height := 2 }).2 = false ∧
    (nonsquareStep sampleEnv
      { sampleMap [] with
        extent := { minx := double.fin 0, miny := double.fin 0, maxx := double.fin 1,
                    maxy := double.fin (6004799503160661 / 18014398509481984) },
        width := 3, height := 2 }).1.configoptions = [] ∧
    (msWMSLoadGetMapParams sampleEnvDecimal
      (freshState (sampleMap [sampleLayer "streets" none MS_ON]))
      OWS_1_1_1 [("REQUEST", "GetMap"), ("LAYERS", "streets"), ("SRS", "EPSG:4326"),
        ("BBOX", "0,0,1,0.3333333333333333"), ("WIDTH", "3"), ("HEIGHT", "2"),
        ("FORMAT", "image/png")]).1 = MS_SUCCESS ∧
    (msWMSLoadGetMapParams sampleEnvDecimal
      (freshState (sampleMap [sampleLayer "streets" none MS_ON]))
      OWS_1_1_1 [("REQUEST", "GetMap"), ("LAYERS", "streets"), ("SRS", "EPSG:4326"),
        ("BBOX", "0,0,1,0.3333333333333333"), ("WIDTH", "3"), ("HEIGHT", "2"),
        ("FORMAT", "image/png")]).2.map.configoptions = [] :=
  ⟨by decide!, by decide!, by decide!, by norm_num [abs_of_neg], by decide, by decide!,
   by decide!, by decide!, by decide!⟩

/-! ## The path of a successful call -/

theorem propagateProjection_error (env : Env) (nVersion : Int) (st : wmsState) (srs : String)
    (todo : List layerObj) : ∀ (done : List layerObj) (e : Int × wmsState),
    propagateProjection env nVersion st srs done todo = .error e → e.1 = MS_FAILURE := by
  induction todo with
  | nil => intro done e h; cases h
  | cons lp todo ih =>
    intro done e h
    unfold propagateProjection at h
    simp only [] at h
    split_ifs at h
    · cases h; rfl
    · exact ih _ e h
    · exact ih _ e h

theorem propagateStep_error (env : Env) (nVersion : Int) (st : wmsState) (v : gmpVars)
    (b : Bool) (e : Int × wmsState)
    (h : propagateStep env nVersion st v b = .error e) : e.1 = MS_FAILURE := by
  unfold propagateStep at h
  simp only [] at h
  split_ifs at h
  all_goals first
    | (cases h; rfl)
    | (split at h
       · rename_i e2 he
         cases h
         exact propagateProjection_error env nVersion st _ _ _ _ he
       · cases h)

theorem srsStep_error (env : Env) (nVersion : Int) (st : wmsState) (v : gmpVars)
    (e : Int × wmsState) (h : srsStep env nVersion st v = .error e) : e.1 = MS_FAILURE := by
  unfold srsStep at h
  simp only [] at h
  split_ifs at h
  cases h
  rfl

/-- Every failure of the STYLES loop is an exception with the code StyleNotDefined. -/
theorem stylesLoop_error (env : Env) (nVersion : Int) (params : List (String × String))
    (styles : String) (n : Nat) (tokens : List String) :
    ∀ (i : Nat) (st : wmsState) (e : Int × wmsState),
    stylesLoop env nVersion params styles n i tokens st = .error e →
    ∃ (st2 : wmsState) (msg : String),
      e = msWMSException env (msSetError st2 msg) nVersion (some "StyleNotDefined") := by
  induction tokens with
  | nil => intro i st e h; cases h
  | cons token tokens ih =>
    intro i st e h
    unfold stylesLoop at h
    split_ifs at h with h1
    · split at h
      · simp only [] at h
        split_ifs at h
        · exact ih _ _ e h
        · cases h; exact ⟨_, _, rfl⟩
        · cases h; exact ⟨_, _, rfl⟩
      · cases h; exact ⟨_, _, rfl⟩
    · exact ih _ _ e h

theorem stylesStep_error (env : Env) (nVersion : Int) (params : List (String × String))
    (st : wmsState) (v : gmpVars) (e : Int × wmsState)
    (h : stylesStep env nVersion params st v = .error e) :
    ∃ (st2 : wmsState) (msg : String),
      e = msWMSException env (msSetError st2 msg) nVersion (some "StyleNotDefined") := by
  unfold stylesStep at h
  split at h
  · cases h
  · simp only [] at h
    split_ifs at h
    exact stylesLoop_error env nVersion params _ _ _ _ _ e h

/-- The check of the required parameters either succeeds with the state unchanged or is an
exception with the code MissingParameterValue. -/
theorem requiredParams_cases (env : Env) (nVersion : Int) (st : wmsState) (v : gmpVars) :
    requiredParams env nVersion st v = (MS_SUCCESS, st) ∨
    ∃ msg, requiredParams env nVersion st v =
      msWMSException env (msSetError st msg) nVersion (some "MissingParameterValue") := by
  unfold requiredParams
  split
  · exact Or.inl rfl
  · split_ifs
    · exact Or.inl rfl
    · exact Or.inr ⟨_, rfl⟩
    · exact Or.inr ⟨_, rfl⟩
    · exact Or.inr ⟨_, rfl⟩
    · exact Or.inr ⟨_, rfl⟩
    · exact Or.inr ⟨_, rfl⟩
    · exact Or.inl rfl

/-- A call of `msWMSLoadGetMapParams` that returns MS_SUCCESS went through every step: the
parameter loop, the time filters, the validity of layers, CRS and image size, the projection
steps, the STYLES block and the required parameters; its final state is the state after the
STYLES block, adjusted by half a pixel when a BBOX was read. -/
theorem loadGetMapParams_success (env : Env) (st : wmsState) (nVersion : Int)
    (params : List (String × String))
    (h : (msWMSLoadGetMapParams env st nVersion params).1 = MS_SUCCESS) :
    ∃ (st1 : wmsState) (v1 : gmpVars) (stP stS stY : wmsState),
      gmpScan env nVersion params (gmpEnter env st) gmpVars.init = .ok (st1, v1) ∧
      (gmpTimeStep env nVersion st1 v1).1 ≠ MS_FAILURE ∧
      ¬ layersInvalid v1 ∧
      ¬ crsInvalid env (gmpFormatStep env (gmpTimeStep env nVersion st1 v1).2 v1) v1 ∧
      ¬ sizeInvalid (gmpFormatStep env (gmpTimeStep env nVersion st1 v1).2 v1).map ∧
      propagateStep env nVersion
        { gmpFormatStep env (gmpTimeStep env nVersion st1 v1).2 v1 with
          map := (nonsquareStep env (gmpFormatStep env (gmpTimeStep env nVersion st1 v1).2 v1).map).1 }
        v1 (nonsquareStep env (gmpFormatStep env (gmpTimeStep env nVersion st1 v1).2 v1).map).2
        = .ok stP ∧
      srsStep env nVersion stP v1 = .ok stS ∧
      stylesStep env nVersion params stS v1 = .ok stY ∧
      requiredParams env nVersion
        (if v1.adjust_extent ≠ 0 then { stY with map := adjustHalfPixel stY.map } else stY) v1 =
        (MS_SUCCESS, if v1.adjust_extent ≠ 0 then { stY with map := adjustHalfPixel stY.map } else stY) ∧
      msWMSLoadGetMapParams env st nVersion params =
        (MS_SUCCESS, if v1.adjust_extent ≠ 0 then { stY with map := adjustHalfPixel stY.map } else stY) := by
  have hne : MS_FAILURE ≠ MS_SUCCESS := by decide
  rw [msWMSLoadGetMapParams_eq] at h ⊢
  cases hs : gmpScan env nVersion params (gmpEnter env st) gmpVars.init with
  | error e =>
    rw [hs] at h
    exact absurd ((gmpScan_error env nVersion params _ _ e hs).symm.trans h) hne
  | ok r =>
    obtain ⟨st1, v1⟩ := r
    rw [hs] at h
    simp only [] at h ⊢
    unfold gmpAfterScan at h ⊢
    by_cases ht : (gmpTimeStep env nVersion st1 v1).1 = MS_FAILURE
    · rw [if_pos ht] at h
      exact absurd h hne
    rw [if_neg ht] at h ⊢
    unfold gmpChecks at h ⊢
    by_cases hl : layersInvalid v1
    · rw [if_pos hl] at h
      exact absurd h hne
    rw [if_neg hl] at h ⊢
    by_cases hc : crsInvalid env (gmpFormatStep env (gmpTimeStep env nVersion st1 v1).2 v1) v1
    · rw [if_pos hc] at h
      exact absurd h hne
    rw [if_neg hc] at h ⊢
    rw [gmpFinish_eq] at h ⊢
    by_cases hz : sizeInvalid (gmpFormatStep env (gmpTimeStep env nVersion st1 v1).2 v1).map
    · rw [if_pos hz] at h
      exact absurd h hne
    rw [if_neg hz] at h ⊢
    unfold gmpAfterSize at h ⊢
    split at h
    · rename_i e hp
      exact absurd ((propagateStep_error env nVersion _ _ _ e hp).symm.trans h) hne
    rename_i stP hp
    split at h
    · rename_i e hsr
      exact absurd ((srsStep_error env nVersion _ _ e hsr).symm.trans h) hne
    rename_i stS hsr
    split at h
    · rename_i e hy
      obtain ⟨s2, msg, he⟩ := stylesStep_error env nVersion params _ _ e hy
      rw [he] at h
      exact absurd h hne
    rename_i stY hy
    unfold finishStep at h ⊢
    simp only [] at h ⊢
    rcases requiredParams_cases env nVersion
      (if v1.adjust_extent ≠ 0 then { stY with map := adjustHalfPixel stY.map } else stY) v1
      with hr | ⟨msg, hr⟩
    · exact ⟨st1, v1, stP, stS, stY, rfl, ht, hl, hc, hz, hp, hsr, hy, hr, hr⟩
    · rw [hr] at h
      exact absurd h hne

/-! ## The required parameters -/

theorem loadGetMapParams_of_reachesStyles (env : Env) (st : wmsState) (nVersion : Int)
    (params : List (String × String)) (v : gmpVars) (stS : wmsState)
    (h : gmpReachesStyles env nVersion params st v stS) :
    msWMSLoadGetMapParams env st nVersion params =
      match stylesStep env nVersion params stS v with
      | .error e => e
      | .ok stY => finishStep env nVersion stY v := by
  obtain ⟨st1, stP, hs, ht, hl, hc, hz, hp, hsr⟩ := h
  rw [msWMSLoadGetMapParams_eq, hs]
  simp only []
  unfold gmpAfterScan
  rw [if_neg ht]
  unfold gmpChecks
  rw [if_neg hl, if_neg hc, gmpFinish_eq, if_neg hz]
  unfold gmpAfterSize
  simp only [hp, hsr]

theorem loadGetMapParams_of_reaches (env : Env) (st : wmsState) (nVersion : Int)
    (params : List (String × String)) (v : gmpVars) (stY : wmsState)
    (h : gmpReaches env nVersion params st v stY) :
    msWMSLoadGetMapParams env st nVersion params = finishStep env nVersion stY v := by
  obtain ⟨stS, h1, h2⟩ := h
  rw [loadGetMapParams_of_reachesStyles env st nVersion params v stS h1, h2]

theorem loadGetMapParams_success_reaches (env : Env) (st : wmsState) (nVersion : Int)
    (params : List (String × String))
    (h : (msWMSLoadGetMapParams env st nVersion params).1 = MS_SUCCESS) :
    ∃ (v : gmpVars) (stY : wmsState), gmpReaches env nVersion params st v stY ∧
      (requiredParams env nVersion
        (if v.adjust_extent ≠ 0 then { stY with map := adjustHalfPixel stY.map } else stY) v).1 =
        MS_SUCCESS ∧
      msWMSLoadGetMapParams env st nVersion params =
        (MS_SUCCESS, if v.adjust_extent ≠ 0 then { stY with map := adjustHalfPixel stY.map } else stY) := by
  obtain ⟨st1, v1, stP, stS, stY, hs, ht, hl, hc, hz, hp, hsr, hy, hr, hres⟩ :=
    loadGetMapParams_success env st nVersion params h
  exact ⟨v1, stY, ⟨stS, ⟨st1, stP, hs, ht, hl, hc, hz, hp, hsr⟩, hy⟩, by rw [hr], hres⟩

/-- After the loop `request` holds the value of the last REQUEST parameter. -/
theorem gmpScan_request (env : Env) (nVersion : Int) (params : List (String × String))
    (st st2 : wmsState) (v2 : gmpVars)
    (h : gmpScan env nVersion params st gmpVars.init = .ok (st2, v2)) :
    v2.request = lastParam "REQUEST" params :=
  gmpScan_last env nVersion (fun v => v.request) "REQUEST"
    (fun p sa sb va vb hs => (gmpScanStep_vars env nVersion sa sb va vb p hs).1)
    params st st2 gmpVars.init v2 h

/-- After the loop `styles` holds the value of the last STYLES parameter. -/
theorem gmpScan_styles (env : Env) (nVersion : Int) (params : List (String × String))
    (st st2 : wmsState) (v2 : gmpVars)
    (h : gmpScan env nVersion params st gmpVars.init = .ok (st2, v2)) :
    v2.styles = lastParam "STYLES" params :=
  gmpScan_last env nVersion (fun v => v.styles) "STYLES"
    (fun p sa sb va vb hs => (gmpScanStep_vars env nVersion sa sb va vb p hs).2.1)
    params st st2 gmpVars.init v2 h

/-- A quantity that only the turns of the parameter `name` change is, after a loop over
parameters none of which is named `name`, what it was before. -/
theorem gmpScan_keeps {α : Type} (env : Env) (nVersion : Int) (g : gmpVars → α) (name : String)
    (hstep : ∀ (p : String × String) (sa sb : wmsState) (va vb : gmpVars),
      gmpScanStep env nVersion sa va p = .ok (sb, vb) → strcaseEq p.1 name = false → g vb = g va)
    (ps : List (String × String)) (hno : noParam name ps = true)
    (st st2 : wmsState) (v v2 : gmpVars)
    (h : gmpScan env nVersion ps st v = .ok (st2, v2)) : g v2 = g v := by
  refine gmpScan_rel env nVersion (fun a b => g b.2 = g a.2) (fun _ => rfl)
    (fun _ _ _ h1 h2 => h2.trans h1) ps st st2 v v2 ?_ h
  intro p hp sa sb va vb hs
  refine hstep p sa sb va vb hs ?_
  unfold noParam at hno
  have := List.all_eq_true.1 hno p hp
  simpa using this

/-- The flags of the required parameters are still zero after a loop in which the parameter
does not occur. -/
theorem gmpScan_flags (env : Env) (nVersion : Int) (params : List (String × String))
    (st st2 : wmsState) (v2 : gmpVars)
    (h : gmpScan env nVersion params st gmpVars.init = .ok (st2, v2)) :
    (noParam "SRS" params = true → v2.srsfound = 0) ∧
    (noParam "BBOX" params = true → v2.bboxfound = 0 ∧ v2.adjust_extent = 0) ∧
    (noParam "WIDTH" params = true → v2.widthfound = 0) ∧
    (noParam "HEIGHT" params = true → v2.heightfound = 0) ∧
    (noParam "FORMAT" params = true → v2.formatfound = 0) := by
  refine ⟨fun hn => ?_, fun hn => ⟨?_, ?_⟩, fun hn => ?_, fun hn => ?_, fun hn => ?_⟩
  · exact gmpScan_keeps env nVersion (fun v => v.srsfound) "SRS"
      (fun p sa sb va vb hs hc => ((gmpScanStep_vars env nVersion sa sb va vb p hs).2.2.2.1 hc).1)
      params hn st st2 gmpVars.init v2 h
  · exact gmpScan_keeps env nVersion (fun v => v.bboxfound) "BBOX"
      (fun p sa sb va vb hs hc => ((gmpScanStep_vars env nVersion sa sb va vb p hs).2.2.2.2.1 hc).1)
      params hn st st2 gmpVars.init v2 h
  · exact gmpScan_keeps env nVersion (fun v => v.adjust_extent) "BBOX"
      (fun p sa sb va vb hs hc => ((gmpScanStep_vars env nVersion sa sb va vb p hs).2.2.2.2.1 hc).2)
      params hn st st2 gmpVars.init v2 h
  · exact gmpScan_keeps env nVersion (fun v => v.widthfound) "WIDTH"
      (fun p sa sb va vb hs hc => (gmpScanStep_vars env nVersion sa sb va vb p hs).2.2.2.2.2.1 hc)
      params hn st st2 gmpVars.init v2 h
  · exact gmpScan_keeps env nVersion (fun v => v.heightfound) "HEIGHT"
      (fun p sa sb va vb hs hc => (gmpScanStep_vars env nVersion sa sb va vb p hs).2.2.2.2.2.2.1 hc)
      params hn st st2 gmpVars.init v2 h
  · exact gmpScan_keeps env nVersion (fun v => v.formatfound) "FORMAT"
      (fun p sa sb va vb hs hc => (gmpScanStep_vars env nVersion sa sb va vb p hs).2.2.2.2.2.2.2 hc)
      params hn st st2 gmpVars.init v2 h

theorem requiredParams_success (env : Env) (nVersion : Int) (st : wmsState) (v : gmpVars)
    (r : String) (hr : v.request = some r) (hd : strcaseEq r "DescribeLayer" = false)
    (h : (requiredParams env nVersion st v).1 = MS_SUCCESS) :
    v.srsfound ≠ 0 ∧ v.bboxfound ≠ 0 ∧ v.widthfound ≠ 0 ∧ v.heightfound ≠ 0 ∧
    ((strcaseEq r "GetMap" = true ∨ strcaseEq r "map" = true) → v.formatfound ≠ 0) := by
  have hne : MS_FAILURE ≠ MS_SUCCESS := by decide
  unfold requiredParams at h
  rw [hr] at h
  simp only [hd, Bool.false_eq_true, if_false] at h
  split_ifs at h with h1 h2 h3 h4 h5
  · exact absurd ((msWMSException_fst _ _ _ _).symm.trans h) hne
  · exact absurd ((msWMSException_fst _ _ _ _).symm.trans h) hne
  · exact absurd ((msWMSException_fst _ _ _ _).symm.trans h) hne
  · exact absurd ((msWMSException_fst _ _ _ _).symm.trans h) hne
  · exact absurd ((msWMSException_fst _ _ _ _).symm.trans h) hne
  · refine ⟨h1, h2, h4, h5, fun hg hf => h3 ⟨hf, ?_⟩⟩
    rcases hg with hg | hg <;> simp [hg]

theorem requiredParams_missing (env : Env) (nVersion : Int) (st : wmsState) (v : gmpVars)
    (r : String) (hr : v.request = some r) (hd : strcaseEq r "DescribeLayer" = false)
    (h : v.srsfound = 0 ∨ v.bboxfound = 0 ∨ v.widthfound = 0 ∨ v.heightfound = 0 ∨
      ((strcaseEq r "GetMap" = true ∨ strcaseEq r "map" = true) ∧ v.formatfound = 0)) :
    ∃ msg, requiredParams env nVersion st v =
      msWMSException env (msSetError st msg) nVersion (some "MissingParameterValue") := by
  unfold requiredParams
  rw [hr]
  simp only [hd, Bool.false_eq_true, if_false]
  split_ifs with h1 h2 h3 h4 h5
  · exact ⟨_, rfl⟩
  · exact ⟨_, rfl⟩
  · exact ⟨_, rfl⟩
  · exact ⟨_, rfl⟩
  · exact ⟨_, rfl⟩
  · exfalso
    rcases h with h | h | h | h | ⟨hg, hf⟩
    · exact h1 h
    · exact h2 h
    · exact h4 h
    · exact h5 h
    · apply h3
      refine ⟨hf, ?_⟩
      rcases hg with hg | hg <;> simp [hg]

/-- C20: let `r` be the value of the (last) REQUEST parameter.  When `r` is, ignoring case,
GetMap, map, GetFeatureInfo or feature_info: `msWMSLoadGetMapParams` returns MS_SUCCESS only
if SRS, BBOX, WIDTH and HEIGHT all occur among the parameters, and FORMAT too when `r` is
GetMap or map; and when every validation before the check of the required parameters passes
and one of them is missing, the call is an `msWMSException` with code MissingParameterValue.
When `r` is DescribeLayer and the earlier validations pass, the call returns MS_SUCCESS
whichever of these parameters are missing. -/
theorem required_params (env : Env) (st : wmsState) (nVersion : Int)
    (params : List (String × String)) (r : String)
    (hr : lastParam "REQUEST" params = some r) :
    ((strcaseEq r "GetMap" = true ∨ strcaseEq r "map" = true ∨
        strcaseEq r "GetFeatureInfo" = true ∨ strcaseEq r "feature_info" = true) →
      ((msWMSLoadGetMapParams env st nVersion params).1 = MS_SUCCESS →
        noParam "SRS" params = false ∧ noParam "BBOX" params = false ∧
        noParam "WIDTH" params = false ∧ noParam "HEIGHT" params = false ∧
        ((strcaseEq r "GetMap" = true ∨ strcaseEq r "map" = true) →
          noParam "FORMAT" params = false)) ∧
      (∀ (v : gmpVars) (stY : wmsState), gmpReaches env nVersion params st v stY →
        (noParam "SRS" params = true ∨ noParam "BBOX" params = true ∨
          noParam "WIDTH" params = true ∨ noParam "HEIGHT" params = true ∨
          ((strcaseEq r "GetMap" = true ∨ strcaseEq r "map" = true) ∧
            noParam "FORMAT" params = true)) →
        ∃ (st2 : wmsState) (msg : String),
          msWMSLoadGetMapParams env st nVersion params =
            msWMSException env (msSetError st2 msg) nVersion (some "MissingParameterValue"))) ∧
    (strcaseEq r "DescribeLayer" = true →
      ∀ (v : gmpVars) (stY : wmsState), gmpReaches env nVersion params st v stY →
        (msWMSLoadGetMapParams env st nVersion params).1 = MS_SUCCESS) := by
  refine ⟨fun hreq => ?_, fun hd v stY hreach => ?_⟩
  · have hd : strcaseEq r "DescribeLayer" = false := by
      rcases hreq with h | h | h | h
      · exact strcaseEq_excl "DescribeLayer" (by decide) h
      · exact strcaseEq_excl "DescribeLayer" (by decide) h
      · exact strcaseEq_excl "DescribeLayer" (by decide) h
      · exact strcaseEq_excl "DescribeLayer" (by decide) h
    refine ⟨fun hsucc => ?_, fun v stY hreach hmiss => ?_⟩
    · obtain ⟨v, stY, ⟨stS, ⟨st1, stP, hs, _⟩, _⟩, hreq2, _⟩ :=
        loadGetMapParams_success_reaches env st nVersion params hsucc
      have hv : v.request = some r := by rw [gmpScan_request env nVersion params _ _ _ hs, hr]
      obtain ⟨f1, f2, f3, f4, f5⟩ := gmpScan_flags env nVersion params _ _ _ hs
      obtain ⟨g1, g2, g3, g4, g5⟩ := requiredParams_success env nVersion _ v r hv hd hreq2
      refine ⟨?_, ?_, ?_, ?_, fun hg => ?_⟩
      · cases hn : noParam "SRS" params
        · rfl
        · exact absurd (f1 hn) g1
      · cases hn : noParam "BBOX" params
        · rfl
        · exact absurd (f2 hn).1 g2
      · cases hn : noParam "WIDTH" params
        · rfl
        · exact absurd (f3 hn) g3
      · cases hn : noParam "HEIGHT" params
        · rfl
        · exact absurd (f4 hn) g4
      · cases hn : noParam "FORMAT" params
        · rfl
        · exact absurd (f5 hn) (g5 hg)
    · rw [loadGetMapParams_of_reaches env st nVersion params v stY hreach]
      obtain ⟨stS, ⟨st1, stP, hs, _⟩, _⟩ := hreach
      have hv : v.request = some r := by rw [gmpScan_request env nVersion params _ _ _ hs, hr]
      obtain ⟨f1, f2, f3, f4, f5⟩ := gmpScan_flags env nVersion params _ _ _ hs
      unfold finishStep
      simp only []
      obtain ⟨msg, hm⟩ := requiredParams_missing env nVersion
        (if v.adjust_extent ≠ 0 then { stY with map := adjustHalfPixel stY.map } else stY) v r hv hd
        (by
          rcases hmiss with h | h | h | h | ⟨hg, h⟩
          · exact Or.inl (f1 h)
          · exact Or.inr (Or.inl (f2 h).1)
          · exact Or.inr (Or.inr (Or.inl (f3 h)))
          · exact Or.inr (Or.inr (Or.inr (Or.inl (f4 h))))
          · exact Or.inr (Or.inr (Or.inr (Or.inr ⟨hg, f5 h⟩))))
      exact ⟨_, msg, hm⟩
  · rw [loadGetMapParams_of_reaches env st nVersion params v stY hreach]
    obtain ⟨stS, ⟨st1, stP, hs, _⟩, _⟩ := hreach
    have hv : v.request = some r := by rw [gmpScan_request env nVersion params _ _ _ hs, hr]
    unfold finishStep requiredParams
    simp only [hv, hd, if_true]

/-- C20 at the request `REQUEST=GetMap&LAYERS=streets&BBOX=0,0,4,3&WIDTH=400&HEIGHT=300&FORMAT=image/png`
on a map with the layer `streets`: every earlier validation passes, SRS is missing, and the call
is an exception with code MissingParameterValue. -/
theorem required_params_witness :
    ∃ (st2 : wmsState) (msg : String),
      msWMSLoadGetMapParams sampleEnv (freshState (sampleMap [sampleLayer "streets" none MS_ON]))
        OWS_1_1_1 [("REQUEST", "GetMap"), ("LAYERS", "streets"), ("BBOX", "0,0,4,3"),
          ("WIDTH", "400"), ("HEIGHT", "300"), ("FORMAT", "image/png")] =
      msWMSException sampleEnv (msSetError st2 msg) OWS_1_1_1 (some "MissingParameterValue") :=
  ((required_params sampleEnv (freshState (sampleMap [sampleLayer "streets" none MS_ON]))
      OWS_1_1_1 [("REQUEST", "GetMap"), ("LAYERS", "streets"), ("BBOX", "0,0,4,3"),
          ("WIDTH", "400"), ("HEIGHT", "300"), ("FORMAT", "image/png")] "GetMap" (by decide)).1
      (Or.inl (by decide))).2 _ _
    ⟨_, ⟨_, _, by with_unfolding_all rfl, by decide, by decide, by decide, by decide,
      by with_unfolding_all rfl, by with_unfolding_all rfl⟩, by with_unfolding_all rfl⟩
    (Or.inl (by decide))

/-! ## The validity of the requested layers -/

theorem turnOn_counters (mapname : Option String) (tok : String) (layers : List layerObj)
    (j : Nat) (lo : List Int) (n : Nat) (valid : Int) :
    valid ≤ (turnOn mapname tok j layers lo n valid 0).validlayers ∧
    ((∀ lp ∈ layers, layerMatches mapname lp tok = false) →
      (turnOn mapname tok j layers lo n valid 0).layerfound = 0) ∧
    (∀ t, (∀ lp ∈ layers, layerMatches mapname lp t = false) →
      ∀ lp ∈ (turnOn mapname tok j layers lo n valid 0).layers, layerMatches mapname lp t = false) := by
  rw [turnOn_eq]
  refine ⟨?_, ?_, ?_⟩
  · simp only []
    have : (0 : Int) ≤ (layers.countP (fun lp => layerMatches mapname lp tok) : Int) :=
      Int.ofNat_nonneg _
    omega
  · intro h
    have ha : layers.any (fun lp => layerMatches mapname lp tok) = false := by
      rw [List.any_eq_false]
      intro lp hlp
      rw [h lp hlp]
      exact Bool.false_ne_true
    simp only [ha, Bool.false_eq_true, if_false]
  · intro t h lp hlp
    simp only [List.mem_map] at hlp
    obtain ⟨lp0, h0, rfl⟩ := hlp
    have := h lp0 h0
    split_ifs
    · simpa [layerMatches] using this
    · exact this

theorem selectLayers_counters (mapname : Option String) (toks : List String) :
    ∀ (s : selectResult),
    s.invalidlayers ≤ (selectLayers mapname toks s).invalidlayers ∧
    s.validlayers ≤ (selectLayers mapname toks s).validlayers ∧
    (∀ tok ∈ toks, (∀ lp ∈ s.layers, layerMatches mapname lp tok = false) →
      s.invalidlayers < (selectLayers mapname toks s).invalidlayers) := by
  induction toks with
  | nil => intro s; exact ⟨le_refl _, le_refl _, fun tok h => absurd h (List.not_mem_nil _)⟩
  | cons tok toks ih =>
    intro s
    simp only [selectLayers]
    obtain ⟨c1, c2, c3⟩ := turnOn_counters mapname tok s.layers 0 s.lo s.nLayerOrder s.validlayers
    obtain ⟨i1, i2, i3⟩ := ih
      { layers := (turnOn mapname tok 0 s.layers s.lo s.nLayerOrder s.validlayers 0).layers,
        lo := (turnOn mapname tok 0 s.layers s.lo s.nLayerOrder s.validlayers 0).lo,
        nLayerOrder := (turnOn mapname tok 0 s.layers s.lo s.nLayerOrder s.validlayers 0).nLayerOrder,
        validlayers := (turnOn mapname tok 0 s.layers s.lo s.nLayerOrder s.validlayers 0).validlayers,
        invalidlayers :=
          if (turnOn mapname tok 0 s.layers s.lo s.nLayerOrder s.validlayers 0).layerfound = 0
          then s.invalidlayers + 1 else s.invalidlayers }
    simp only [] at i1 i2 i3
    have hle : s.invalidlayers ≤
        (if (turnOn mapname tok 0 s.layers s.lo s.nLayerOrder s.validlayers 0).layerfound = 0
          then s.invalidlayers + 1 else s.invalidlayers) := by
      split_ifs <;> omega
    refine ⟨le_trans hle i1, le_trans c1 i2, ?_⟩
    intro t ht hno
    rcases List.mem_cons.1 ht with rfl | ht
    · have hf := c2 hno
      simp only [hf, eq_self_iff_true, if_true] at i1 ⊢
      omega
    · exact lt_of_le_of_lt hle (i3 t ht (c3 t hno))

theorem processLayers_counters (m : mapObj) (v : gmpVars) (toks : List String) :
    v.invalidlayers ≤ (processLayers m v toks).2.invalidlayers ∧
    v.validlayers ≤ (processLayers m v toks).2.validlayers ∧
    (∀ tok ∈ toks, (∀ lp ∈ m.layers, layerMatches m.name lp tok = false) →
      v.invalidlayers < (processLayers m v toks).2.invalidlayers) := by
  obtain ⟨a, b, c⟩ := selectLayers_counters m.name toks
    { layers := (keepDefaults 0 m.layers (identityOrder m.layerorder m.numlayers) v.nLayerOrder).1,
      lo := (keepDefaults 0 m.layers (identityOrder m.layerorder m.numlayers) v.nLayerOrder).2.1,
      nLayerOrder := (keepDefaults 0 m.layers (identityOrder m.layerorder m.numlayers) v.nLayerOrder).2.2,
      validlayers := v.validlayers, invalidlayers := v.invalidlayers }
  refine ⟨a, b, fun tok ht hno => c tok ht ?_⟩
  simp only [keepDefaults_eq]
  intro lp hlp
  simp only [List.mem_map] at hlp
  obtain ⟨lp0, h0, rfl⟩ := hlp
  have := hno lp0 h0
  split_ifs
  · simpa [layerMatches] using this
  · exact this

/-- The counters of valid and invalid layers never decrease over a turn of the loop. -/
theorem gmpScanStep_counters (env : Env) (nVersion : Int) (st st2 : wmsState) (v v2 : gmpVars)
    (p : String × String) (h : gmpScanStep env nVersion st v p = .ok (st2, v2)) :
    v.invalidlayers ≤ v2.invalidlayers ∧ v.validlayers ≤ v2.validlayers := by
  by_cases hl : strcaseEq p.1 "LAYERS" = true
  · have e : p = (p.1, p.2) := rfl
    rw [e, gmpScanStep_layers env nVersion st v p.1 p.2 hl] at h
    unfold loadLayersParam at h
    simp only [] at h
    split_ifs at h
    cases h
    exact ⟨(processLayers_counters _ _ _).1, (processLayers_counters _ _ _).2.1⟩
  · have hl2 : strcaseEq p.1 "LAYERS" = false := by simpa using hl
    obtain ⟨_, _, k, _⟩ := gmpScanStep_vars env nVersion st st2 v v2 p h
    rw [(k hl2).2.1, (k hl2).2.2]
    exact ⟨le_refl _, le_refl _⟩

theorem gmpScan_counters (env : Env) (nVersion : Int) (ps : List (String × String))
    (st st2 : wmsState) (v v2 : gmpVars) (h : gmpScan env nVersion ps st v = .ok (st2, v2)) :
    v.invalidlayers ≤ v2.invalidlayers ∧ v.validlayers ≤ v2.validlayers :=
  gmpScan_rel env nVersion
    (fun a b => a.2.invalidlayers ≤ b.2.invalidlayers ∧ a.2.validlayers ≤ b.2.validlayers)
    (fun _ => ⟨le_refl _, le_refl _⟩)
    (fun _ _ _ h1 h2 => ⟨le_trans h1.1 h2.1, le_trans h1.2 h2.2⟩) ps st st2 v v2
    (fun p _ sa sb va vb hs => gmpScanStep_counters env nVersion sa sb va vb p hs) h

/-- Without a LAYERS parameter the loop ends with no valid layer. -/
theorem gmpScan_no_layers (env : Env) (nVersion : Int) (params : List (String × String))
    (st st2 : wmsState) (v2 : gmpVars) (hn : noParam "LAYERS" params = true)
    (h : gmpScan env nVersion params st gmpVars.init = .ok (st2, v2)) : layersInvalid v2 :=
  Or.inl (gmpScan_keeps env nVersion (fun v => v.validlayers) "LAYERS"
    (fun p sa sb va vb hs hc => ((gmpScanStep_vars env nVersion sa sb va vb p hs).2.2.1 hc).2.1)
    params hn st st2 gmpVars.init v2 h)

/-- A LAYERS token that matches no layer leaves the loop, if it ends, with an invalid layer. -/
theorem gmpScan_unmatched (env : Env) (nVersion : Int) (st : wmsState)
    (params : List (String × String)) (st2 : wmsState) (v2 : gmpVars)
    (hu : unmatchedLayersToken env nVersion st params)
    (h : gmpScan env nVersion params (gmpEnter env st) gmpVars.init = .ok (st2, v2)) :
    layersInvalid v2 := by
  obtain ⟨pre, post, name, value, st1, v1, tok, hps, hn, hpre, htok, hno⟩ := hu
  rw [hps, gmpScan_append, hpre] at h
  simp only [gmpScan, gmpScanStep_layers env nVersion st1 v1 name value hn] at h
  have h0 := (gmpScan_counters env nVersion pre _ _ _ _ hpre).1
  split at h
  · cases h
  · rename_i r hr
    unfold loadLayersParam at hr
    simp only [] at hr
    split_ifs at hr
    cases hr
    have h1 := (processLayers_counters st1.map v1 (env.msStringSplit value ',')).2.2 tok htok hno
    have h2 := (gmpScan_counters env nVersion post _ _ _ _ h).1
    have h3 : gmpVars.init.invalidlayers = 0 := rfl
    right
    simp only [] at h2
    omega

/-- C11: when the request has no LAYERS parameter, or some token of a LAYERS parameter matches
no layer of the map (by layer name, map name or group; the other tokens may be valid), or no
token of a LAYERS parameter matches any layer, `msWMSLoadGetMapParams` does not return
MS_SUCCESS; and in the first two cases, when the parameter loop and the time filters raise no
error, the call is the `msWMSException` with code LayerNotDefined and returns MS_FAILURE. -/
theorem layers_validity (env : Env) (st : wmsState) (nVersion : Int)
    (params : List (String × String)) :
    ((noParam "LAYERS" params = true ∨ unmatchedLayersToken env nVersion st params) →
      (msWMSLoadGetMapParams env st nVersion params).1 ≠ MS_SUCCESS ∧
      ∀ (st2 : wmsState) (v2 : gmpVars),
        gmpScan env nVersion params (gmpEnter env st) gmpVars.init = .ok (st2, v2) →
        (gmpTimeStep env nVersion st2 v2).1 ≠ MS_FAILURE →
        msWMSLoadGetMapParams env st nVersion params =
          msWMSException env
            (msSetError (gmpFormatStep env (gmpTimeStep env nVersion st2 v2).2 v2)
              "Invalid layer(s) given in the LAYERS parameter.")
            nVersion (some "LayerNotDefined") ∧
        (msWMSLoadGetMapParams env st nVersion params).1 = MS_FAILURE) ∧
    (∀ (pre post : List (String × String)) (name value : String) (st1 : wmsState) (v1 : gmpVars),
      params = pre ++ (name, value) :: post → strcaseEq name "LAYERS" = true →
      gmpScan env nVersion pre (gmpEnter env st) gmpVars.init = .ok (st1, v1) →
      (∀ tok ∈ env.msStringSplit value ',', ∀ lp ∈ st1.map.layers,
        layerMatches st1.map.name lp tok = false) →
      (msWMSLoadGetMapParams env st nVersion params).1 ≠ MS_SUCCESS) := by
  have key : (noParam "LAYERS" params = true ∨ unmatchedLayersToken env nVersion st params) →
      ∀ (st2 : wmsState) (v2 : gmpVars),
        gmpScan env nVersion params (gmpEnter env st) gmpVars.init = .ok (st2, v2) →
        layersInvalid v2 := by
    intro hbad st2 v2 hs
    rcases hbad with hn | hu
    · exact gmpScan_no_layers env nVersion params _ _ _ hn hs
    · exact gmpScan_unmatched env nVersion st params _ _ hu hs
  have nosucc : (noParam "LAYERS" params = true ∨ unmatchedLayersToken env nVersion st params) →
      (msWMSLoadGetMapParams env st nVersion params).1 ≠ MS_SUCCESS := by
    intro hbad hsucc
    obtain ⟨st1, v1, _, _, _, hs, _, hl, _⟩ := loadGetMapParams_success env st nVersion params hsucc
    exact hl (key hbad st1 v1 hs)
  refine ⟨fun hbad => ⟨nosucc hbad, fun st2 v2 hs ht => ?_⟩, ?_⟩
  · have hres : msWMSLoadGetMapParams env st nVersion params =
          msWMSException env
            (msSetError (gmpFormatStep env (gmpTimeStep env nVersion st2 v2).2 v2)
              "Invalid layer(s) given in the LAYERS parameter.")
            nVersion (some "LayerNotDefined") := by
      rw [msWMSLoadGetMapParams_eq, hs]
      simp only []
      unfold gmpAfterScan
      rw [if_neg ht]
      unfold gmpChecks
      rw [if_pos (key hbad st2 v2 hs)]
    exact ⟨hres, by rw [hres]; rfl⟩
  · intro pre post name value st1 v1 hps hn hpre hall
    cases hsp : env.msStringSplit value ',' with
    | nil =>
      intro hsucc
      obtain ⟨st2, v2, _, _, _, hs, _⟩ := loadGetMapParams_success env st nVersion params hsucc
      rw [hps, gmpScan_append, hpre] at hs
      simp only [gmpScan, gmpScanStep_layers env nVersion st1 v1 name value hn] at hs
      unfold loadLayersParam at hs
      simp only [hsp, List.length_nil] at hs
      simp at hs
    | cons tok toks =>
      apply nosucc
      right
      refine ⟨pre, post, name, value, st1, v1, tok, hps, hn, hpre, ?_, ?_⟩
      · rw [hsp]; exact List.mem_cons_self _ _
      · exact hall tok (by rw [hsp]; exact List.mem_cons_self _ _)

/-- C11 at the request `LAYERS=streets,nosuch` on a map whose only layer is `streets`: one
token is valid, the other matches nothing, and the call raises LayerNotDefined. -/
theorem layers_validity_witness :
    (msWMSLoadGetMapParams sampleEnv (freshState (sampleMap [sampleLayer "streets" none MS_OFF]))
      OWS_1_1_1 [("LAYERS", "streets,nosuch")]).1 = MS_FAILURE ∧
    (msWMSLoadGetMapParams sampleEnv (freshState (sampleMap [sampleLayer "streets" none MS_OFF]))
      OWS_1_1_1 [("LAYERS", "streets,nosuch")]).2.raised = [(OWS_1_1_1, some "LayerNotDefined")] :=
  have w := ((layers_validity sampleEnv (freshState (sampleMap [sampleLayer "streets" none MS_OFF]))
      OWS_1_1_1 [("LAYERS", "streets,nosuch")]).1
      (Or.inr ⟨[], [], "LAYERS", "streets,nosuch", _, _, "nosuch", rfl, by decide, rfl, by decide,
        by decide⟩)).2 _ _ (by with_unfolding_all rfl) (by decide)
  ⟨w.2, by rw [w.1]; rfl⟩

/-! ## The half-pixel adjustment -/

theorem applyTimeLoop_error_frame (env : Env) (version : Int) (time : Option String)
    (st : wmsState) (todo : List layerObj) : ∀ (done : List layerObj) (e : Int × wmsState),
    applyTimeLoop env version time st done todo = .error e →
    mapFrame e.2.map = mapFrame st.map ∧ e.1 = MS_FAILURE := by
  induction todo with
  | nil => intro done e h; cases h
  | cons lp todo ih =>
    intro done e h
    unfold applyTimeLoop at h
    split at h
    · cases h
      exact ⟨rfl, rfl⟩
    · exact ih _ e h

theorem msWMSApplyTime_frame (env : Env) (st : wmsState) (version : Int) (time : Option String) :
    mapFrame (msWMSApplyTime env st version time).2.map = mapFrame st.map := by
  unfold msWMSApplyTime
  split
  · rename_i r hr
    exact (applyTimeLoop_error_frame env version time st _ _ r hr).1
  · simp only []
    split
    · split_ifs
      · split <;> rfl
      · rfl
    · rfl

theorem gmpTimeStep_frame (env : Env) (nVersion : Int) (st : wmsState) (v : gmpVars) :
    mapFrame (gmpTimeStep env nVersion st v).2.map = mapFrame st.map := by
  unfold gmpTimeStep
  simp only []
  split_ifs
  · exact msWMSApplyTime_frame env st nVersion v.stime
  · rfl

theorem gmpFormatStep_frame (env : Env) (st : wmsState) (v : gmpVars) :
    mapFrame (gmpFormatStep env st v).map = mapFrame st.map := by
  unfold gmpFormatStep
  split <;> rfl

theorem nonsquareStep_frame (env : Env) (m : mapObj) :
    mapFrame (nonsquareStep env m).1 = mapFrame m := by
  unfold nonsquareStep
  simp only []
  split_ifs <;> rfl

theorem propagateStep_frame (env : Env) (nVersion : Int) (st stP : wmsState) (v : gmpVars)
    (b : Bool) (h : propagateStep env nVersion st v b = .ok stP) :
    mapFrame stP.map = mapFrame st.map := by
  unfold propagateStep at h
  simp only [] at h
  split_ifs at h
  all_goals first
    | (cases h; rfl)
    | (split at h
       · cases h
       · cases h; rfl)

theorem srsStep_frame (env : Env) (nVersion : Int) (st stS : wmsState) (v : gmpVars)
    (h : srsStep env nVersion st v = .ok stS) : mapFrame stS.map = mapFrame st.map := by
  unfold srsStep at h
  simp only [] at h
  split_ifs at h <;> (cases h; rfl)

theorem stylesLoop_frame (env : Env) (nVersion : Int) (params : List (String × String))
    (styles : String) (n : Nat) (tokens : List String) :
    ∀ (i : Nat) (st stY : wmsState),
    stylesLoop env nVersion params styles n i tokens st = .ok stY →
    mapFrame stY.map = mapFrame st.map := by
  induction tokens with
  | nil => intro i st stY h; cases h; rfl
  | cons token tokens ih =>
    intro i st stY h
    unfold stylesLoop at h
    split_ifs at h with h1
    · split at h
      · simp only [] at h
        split_ifs at h
        exact (ih _ _ stY h).trans rfl
      · cases h
    · exact ih _ _ stY h

theorem stylesStep_frame (env : Env) (nVersion : Int) (params : List (String × String))
    (st stY : wmsState) (v : gmpVars) (h : stylesStep env nVersion params st v = .ok stY) :
    mapFrame stY.map = mapFrame st.map := by
  unfold stylesStep at h
  split at h
  · cases h; rfl
  · simp only [] at h
    split_ifs at h
    · exact stylesLoop_frame env nVersion params _ _ _ _ _ stY h
    · cases h; rfl

/-- From the end of the parameter loop to the end of the STYLES block the extent, the width and
the height of the map stay what the loop left. -/
theorem gmpReaches_frame (env : Env) (nVersion : Int) (params : List (String × String))
    (st : wmsState) (v : gmpVars) (stY : wmsState)
    (h : gmpReaches env nVersion params st v stY) :
    ∃ st1, gmpScan env nVersion params (gmpEnter env st) gmpVars.init = .ok (st1, v) ∧
      mapFrame stY.map = mapFrame st1.map := by
  obtain ⟨stS, ⟨st1, stP, hs, _, _, _, _, hp, hsr⟩, hy⟩ := h
  refine ⟨st1, hs, ?_⟩
  rw [stylesStep_frame env nVersion params stS stY v hy, srsStep_frame env nVersion stP stS v hsr,
    propagateStep_frame env nVersion _ stP v _ hp]
  exact (nonsquareStep_frame env _).trans
    ((gmpFormatStep_frame env _ v).trans (gmpTimeStep_frame env nVersion st1 v))

theorem gmpScan_split (env : Env) (nVersion : Int) (pre post : List (String × String))
    (st st2 : wmsState) (v v2 : gmpVars)
    (h : gmpScan env nVersion (pre ++ post) st v = .ok (st2, v2)) :
    ∃ sa va, gmpScan env nVersion pre st v = .ok (sa, va) ∧
      gmpScan env nVersion post sa va = .ok (st2, v2) := by
  rw [gmpScan_append] at h
  split at h
  · cases h
  · rename_i r hr
    exact ⟨r.1, r.2, hr, h⟩

/-- The extent left by the last BBOX parameter reaches the end of the loop. -/
theorem gmpScan_extent_kept (env : Env) (nVersion : Int) (hk : sldKeepsFrame env)
    (ps : List (String × String)) (hno : noParam "BBOX" ps = true)
    (st st2 : wmsState) (v v2 : gmpVars) (h : gmpScan env nVersion ps st v = .ok (st2, v2)) :
    st2.map.extent = st.map.extent := by
  refine gmpScan_rel env nVersion (fun a b => b.1.map.extent = a.1.map.extent) (fun _ => rfl)
    (fun _ _ _ h1 h2 => h2.trans h1) ps st st2 v v2 ?_ h
  intro p hp sa sb va vb hs
  refine (gmpScanStep_frame env nVersion sa sb va vb p hk hs).2 ?_
  unfold noParam at hno
  have := List.all_eq_true.1 hno p hp
  simpa using this

/-- C19, as the code has it: let `msWMSLoadGetMapParams` succeed (the SLD collaborators
leaving extent and projection alone).  When the last BBOX parameter reads (a,b,c,d) and the
final width and height are w and h, the final extent is
(a + (c-a)/w*0.5, b + (d-b)/h*0.5, c - (c-a)/w*0.5, d - (d-b)/h*0.5) with every operation
in `double` arithmetic: half a pixel is taken off each side, once.  When no operation rounds,
these are the exact values (a + (c-a)/(2w), b + (d-b)/(2h), c - (c-a)/(2w), d - (d-b)/(2h)),
the centre of the box is kept, and minx < maxx for w >= 2, miny < maxy for h >= 2.  When the
request has no BBOX the final extent is the one the function had after its first statement
(`msAdjustExtent`): nothing is taken off. -/
theorem half_pixel (env : Env) (st : wmsState) (nVersion : Int)
    (params : List (String × String)) (hk : sldKeepsFrame env)
    (hsucc : (msWMSLoadGetMapParams env st nVersion params).1 = MS_SUCCESS) :
    (∀ (pre post : List (String × String)) (name value : String) (a b c d : double) (w h : Int),
      params = pre ++ (name, value) :: post → strcaseEq name "BBOX" = true →
      noParam "BBOX" post = true →
      a = env.atof ((env.msStringSplit value ',').getD 0 "") →
      b = env.atof ((env.msStringSplit value ',').getD 1 "") →
      c = env.atof ((env.msStringSplit value ',').getD 2 "") →
      d = env.atof ((env.msStringSplit value ',').getD 3 "") →
      w = (msWMSLoadGetMapParams env st nVersion params).2.map.width →
      h = (msWMSLoadGetMapParams env st nVersion params).2.map.height →
      (msWMSLoadGetMapParams env st nVersion params).2.map.extent =
        { minx := a + (c - a) / double.ofInt w * 0.5, miny := b + (d - b) / double.ofInt h * 0.5,
          maxx := c - (c - a) / double.ofInt w * 0.5,
          maxy := d - (d - b) / double.ofInt h * 0.5 } ∧
      ¬ a ≥ c ∧ ¬ b ≥ d ∧
      (∀ qa qb qc qd : ℚ, a = double.fin qa → b = double.fin qb → c = double.fin qc →
        d = double.fin qd → 0 < w → 0 < h →
        halfPixelExact qa qc w → halfPixelExact qb qd h →
        (msWMSLoadGetMapParams env st nVersion params).2.map.extent =
          { minx := double.fin (qa + (qc - qa) / (2 * w)),
            miny := double.fin (qb + (qd - qb) / (2 * h)),
            maxx := double.fin (qc - (qc - qa) / (2 * w)),
            maxy := double.fin (qd - (qd - qb) / (2 * h)) } ∧
        ((qa + (qc - qa) / (2 * w)) + (qc - (qc - qa) / (2 * w))) / 2 = (qa + qc) / 2 ∧
        ((qb + (qd - qb) / (2 * h)) + (qd - (qd - qb) / (2 * h))) / 2 = (qb + qd) / 2 ∧
        (2 ≤ w → (msWMSLoadGetMapParams env st nVersion params).2.map.extent.minx <
          (msWMSLoadGetMapParams env st nVersion params).2.map.extent.maxx) ∧
        (2 ≤ h → (msWMSLoadGetMapParams env st nVersion params).2.map.extent.miny <
          (msWMSLoadGetMapParams env st nVersion params).2.map.extent.maxy))) ∧
    (noParam "BBOX" params = true →
      (msWMSLoadGetMapParams env st nVersion params).2.map.extent =
        env.msAdjustExtent st.map.extent st.map.width st.map.height) := by
  obtain ⟨v, stY, hreach, _, hres⟩ := loadGetMapParams_success_reaches env st nVersion params hsucc
  obtain ⟨st1, hs, hfr⟩ := gmpReaches_frame env nVersion params st v stY hreach
  have hfe : stY.map.extent = st1.map.extent := congrArg (fun t => t.1) hfr
  have hfw : stY.map.width = st1.map.width := congrArg (fun t => t.2.1) hfr
  have hfh : stY.map.height = st1.map.height := congrArg (fun t => t.2.2) hfr
  refine ⟨?_, ?_⟩
  · intro pre post name value a b c d w h hps hn hpost ha hb hc hd hw hh
    rw [hps] at hs
    obtain ⟨sa, va, hpre, hrest⟩ := gmpScan_split env nVersion pre _ _ _ _ _ hs
    simp only [gmpScan, gmpScanStep_bbox env nVersion sa va name value hn] at hrest
    split at hrest
    · cases hrest
    rename_i r hr
    unfold loadBboxParam at hr
    simp only [] at hr
    split_ifs at hr with h4 hbad
    cases hr
    simp only [] at hrest
    have hext := gmpScan_extent_kept env nVersion hk post hpost _ _ _ _ hrest
    have hadj : v.adjust_extent = MS_TRUE :=
      gmpScan_keeps env nVersion (fun v => v.adjust_extent) "BBOX"
        (fun p sa sb va vb hs hc => ((gmpScanStep_vars env nVersion sa sb va vb p hs).2.2.2.2.1 hc).2)
        post hpost _ _ _ _ hrest
    have hadj2 : v.adjust_extent ≠ 0 := by rw [hadj]; decide
    simp only [] at hext
    rw [hres] at hw hh ⊢
    simp only [hadj2, ne_eq, not_false_eq_true, if_true] at hw hh ⊢
    have hw2 : w = stY.map.width := hw
    have hh2 : h = stY.map.height := hh
    have hge : ¬ a ≥ c ∧ ¬ b ≥ d := by
      rw [ha, hb, hc, hd]
      exact ⟨fun hcon => hbad (Or.inl hcon), fun hcon => hbad (Or.inr hcon)⟩
    have hval : (adjustHalfPixel stY.map).extent =
        { minx := a + (c - a) / double.ofInt w * 0.5, miny := b + (d - b) / double.ofInt h * 0.5,
          maxx := c - (c - a) / double.ofInt w * 0.5,
          maxy := d - (d - b) / double.ofInt h * 0.5 } := by
      unfold adjustHalfPixel
      simp only [hfe, hext, ← hw2, ← hh2, ← ha, ← hb, ← hc, ← hd]
    refine ⟨hval, hge.1, hge.2, ?_⟩
    intro qa qb qc qd ea eb ec ed hwp hhp ex ey
    obtain ⟨x1, x2⟩ := halfPixel_exact qa qc w hwp ex
    obtain ⟨y1, y2⟩ := halfPixel_exact qb qd h hhp ey
    have hlt : qa < qc ∧ qb < qd := by
      rw [ea, ec] at hge
      rw [eb, ed] at hge
      exact ⟨not_le.1 (fun hcon => hge.1 ((double_le_fin _ _).2 hcon)),
        not_le.1 (fun hcon => hge.2 ((double_le_fin _ _).2 hcon))⟩
    have hval2 : (adjustHalfPixel stY.map).extent =
        { minx := double.fin (qa + (qc - qa) / (2 * w)),
          miny := double.fin (qb + (qd - qb) / (2 * h)),
          maxx := double.fin (qc - (qc - qa) / (2 * w)),
          maxy := double.fin (qd - (qd - qb) / (2 * h)) } := by
      rw [hval, ea, eb, ec, ed, x1, x2, y1, y2]
    refine ⟨hval2, by ring, by ring, fun h2 => ?_, fun h2 => ?_⟩
    · rw [hval2]
      apply (double_lt_fin _ _).2
      exact halfPixel_order qa qc w hlt.1 (by exact_mod_cast h2)
    · rw [hval2]
      apply (double_lt_fin _ _).2
      exact halfPixel_order qb qd h hlt.2 (by exact_mod_cast h2)
  · intro hno
    obtain ⟨_, f2, _⟩ := gmpScan_flags env nVersion params _ _ _ hs
    have hadj : ¬ v.adjust_extent ≠ 0 := by rw [(f2 hno).2]; simp
    rw [hres]
    simp only [hadj, if_false]
    rw [hfe, gmpScan_extent_kept env nVersion hk params hno _ _ _ _ hs]
    rfl

/-- C19 at the request
`REQUEST=GetMap&LAYERS=streets&SRS=EPSG:4326&BBOX=0,0,4,3&WIDTH=4&HEIGHT=2&FORMAT=image/png`:
the pixels are 1 wide and 1.5 high, no operation rounds, and the final extent is the box
shrunk by 1/2 on the left and on the right and by 3/4 at the bottom and at the top. -/
theorem half_pixel_witness :
    (msWMSLoadGetMapParams sampleEnv (freshState (sampleMap [sampleLayer "streets" none MS_ON]))
      OWS_1_1_1 [("REQUEST", "GetMap"), ("LAYERS", "streets"), ("SRS", "EPSG:4326"),
        ("BBOX", "0,0,4,3"), ("WIDTH", "4"), ("HEIGHT", "2"), ("FORMAT", "image/png")]).2.map.extent =
      { minx := double.fin (0 + (4 - 0) / (2 * (4 : Int))),
        miny := double.fin (0 + (3 - 0) / (2 * (2 : Int))),
        maxx := double.fin (4 - (4 - 0) / (2 * (4 : Int))),
        maxy := double.fin (3 - (3 - 0) / (2 * (2 : Int))) } :=
  (((half_pixel sampleEnv (freshState (sampleMap [sampleLayer "streets" none MS_ON]))
      OWS_1_1_1 [("REQUEST", "GetMap"), ("LAYERS", "streets"), ("SRS", "EPSG:4326"),
        ("BBOX", "0,0,4,3"), ("WIDTH", "4"), ("HEIGHT", "2"), ("FORMAT", "image/png")]
      (fun _ _ => ⟨rfl, rfl, rfl, rfl⟩) (by decide!)).1
    [("REQUEST", "GetMap"), ("LAYERS", "streets"), ("SRS", "EPSG:4326")]
    [("WIDTH", "4"), ("HEIGHT", "2"), ("FORMAT", "image/png")] "BBOX" "0,0,4,3"
    (double.fin 0) (double.fin 0) (double.fin 4) (double.fin 3) 4 2 rfl (by decide) (by decide)
    (by decide!) (by decide!) (by decide!) (by decide!)
    (by decide!) (by decide!)).2.2.2 0 0 4 3 rfl rfl rfl rfl (by decide) (by decide)
    ⟨by decide!, by decide!, by decide!, by decide!, by decide!, by decide!⟩
    ⟨by decide!, by decide!, by decide!, by decide!, by decide!, by decide!⟩).1

/-- Two requests against C19 as the claim words it.  At
`BBOX=0,0,4,3&WIDTH=400&HEIGHT=300` the exact minx is 0 + (4-0)/(2*400) = 1/200, which is not
a double: the call succeeds and the final minx is the double
5764607523034235 / 2^60.  At `BBOX=-1e308,0,1e308,1&WIDTH=2&HEIGHT=2` the difference
maxx - minx overflows: the call succeeds and the final extent has minx = +infinity and
maxx = -infinity, so minx < maxx does not hold although w >= 2. -/
theorem half_pixel_counterexample :
    (msWMSLoadGetMapParams sampleEnv (freshState (sampleMap [sampleLayer "streets" none MS_ON]))
      OWS_1_1_1 [("REQUEST", "GetMap"), ("LAYERS", "streets"), ("SRS", "EPSG:4326"),
        ("BBOX", "0,0,4,3"), ("WIDTH", "400"), ("HEIGHT", "300"), ("FORMAT", "image/png")]).1 =
      MS_SUCCESS ∧
    (msWMSLoadGetMapParams sampleEnv (freshState (sampleMap [sampleLayer "streets" none MS_ON]))
      OWS_1_1_1 [("REQUEST", "GetMap"), ("LAYERS", "streets"), ("SRS", "EPSG:4326"),
        ("BBOX", "0,0,4,3"), ("WIDTH", "400"), ("HEIGHT", "300"),
        ("FORMAT", "image/png")]).2.map.extent.minx =
      double.fin (5764607523034235 / 1152921504606846976) ∧
    (5764607523034235 / 1152921504606846976 : ℚ) ≠ 0 + (4 - 0) / (2 * 400) ∧
    (msWMSLoadGetMapParams sampleEnvDecimal
      (freshState (sampleMap [sampleLayer "streets" none MS_ON]))
      OWS_1_1_1 [("REQUEST", "GetMap"), ("LAYERS", "streets"), ("SRS", "EPSG:4326"),
        ("BBOX", "-1e308,0,1e308,1"), ("WIDTH", "2"), ("HEIGHT", "2"),
        ("FORMAT", "image/png")]).1 = MS_SUCCESS ∧
    (msWMSLoadGetMapParams sampleEnvDecimal
      (freshState (sampleMap [sampleLayer "streets" none MS_ON]))
      OWS_1_1_1 [("REQUEST", "GetMap"), ("LAYERS", "streets"), ("SRS", "EPSG:4326"),
        ("BBOX", "-1e308,0,1e308,1"), ("WIDTH", "2"), ("HEIGHT", "2"),
        ("FORMAT", "image/png")]).2.map.extent.minx = double.inf false ∧
    (msWMSLoadGetMapParams sampleEnvDecimal
      (freshState (sampleMap [sampleLayer "streets" none MS_ON]))
      OWS_1_1_1 [("REQUEST", "GetMap"), ("LAYERS", "streets"), ("SRS", "EPSG:4326"),
        ("BBOX", "-1e308,0,1e308,1"), ("WIDTH", "2"), ("HEIGHT", "2"),
        ("FORMAT", "image/png")]).2.map.extent.maxx = double.inf true ∧
    ¬ (double.inf false < double.inf true) :=
  ⟨by decide!, by decide!, by norm_num, by decide!, by decide!, by decide!, by decide⟩

/-! ## The validity of the requested SRS -/

theorem gmpScan_epsgbuf (env : Env) (nVersion : Int) (pre post : List (String × String))
    (name value : String) (st st2 : wmsState) (v v2 : gmpVars)
    (hn : strcaseEq name "SRS" = true) (hpost : noParam "SRS" post = true)
    (hv : strncaseEq value "EPSG:" 5 = true)
    (h : gmpScan env nVersion (pre ++ (name, value) :: post) st v = .ok (st2, v2)) :
    v2.epsgbuf = "EPSG:" ++ String.mk ((value.data.drop 5).take 20) := by
  obtain ⟨sa, va, -, hrest⟩ := gmpScan_split env nVersion pre _ _ _ _ _ h
  simp only [gmpScan, gmpScanStep_srs env nVersion sa va name value hn] at hrest
  unfold loadSrsParam at hrest
  simp only [hv, if_true] at hrest
  have hkeep := gmpScan_keeps env nVersion (fun v => v.epsgbuf) "SRS"
    (fun p sa sb va vb hs hc => ((gmpScanStep_vars env nVersion sa sb va vb p hs).2.2.2.1 hc).2.1)
    post hpost _ _ _ _ hrest
  exact hkeep

/-- C15, as the code has it.  Let the last SRS parameter of the request have a value
`EPSG:<code>` (the prefix in any case), let the parameter loop and the time filters succeed
and the layer validation pass.  The code that reaches the CRS-validity step is `EPSG:`
followed by the first 20 characters of `<code>`, which is `<code>` itself when it has at
most 20 characters.  `msWMSLoadGetMapParams` raises InvalidSRS at that step exactly when this
code is not, ignoring case, among the space-separated EPSG codes of the map and some layer
with status ON does not have it among its own; otherwise it goes on to the image-size check.
So a code listed by the map is accepted whatever the layers list, and a code that the map
does not list and some, but not all, ON layers list is rejected. -/
theorem crs_validity (env : Env) (st : wmsState) (nVersion : Int)
    (params pre post : List (String × String)) (name value : String)
    (stS : wmsState) (v : gmpVars)
    (hps : params = pre ++ (name, value) :: post) (hn : strcaseEq name "SRS" = true)
    (hpost : noParam "SRS" post = true) (hv : strncaseEq value "EPSG:" 5 = true)
    (hscan : gmpScan env nVersion params (gmpEnter env st) gmpVars.init = .ok (stS, v))
    (htime : (gmpTimeStep env nVersion stS v).1 ≠ MS_FAILURE)
    (hl : ¬ layersInvalid v) :
    v.epsgbuf = "EPSG:" ++ String.mk ((value.data.drop 5).take 20) ∧
    (value.length ≤ 25 → v.epsgbuf = "EPSG:" ++ String.mk (value.data.drop 5)) ∧
    ((epsgListed env (gmpFormatStep env (gmpTimeStep env nVersion stS v).2 v).map.projection
          (gmpFormatStep env (gmpTimeStep env nVersion stS v).2 v).map.webmetadata
          ("EPSG:" ++ String.mk ((value.data.drop 5).take 20)) = false ∧
       ∃ lp ∈ (gmpFormatStep env (gmpTimeStep env nVersion stS v).2 v).map.layers,
         lp.status = MS_ON ∧
         epsgListed env lp.projection lp.metadata
           ("EPSG:" ++ String.mk ((value.data.drop 5).take 20)) = false) →
      msWMSLoadGetMapParams env st nVersion params =
        msWMSException env
          (msSetError (gmpFormatStep env (gmpTimeStep env nVersion stS v).2 v)
            "Invalid SRS given : SRS must be valid for all requested layers.")
          nVersion (some "InvalidSRS") ∧
      (msWMSLoadGetMapParams env st nVersion params).1 = MS_FAILURE ∧
      (msWMSLoadGetMapParams env st nVersion params).2.raised =
        (gmpFormatStep env (gmpTimeStep env nVersion stS v).2 v).raised ++
          [(nVersion, some "InvalidSRS")]) ∧
    (¬ (epsgListed env (gmpFormatStep env (gmpTimeStep env nVersion stS v).2 v).map.projection
          (gmpFormatStep env (gmpTimeStep env nVersion stS v).2 v).map.webmetadata
          ("EPSG:" ++ String.mk ((value.data.drop 5).take 20)) = false ∧
       ∃ lp ∈ (gmpFormatStep env (gmpTimeStep env nVersion stS v).2 v).map.layers,
         lp.status = MS_ON ∧
         epsgListed env lp.projection lp.metadata
           ("EPSG:" ++ String.mk ((value.data.drop 5).take 20)) = false) →
      msWMSLoadGetMapParams env st nVersion params =
        gmpFinish env nVersion params (gmpFormatStep env (gmpTimeStep env nVersion stS v).2 v) v) ∧
    (epsgListed env (gmpFormatStep env (gmpTimeStep env nVersion stS v).2 v).map.projection
        (gmpFormatStep env (gmpTimeStep env nVersion stS v).2 v).map.webmetadata
        ("EPSG:" ++ String.mk ((value.data.drop 5).take 20)) = true →
      msWMSLoadGetMapParams env st nVersion params =
        gmpFinish env nVersion params (gmpFormatStep env (gmpTimeStep env nVersion stS v).2 v) v) ∧
    (epsgListed env (gmpFormatStep env (gmpTimeStep env nVersion stS v).2 v).map.projection
        (gmpFormatStep env (gmpTimeStep env nVersion stS v).2 v).map.webmetadata
        ("EPSG:" ++ String.mk ((value.data.drop 5).take 20)) = false →
      ∀ lp1 ∈ (gmpFormatStep env (gmpTimeStep env nVersion stS v).2 v).map.layers,
      ∀ lp2 ∈ (gmpFormatStep env (gmpTimeStep env nVersion stS v).2 v).map.layers,
        lp1.status = MS_ON →
        epsgListed env lp1.projection lp1.metadata
          ("EPSG:" ++ String.mk ((value.data.drop 5).take 20)) = true →
        lp2.status = MS_ON →
        epsgListed env lp2.projection lp2.metadata
          ("EPSG:" ++ String.mk ((value.data.drop 5).take 20)) = false →
        (msWMSLoadGetMapParams env st nVersion params).1 = MS_FAILURE ∧
        (msWMSLoadGetMapParams env st nVersion params).2.raised =
          (gmpFormatStep env (gmpTimeStep env nVersion stS v).2 v).raised ++
            [(nVersion, some "InvalidSRS")]) := by
  have hbuf : v.epsgbuf = "EPSG:" ++ String.mk ((value.data.drop 5).take 20) := by
    rw [hps] at hscan
    exact gmpScan_epsgbuf env nVersion pre post name value _ _ _ _ hn hpost hv hscan
  have hres : msWMSLoadGetMapParams env st nVersion params =
      gmpChecks env nVersion params (gmpFormatStep env (gmpTimeStep env nVersion stS v).2 v) v := by
    rw [msWMSLoadGetMapParams_eq, hscan]
    simp only []
    unfold gmpAfterScan
    rw [if_neg htime]
  obtain ⟨c1, c2, c3, c4⟩ := gmpChecks_crs env nVersion params
    (gmpFormatStep env (gmpTimeStep env nVersion stS v).2 v) v _ hbuf hl
  refine ⟨hbuf, fun hlen => ?_, fun h => ?_, fun h => ?_, fun h => ?_, ?_⟩
  · rw [hbuf, List.take_of_length_le]
    simp only [List.length_drop]
    have : value.data.length = value.length := rfl
    omega
  · rw [hres, c1 h]
    exact ⟨rfl, rfl, rfl⟩
  · rw [hres, c2 h]
  · rw [hres, c3 h]
  · intro h lp1 h1 lp2 h2 s1 e1 s2 e2
    rw [hres]
    exact c4 h lp1 h1 lp2 h2 s1 e1 s2 e2

theorem except_ok_of_isSome {ε α : Type} (e : Except ε α) (h : e.toOption.isSome = true) :
    e = .ok (e.toOption.get h) := by
  cases e with
  | error x => cases h
  | ok x => rfl

/-- C15 at the scenario "the map lists only EPSG:4326, the request asks for EPSG:3857" with one
layer `streets` that is ON and lists no code of its own: the request
`REQUEST=GetMap&LAYERS=streets&SRS=EPSG:3857&BBOX=0,0,4,3&WIDTH=256&HEIGHT=256&FORMAT=image/png`
returns MS_FAILURE with the exception InvalidSRS. -/
theorem crs_validity_witness :
    (msWMSLoadGetMapParams sampleEnv (freshState (sampleMap [sampleLayer "streets" none MS_ON]))
      OWS_1_1_1 [("REQUEST", "GetMap"), ("LAYERS", "streets"), ("SRS", "EPSG:3857"),
        ("BBOX", "0,0,4,3"), ("WIDTH", "256"), ("HEIGHT", "256"), ("FORMAT", "image/png")]).1 =
      MS_FAILURE ∧
    (msWMSLoadGetMapParams sampleEnv (freshState (sampleMap [sampleLayer "streets" none MS_ON]))
      OWS_1_1_1 [("REQUEST", "GetMap"), ("LAYERS", "streets"), ("SRS", "EPSG:3857"),
        ("BBOX", "0,0,4,3"), ("WIDTH", "256"), ("HEIGHT", "256"),
        ("FORMAT", "image/png")]).2.raised = [(OWS_1_1_1, some "InvalidSRS")] := by
  have hs : (gmpScan sampleEnv OWS_1_1_1 [("REQUEST", "GetMap"), ("LAYERS", "streets"),
      ("SRS", "EPSG:3857"), ("BBOX", "0,0,4,3"), ("WIDTH", "256"), ("HEIGHT", "256"),
      ("FORMAT", "image/png")]
      (gmpEnter sampleEnv (freshState (sampleMap [sampleLayer "streets" none MS_ON])))
      gmpVars.init).toOption.isSome = true := by decide!
  have h := (crs_validity sampleEnv (freshState (sampleMap [sampleLayer "streets" none MS_ON]))
    OWS_1_1_1 [("REQUEST", "GetMap"), ("LAYERS", "streets"), ("SRS", "EPSG:3857"),
      ("BBOX", "0,0,4,3"), ("WIDTH", "256"), ("HEIGHT", "256"), ("FORMAT", "image/png")]
    [("REQUEST", "GetMap"), ("LAYERS", "streets")]
    [("BBOX", "0,0,4,3"), ("WIDTH", "256"), ("HEIGHT", "256"), ("FORMAT", "image/png")]
    "SRS" "EPSG:3857" _ _ rfl (by decide) (by decide) (by decide)
    (except_ok_of_isSome _ hs) (by decide!) (by decide!)).2.2.1
    ⟨by decide!, sampleLayer "streets" none MS_ON,
      by with_unfolding_all exact List.mem_singleton.2 rfl, by decide, by decide!⟩
  exact ⟨h.2.1, h.2.2.trans (by decide!)⟩

/-- The request
`REQUEST=GetMap&LAYERS=streets&SRS=EPSG:123456789012345678901&BBOX=0,0,4,3&WIDTH=400&HEIGHT=300&FORMAT=image/png`
on a map that lists `EPSG:12345678901234567890`, with the layer `streets` ON and without a
list of its own, against C15 as the claim words it.  `EPSG:123456789012345678901` is not
among the codes of the map and not among those of the ON layer, so the claim has InvalidSRS
raised; the code compares `EPSG:` followed by the first 20 characters, which the map lists:
the call returns MS_SUCCESS and raises nothing. -/
theorem crs_validity_counterexample :
    epsgListed sampleEnv
      { sampleMap [sampleLayer "streets" none MS_ON] with
        webmetadata := [("wms_srs", "EPSG:12345678901234567890")] }.projection
      [("wms_srs", "EPSG:12345678901234567890")] "EPSG:123456789012345678901" = false ∧
    (sampleLayer "streets" none MS_ON).status = MS_ON ∧
    epsgListed sampleEnv (sampleLayer "streets" none MS_ON).projection
      (sampleLayer "streets" none MS_ON).metadata "EPSG:123456789012345678901" = false ∧
    (msWMSLoadGetMapParams sampleEnv
      (freshState { sampleMap [sampleLayer "streets" none MS_ON] with
        webmetadata := [("wms_srs", "EPSG:12345678901234567890")] })
      OWS_1_1_1 [("REQUEST", "GetMap"), ("LAYERS", "streets"),
        ("SRS", "EPSG:123456789012345678901"), ("BBOX", "0,0,4,3"), ("WIDTH", "400"),
        ("HEIGHT", "300"), ("FORMAT", "image/png")]).1 = MS_SUCCESS ∧
    (msWMSLoadGetMapParams sampleEnv
      (freshState { sampleMap [sampleLayer "streets" none MS_ON] with
        webmetadata := [("wms_srs", "EPSG:12345678901234567890")] })
      OWS_1_1_1 [("REQUEST", "GetMap"), ("LAYERS", "streets"),
        ("SRS", "EPSG:123456789012345678901"), ("BBOX", "0,0,4,3"), ("WIDTH", "400"),
        ("HEIGHT", "300"), ("FORMAT", "image/png")]).2.raised = [] :=
  ⟨by decide!, by decide, by decide!, by decide!, by decide!⟩

/-! ## The STYLES block -/

/-- A list of STYLES tokens that are all empty or `default` leaves the state alone. -/
theorem stylesLoop_default (env : Env) (nVersion : Int) (params : List (String × String))
    (styles : String) (n : Nat) (tokens : List String) :
    ∀ (i : Nat) (st : wmsState),
    (∀ tok ∈ tokens, tok.length = 0 ∨ strcaseEq tok "default" = true) →
    stylesLoop env nVersion params styles n i tokens st = .ok st := by
  induction tokens with
  | nil => intro i st _; rfl
  | cons token tokens ih =>
    intro i st h
    unfold stylesLoop
    have hc : ¬ (token.length > 0 ∧ (!strcaseEq token "default") = true) := by
      rcases h token (List.mem_cons_self _ _) with h0 | h0
      · intro hh; omega
      · intro hh; simp [h0] at hh
    rw [if_neg hc]
    exact ih _ _ (fun tok ht => h tok (List.mem_cons_of_mem _ ht))

/-- When the number of LAYERS tokens is not `n` (or there is no LAYERS parameter), the first
STYLES token that is neither empty nor `default` raises StyleNotDefined. -/
theorem stylesLoop_mismatch (env : Env) (nVersion : Int) (params : List (String × String))
    (styles : String) (n : Nat)
    (hcount : ∀ layers, stylesLayers env params = some layers → layers.length ≠ n)
    (tokens : List String) :
    ∀ (i : Nat) (st : wmsState),
    (∃ tok ∈ tokens, tok.length > 0 ∧ strcaseEq tok "default" = false) →
    stylesLoop env nVersion params styles n i tokens st =
      .error (msWMSException env
        (msSetError st ("Invalid style (" ++ styles ++ "). Mapserver is expecting an empty string for the STYLES : STYLES= or STYLES=,,, or using keyword default  STYLES=default,default, ..."))
        nVersion (some "StyleNotDefined")) := by
  induction tokens with
  | nil => intro i st h; obtain ⟨tok, ht, _⟩ := h; cases ht
  | cons token tokens ih =>
    intro i st h
    unfold stylesLoop
    by_cases hc : token.length > 0 ∧ (!strcaseEq token "default") = true
    · rw [if_pos hc]
      cases hl : stylesLayers env params with
      | none => rfl
      | some layers =>
        simp only []
        rw [if_neg (hcount layers hl)]
    · rw [if_neg hc]
      apply ih
      obtain ⟨tok, ht, h1, h2⟩ := h
      rcases List.mem_cons.1 ht with rfl | ht
      · exact absurd ⟨h1, by simp [h2]⟩ hc
      · exact ⟨tok, ht, h1, h2⟩

/-- C12 fails as stated: with `LAYERS=streets` (one token) and `STYLES=default,default` (two
tokens) the call returns MS_SUCCESS. -/
theorem styles_count_counterexample :
    (sampleEnv.msStringSplit "default,default" ',').length = 2 ∧
    (sampleEnv.msStringSplit "streets" ',').length = 1 ∧
    (msWMSLoadGetMapParams sampleEnv (freshState (sampleMap [sampleLayer "streets" none MS_ON]))
      OWS_1_1_1 [("REQUEST", "GetMap"), ("LAYERS", "streets"), ("STYLES", "default,default"),
        ("SRS", "EPSG:4326"), ("BBOX", "0,0,4,3"), ("WIDTH", "400"), ("HEIGHT", "300"),
        ("FORMAT", "image/png")]).1 = MS_SUCCESS := by
  decide!

/-- C12 (amended): let the (last) STYLES value be non-empty.  When one of its comma-separated
tokens is neither empty nor `default` (ignoring case) and the number of its tokens differs from
the number of tokens of the last LAYERS parameter, `msWMSLoadGetMapParams` does not return
MS_SUCCESS, and when every earlier validation passes the call is the `msWMSException` with code
StyleNotDefined.  When every token is empty or `default` the STYLES block succeeds and changes
nothing, whatever the number of tokens. -/
theorem styles_count (env : Env) (st : wmsState) (nVersion : Int)
    (params : List (String × String)) (styles : String)
    (hs : lastParam "STYLES" params = some styles) (hlen : styles.length > 0) :
    ((∃ tok ∈ env.msStringSplit styles ',', tok.length > 0 ∧ strcaseEq tok "default" = false) →
      (∀ layers, stylesLayers env params = some layers →
        layers.length ≠ (env.msStringSplit styles ',').length) →
      (msWMSLoadGetMapParams env st nVersion params).1 ≠ MS_SUCCESS ∧
      ∀ (v : gmpVars) (stS : wmsState), gmpReachesStyles env nVersion params st v stS →
        msWMSLoadGetMapParams env st nVersion params =
          msWMSException env
            (msSetError stS ("Invalid style (" ++ styles ++ "). Mapserver is expecting an empty string for the STYLES : STYLES= or STYLES=,,, or using keyword default  STYLES=default,default, ..."))
            nVersion (some "StyleNotDefined")) ∧
    ((∀ tok ∈ env.msStringSplit styles ',', tok.length = 0 ∨ strcaseEq tok "default" = true) →
      ∀ (v : gmpVars) (stS : wmsState), gmpReachesStyles env nVersion params st v stS →
        stylesStep env nVersion params stS v = .ok stS) := by
  have hstep : ∀ (v : gmpVars) (stS : wmsState), gmpReachesStyles env nVersion params st v stS →
      stylesStep env nVersion params stS v =
        stylesLoop env nVersion params styles (env.msStringSplit styles ',').length 0
          (env.msStringSplit styles ',') stS := by
    intro v stS hr
    obtain ⟨st1, stP, hsc, _⟩ := hr
    have hv : v.styles = some styles := by rw [gmpScan_styles env nVersion params _ _ _ hsc, hs]
    unfold stylesStep
    rw [hv]
    simp only [hlen, if_true]
  refine ⟨fun hne hcount => ?_, fun hall v stS hr => ?_⟩
  · have herr : ∀ (v : gmpVars) (stS : wmsState), gmpReachesStyles env nVersion params st v stS →
        msWMSLoadGetMapParams env st nVersion params =
          msWMSException env
            (msSetError stS ("Invalid style (" ++ styles ++ "). Mapserver is expecting an empty string for the STYLES : STYLES= or STYLES=,,, or using keyword default  STYLES=default,default, ..."))
            nVersion (some "StyleNotDefined") := by
      intro v stS hr
      rw [loadGetMapParams_of_reachesStyles env st nVersion params v stS hr, hstep v stS hr,
        stylesLoop_mismatch env nVersion params styles _ hcount _ 0 stS hne]
    refine ⟨fun hsucc => ?_, herr⟩
    obtain ⟨v, stY, ⟨stS, hr, _⟩, _, _⟩ := loadGetMapParams_success_reaches env st nVersion params hsucc
    rw [herr v stS hr] at hsucc
    have hne2 : MS_FAILURE ≠ MS_SUCCESS := by decide
    exact hne2 ((msWMSException_fst _ _ _ _).symm.trans hsucc)
  · rw [hstep v stS hr]
    exact stylesLoop_default env nVersion params styles _ _ 0 stS hall

/-- C12 (amended) at the request `LAYERS=streets&STYLES=a,b`: two STYLES tokens for one LAYERS
token, and the call raises StyleNotDefined. -/
theorem styles_count_witness :
    (msWMSLoadGetMapParams sampleEnv (freshState (sampleMap [sampleLayer "streets" none MS_ON]))
      OWS_1_1_1 [("LAYERS", "streets"), ("STYLES", "a,b")]).2.raised =
      [(OWS_1_1_1, some "StyleNotDefined")] := by
  rw [((styles_count sampleEnv (freshState (sampleMap [sampleLayer "streets" none MS_ON]))
      OWS_1_1_1 [("LAYERS", "streets"), ("STYLES", "a,b")] "a,b" (by decide) (by decide)).1
      ⟨"a", by decide, by decide, by decide⟩
      (fun layers hl => by
        have e : layers = ["streets"] := by
          have h2 : stylesLayers sampleEnv [("LAYERS", "streets"), ("STYLES", "a,b")] =
            some ["streets"] := by decide
          rw [h2] at hl
          exact (Option.some.inj hl).symm
        rw [e]
        decide)).2 _ _
      ⟨_, _, by with_unfolding_all rfl, by decide, by decide, by decide, by decide,
        by with_unfolding_all rfl, by with_unfolding_all rfl⟩]
  rfl

/-! ## The binding of the styles -/

theorem bindStyle_true (mapname : Option String) (tok style : String) (todo : List layerObj) :
    ∀ (done : List layerObj), (bindStyle mapname tok style done todo).2 = true →
      (bindStyle mapname tok style done todo).1 =
        done ++ todo.map (fun lp =>
          if layerMatches mapname lp tok then { lp with classgroup := some style } else lp) ∧
      ∀ lp ∈ todo, layerMatches mapname lp tok = true →
        lp.classes.any (fun c => optCaseEq c.group style) = true := by
  induction todo with
  | nil => intro done _; exact ⟨by simp [bindStyle], fun lp h => absurd h (List.not_mem_nil _)⟩
  | cons l todo ih =>
    intro done h
    unfold bindStyle at h ⊢
    by_cases hm : layerMatches mapname l tok = true
    · rw [if_pos hm] at h ⊢
      by_cases hc : l.classes.any (fun c => optCaseEq c.group style) = true
      · rw [if_pos hc] at h ⊢
        obtain ⟨i1, i2⟩ := ih _ h
        refine ⟨?_, ?_⟩
        · rw [i1]; simp [hm]
        · intro lp hlp hmm
          rcases List.mem_cons.1 hlp with rfl | hlp
          · exact hc
          · exact i2 lp hlp hmm
      · rw [if_neg hc] at h
        cases h
    · rw [if_neg hm] at h ⊢
      obtain ⟨i1, i2⟩ := ih _ h
      refine ⟨?_, ?_⟩
      · rw [i1]; simp [hm]
      · intro lp hlp hmm
        rcases List.mem_cons.1 hlp with rfl | hlp
        · exact absurd hmm hm
        · exact i2 lp hlp hmm

theorem bindStyle_false (mapname : Option String) (tok style : String) (todo : List layerObj) :
    ∀ (done : List layerObj),
      (∃ lp ∈ todo, layerMatches mapname lp tok = true ∧
        lp.classes.any (fun c => optCaseEq c.group style) = false) →
      (bindStyle mapname tok style done todo).2 = false := by
  intro done h
  cases hb : (bindStyle mapname tok style done todo).2 with
  | false => rfl
  | true =>
    obtain ⟨lp, hlp, hm, hc⟩ := h
    have := (bindStyle_true mapname tok style todo done hb).2 lp hlp hm
    rw [hc] at this
    cases this

theorem boundLayer_keeps (mapname : Option String) (layers : List String) (toks : List String) :
    ∀ (i : Nat) (lp : layerObj),
      (boundLayer mapname layers i toks lp).name = lp.name ∧
      (boundLayer mapname layers i toks lp).group = lp.group ∧
      (boundLayer mapname layers i toks lp).classes = lp.classes ∧
      ((∀ k, k < toks.length →
          ¬ (((toks.getD k "").length > 0 ∧ (!strcaseEq (toks.getD k "") "default") = true) ∧
            layerMatches mapname lp (layers.getD (i + k) "") = true)) →
        (boundLayer mapname layers i toks lp).classgroup = lp.classgroup) := by
  induction toks with
  | nil => intro i lp; exact ⟨rfl, rfl, rfl, fun _ => rfl⟩
  | cons tok toks ih =>
    intro i lp
    unfold boundLayer
    obtain ⟨a, b, c, d⟩ := ih (i + 1)
      (if (tok.length > 0 ∧ (!strcaseEq tok "default") = true) ∧
          layerMatches mapname lp (layers.getD i "") = true
       then { lp with classgroup := some tok } else lp)
    refine ⟨?_, ?_, ?_, ?_⟩
    · rw [a]; split_ifs <;> rfl
    · rw [b]; split_ifs <;> rfl
    · rw [c]; split_ifs <;> rfl
    · intro hno
      have h0 := hno 0 (Nat.succ_pos _)
      simp only [List.getD_cons_zero, Nat.add_zero] at h0
      rw [if_neg h0] at d ⊢
      apply d
      intro k hk
      have := hno (k + 1) (Nat.succ_lt_succ hk)
      simp only [List.getD_cons_succ] at this
      rw [Nat.add_assoc, Nat.add_comm 1 k]
      exact this

theorem layerMatches_congr (mapname : Option String) (a b : layerObj) (tok : String)
    (hn : a.name = b.name) (hg : a.group = b.group) :
    layerMatches mapname a tok = layerMatches mapname b tok := by
  unfold layerMatches
  rw [hn, hg]

/-- The class group a layer ends with is the token of the last position that names a style and
whose LAYERS token matches the layer. -/
theorem boundLayer_classgroup (mapname : Option String) (layers : List String)
    (toks : List String) :
    ∀ (i : Nat) (lp : layerObj) (k : Nat), k < toks.length →
      ((toks.getD k "").length > 0 ∧ (!strcaseEq (toks.getD k "") "default") = true) →
      layerMatches mapname lp (layers.getD (i + k) "") = true →
      (∀ j, k < j → j < toks.length →
        ¬ (((toks.getD j "").length > 0 ∧ (!strcaseEq (toks.getD j "") "default") = true) ∧
          layerMatches mapname lp (layers.getD (i + j) "") = true)) →
      (boundLayer mapname layers i toks lp).classgroup = some (toks.getD k "") := by
  induction toks with
  | nil => intro i lp k hk; cases hk
  | cons tok toks ih =>
    intro i lp k hk hnd hm hlater
    unfold boundLayer
    have hcongr : ∀ t, layerMatches mapname
        (if (tok.length > 0 ∧ (!strcaseEq tok "default") = true) ∧
            layerMatches mapname lp (layers.getD i "") = true
         then { lp with classgroup := some tok } else lp) t = layerMatches mapname lp t := by
      intro t
      apply layerMatches_congr <;> (split_ifs <;> rfl)
    cases k with
    | zero =>
      simp only [List.getD_cons_zero, Nat.add_zero] at hnd hm ⊢
      rw [if_pos ⟨hnd, hm⟩]
      rw [(boundLayer_keeps mapname layers toks (i + 1) _).2.2.2 ?_]
      intro j hj
      have := hlater (j + 1) (Nat.succ_pos _) (Nat.succ_lt_succ hj)
      simp only [List.getD_cons_succ] at this
      rw [Nat.add_assoc, Nat.add_comm 1 j]
      intro hc
      exact this ⟨hc.1, by rw [← layerMatches_congr mapname _ lp _ rfl rfl]; exact hc.2⟩
    | succ k =>
      simp only [List.getD_cons_succ] at hnd ⊢
      apply ih (i + 1) _ k (Nat.lt_of_succ_lt_succ hk) hnd
      · rw [hcongr, Nat.add_assoc, Nat.add_comm 1 k]; exact hm
      · intro j hkj hj
        have := hlater (j + 1) (Nat.succ_lt_succ hkj) (Nat.succ_lt_succ hj)
        simp only [List.getD_cons_succ] at this
        rw [hcongr, Nat.add_assoc, Nat.add_comm 1 j]
        exact this

/-- What a successful run of the STYLES loop did: the layers are the bound layers, and at every
position that names a style the number of LAYERS tokens was the number of STYLES tokens and
every layer matched by the LAYERS token of the position has a class of that group. -/
theorem stylesLoop_ok (env : Env) (nVersion : Int) (params : List (String × String))
    (styles : String) (n : Nat) (tokens : List String) :
    ∀ (i : Nat) (st stY : wmsState),
    stylesLoop env nVersion params styles n i tokens st = .ok stY →
    stY.map.layers =
      st.map.layers.map (boundLayer st.map.name ((stylesLayers env params).getD []) i tokens) ∧
    stY.map.name = st.map.name ∧
    ∀ k, k < tokens.length →
      ((tokens.getD k "").length > 0 ∧ (!strcaseEq (tokens.getD k "") "default") = true) →
      (∃ layers, stylesLayers env params = some layers ∧ layers.length = n) ∧
      ∀ lp ∈ st.map.layers,
        layerMatches st.map.name lp (((stylesLayers env params).getD []).getD (i + k) "") = true →
        lp.classes.any (fun c => optCaseEq c.group (tokens.getD k "")) = true := by
  induction tokens with
  | nil =>
    intro i st stY h
    cases h
    refine ⟨?_, rfl, fun k hk => absurd hk (Nat.not_lt_zero _)⟩
    simp [boundLayer]
  | cons token tokens ih =>
    intro i st stY h
    unfold stylesLoop at h
    by_cases hc : token.length > 0 ∧ (!strcaseEq token "default") = true
    · rw [if_pos hc] at h
      cases hl : stylesLayers env params with
      | none => rw [hl] at h; cases h
      | some layers =>
        rw [hl] at h
        simp only [] at h
        by_cases hn : layers.length = n
        · rw [if_pos hn] at h
          by_cases hb : (bindStyle st.map.name (layers.getD i "") token [] st.map.layers).2 = true
          · rw [if_pos hb] at h
            obtain ⟨b1, b2⟩ := bindStyle_true st.map.name (layers.getD i "") token st.map.layers [] hb
            obtain ⟨i1, i2, i3⟩ := ih _ _ stY h
            simp only [hl, Option.getD_some] at i1 i3 ⊢
            simp only [] at i1 i2 i3
            rw [b1] at i1 i3
            refine ⟨?_, i2, ?_⟩
            · rw [i1]
              simp only [List.nil_append, List.map_map]
              apply List.map_congr_left
              intro lp _
              simp only [Function.comp]
              conv_rhs => unfold boundLayer
              by_cases hm : layerMatches st.map.name lp (layers.getD i "") = true
              · rw [if_pos hm, if_pos ⟨hc, hm⟩]
              · rw [if_neg hm, if_neg (fun hh => hm hh.2)]
            · intro k hk hnd
              cases k with
              | zero =>
                simp only [List.getD_cons_zero, Nat.add_zero] at hnd ⊢
                exact ⟨⟨layers, rfl, hn⟩, b2⟩
              | succ k =>
                simp only [List.getD_cons_succ] at hnd ⊢
                obtain ⟨e1, e2⟩ := i3 k (Nat.lt_of_succ_lt_succ hk) hnd
                refine ⟨e1, ?_⟩
                intro lp hlp hm
                have hmem : (if layerMatches st.map.name lp (layers.getD i "") = true
                    then { lp with classgroup := some token } else lp) ∈
                    [] ++ st.map.layers.map (fun lp =>
                      if layerMatches st.map.name lp (layers.getD i "") = true
                      then { lp with classgroup := some token } else lp) := by
                  simp only [List.nil_append]
                  exact List.mem_map_of_mem _ hlp
                have := e2 _ hmem (by
                  rw [layerMatches_congr st.map.name _ lp _ (by split_ifs <;> rfl)
                    (by split_ifs <;> rfl), Nat.add_assoc, Nat.add_comm 1 k]
                  exact hm)
                have hcl : (if layerMatches st.map.name lp (layers.getD i "") = true
                    then { lp with classgroup := some token } else lp).classes = lp.classes := by
                  split_ifs <;> rfl
                rw [hcl] at this
                exact this
          · rw [if_neg hb] at h
            cases h
        · rw [if_neg hn] at h
          cases h
    · rw [if_neg hc] at h
      obtain ⟨i1, i2, i3⟩ := ih _ _ stY h
      refine ⟨?_, i2, ?_⟩
      · rw [i1]
        apply List.map_congr_left
        intro lp _
        conv_rhs => unfold boundLayer
        rw [if_neg (fun hh => hc hh.1)]
      · intro k hk hnd
        cases k with
        | zero =>
          simp only [List.getD_cons_zero] at hnd
          exact absurd hnd hc
        | succ k =>
          simp only [List.getD_cons_succ] at hnd ⊢
          have := i3 k (Nat.lt_of_succ_lt_succ hk) hnd
          rw [Nat.add_assoc, Nat.add_comm 1 k] at this
          exact this

theorem stylesStep_eq (env : Env) (nVersion : Int) (params : List (String × String))
    (st : wmsState) (styles : String) (hs : lastParam "STYLES" params = some styles)
    (hlen : styles.length > 0) (v : gmpVars) (stS : wmsState)
    (hr : gmpReachesStyles env nVersion params st v stS) :
    stylesStep env nVersion params stS v =
      stylesLoop env nVersion params styles (env.msStringSplit styles ',').length 0
        (env.msStringSplit styles ',') stS := by
  obtain ⟨st1, stP, hsc, _⟩ := hr
  have hv : v.styles = some styles := by rw [gmpScan_styles env nVersion params _ _ _ hsc, hs]
  unfold stylesStep
  rw [hv]
  simp only [hlen, if_true]

theorem getD_length_pos (l : List String) (i : Nat) (h : (l.getD i "").length > 0) :
    i < l.length := by
  by_contra hc
  rw [List.getD_eq_default _ _ (not_lt.1 hc)] at h
  exact absurd h (by decide)

/-- C13 fails as stated: on a map whose layer `a` (group `g`) has classes of the groups `s1` and
`s2`, the request `LAYERS=a,g&STYLES=s1,s2` succeeds; the layer is matched by the LAYERS token
`a` of position 0, whose STYLES token is `s1`, and its class group is `s2`. -/
theorem styles_bind_counterexample :
    (msWMSLoadGetMapParams sampleEnv
      (freshState (sampleMap [{ sampleLayer "a" (some "g") MS_DEFAULT with
        classes := [{ name := none, group := some "s1" }, { name := none, group := some "s2" }] }]))
      OWS_1_1_1 [("LAYERS", "a,g"), ("STYLES", "s1,s2")]).1 = MS_SUCCESS ∧
    (msWMSLoadGetMapParams sampleEnv
      (freshState (sampleMap [{ sampleLayer "a" (some "g") MS_DEFAULT with
        classes := [{ name := none, group := some "s1" }, { name := none, group := some "s2" }] }]))
      OWS_1_1_1 [("LAYERS", "a,g"), ("STYLES", "s1,s2")]).2.map.layers.map
        (fun lp => (layerMatches (some "demo") lp "a", lp.classgroup)) = [(true, some "s2")] := by
  decide!

/-- C13 (amended): let the (last) STYLES value be non-empty, and call position i one whose
STYLES token is neither empty nor `default` (ignoring case).  When `msWMSLoadGetMapParams`
returns MS_SUCCESS, every layer matched by the i-th token of the last LAYERS parameter has a
class whose group equals the STYLES token ignoring case, and its class group is that token
unless a later such position also matches the layer (the last one wins).  Conversely, when
the call reaches the STYLES block and some layer matched by the i-th LAYERS token has no class
of that group, it does not return MS_SUCCESS and is an exception with code StyleNotDefined. -/
theorem styles_bind (env : Env) (st : wmsState) (nVersion : Int)
    (params : List (String × String)) (styles : String)
    (hs : lastParam "STYLES" params = some styles) (hlen : styles.length > 0) :
    ((msWMSLoadGetMapParams env st nVersion params).1 = MS_SUCCESS →
      ∀ i, (((env.msStringSplit styles ',').getD i "").length > 0 ∧
          (!strcaseEq ((env.msStringSplit styles ',').getD i "") "default") = true) →
        ∀ lp ∈ (msWMSLoadGetMapParams env st nVersion params).2.map.layers,
          layerMatches (msWMSLoadGetMapParams env st nVersion params).2.map.name lp
            (((stylesLayers env params).getD []).getD i "") = true →
          lp.classes.any
            (fun c => optCaseEq c.group ((env.msStringSplit styles ',').getD i "")) = true ∧
          ((∀ j, i < j →
            ¬ ((((env.msStringSplit styles ',').getD j "").length > 0 ∧
                (!strcaseEq ((env.msStringSplit styles ',').getD j "") "default") = true) ∧
              layerMatches (msWMSLoadGetMapParams env st nVersion params).2.map.name lp
                (((stylesLayers env params).getD []).getD j "") = true)) →
            lp.classgroup = some ((env.msStringSplit styles ',').getD i ""))) ∧
    (∀ (v : gmpVars) (stS : wmsState), gmpReachesStyles env nVersion params st v stS →
      ∀ i, (((env.msStringSplit styles ',').getD i "").length > 0 ∧
          (!strcaseEq ((env.msStringSplit styles ',').getD i "") "default") = true) →
        (∃ lp ∈ stS.map.layers,
          layerMatches stS.map.name lp (((stylesLayers env params).getD []).getD i "") = true ∧
          lp.classes.any
            (fun c => optCaseEq c.group ((env.msStringSplit styles ',').getD i "")) = false) →
        (msWMSLoadGetMapParams env st nVersion params).1 ≠ MS_SUCCESS ∧
        ∃ (st2 : wmsState) (msg : String),
          msWMSLoadGetMapParams env st nVersion params =
            msWMSException env (msSetError st2 msg) nVersion (some "StyleNotDefined")) := by
  refine ⟨fun hsucc i hnd lp hlp hm => ?_, fun v stS hr i hnd hbad => ?_⟩
  · obtain ⟨v, stY, ⟨stS, hr, hy⟩, _, hres⟩ :=
      loadGetMapParams_success_reaches env st nVersion params hsucc
    rw [stylesStep_eq env nVersion params st styles hs hlen v stS hr] at hy
    obtain ⟨k1, k2, k3⟩ := stylesLoop_ok env nVersion params styles _ _ 0 stS stY hy
    have hlay : (msWMSLoadGetMapParams env st nVersion params).2.map.layers = stY.map.layers := by
      rw [hres]; simp only []; split_ifs <;> rfl
    have hname : (msWMSLoadGetMapParams env st nVersion params).2.map.name = stS.map.name := by
      rw [hres, ← k2]; simp only []; split_ifs <;> rfl
    rw [hname] at hm ⊢
    rw [hlay, k1] at hlp
    simp only [List.mem_map] at hlp
    obtain ⟨lp0, h0, rfl⟩ := hlp
    obtain ⟨q1, q2, q3, _⟩ := boundLayer_keeps stS.map.name ((stylesLayers env params).getD [])
      (env.msStringSplit styles ',') 0 lp0
    have hcongr : ∀ t, layerMatches stS.map.name
        (boundLayer stS.map.name ((stylesLayers env params).getD []) 0
          (env.msStringSplit styles ',') lp0) t = layerMatches stS.map.name lp0 t :=
      fun t => layerMatches_congr _ _ _ _ q1 q2
    have hi := getD_length_pos _ i hnd.1
    rw [hcongr] at hm
    refine ⟨?_, fun hlater => ?_⟩
    · rw [q3]
      have := (k3 i hi hnd).2 lp0 h0 (by rw [Nat.zero_add]; exact hm)
      exact this
    · apply boundLayer_classgroup _ _ _ 0 lp0 i hi hnd (by rw [Nat.zero_add]; exact hm)
      intro j hij _ hc
      rw [Nat.zero_add] at hc
      exact hlater j hij ⟨hc.1, by rw [hcongr]; exact hc.2⟩
  · have hres := loadGetMapParams_of_reachesStyles env st nVersion params v stS hr
    have hne : MS_FAILURE ≠ MS_SUCCESS := by decide
    cases hy : stylesStep env nVersion params stS v with
    | ok stY =>
      exfalso
      rw [stylesStep_eq env nVersion params st styles hs hlen v stS hr] at hy
      obtain ⟨_, _, k3⟩ := stylesLoop_ok env nVersion params styles _ _ 0 stS stY hy
      obtain ⟨lp, hlp, hm, hc⟩ := hbad
      have := (k3 i (getD_length_pos _ i hnd.1) hnd).2 lp hlp (by rw [Nat.zero_add]; exact hm)
      rw [hc] at this
      cases this
    | error e =>
      rw [hy] at hres
      simp only [] at hres
      obtain ⟨st2, msg, he⟩ := stylesStep_error env nVersion params stS v e hy
      rw [hres, he]
      exact ⟨fun h => hne ((msWMSException_fst _ _ _ _).symm.trans h), st2, msg, rfl⟩

/-- C13 (amended) at the request `LAYERS=roads&STYLES=night` on a map whose layer `roads` has a
class of the group `night`: the call succeeds and the layer has the class group `night`. -/
theorem styles_bind_witness :
    (msWMSLoadGetMapParams sampleEnv
        (freshState (sampleMap [{ sampleLayer "roads" none MS_ON with
          classes := [{ name := none, group := some "night" }] }]))
        OWS_1_1_1 [("LAYERS", "roads"), ("STYLES", "night")]).2.map.layers.all
      (fun lp => decide (lp.classgroup = some "night")) = true :=
  List.all_eq_true.2 (fun lp hlp => decide_eq_true
  (((styles_bind sampleEnv
        (freshState (sampleMap [{ sampleLayer "roads" none MS_ON with
          classes := [{ name := none, group := some "night" }] }]))
        OWS_1_1_1 [("LAYERS", "roads"), ("STYLES", "night")] "night" (by decide) (by decide)).1
      (by decide!) 0 (by decide) lp hlp
      (by
        have hl : (msWMSLoadGetMapParams sampleEnv
            (freshState (sampleMap [{ sampleLayer "roads" none MS_ON with
              classes := [{ name := none, group := some "night" }] }]))
            OWS_1_1_1 [("LAYERS", "roads"), ("STYLES", "night")]).2.map.layers =
            [{ sampleLayer "roads" none MS_ON with
              classes := [{ name := none, group := some "night" }],
              classgroup := some "night" }] := by with_unfolding_all rfl
        rw [hl] at hlp
        rw [List.mem_singleton.1 hlp]
        decide!)).2
    (fun j hj hc => absurd (getD_length_pos _ j hc.1.1) (by
      have : (sampleEnv.msStringSplit "night" ',').length = 1 := by decide
      rw [this]; omega))))

/-! ## The projection of the map after a successful call -/

theorem loadSrsParam_srsbuffer (env : Env) (st st2 : wmsState) (nVersion : Int) (v v2 : gmpVars)
    (value : String) (h : loadSrsParam env st nVersion v value = .ok (st2, v2)) :
    v2.srsbuffer.length > 1 := by
  unfold loadSrsParam at h
  simp only [] at h
  split_ifs at h with h1 h2
  · cases h
    simp only [String.length_append]
    have : "init=epsg:".length = 10 := by decide
    omega
  · cases h
    have hl := congrArg List.length (beq_iff_eq.1 h2)
    have h5 : "AUTO:".data = ['A', 'U', 'T', 'O', ':'] := rfl
    simp only [List.length_map, List.length_take, h5, List.length_cons, List.length_nil] at hl
    show (String.mk (value.data.take 99)).length > 1
    simp only [String.length, List.length_take]
    omega

/-- Once an SRS turn succeeded, the cached projection string has more than one character at
the end of the loop. -/
theorem gmpScan_srsbuffer (env : Env) (nVersion : Int) (params : List (String × String))
    (st st2 : wmsState) (v v2 : gmpVars) (hn : noParam "SRS" params = false)
    (h : gmpScan env nVersion params st v = .ok (st2, v2)) : v2.srsbuffer.length > 1 := by
  induction params generalizing st v with
  | nil => cases hn
  | cons p ps ih =>
    simp only [gmpScan] at h
    split at h
    · cases h
    · rename_i r hr
      by_cases hps : noParam "SRS" ps = false
      · exact ih r.1 r.2 hps h
      · have hps2 : noParam "SRS" ps = true := by simpa using hps
        have hp : strcaseEq p.1 "SRS" = true := by
          unfold noParam at hn hps2
          simp only [List.all_cons, hps2, Bool.and_true] at hn
          simpa using hn
        have e : p = (p.1, p.2) := rfl
        rw [e, gmpScanStep_srs env nVersion st v p.1 p.2 hp] at hr
        have h1 := loadSrsParam_srsbuffer env st r.1 nVersion v r.2 p.2 hr
        have h2 := gmpScan_keeps env nVersion (fun v => v.srsbuffer) "SRS"
          (fun p sa sb va vb hs hc => ((gmpScanStep_vars env nVersion sa sb va vb p hs).2.2.2.1 hc).2.2)
          ps hps2 _ _ _ _ h
        simp only [] at h2
        rw [h2]
        exact h1

theorem applyTimeLoop_error_projection (env : Env) (version : Int) (time : Option String)
    (st : wmsState) (todo : List layerObj) : ∀ (done : List layerObj) (e : Int × wmsState),
    applyTimeLoop env version time st done todo = .error e →
    e.2.map.projection = st.map.projection := by
  induction todo with
  | nil => intro done e h; cases h
  | cons lp todo ih =>
    intro done e h
    unfold applyTimeLoop at h
    split at h
    · cases h
      rfl
    · exact ih _ e h

theorem gmpTimeStep_projection (env : Env) (nVersion : Int) (st : wmsState) (v : gmpVars) :
    (gmpTimeStep env nVersion st v).2.map.projection = st.map.projection := by
  unfold gmpTimeStep
  simp only []
  split_ifs
  · unfold msWMSApplyTime
    split
    · rename_i r hr
      exact applyTimeLoop_error_projection env nVersion v.stime st _ _ r hr
    · simp only []
      split
      · split_ifs
        · split <;> rfl
        · rfl
      · rfl
  · rfl

theorem gmpFormatStep_projection (env : Env) (st : wmsState) (v : gmpVars) :
    (gmpFormatStep env st v).map.projection = st.map.projection := by
  unfold gmpFormatStep
  split <;> rfl

theorem nonsquareStep_projection (env : Env) (m : mapObj) :
    (nonsquareStep env m).1.projection = m.projection := by
  unfold nonsquareStep
  simp only []
  split_ifs <;> rfl

theorem propagateStep_projection (env : Env) (nVersion : Int) (st stP : wmsState) (v : gmpVars)
    (b : Bool) (h : propagateStep env nVersion st v b = .ok stP) :
    stP.map.projection = st.map.projection ∧
    (v.srsbuffer.length > 1 → 1 ≤ st.map.projection.numargs) := by
  unfold propagateStep at h
  simp only [] at h
  split_ifs at h with h1 h2 h3 h4
  all_goals first
    | (cases h; exact ⟨rfl, fun _ => by omega⟩)
    | (split at h
       · cases h
       · cases h; exact ⟨rfl, fun _ => by omega⟩)

theorem stylesLoop_projection (env : Env) (nVersion : Int) (params : List (String × String))
    (styles : String) (n : Nat) (tokens : List String) :
    ∀ (i : Nat) (st stY : wmsState),
    stylesLoop env nVersion params styles n i tokens st = .ok stY →
    stY.map.projection = st.map.projection := by
  induction tokens with
  | nil => intro i st stY h; cases h; rfl
  | cons token tokens ih =>
    intro i st stY h
    unfold stylesLoop at h
    split_ifs at h with h1
    · split at h
      · simp only [] at h
        split_ifs at h
        exact (ih _ _ stY h).trans rfl
      · cases h
    · exact ih _ _ stY h

theorem stylesStep_projection (env : Env) (nVersion : Int) (params : List (String × String))
    (st stY : wmsState) (v : gmpVars) (h : stylesStep env nVersion params st v = .ok stY) :
    stY.map.projection = st.map.projection := by
  unfold stylesStep at h
  split at h
  · cases h; rfl
  · simp only [] at h
    split_ifs at h
    · exact stylesLoop_projection env nVersion params _ _ _ _ _ stY h
    · cases h; rfl

theorem srsStep_projection (env : Env) (nVersion : Int) (st stS : wmsState) (v : gmpVars)
    (hload : ∀ (p : projectionObj) (s : String), (env.msLoadProjectionString p s).1 = 0 →
      1 ≤ (env.msLoadProjectionString p s).2.numargs)
    (h : srsStep env nVersion st v = .ok stS) :
    (v.srsbuffer.length > 1 → 1 ≤ stS.map.projection.numargs) ∧
    (¬ v.srsbuffer.length > 1 → stS.map.projection = st.map.projection) := by
  unfold srsStep at h
  simp only [] at h
  split_ifs at h with h1 h2 h3
  · cases h
    exact ⟨fun _ => hload _ _ (by simpa using h2), fun hc => absurd h1 hc⟩
  · cases h
    exact ⟨fun _ => hload _ _ (by simpa using h2), fun hc => absurd h1 hc⟩
  · cases h
    exact ⟨fun hc => absurd hc h1, fun _ => rfl⟩

/-- C21 fails as stated: on a map without projection whose layer `streets` has none either, the
request `REQUEST=DescribeLayer&LAYERS=streets` succeeds and leaves the layer ON with no
projection argument on the layer or on the map. -/
theorem projection_invariant_counterexample :
    (msWMSLoadGetMapParams sampleEnv
      (freshState { sampleMap [sampleLayer "streets" none MS_OFF] with projection := { args := [] } })
      OWS_1_1_1 [("REQUEST", "DescribeLayer"), ("LAYERS", "streets")]).1 = MS_SUCCESS ∧
    (msWMSLoadGetMapParams sampleEnv
      (freshState { sampleMap [sampleLayer "streets" none MS_OFF] with projection := { args := [] } })
      OWS_1_1_1 [("REQUEST", "DescribeLayer"), ("LAYERS", "streets")]).2.map.layers.map
        (fun lp => (lp.status, lp.projection.numargs)) = [(MS_ON, 0)] ∧
    (msWMSLoadGetMapParams sampleEnv
      (freshState { sampleMap [sampleLayer "streets" none MS_OFF] with projection := { args := [] } })
      OWS_1_1_1 [("REQUEST", "DescribeLayer"), ("LAYERS", "streets")]).2.map.projection.numargs = 0 := by
  decide!

/-- C21 (amended): let `msWMSLoadGetMapParams` return MS_SUCCESS, a projection string that loads
having at least one argument.  When the request has an SRS parameter, or the map had a
projection with at least one argument before the call (the SLD collaborators leaving it alone),
the map projection has at least one argument after the call; so every layer with status ON has a
projection with at least one argument or the map projection has one. -/
theorem projection_invariant (env : Env) (st : wmsState) (nVersion : Int)
    (params : List (String × String))
    (hload : ∀ (p : projectionObj) (s : String), (env.msLoadProjectionString p s).1 = 0 →
      1 ≤ (env.msLoadProjectionString p s).2.numargs)
    (hsucc : (msWMSLoadGetMapParams env st nVersion params).1 = MS_SUCCESS)
    (hpre : noParam "SRS" params = false ∨
      (sldKeepsFrame env ∧ 1 ≤ st.map.projection.numargs)) :
    1 ≤ (msWMSLoadGetMapParams env st nVersion params).2.map.projection.numargs ∧
    ∀ lp ∈ (msWMSLoadGetMapParams env st nVersion params).2.map.layers, lp.status = MS_ON →
      1 ≤ lp.projection.numargs ∨
      1 ≤ (msWMSLoadGetMapParams env st nVersion params).2.map.projection.numargs := by
  have key : 1 ≤ (msWMSLoadGetMapParams env st nVersion params).2.map.projection.numargs := by
    obtain ⟨v, stY, ⟨stS, ⟨st1, stP, hs, _, _, _, _, hp, hsr⟩, hy⟩, _, hres⟩ :=
      loadGetMapParams_success_reaches env st nVersion params hsucc
    have hfin : (msWMSLoadGetMapParams env st nVersion params).2.map.projection =
        stS.map.projection := by
      rw [hres, ← stylesStep_projection env nVersion params stS stY v hy]
      simp only []
      split_ifs <;> rfl
    rw [hfin]
    obtain ⟨s1, s2⟩ := srsStep_projection env nVersion stP stS v hload hsr
    by_cases hb : v.srsbuffer.length > 1
    · exact s1 hb
    · rcases hpre with hn | ⟨hk, h1⟩
      · exact absurd (gmpScan_srsbuffer env nVersion params _ _ _ _ hn hs) hb
      · rw [s2 hb, (propagateStep_projection env nVersion _ stP v _ hp).1]
        simp only []
        rw [nonsquareStep_projection, gmpFormatStep_projection, gmpTimeStep_projection,
          gmpScan_projection env nVersion hk params _ _ _ _ hs]
        exact h1
  exact ⟨key, fun lp _ _ => Or.inr key⟩

/-- C21 (amended) at the request
`REQUEST=GetMap&LAYERS=streets&SRS=EPSG:4326&BBOX=0,0,4,3&WIDTH=400&HEIGHT=300&FORMAT=image/png`. -/
theorem projection_invariant_witness :
    1 ≤ (msWMSLoadGetMapParams sampleEnv
      (freshState (sampleMap [sampleLayer "streets" none MS_ON]))
      OWS_1_1_1 [("REQUEST", "GetMap"), ("LAYERS", "streets"), ("SRS", "EPSG:4326"),
        ("BBOX", "0,0,4,3"), ("WIDTH", "400"), ("HEIGHT", "300"),
        ("FORMAT", "image/png")]).2.map.projection.numargs :=
  (projection_invariant sampleEnv (freshState (sampleMap [sampleLayer "streets" none MS_ON]))
      OWS_1_1_1 [("REQUEST", "GetMap"), ("LAYERS", "streets"), ("SRS", "EPSG:4326"),
        ("BBOX", "0,0,4,3"), ("WIDTH", "400"), ("HEIGHT", "300"), ("FORMAT", "image/png")]
      (fun _ _ _ => by simp [sampleEnv, projectionObj.numargs]) (by decide!) (Or.inl (by decide))).1

/-! ## msWMSApplyTime -/

theorem applyTimeLoop_ok (env : Env) (version : Int) (time : Option String) (st : wmsState)
    (todo : List layerObj) : ∀ (done : List layerObj),
    (∀ lp ∈ todo, ∃ l2, applyTimeLayer env time lp = .ok l2) →
    applyTimeLoop env version time st done todo =
      .ok (done ++ todo.map (timeFiltered env time)) := by
  induction todo with
  | nil => intro done _; simp [applyTimeLoop]
  | cons lp todo ih =>
    intro done h
    obtain ⟨l2, hl⟩ := h lp (List.mem_cons_self _ _)
    unfold applyTimeLoop
    rw [hl]
    simp only []
    rw [ih _ (fun l hm => h l (List.mem_cons_of_mem _ hm))]
    simp [timeFiltered, hl]

theorem applyTimeLoop_fail (env : Env) (version : Int) (time : Option String) (st : wmsState)
    (pre post : List layerObj) (lp : layerObj) (msg code : String) :
    ∀ (done : List layerObj),
    (∀ l ∈ pre, ∃ l2, applyTimeLayer env time l = .ok l2) →
    applyTimeLayer env time lp = .error (msg, code) →
    applyTimeLoop env version time st done (pre ++ lp :: post) =
      .error (msWMSException env
        (msSetError { st with map := { st.map with
          layers := (done ++ pre.map (timeFiltered env time)) ++ lp :: post } } msg)
        version (some code)) := by
  induction pre with
  | nil =>
    intro done _ he
    simp only [List.nil_append, List.map_nil, List.append_nil]
    unfold applyTimeLoop
    rw [he]
  | cons l pre ih =>
    intro done h he
    obtain ⟨l2, hl⟩ := h l (List.mem_cons_self _ _)
    simp only [List.cons_append]
    unfold applyTimeLoop
    rw [hl]
    simp only []
    rw [ih _ (fun l hm => h l (List.mem_cons_of_mem _ hm)) he]
    simp [timeFiltered, hl]

/-- C22: in `msWMSApplyTime`, a layer that is OFF or lacks `timeextent` or `timeitem` gets no
filter and raises nothing.  A layer that is ON or DEFAULT with both gets the filter
(value, timeitem), where the value is the request time when it is non-empty and valid for
`timeextent`, otherwise `timedefault` when it exists and is valid; otherwise its turn is an
exception, MissingDimensionValue when the request time is empty and there is no `timedefault`,
InvalidDimensionValue in every other case.  The call returns MS_SUCCESS with every layer so
filtered when no turn fails, and returns MS_FAILURE with the code of the first failing layer
otherwise. -/
theorem time_filter (env : Env) (st : wmsState) (version : Int) (time : Option String) :
    (∀ lp : layerObj, timeAware env lp = false → applyTimeLayer env time lp = .ok lp) ∧
    (∀ (lp : layerObj) (e f : String), (lp.status = MS_ON ∨ lp.status = MS_DEFAULT) →
      env.msOWSLookupMetadata lp.metadata "MO" "timeextent" = some e →
      env.msOWSLookupMetadata lp.metadata "MO" "timeitem" = some f →
      (∀ t, effectiveTime env time e (env.msOWSLookupMetadata lp.metadata "MO" "timedefault") = .ok t →
        applyTimeLayer env time lp = .ok { lp with timefilter := some (t, f) }) ∧
      (∀ code,
        effectiveTime env time e (env.msOWSLookupMetadata lp.metadata "MO" "timedefault") =
          .error code →
        ∃ msg, applyTimeLayer env time lp = .error (msg, code))) ∧
    ((∀ lp ∈ st.map.layers, ∃ l2, applyTimeLayer env time lp = .ok l2) →
      (msWMSApplyTime env st version time).1 = MS_SUCCESS ∧
      (msWMSApplyTime env st version time).2.map.layers =
        st.map.layers.map (timeFiltered env time) ∧
      (msWMSApplyTime env st version time).2.raised = st.raised) ∧
    (∀ (pre post : List layerObj) (lp : layerObj) (msg code : String),
      st.map.layers = pre ++ lp :: post →
      (∀ l ∈ pre, ∃ l2, applyTimeLayer env time l = .ok l2) →
      applyTimeLayer env time lp = .error (msg, code) →
      (msWMSApplyTime env st version time).1 = MS_FAILURE ∧
      (msWMSApplyTime env st version time).2.raised = st.raised ++ [(version, some code)]) := by
  refine ⟨?_, ?_, ?_, ?_⟩
  · intro lp h
    unfold timeAware at h
    unfold applyTimeLayer
    by_cases hs : lp.status ≠ MS_ON ∧ lp.status ≠ MS_DEFAULT
    · rw [if_pos hs]
    · rw [if_neg hs]
      have hs2 : lp.status = MS_ON ∨ lp.status = MS_DEFAULT := by
        by_contra hc
        exact hs ⟨fun a => hc (Or.inl a), fun a => hc (Or.inr a)⟩
      cases he : env.msOWSLookupMetadata lp.metadata "MO" "timeextent" with
      | none => rfl
      | some e =>
        cases hf : env.msOWSLookupMetadata lp.metadata "MO" "timeitem" with
        | none => rfl
        | some f => simp [hs2, he, hf] at h
  · intro lp e f hs he hf
    have hs2 : ¬ (lp.status ≠ MS_ON ∧ lp.status ≠ MS_DEFAULT) := by
      rintro ⟨a, b⟩
      rcases hs with h | h
      · exact a h
      · exact b h
    have hempty : (time.isNone = true ∨ (time.getD "").length ≤ 0) ↔ (time.getD "").length = 0 := by
      cases time with
      | none => simp
      | some t => simp
    unfold effectiveTime applyTimeLayer
    rw [if_neg hs2]
    simp only [he, hf]
    generalize env.msOWSLookupMetadata lp.metadata "MO" "timedefault" = td
    by_cases hE : (time.getD "").length = 0
    · have h2 : time.isNone = true ∨ (time.getD "").length ≤ 0 := hempty.2 hE
      have h1 : ¬ ((time.getD "").length > 0 ∧
          env.msValidateTimeValue (time.getD "") e ≠ MS_FALSE) := by
        intro hh; omega
      rw [if_pos h2, if_neg h1]
      cases td with
      | none =>
        simp only [hE, if_true]
        exact ⟨fun t ht => (by cases ht), fun code hc => (by cases hc; exact ⟨_, rfl⟩)⟩
      | some d =>
        simp only []
        by_cases hD : env.msValidateTimeValue d e = MS_FALSE
        · rw [if_pos hD, if_neg (fun hh => hh hD)]
          exact ⟨fun t ht => (by cases ht), fun code hc => (by cases hc; exact ⟨_, rfl⟩)⟩
        · rw [if_neg hD, if_pos hD]
          exact ⟨fun t ht => (by cases ht; rfl), fun code hc => (by cases hc)⟩
    · have h2 : ¬ (time.isNone = true ∨ (time.getD "").length ≤ 0) := fun hh => hE (hempty.1 hh)
      rw [if_neg h2]
      by_cases hV : env.msValidateTimeValue (time.getD "") e = MS_FALSE
      · have h1 : ¬ ((time.getD "").length > 0 ∧
            env.msValidateTimeValue (time.getD "") e ≠ MS_FALSE) := fun hh => hh.2 hV
        rw [if_pos hV, if_neg h1]
        cases td with
        | none =>
          simp only [hE, if_false]
          exact ⟨fun t ht => (by cases ht), fun code hc => (by cases hc; exact ⟨_, rfl⟩)⟩
        | some d =>
          simp only []
          by_cases hD : env.msValidateTimeValue d e = MS_FALSE
          · rw [if_pos hD, if_neg (fun hh => hh hD)]
            exact ⟨fun t ht => (by cases ht), fun code hc => (by cases hc; exact ⟨_, rfl⟩)⟩
          · rw [if_neg hD, if_pos hD]
            exact ⟨fun t ht => (by cases ht; rfl), fun code hc => (by cases hc)⟩
      · have h1 : (time.getD "").length > 0 ∧
            env.msValidateTimeValue (time.getD "") e ≠ MS_FALSE := ⟨by omega, hV⟩
        rw [if_neg hV, if_pos h1]
        exact ⟨fun t ht => (by cases ht; rfl), fun code hc => (by cases hc)⟩
  · intro h
    unfold msWMSApplyTime
    rw [applyTimeLoop_ok env version time st st.map.layers [] h]
    simp only [List.nil_append]
    split
    · split_ifs
      · split <;> exact ⟨rfl, rfl, rfl⟩
      · exact ⟨rfl, rfl, rfl⟩
    · exact ⟨rfl, rfl, rfl⟩
  · intro pre post lp msg code hl hpre he
    unfold msWMSApplyTime
    rw [hl, applyTimeLoop_fail env version time st pre post lp msg code [] hpre he]
    exact ⟨rfl, rfl⟩

/-- C22 at the scenario "time default fallback": a layer with `timeextent`, `timeitem` and
`timedefault=2004-06-01`, no request time: the layer is filtered on 2004-06-01. -/
theorem time_filter_witness :
    applyTimeLayer sampleEnv none
      { sampleLayer "clouds" none MS_ON with
        metadata := [("wms_timeextent", "2004-01-01/2004-12-31"), ("wms_timeitem", "TIME"),
          ("wms_timedefault", "2004-06-01")] } =
    .ok { sampleLayer "clouds" none MS_ON with
        metadata := [("wms_timeextent", "2004-01-01/2004-12-31"), ("wms_timeitem", "TIME"),
          ("wms_timedefault", "2004-06-01")],
        timefilter := some ("2004-06-01", "TIME") } :=
  ((time_filter sampleEnv (freshState (sampleMap [])) OWS_1_1_1 none).2.1
    { sampleLayer "clouds" none MS_ON with
        metadata := [("wms_timeextent", "2004-01-01/2004-12-31"), ("wms_timeitem", "TIME"),
          ("wms_timedefault", "2004-06-01")] }
    "2004-01-01/2004-12-31" "TIME" (Or.inl rfl) (by decide) (by decide)).1 "2004-06-01" (by rfl)

/-! ## The time filters in msWMSLoadGetMapParams -/

theorem loadOtherParam_time (env : Env) (nVersion : Int) (st st2 : wmsState) (v v2 : gmpVars)
    (name value : String)
    (h : loadOtherParam env nVersion st v name value = .ok (st2, v2)) :
    strcaseEq name "TIME" = false → v2.timerequest = v.timerequest ∧ v2.stime = v.stime := by
  unfold loadOtherParam at h
  split_ifs at h
  all_goals first | (cases h; simp_all) | skip
  · unfold loadSrsParam at h
    simp only [] at h
    split_ifs at h <;> (cases h; simp_all)
  · unfold loadBboxParam at h
    simp only [] at h
    split_ifs at h
    cases h
    simp_all
  · unfold loadFormatParam at h
    simp only [] at h
    split at h
    · cases h
    · split_ifs at h
      cases h
      simp_all

theorem gmpScanStep_time (env : Env) (nVersion : Int) (st st2 : wmsState) (v v2 : gmpVars)
    (p : String × String) (hn : strcaseEq p.1 "TIME" = false)
    (h : gmpScanStep env nVersion st v p = .ok (st2, v2)) :
    v2.timerequest = v.timerequest ∧ v2.stime = v.stime := by
  rw [gmpScanStep_def] at h
  have hv1 : (if strcaseEq p.1 "REQUEST" = true then { v with request := some p.2 } else v).timerequest
        = v.timerequest ∧
      (if strcaseEq p.1 "REQUEST" = true then { v with request := some p.2 } else v).stime
        = v.stime := by
    split_ifs <;> exact ⟨rfl, rfl⟩
  generalize (if strcaseEq p.1 "REQUEST" = true then { v with request := some p.2 } else v) = v1
    at h hv1
  split at h
  · cases h
  · split_ifs at h with hl
    · unfold loadLayersParam at h
      simp only [] at h
      split_ifs at h
      cases h
      exact hv1
    · obtain ⟨a, b⟩ := loadOtherParam_time env nVersion _ st2 v1 v2 p.1 p.2 h hn
      exact ⟨a.trans hv1.1, b.trans hv1.2⟩

/-- Without a TIME parameter the loop ends with `timerequest` 0 and no time value. -/
theorem gmpScan_no_time (env : Env) (nVersion : Int) (params : List (String × String))
    (st st2 : wmsState) (v2 : gmpVars) (hn : noParam "TIME" params = true)
    (h : gmpScan env nVersion params st gmpVars.init = .ok (st2, v2)) :
    v2.timerequest = 0 ∧ v2.stime = none :=
  ⟨gmpScan_keeps env nVersion (fun v => v.timerequest) "TIME"
      (fun p sa sb va vb hs hc => (gmpScanStep_time env nVersion sa sb va vb p hc hs).1)
      params hn st st2 gmpVars.init v2 h,
   gmpScan_keeps env nVersion (fun v => v.stime) "TIME"
      (fun p sa sb va vb hs hc => (gmpScanStep_time env nVersion sa sb va vb p hc hs).2)
      params hn st st2 gmpVars.init v2 h⟩

/-- A failing layer makes `msWMSApplyTime` return MS_FAILURE with the code of the first one. -/
theorem time_filter_call (env : Env) (st : wmsState) (version : Int) (time : Option String)
    (pre post : List layerObj) (lp : layerObj) (msg code : String)
    (hl : st.map.layers = pre ++ lp :: post)
    (hpre : ∀ l ∈ pre, ∃ l2, applyTimeLayer env time l = .ok l2)
    (he : applyTimeLayer env time lp = .error (msg, code)) :
    (msWMSApplyTime env st version time).1 = MS_FAILURE ∧
    (msWMSApplyTime env st version time).2.raised = st.raised ++ [(version, some code)] := by
  unfold msWMSApplyTime
  rw [hl, applyTimeLoop_fail env version time st pre post lp msg code [] hpre he]
  exact ⟨rfl, rfl⟩

/-- A list with a failing layer has a first failing layer. -/
theorem first_failing (env : Env) (time : Option String) (layers : List layerObj)
    (h : ∃ lp ∈ layers, ∃ e, applyTimeLayer env time lp = .error e) :
    ∃ (pre post : List layerObj) (lp : layerObj) (msg code : String),
      layers = pre ++ lp :: post ∧
      (∀ l ∈ pre, ∃ l2, applyTimeLayer env time l = .ok l2) ∧
      applyTimeLayer env time lp = .error (msg, code) := by
  induction layers with
  | nil => obtain ⟨lp, hlp, _⟩ := h; cases hlp
  | cons l rest ih =>
    cases hl : applyTimeLayer env time l with
    | error e => exact ⟨[], rest, l, e.1, e.2, rfl, fun _ hm => absurd hm (List.not_mem_nil _), hl⟩
    | ok l2 =>
      obtain ⟨lp, hlp, e, he⟩ := h
      rcases List.mem_cons.1 hlp with rfl | hlp
      · rw [hl] at he; cases he
      · obtain ⟨pre, post, lp', msg, code, h1, h2, h3⟩ := ih ⟨lp, hlp, e, he⟩
        refine ⟨l :: pre, post, lp', msg, code, by rw [h1]; rfl, ?_, h3⟩
        intro x hx
        rcases List.mem_cons.1 hx with rfl | hx
        · exact ⟨l2, hl⟩
        · exact h2 x hx

/-- C23 fails as stated: the only layer of the map has `timeextent` and `timeitem` and no
`timedefault`; the request selects it and has no TIME parameter; the call returns MS_SUCCESS,
raises nothing and sets no time filter. -/
theorem time_default_counterexample :
    (msWMSLoadGetMapParams sampleEnv
      (freshState (sampleMap [{ sampleLayer "clouds" none MS_OFF with
        metadata := [("wms_timeextent", "2004-01-01/2004-12-31"), ("wms_timeitem", "TIME")] }]))
      OWS_1_1_1 [("REQUEST", "GetMap"), ("LAYERS", "clouds"), ("SRS", "EPSG:4326"),
        ("BBOX", "0,0,4,3"), ("WIDTH", "400"), ("HEIGHT", "300"), ("FORMAT", "image/png")]).1 =
      MS_SUCCESS ∧
    (msWMSLoadGetMapParams sampleEnv
      (freshState (sampleMap [{ sampleLayer "clouds" none MS_OFF with
        metadata := [("wms_timeextent", "2004-01-01/2004-12-31"), ("wms_timeitem", "TIME")] }]))
      OWS_1_1_1 [("REQUEST", "GetMap"), ("LAYERS", "clouds"), ("SRS", "EPSG:4326"),
        ("BBOX", "0,0,4,3"), ("WIDTH", "400"), ("HEIGHT", "300"), ("FORMAT", "image/png")]).2.raised =
      [] ∧
    (msWMSLoadGetMapParams sampleEnv
      (freshState (sampleMap [{ sampleLayer "clouds" none MS_OFF with
        metadata := [("wms_timeextent", "2004-01-01/2004-12-31"), ("wms_timeitem", "TIME")] }]))
      OWS_1_1_1 [("REQUEST", "GetMap"), ("LAYERS", "clouds"), ("SRS", "EPSG:4326"),
        ("BBOX", "0,0,4,3"), ("WIDTH", "400"), ("HEIGHT", "300"),
        ("FORMAT", "image/png")]).2.map.layers.map (fun lp => (lp.status, lp.timefilter)) =
      [(MS_ON, none)] := by
  decide!

/-- C23 (amended): let the request have no TIME parameter and let the parameter loop end
without exception, leaving the layers `layers`.  When no selected (ON or DEFAULT) layer defines
a `timedefault`, `msWMSApplyTime` is not called: the time step raises nothing and changes
nothing, whatever `timeextent` and `timeitem` the layers have.  When some selected layer defines
a `timedefault` and some selected layer has `timeextent` and `timeitem` but no `timedefault`,
the call returns MS_FAILURE with the exception of the first failing layer; that code is
MissingDimensionValue when the layers before the one without `timedefault` all pass. -/
theorem time_default (env : Env) (st : wmsState) (nVersion : Int)
    (params : List (String × String)) (st1 : wmsState) (v1 : gmpVars)
    (hn : noParam "TIME" params = true)
    (hs : gmpScan env nVersion params (gmpEnter env st) gmpVars.init = .ok (st1, v1)) :
    ((∀ lp ∈ st1.map.layers, (lp.status = MS_ON ∨ lp.status = MS_DEFAULT) →
        env.msOWSLookupMetadata lp.metadata "MO" "timedefault" = none) →
      gmpTimeStep env nVersion st1 v1 = (MS_SUCCESS, st1)) ∧
    ((∃ lp ∈ st1.map.layers, (lp.status = MS_ON ∨ lp.status = MS_DEFAULT) ∧
        (env.msOWSLookupMetadata lp.metadata "MO" "timedefault").isSome = true) →
      (∀ (lp : layerObj), lp ∈ st1.map.layers → timeAware env lp = true →
        env.msOWSLookupMetadata lp.metadata "MO" "timedefault" = none →
        (msWMSLoadGetMapParams env st nVersion params).1 = MS_FAILURE ∧
        ∃ code, (msWMSLoadGetMapParams env st nVersion params).2.raised =
          st1.raised ++ [(nVersion, some code)]) ∧
      (∀ (pre post : List layerObj) (lp : layerObj), st1.map.layers = pre ++ lp :: post →
        (∀ l ∈ pre, ∃ l2, applyTimeLayer env none l = .ok l2) → timeAware env lp = true →
        env.msOWSLookupMetadata lp.metadata "MO" "timedefault" = none →
        (msWMSLoadGetMapParams env st nVersion params).1 = MS_FAILURE ∧
        (msWMSLoadGetMapParams env st nVersion params).2.raised =
          st1.raised ++ [(nVersion, some "MissingDimensionValue")])) := by
  obtain ⟨ht, hst⟩ := gmpScan_no_time env nVersion params _ _ _ hn hs
  have hmissing : ∀ lp : layerObj, timeAware env lp = true →
      env.msOWSLookupMetadata lp.metadata "MO" "timedefault" = none →
      applyTimeLayer env none lp =
        .error ("No Time value was given, and no default time value defined.",
          "MissingDimensionValue") := by
    intro lp hta hd
    unfold timeAware at hta
    simp only [decide_eq_true_eq, Option.isSome_iff_exists] at hta
    obtain ⟨hsel, ⟨e, he⟩, ⟨f, hf⟩⟩ := hta
    have hs2 : ¬ (lp.status ≠ MS_ON ∧ lp.status ≠ MS_DEFAULT) := by
      rintro ⟨a, b⟩
      rcases hsel with h | h
      · exact a h
      · exact b h
    unfold applyTimeLayer
    rw [if_neg hs2]
    simp [he, hf, hd]
  refine ⟨fun hno => ?_, fun hsome => ?_⟩
  · unfold gmpTimeStep
    simp only []
    rw [if_neg]
    simp only [ht, ne_eq, not_true_eq_false, false_or, decide_eq_true_eq, List.any_eq_true,
      Bool.and_eq_true, Bool.or_eq_true, not_exists, not_and]
    intro lp hlp hsel
    rw [hno lp hlp hsel]
    simp
  · have hcall : gmpTimeStep env nVersion st1 v1 = msWMSApplyTime env st1 nVersion none := by
      unfold gmpTimeStep
      simp only []
      rw [if_pos, hst]
      obtain ⟨lp, hlp, hsel, hd⟩ := hsome
      simp only [decide_eq_true_eq, List.any_eq_true, Bool.and_eq_true, Bool.or_eq_true]
      exact Or.inr ⟨lp, hlp, hsel, hd⟩
    have hfail : ∀ (pre post : List layerObj) (lp : layerObj) (msg code : String),
        st1.map.layers = pre ++ lp :: post →
        (∀ l ∈ pre, ∃ l2, applyTimeLayer env none l = .ok l2) →
        applyTimeLayer env none lp = .error (msg, code) →
        (msWMSLoadGetMapParams env st nVersion params).1 = MS_FAILURE ∧
        (msWMSLoadGetMapParams env st nVersion params).2.raised =
          st1.raised ++ [(nVersion, some code)] := by
      intro pre post lp msg code hl hpre he
      obtain ⟨f1, f2⟩ := (time_filter_call env st1 nVersion none) pre post lp msg code hl hpre he
      rw [msWMSLoadGetMapParams_eq, hs]
      simp only []
      unfold gmpAfterScan
      rw [hcall, if_pos f1]
      exact ⟨rfl, f2⟩
    refine ⟨fun lp hlp hta hd => ?_, fun pre post lp hl hpre hta hd => ?_⟩
    · obtain ⟨pre, post, lp', msg, code, h1, h2, h3⟩ :=
        first_failing env none st1.map.layers ⟨lp, hlp, _, hmissing lp hta hd⟩
      obtain ⟨g1, g2⟩ := hfail pre post lp' msg code h1 h2 h3
      exact ⟨g1, code, g2⟩
    · exact hfail pre post lp _ _ hl hpre (hmissing lp hta hd)

/-- C23 (amended) at a map with the layers `clouds` (time extent and item, no default) and
`rain` (time extent, item and default), for the request `LAYERS=clouds,rain` without TIME: the
default of `rain` makes the time filters run, and `clouds` raises MissingDimensionValue. -/
theorem time_default_witness :
    (msWMSLoadGetMapParams sampleEnv
      (freshState (sampleMap [
        { sampleLayer "clouds" none MS_OFF with
          metadata := [("wms_timeextent", "2004-01-01/2004-12-31"), ("wms_timeitem", "TIME")] },
        { sampleLayer "rain" none MS_OFF with
          metadata := [("wms_timeextent", "2004-01-01/2004-12-31"), ("wms_timeitem", "TIME"),
            ("wms_timedefault", "2004-06-01")] }]))
      OWS_1_1_1 [("LAYERS", "clouds,rain")]).1 = MS_FAILURE ∧
    (msWMSLoadGetMapParams sampleEnv
      (freshState (sampleMap [
        { sampleLayer "clouds" none MS_OFF with
          metadata := [("wms_timeextent", "2004-01-01/2004-12-31"), ("wms_timeitem", "TIME")] },
        { sampleLayer "rain" none MS_OFF with
          metadata := [("wms_timeextent", "2004-01-01/2004-12-31"), ("wms_timeitem", "TIME"),
            ("wms_timedefault", "2004-06-01")] }]))
      OWS_1_1_1 [("LAYERS", "clouds,rain")]).2.raised =
      [] ++ [(OWS_1_1_1, some "MissingDimensionValue")] :=
  ((time_default sampleEnv
      (freshState (sampleMap [
        { sampleLayer "clouds" none MS_OFF with
          metadata := [("wms_timeextent", "2004-01-01/2004-12-31"), ("wms_timeitem", "TIME")] },
        { sampleLayer "rain" none MS_OFF with
          metadata := [("wms_timeextent", "2004-01-01/2004-12-31"), ("wms_timeitem", "TIME"),
            ("wms_timedefault", "2004-06-01")] }]))
      OWS_1_1_1 [("LAYERS", "clouds,rain")]
      (freshState (sampleMap [
        { sampleLayer "clouds" none MS_ON with
          metadata := [("wms_timeextent", "2004-01-01/2004-12-31"), ("wms_timeitem", "TIME")] },
        { sampleLayer "rain" none MS_ON with
          metadata := [("wms_timeextent", "2004-01-01/2004-12-31"), ("wms_timeitem", "TIME"),
            ("wms_timedefault", "2004-06-01")] }]))
      { gmpVars.init with nLayerOrder := 2, validlayers := 2 }
      (by decide) (by with_unfolding_all rfl)).2
    ⟨{ sampleLayer "rain" none MS_ON with
          metadata := [("wms_timeextent", "2004-01-01/2004-12-31"), ("wms_timeitem", "TIME"),
            ("wms_timedefault", "2004-06-01")] },
      List.mem_cons_of_mem _ (List.mem_singleton.2 rfl), Or.inl rfl, by decide⟩).2
    [] [{ sampleLayer "rain" none MS_ON with
          metadata := [("wms_timeextent", "2004-01-01/2004-12-31"), ("wms_timeitem", "TIME"),
            ("wms_timedefault", "2004-06-01")] }]
    { sampleLayer "clouds" none MS_ON with
          metadata := [("wms_timeextent", "2004-01-01/2004-12-31"), ("wms_timeitem", "TIME")] }
    rfl (fun _ hm => absurd hm (List.not_mem_nil _)) (by decide) (by decide)

/-! ## QUERY_LAYERS and the queryable check of msWMSFeatureInfo -/

theorem queryLayerStatus_fold (mapname : Option String) (tokens : List String) :
    ∀ (lp : layerObj) (n : Int),
      (tokens.foldl (queryLayerTurn mapname) (lp, n)).1 =
        { lp with status :=
            if tokens.any (fun tok => layerMatches mapname lp tok) then MS_ON else lp.status } ∧
      n ≤ (tokens.foldl (queryLayerTurn mapname) (lp, n)).2 ∧
      (tokens.any (fun tok => layerMatches mapname lp tok) = true →
        n < (tokens.foldl (queryLayerTurn mapname) (lp, n)).2) := by
  induction tokens with
  | nil => intro lp n; simp
  | cons tok toks ih =>
    intro lp n
    simp only [List.foldl_cons, List.any_cons]
    by_cases hm : layerMatches mapname lp tok = true
    · have hstep : queryLayerTurn mapname (lp, n) tok = ({ lp with status := MS_ON }, n + 1) := by
        simp [queryLayerTurn, hm]
      rw [hstep]
      obtain ⟨a, b, c⟩ := ih { lp with status := MS_ON } (n + 1)
      have hcongr : ∀ t, layerMatches mapname { lp with status := MS_ON } t =
          layerMatches mapname lp t := fun t => rfl
      simp only [hcongr] at a c
      refine ⟨?_, by omega, fun _ => by omega⟩
      rw [a]
      simp only [hm, Bool.true_or, if_true]
      split_ifs <;> rfl
    · have hstep : queryLayerTurn mapname (lp, n) tok = (lp, n) := by
        simp [queryLayerTurn, hm]
      rw [hstep]
      obtain ⟨a, b, c⟩ := ih lp n
      have hm2 : layerMatches mapname lp tok = false := by simpa using hm
      simp only [hm2, Bool.false_or]
      exact ⟨a, b, c⟩

theorem queryLayerStatus_eq (mapname : Option String) (tokens : List String) (lp : layerObj) :
    (queryLayerStatus mapname tokens lp).1 =
      { lp with status :=
          if tokens.any (fun tok => layerMatches mapname lp tok) then MS_ON else MS_OFF } ∧
    0 ≤ (queryLayerStatus mapname tokens lp).2 ∧
    (tokens.any (fun tok => layerMatches mapname lp tok) = true →
      0 < (queryLayerStatus mapname tokens lp).2) := by
  obtain ⟨a, b, c⟩ := queryLayerStatus_fold mapname tokens { lp with status := MS_OFF } 0
  have hcongr : ∀ t, layerMatches mapname { lp with status := MS_OFF } t =
      layerMatches mapname lp t := fun t => rfl
  simp only [hcongr] at a c
  exact ⟨a, b, c⟩

theorem sum_pos_of_mem (l : List Int) (h0 : ∀ x ∈ l, 0 ≤ x) :
    0 ≤ l.sum ∧ ((∃ x ∈ l, 0 < x) → 0 < l.sum) := by
  induction l with
  | nil => exact ⟨le_refl 0, fun ⟨x, hx, _⟩ => absurd hx (List.not_mem_nil _)⟩
  | cons a l ih =>
    obtain ⟨i1, i2⟩ := ih (fun x hx => h0 x (List.mem_cons_of_mem _ hx))
    have ha := h0 a (List.mem_cons_self _ _)
    simp only [List.sum_cons]
    refine ⟨by omega, ?_⟩
    rintro ⟨x, hx, hpos⟩
    rcases List.mem_cons.1 hx with rfl | hx
    · omega
    · have := i2 ⟨x, hx, hpos⟩
      omega

/-- The turn of a QUERY_LAYERS parameter: the statuses it leaves and the count it adds. -/
theorem featureInfoStep_query (env : Env) (nVersion : Int) (st : wmsState) (v : featureInfoVars)
    (name value : String) (hn : strcaseEq name "QUERY_LAYERS" = true)
    (h1 : 1 ≤ (env.msStringSplit value ',').length)
    (h2 : 1 ≤ (env.msStringTrimLeft value).length) :
    ∃ vb, featureInfoStep env nVersion st v (name, value) =
        .ok ({ st with map := { st.map with layers := st.map.layers.map (fun lp =>
              { lp with status :=
                  if (env.msStringSplit value ',').any (fun tok => layerMatches st.map.name lp tok)
                  then MS_ON else MS_OFF }) } }, vb) ∧
      v.numlayers_found ≤ vb.numlayers_found ∧
      ((∃ lp ∈ st.map.layers,
          (env.msStringSplit value ',').any (fun tok => layerMatches st.map.name lp tok) = true) →
        v.numlayers_found < vb.numlayers_found) := by
  have hc : ¬ ((env.msStringSplit value ',').length < 1 ∨ (env.msStringTrimLeft value).length < 1) := by
    omega
  have hsum := sum_pos_of_mem
    ((st.map.layers.map (queryLayerStatus st.map.name (env.msStringSplit value ','))).map
      (fun r => r.2))
    (by
      intro x hx
      simp only [List.mem_map] at hx
      obtain ⟨r, ⟨lp, _, rfl⟩, rfl⟩ := hx
      exact (queryLayerStatus_eq _ _ lp).2.1)
  refine ⟨{ v with query_layer := 1, numlayers_found := v.numlayers_found +
      ((st.map.layers.map (queryLayerStatus st.map.name (env.msStringSplit value ','))).map
        (fun r => r.2)).sum }, ?_, ?_, ?_⟩
  · unfold featureInfoStep
    simp only [hn, if_true]
    rw [if_neg hc]
    simp only [List.map_map]
    congr 4
    apply List.map_congr_left
    intro lp _
    exact (queryLayerStatus_eq _ _ lp).1
  · simp only []
    omega
  · rintro ⟨lp, hlp, hm⟩
    have := hsum.2 ⟨_, by
      simp only [List.mem_map]
      exact ⟨_, ⟨lp, hlp, rfl⟩, rfl⟩, (queryLayerStatus_eq _ _ lp).2.2 hm⟩
    simp only []
    omega

/-- A turn for another parameter leaves the statuses and the count alone. -/
theorem featureInfoStep_other (env : Env) (nVersion : Int) (st st2 : wmsState)
    (v v2 : featureInfoVars) (p : String × String) (hn : strcaseEq p.1 "QUERY_LAYERS" = false)
    (h : featureInfoStep env nVersion st v p = .ok (st2, v2)) :
    st2.map.layers.map (fun lp => lp.status) = st.map.layers.map (fun lp => lp.status) ∧
    v2.numlayers_found = v.numlayers_found := by
  unfold featureInfoStep at h
  rw [hn] at h
  simp only [Bool.false_eq_true, if_false] at h
  split_ifs at h <;> cases h <;> first | exact ⟨rfl, rfl⟩ | skip
  refine ⟨?_, rfl⟩
  simp only [List.map_map]
  rfl

theorem featureInfoScan_other (env : Env) (nVersion : Int) (ps : List (String × String)) :
    ∀ (st st2 : wmsState) (v v2 : featureInfoVars), noParam "QUERY_LAYERS" ps = true →
      featureInfoScan env nVersion ps st v = .ok (st2, v2) →
      st2.map.layers.map (fun lp => lp.status) = st.map.layers.map (fun lp => lp.status) ∧
      v2.numlayers_found = v.numlayers_found := by
  induction ps with
  | nil => intro st st2 v v2 _ h; cases h; exact ⟨rfl, rfl⟩
  | cons p ps ih =>
    intro st st2 v v2 hno h
    unfold noParam at hno
    simp only [List.all_cons, Bool.and_eq_true, Bool.not_eq_true'] at hno
    simp only [featureInfoScan] at h
    split at h
    · cases h
    · rename_i r hr
      obtain ⟨a, b⟩ := featureInfoStep_other env nVersion st r.1 v r.2 p hno.1 hr
      obtain ⟨c, d⟩ := ih r.1 st2 r.2 v2 (by unfold noParam; exact hno.2) h
      exact ⟨c.trans a, d.trans b⟩

theorem featureInfoStep_mono (env : Env) (nVersion : Int) (st st2 : wmsState)
    (v v2 : featureInfoVars) (p : String × String)
    (h : featureInfoStep env nVersion st v p = .ok (st2, v2)) :
    v.numlayers_found ≤ v2.numlayers_found ∧
    (strcaseEq p.1 "QUERY_LAYERS" = true → (∃ lp ∈ st2.map.layers, lp.status = MS_ON) →
      v.numlayers_found < v2.numlayers_found) := by
  by_cases hn : strcaseEq p.1 "QUERY_LAYERS" = true
  · have hh := h
    unfold featureInfoStep at hh
    simp only [hn, if_true] at hh
    split_ifs at hh with hc
    have h1 : 1 ≤ (env.msStringSplit p.2 ',').length := by omega
    have h2 : 1 ≤ (env.msStringTrimLeft p.2).length := by omega
    obtain ⟨vb, e, m1, m2⟩ := featureInfoStep_query env nVersion st v p.1 p.2 hn h1 h2
    have e2 : (p.1, p.2) = p := rfl
    rw [e2, h] at e
    simp only [Except.ok.injEq, Prod.mk.injEq] at e
    obtain ⟨e3, e4⟩ := e
    subst e4
    refine ⟨m1, fun _ hon => m2 ?_⟩
    obtain ⟨lp, hlp, hs⟩ := hon
    rw [e3] at hlp
    simp only [List.mem_map] at hlp
    obtain ⟨lp0, h0, rfl⟩ := hlp
    refine ⟨lp0, h0, ?_⟩
    simp only [] at hs
    by_contra hcon
    rw [if_neg hcon] at hs
    exact absurd hs (by decide)
  · have hn2 : strcaseEq p.1 "QUERY_LAYERS" = false := by simpa using hn
    obtain ⟨_, b⟩ := featureInfoStep_other env nVersion st st2 v v2 p hn2 h
    exact ⟨by omega, fun hc => absurd hc hn⟩

/-- After a loop with a QUERY_LAYERS parameter, a layer that is ON was counted. -/
theorem featureInfoScan_found (env : Env) (nVersion : Int) (ps : List (String × String)) :
    ∀ (st st2 : wmsState) (v v2 : featureInfoVars), 0 ≤ v.numlayers_found →
      featureInfoScan env nVersion ps st v = .ok (st2, v2) →
      0 ≤ v2.numlayers_found ∧
      (noParam "QUERY_LAYERS" ps = false → (∃ lp ∈ st2.map.layers, lp.status = MS_ON) →
        0 < v2.numlayers_found) := by
  induction ps with
  | nil =>
    intro st st2 v v2 h0 h
    cases h
    exact ⟨h0, fun hn => by cases hn⟩
  | cons p ps ih =>
    intro st st2 v v2 h0 h
    simp only [featureInfoScan] at h
    split at h
    · cases h
    · rename_i r hr
      obtain ⟨m1, m2⟩ := featureInfoStep_mono env nVersion st r.1 v r.2 p hr
      obtain ⟨i1, i2⟩ := ih r.1 st2 r.2 v2 (by omega) h
      refine ⟨i1, fun hn hon => ?_⟩
      by_cases hps : noParam "QUERY_LAYERS" ps = false
      · exact i2 hps hon
      · have hps2 : noParam "QUERY_LAYERS" ps = true := by simpa using hps
        have hp : strcaseEq p.1 "QUERY_LAYERS" = true := by
          unfold noParam at hn hps2
          simp only [List.all_cons, hps2, Bool.and_true] at hn
          simpa using hn
        obtain ⟨k1, k2⟩ := featureInfoScan_other env nVersion ps r.1 st2 r.2 v2 hps2 h
        have hon2 : ∃ lp ∈ r.1.map.layers, lp.status = MS_ON := by
          obtain ⟨lp, hlp, hs⟩ := hon
          have : MS_ON ∈ st2.map.layers.map (fun lp => lp.status) :=
            List.mem_map.2 ⟨lp, hlp, hs⟩
          rw [k1] at this
          obtain ⟨lp0, h0, hs0⟩ := List.mem_map.1 this
          exact ⟨lp0, h0, hs0⟩
        have := m2 hp hon2
        omega

/-- C24: the turn of a QUERY_LAYERS parameter (with at least one token and a non-blank value)
leaves a layer ON exactly when some token equals, ignoring case, its name, its group or the map
name, and every other layer, DEFAULT ones included, OFF.  When the parameter loop of
`msWMSFeatureInfo` ends with the state `st1`: the call returns MS_SUCCESS only if every layer
that is ON in `st1` is queryable; and when the request has a QUERY_LAYERS parameter and some
layer that is ON in `st1` is not queryable, the call is the `msWMSException` with code
LayerNotQueryable on `st1` (no query has been run) and returns MS_FAILURE. -/
theorem feature_info_queryable (env : Env) (q : OpsEnv) (st : wmsState) (nVersion : Int)
    (params : List (String × String)) :
    (∀ (sa : wmsState) (va : featureInfoVars) (name value : String),
      strcaseEq name "QUERY_LAYERS" = true → 1 ≤ (env.msStringSplit value ',').length →
      1 ≤ (env.msStringTrimLeft value).length →
      ∃ vb, featureInfoStep env nVersion sa va (name, value) =
        .ok ({ sa with map := { sa.map with layers := sa.map.layers.map (fun lp =>
              { lp with status :=
                  if (env.msStringSplit value ',').any (fun tok => layerMatches sa.map.name lp tok)
                  then MS_ON else MS_OFF }) } }, vb)) ∧
    (∀ (st1 : wmsState) (v1 : featureInfoVars),
      featureInfoScan env nVersion params st featureInfoVars.init = .ok (st1, v1) →
      ((msWMSFeatureInfo env q st nVersion params).1 = MS_SUCCESS →
        ∀ lp ∈ st1.map.layers, lp.status = MS_ON → q.msIsLayerQueryable lp ≠ 0) ∧
      (noParam "QUERY_LAYERS" params = false →
        (∃ lp ∈ st1.map.layers, lp.status = MS_ON ∧ q.msIsLayerQueryable lp = 0) →
        msWMSFeatureInfo env q st nVersion params =
          msWMSException env (msSetError st1 "Requested layer(s) are not queryable.")
            nVersion (some "LayerNotQueryable") ∧
        (msWMSFeatureInfo env q st nVersion params).1 = MS_FAILURE)) := by
  refine ⟨?_, ?_⟩
  · intro sa va name value hn h1 h2
    obtain ⟨vb, e, _⟩ := featureInfoStep_query env nVersion sa va name value hn h1 h2
    exact ⟨vb, e⟩
  · intro st1 v1 hs
    have hne : MS_FAILURE ≠ MS_SUCCESS := by decide
    have hany : ∀ (lp : layerObj), lp ∈ st1.map.layers → lp.status = MS_ON →
        q.msIsLayerQueryable lp = 0 →
        st1.map.layers.any (fun lp => decide (lp.status = MS_ON ∧ q.msIsLayerQueryable lp = 0)) =
          true := by
      intro lp hlp h1 h2
      rw [List.any_eq_true]
      exact ⟨lp, hlp, by simp [h1, h2]⟩
    constructor
    · intro hsucc lp hlp hon hq
      unfold msWMSFeatureInfo at hsucc
      rw [hs] at hsucc
      simp only [] at hsucc
      unfold featureInfoAfterScan at hsucc
      by_cases a : v1.numlayers_found = 0
      · rw [if_pos a] at hsucc
        split_ifs at hsucc
        · exact hne ((msWMSException_fst _ _ _ _).symm.trans hsucc)
        · exact hne ((msWMSException_fst _ _ _ _).symm.trans hsucc)
      · rw [if_neg a, if_pos (hany lp hlp hon hq)] at hsucc
        exact hne ((msWMSException_fst _ _ _ _).symm.trans hsucc)
    · intro hn ⟨lp, hlp, hon, hq⟩
      have hfound := (featureInfoScan_found env nVersion params st st1 _ v1 (le_refl 0) hs).2 hn
        ⟨lp, hlp, hon⟩
      have hres : msWMSFeatureInfo env q st nVersion params =
          msWMSException env (msSetError st1 "Requested layer(s) are not queryable.")
            nVersion (some "LayerNotQueryable") := by
        unfold msWMSFeatureInfo
        rw [hs]
        simp only []
        unfold featureInfoAfterScan
        rw [if_neg (by omega), if_pos (hany lp hlp hon hq)]
      exact ⟨hres, by rw [hres]; rfl⟩

/-- C24 at the request `QUERY_LAYERS=ortho&X=1&Y=1` on a map whose layer `ortho` is a raster,
which the sample collaborators do not query: the call raises LayerNotQueryable. -/
theorem feature_info_queryable_witness :
    (msWMSFeatureInfo sampleEnv sampleOps
      (freshState (sampleMap [{ sampleLayer "ortho" none MS_DEFAULT with type := 3 }]))
      OWS_1_1_1 [("QUERY_LAYERS", "ortho"), ("X", "1"), ("Y", "1")]).2.raised =
      [(OWS_1_1_1, some "LayerNotQueryable")] := by
  rw [(((feature_info_queryable sampleEnv sampleOps
      (freshState (sampleMap [{ sampleLayer "ortho" none MS_DEFAULT with type := 3 }]))
      OWS_1_1_1 [("QUERY_LAYERS", "ortho"), ("X", "1"), ("Y", "1")]).2
      (freshState (sampleMap [{ sampleLayer "ortho" none MS_ON with type := 3 }]))
      { featureInfoVars.init with query_layer := 1, numlayers_found := 1, pointx := 1, pointy := 1 }
      (by with_unfolding_all rfl)).2 (by decide)
      ⟨{ sampleLayer "ortho" none MS_ON with type := 3 }, List.mem_singleton.2 rfl, rfl,
        by decide⟩).1]
  rfl

/-! ## The fields printed by msDumpResult -/

theorem foldl_include (item : String) (incitems : List String) : ∀ (b : Bool),
    incitems.foldl (fun vis inc => if strcaseEq item inc then true else vis) b =
      (b || incitems.any (fun inc => strcaseEq item inc)) := by
  induction incitems with
  | nil => intro b; simp
  | cons i is ih =>
    intro b
    simp only [List.foldl_cons, List.any_cons, ih]
    by_cases h : strcaseEq item i = true
    · simp [h]
    · simp [h]

theorem foldl_exclude (item : String) (excitems : List String) : ∀ (b : Bool),
    excitems.foldl (fun vis exc => if strcaseEq item exc then false else vis) b =
      (b && !excitems.any (fun exc => strcaseEq item exc)) := by
  induction excitems with
  | nil => intro b; simp
  | cons e es ih =>
    intro b
    simp only [List.foldl_cons, List.any_cons, ih]
    by_cases h : strcaseEq item e = true
    · simp [h]
    · simp [h]

theorem itemVisible_iff (incitems excitems : List String) :
    (∀ (env : Env) (q : OpsEnv) (nVersion : Int) (lp : layerObj) (r : Int × Int) (st : wmsState)
        (n : Int), (q.msLayerGetShape lp r.1 r.2).1 = MS_SUCCESS →
      dumpShapes env q nVersion incitems excitems lp [r] st n =
        .ok (emit (emit st [Output.printf ("  Feature " ++ toString r.2 ++ ": \n")])
          (dumpFields incitems excitems lp.items (q.msLayerGetShape lp r.1 r.2).2), n + 1)) ∧
    (∀ item : String, itemVisible incitems excitems item = true ↔
      ((incitems.length = 1 ∧ strcaseEq "all" (incitems.getD 0 "") = true) ∨
        ∃ inc ∈ incitems, strcaseEq item inc = true) ∧
      ∀ exc ∈ excitems, strcaseEq item exc = false) ∧
    (∀ item : String, (∃ exc ∈ excitems, strcaseEq item exc = true) →
      itemVisible incitems excitems item = false) ∧
    (∀ item : String, itemVisible [] excitems item = false) ∧
    (∀ items values : List String, dumpFields [] excitems items values = []) ∧
    (∀ (items values : List String) (line : Output),
      line ∈ dumpFields incitems excitems items values ↔
        ∃ k, k < items.length ∧ itemVisible incitems excitems (items.getD k "") = true ∧
          line = Output.printf ("    " ++ items.getD k "" ++ " = '" ++ values.getD k "" ++ "'\n")) := by
  have h1 : ∀ item : String, itemVisible incitems excitems item = true ↔
      ((incitems.length = 1 ∧ strcaseEq "all" (incitems.getD 0 "") = true) ∨
        ∃ inc ∈ incitems, strcaseEq item inc = true) ∧
      ∀ exc ∈ excitems, strcaseEq item exc = false := by
    intro item
    unfold itemVisible
    simp only [foldl_exclude, foldl_include, Bool.false_or, Bool.and_eq_true, Bool.not_eq_true',
      List.any_eq_false, Bool.not_eq_true]
    constructor
    · rintro ⟨a, b⟩
      refine ⟨?_, b⟩
      split_ifs at a with hc
      · exact Or.inl hc
      · exact Or.inr (by simpa using a)
    · rintro ⟨a, b⟩
      refine ⟨?_, b⟩
      split_ifs with hc
      · rfl
      · rcases a with a | a
        · exact absurd a hc
        · simpa using a
  have h3 : ∀ item : String, itemVisible [] excitems item = false := by
    intro item
    unfold itemVisible
    simp only [foldl_exclude, List.length_nil, List.foldl_nil]
    simp
  refine ⟨?_, h1, ?_, h3, ?_, ?_⟩
  · intro env q nVersion lp r st n hs
    simp [dumpShapes, hs]
  · intro item ⟨exc, he, hm⟩
    cases hv : itemVisible incitems excitems item with
    | false => rfl
    | true =>
      have := ((h1 item).1 hv).2 exc he
      rw [hm] at this
      cases this
  · intro items values
    unfold dumpFields
    simp [h3]
  · intro items values line
    unfold dumpFields
    simp only [List.mem_map, List.mem_filter, List.mem_range]
    constructor
    · rintro ⟨k, ⟨hk, hv⟩, rfl⟩
      exact ⟨k, hk, hv, rfl⟩
    · rintro ⟨k, hk, hv, rfl⟩
      exact ⟨k, ⟨hk, hv⟩, rfl⟩

theorem flatMap_single {α β : Type} (f : α → β) (l : List α) :
    l.flatMap (fun r => [f r]) = l.map f := by
  induction l with
  | nil => rfl
  | cons a l ih =>
    rw [List.flatMap_cons, ih]
    rfl

theorem dumpLayer_skip (env : Env) (q : OpsEnv) (nVersion : Int) (st : wmsState) (n : Int)
    (done todo : List layerObj) (lp : layerObj)
    (h : lp.status ≠ MS_ON ∨ lp.resultcache = none ∨ lp.resultcache = some []) :
    dumpLayer env q nVersion st n done lp todo = .ok (st, n, lp) := by
  unfold dumpLayer
  cases hr : lp.resultcache with
  | none => rfl
  | some results =>
    simp only []
    rw [if_pos]
    rcases h with h | h | h
    · exact Or.inl h
    · rw [hr] at h
      cases h
    · rw [hr] at h
      cases h
      exact Or.inr rfl

theorem dumpLayers_skip (env : Env) (q : OpsEnv) (nVersion : Int) (ls : List layerObj) :
    ∀ (done : List layerObj) (st : wmsState) (n : Int),
    (∀ l ∈ ls, l.status ≠ MS_ON ∨ l.resultcache = none ∨ l.resultcache = some []) →
    dumpLayers env q nVersion done ls st n = (n, st) := by
  induction ls with
  | nil => intro done st n _; rfl
  | cons l ls ih =>
    intro done st n h
    unfold dumpLayers
    rw [dumpLayer_skip env q nVersion st n done ls l (h l (List.mem_cons_self _ _))]
    exact ih _ _ _ (fun x hx => h x (List.mem_cons_of_mem _ hx))

theorem dumpLayers_skip_head (env : Env) (q : OpsEnv) (nVersion : Int) (pre : List layerObj) :
    ∀ (done rest : List layerObj) (st : wmsState) (n : Int),
    (∀ l ∈ pre, l.status ≠ MS_ON ∨ l.resultcache = none ∨ l.resultcache = some []) →
    dumpLayers env q nVersion done (pre ++ rest) st n =
      dumpLayers env q nVersion (done ++ pre) rest st n := by
  induction pre with
  | nil =>
    intro done rest st n _
    rw [List.nil_append, List.append_nil]
  | cons l pre ih =>
    intro done rest st n h
    rw [List.cons_append]
    generalize hg : dumpLayers env q nVersion (done ++ l :: pre) rest st n = g
    unfold dumpLayers
    rw [dumpLayer_skip env q nVersion st n done (pre ++ rest) l (h l (List.mem_cons_self _ _))]
    simp only []
    rw [ih _ _ _ _ (fun x hx => h x (List.mem_cons_of_mem _ hx)), ← hg, List.append_assoc]
    rfl

theorem dumpShapes_ok (env : Env) (q : OpsEnv) (nVersion : Int) (incitems excitems : List String)
    (lp : layerObj) (results : List (Int × Int)) :
    ∀ (st : wmsState) (n : Int),
    (∀ r ∈ results, (q.msLayerGetShape lp r.1 r.2).1 = MS_SUCCESS) →
    dumpShapes env q nVersion incitems excitems lp results st n =
      .ok (emit st (results.flatMap (fun r =>
          Output.printf ("  Feature " ++ toString r.2 ++ ": \n") ::
            dumpFields incitems excitems lp.items (q.msLayerGetShape lp r.1 r.2).2)),
        n + results.length) := by
  induction results with
  | nil =>
    intro st n _
    unfold dumpShapes emit
    simp
  | cons r rest ih =>
    intro st n h
    unfold dumpShapes
    simp only []
    rw [if_neg (not_not.2 (h r (List.mem_cons_self _ _))),
      ih _ _ (fun x hx => h x (List.mem_cons_of_mem _ hx))]
    unfold emit
    simp only [List.flatMap_cons, List.length_cons, List.append_assoc, List.singleton_append,
      List.cons_append, Nat.cast_add, Nat.cast_one]
    congr 2
    ring

theorem dumpLayer_ok (env : Env) (q : OpsEnv) (nVersion : Int) (lp : layerObj)
    (results : List (Int × Int)) (incitems excitems : List String)
    (hon : lp.status = MS_ON) (hres : lp.resultcache = some results) (hne : results ≠ [])
    (hopen : q.msLayerOpen lp = MS_SUCCESS) (hitems : (q.msLayerGetItems lp).1 = MS_SUCCESS)
    (hshape : ∀ r ∈ results,
      (q.msLayerGetShape (q.msLayerGetItems lp).2 r.1 r.2).1 = MS_SUCCESS)
    (hinc : incitems =
      ((env.msOWSLookupMetadata (q.msLayerGetItems lp).2.metadata "MO" "include_items").map
        (fun value => env.msStringSplit value ',')).getD [])
    (hexc : excitems =
      ((env.msOWSLookupMetadata (q.msLayerGetItems lp).2.metadata "MO" "exclude_items").map
        (fun value => env.msStringSplit value ',')).getD [])
    (st : wmsState) (n : Int) (done todo : List layerObj) :
    dumpLayer env q nVersion st n done lp todo =
      .ok ({ st with
          map := { st.map with layers := done ++ q.msLayerClose (q.msLayerGetItems lp).2 :: todo },
          out := st.out ++
            Output.printf ("\nLayer '" ++ (q.msLayerGetItems lp).2.name.getD "(null)" ++ "'\n") ::
              results.flatMap (fun r =>
                Output.printf ("  Feature " ++ toString r.2 ++ ": \n") ::
                  dumpFields incitems excitems (q.msLayerGetItems lp).2.items
                    (q.msLayerGetShape (q.msLayerGetItems lp).2 r.1 r.2).2) },
        n + (results.length : Int), q.msLayerClose (q.msLayerGetItems lp).2) := by
  unfold dumpLayer
  rw [hres]
  simp only []
  have hlen : results.length ≠ 0 := fun hcon => hne (List.length_eq_zero.1 hcon)
  rw [if_neg (by
    intro hcon
    rcases hcon with hcon | hcon
    · exact hcon hon
    · exact hlen hcon), if_neg (not_not.2 hopen), if_neg (not_not.2 hitems)]
  generalize env.msOWSLookupMetadata (q.msLayerGetItems lp).2.metadata "MO"
    "include_items" = oi at hinc ⊢
  generalize env.msOWSLookupMetadata (q.msLayerGetItems lp).2.metadata "MO"
    "exclude_items" = oe at hexc ⊢
  cases oi <;> cases oe <;>
    (simp only [Option.map, Option.getD] at hinc hexc
     subst hinc
     subst hexc
     simp only []
     rw [dumpShapes_ok env q nVersion _ _ _ results _ _ hshape]
     simp only [emit, List.append_assoc, List.singleton_append])

/-- C25, on `msDumpResult` itself.  Let `lp` be a layer with status ON and results for which
`msLayerOpen`, `msLayerGetItems` and `msLayerGetShape` succeed, and let `incitems` and
`excitems` be the comma-separated tokens of its metadata `include_items` and `exclude_items`
(none when the metadata is missing).  The turn of the layer loop on `lp` adds the number of
results to the count and writes the line of the layer and, for each result, the line of the
feature followed by the lines `name = 'value'` of the fields `k` for which
`itemVisible incitems excitems` holds, in field order; when the other layers of the map are
skipped, `msDumpResult` returns the number of results and that is all it writes.
`itemVisible` holds for a field exactly when (the include_items are the single keyword `all`,
ignoring case, or the field name equals one of them ignoring case) and the field name equals
none of the exclude_items ignoring case; so an excluded field is never printed, and without
the metadata include_items only the lines of the layer and of the features are written. -/
theorem dump_visible_fields (env : Env) (q : OpsEnv) (st : wmsState) (nVersion : Int)
    (pre post : List layerObj) (lp : layerObj) (results : List (Int × Int))
    (incitems excitems : List String)
    (hon : lp.status = MS_ON) (hres : lp.resultcache = some results) (hne : results ≠ [])
    (hopen : q.msLayerOpen lp = MS_SUCCESS) (hitems : (q.msLayerGetItems lp).1 = MS_SUCCESS)
    (hshape : ∀ r ∈ results,
      (q.msLayerGetShape (q.msLayerGetItems lp).2 r.1 r.2).1 = MS_SUCCESS)
    (hinc : incitems =
      ((env.msOWSLookupMetadata (q.msLayerGetItems lp).2.metadata "MO" "include_items").map
        (fun value => env.msStringSplit value ',')).getD [])
    (hexc : excitems =
      ((env.msOWSLookupMetadata (q.msLayerGetItems lp).2.metadata "MO" "exclude_items").map
        (fun value => env.msStringSplit value ',')).getD []) :
    (∀ (st2 : wmsState) (n : Int) (done todo : List layerObj),
      ∃ st3 lp3, dumpLayer env q nVersion st2 n done lp todo =
          .ok (st3, n + (results.length : Int), lp3) ∧
        st3.out =
          st2.out ++
            Output.printf ("\nLayer '" ++ (q.msLayerGetItems lp).2.name.getD "(null)" ++ "'\n") ::
            results.flatMap (fun r =>
              Output.printf ("  Feature " ++ toString r.2 ++ ": \n") ::
                ((List.range (q.msLayerGetItems lp).2.items.length).filter
                  (fun k => itemVisible incitems excitems
                    ((q.msLayerGetItems lp).2.items.getD k ""))).map
                  (fun k => Output.printf ("    " ++ (q.msLayerGetItems lp).2.items.getD k "" ++
                    " = '" ++ (q.msLayerGetShape (q.msLayerGetItems lp).2 r.1 r.2).2.getD k "" ++
                    "'\n")))) ∧
    (st.map.layers = pre ++ lp :: post →
      (∀ l ∈ pre, l.status ≠ MS_ON ∨ l.resultcache = none ∨ l.resultcache = some []) →
      (∀ l ∈ post, l.status ≠ MS_ON ∨ l.resultcache = none ∨ l.resultcache = some []) →
      (msDumpResult env q st nVersion).1 = results.length ∧
      (msDumpResult env q st nVersion).2.out =
        st.out ++
          Output.printf ("\nLayer '" ++ (q.msLayerGetItems lp).2.name.getD "(null)" ++ "'\n") ::
          results.flatMap (fun r =>
            Output.printf ("  Feature " ++ toString r.2 ++ ": \n") ::
              ((List.range (q.msLayerGetItems lp).2.items.length).filter
                (fun k => itemVisible incitems excitems
                  ((q.msLayerGetItems lp).2.items.getD k ""))).map
                (fun k => Output.printf ("    " ++ (q.msLayerGetItems lp).2.items.getD k "" ++
                  " = '" ++ (q.msLayerGetShape (q.msLayerGetItems lp).2 r.1 r.2).2.getD k "" ++
                  "'\n"))) ∧
      (env.msOWSLookupMetadata (q.msLayerGetItems lp).2.metadata "MO" "include_items" = none →
        (msDumpResult env q st nVersion).2.out =
          st.out ++
            Output.printf ("\nLayer '" ++ (q.msLayerGetItems lp).2.name.getD "(null)" ++ "'\n") ::
            results.map (fun r => Output.printf ("  Feature " ++ toString r.2 ++ ": \n")))) ∧
    (∀ item : String, itemVisible incitems excitems item = true ↔
      ((incitems.length = 1 ∧ strcaseEq "all" (incitems.getD 0 "") = true) ∨
        ∃ inc ∈ incitems, strcaseEq item inc = true) ∧
      ∀ exc ∈ excitems, strcaseEq item exc = false) ∧
    (∀ item : String, (∃ exc ∈ excitems, strcaseEq item exc = true) →
      itemVisible incitems excitems item = false) ∧
    (env.msOWSLookupMetadata (q.msLayerGetItems lp).2.metadata "MO" "include_items" = none →
      ∀ item : String, itemVisible incitems excitems item = false) := by
  obtain ⟨-, h1, h2, h3, -, -⟩ := itemVisible_iff incitems excitems
  have hturn := dumpLayer_ok env q nVersion lp results incitems excitems hon hres hne hopen
    hitems hshape hinc hexc
  have hvis : env.msOWSLookupMetadata (q.msLayerGetItems lp).2.metadata "MO" "include_items" =
      none → ∀ item : String, itemVisible incitems excitems item = false := by
    intro hnone item
    have hnil : incitems = [] := by
      rw [hinc, hnone]
      rfl
    rw [hnil]
    exact h3 item
  refine ⟨fun st2 n done todo => ⟨_, _, hturn st2 n done todo, rfl⟩, ?_, h1, h2, hvis⟩
  intro hlayers hpre hpost
  have hrun : msDumpResult env q st nVersion =
      ((results.length : Int),
       { st with
          map := { st.map with layers := pre ++ q.msLayerClose (q.msLayerGetItems lp).2 :: post },
          out := st.out ++
            Output.printf ("\nLayer '" ++ (q.msLayerGetItems lp).2.name.getD "(null)" ++ "'\n") ::
              results.flatMap (fun r =>
                Output.printf ("  Feature " ++ toString r.2 ++ ": \n") ::
                  dumpFields incitems excitems (q.msLayerGetItems lp).2.items
                    (q.msLayerGetShape (q.msLayerGetItems lp).2 r.1 r.2).2) }) := by
    unfold msDumpResult
    rw [hlayers, dumpLayers_skip_head env q nVersion pre [] (lp :: post) st 0 hpre,
      List.nil_append]
    unfold dumpLayers
    rw [hturn st 0 pre post]
    simp only []
    rw [dumpLayers_skip env q nVersion post _ _ _ hpost, Int.zero_add]
  refine ⟨by rw [hrun], by rw [hrun]; rfl, fun hnone => ?_⟩
  rw [hrun]
  show st.out ++ _ = _
  congr 2
  have hf : ∀ values, dumpFields incitems excitems (q.msLayerGetItems lp).2.items values = [] := by
    intro values
    have hnil : incitems = [] := by
      rw [hinc, hnone]
      rfl
    rw [hnil]
    exact (itemVisible_iff [] excitems).2.2.2.2.1 _ _
  simp only [hf]
  exact flatMap_single _ _

/-- C25 on a layer with the fields `id` and `name`, include_items `all` and exclude_items
`name`: one result is counted, and the dump has the line of the layer, the line of the
feature and the line of the field `id` only; exclusion wins. -/
theorem dump_visible_fields_witness :
    (msDumpResult sampleEnv sampleOps
      (sampleDumpState [("wms_include_items", "all"), ("wms_exclude_items", "name")])
      OWS_1_1_1).1 = 1 ∧
    (msDumpResult sampleEnv sampleOps
      (sampleDumpState [("wms_include_items", "all"), ("wms_exclude_items", "name")])
      OWS_1_1_1).2.out =
      [Output.printf "\nLayer 'parcels'\n", Output.printf "  Feature 7: \n",
       Output.printf "    id = '7'\n"] :=
  have h := (dump_visible_fields sampleEnv sampleOps
    (sampleDumpState [("wms_include_items", "all"), ("wms_exclude_items", "name")]) OWS_1_1_1
    [] [] { sampleLayer "parcels" none MS_ON with
      metadata := [("wms_include_items", "all"), ("wms_exclude_items", "name")],
      resultcache := some [(0, 7)] } [(0, 7)] ["all"] ["name"]
    rfl rfl (fun h => by cases h) rfl rfl
    (fun _ _ => rfl) (by decide) (by decide)).2.1 rfl
    (fun _ h => by cases h) (fun _ h => by cases h)
  ⟨h.1, h.2.1.trans (by decide)⟩

/-! ## The descriptions written by msWMSDescribeLayer -/

theorem find_first (p : layerObj → Bool) (pre post : List layerObj) (lp : layerObj)
    (hpre : ∀ l ∈ pre, p l = false) (hlp : p lp = true) :
    (pre ++ lp :: post).find? p = some lp := by
  induction pre with
  | nil => simp [List.find?, hlp]
  | cons a pre ih =>
    simp only [List.cons_append, List.find?, hpre a (List.mem_cons_self _ _)]
    exact ih (fun l hl => hpre l (List.mem_cons_of_mem _ hl))

/-- C26: in `msWMSDescribeLayer` the online resource resolved for a layer is the layer-level
metadata value when it is non-empty and the map-level value (when non-empty) otherwise.  The
element written for a layer has owsType WFS exactly when the layer type is POINT, LINE or
POLYGON and the resolved WFS resource exists; otherwise owsType WCS exactly when the type is
RASTER, the connection type is not WMS and the resolved WCS resource exists; otherwise it has
no owsType.  A requested name is answered by the element of the first layer whose name equals
it ignoring case, and by nothing when there is none; the response holds these answers in the
order of the tokens of the (last) LAYERS parameter, and the call returns MS_SUCCESS. -/
theorem describe_layer (env : Env) (st : wmsState) (nVersion : Int)
    (params : List (String × String)) :
    (∀ (ns : String) (lp : layerObj),
      (∀ s, env.msOWSLookupMetadata lp.metadata ns "onlineresource" = some s → s.length ≠ 0 →
        layerOnlineResource env ns st.map lp = some s) ∧
      ((env.msOWSLookupMetadata lp.metadata ns "onlineresource" = none ∨
          ∃ s, env.msOWSLookupMetadata lp.metadata ns "onlineresource" = some s ∧ s.length = 0) →
        layerOnlineResource env ns st.map lp = mapOnlineResource env ns st.map) ∧
      (∀ s, mapOnlineResource env ns st.map = some s ↔
        env.msOWSLookupMetadata st.map.webmetadata ns "onlineresource" = some s ∧ s.length ≠ 0) ∧
      (∀ s, layerOnlineResource env ns st.map lp = some s → s.length ≠ 0)) ∧
    (∀ (lp : layerObj),
      (∀ wfs, (lp.type = MS_LAYER_POINT ∨ lp.type = MS_LAYER_LINE ∨ lp.type = MS_LAYER_POLYGON) →
        layerOnlineResource env "FO" st.map lp = some wfs →
        describeOne env st.map lp =
          [Output.printf ("<LayerDescription name=\"" ++ env.msEncodeHTMLEntities (lp.name.getD "") ++
              "\" wfs=\"" ++ env.msEncodeHTMLEntities wfs ++ "\" owsType=\"WFS\" owsURL=\"" ++
              env.msEncodeHTMLEntities wfs ++ "\">\n"),
           Output.printf ("<Query typeName=\"" ++ env.msEncodeHTMLEntities (lp.name.getD "") ++
              "\" />\n"),
           Output.printf "</LayerDescription>\n"]) ∧
      (∀ wcs,
        ¬ ((lp.type = MS_LAYER_POINT ∨ lp.type = MS_LAYER_LINE ∨ lp.type = MS_LAYER_POLYGON) ∧
            (layerOnlineResource env "FO" st.map lp).isSome = true) →
        lp.type = MS_LAYER_RASTER → lp.connectiontype ≠ MS_WMS →
        layerOnlineResource env "CO" st.map lp = some wcs →
        describeOne env st.map lp =
          [Output.printf ("<LayerDescription name=\"" ++ env.msEncodeHTMLEntities (lp.name.getD "") ++
              "\"  owsType=\"WCS\" owsURL=\"" ++ env.msEncodeHTMLEntities wcs ++ "\">\n"),
           Output.printf ("<Query typeName=\"" ++ env.msEncodeHTMLEntities (lp.name.getD "") ++
              "\" />\n"),
           Output.printf "</LayerDescription>\n"]) ∧
      (¬ ((lp.type = MS_LAYER_POINT ∨ lp.type = MS_LAYER_LINE ∨ lp.type = MS_LAYER_POLYGON) ∧
            (layerOnlineResource env "FO" st.map lp).isSome = true) →
        ¬ (lp.type = MS_LAYER_RASTER ∧ lp.connectiontype ≠ MS_WMS ∧
            (layerOnlineResource env "CO" st.map lp).isSome = true) →
        describeOne env st.map lp =
          [Output.printf ("<LayerDescription name=\"" ++ env.msEncodeHTMLEntities (lp.name.getD "") ++
              "\"></LayerDescription>\n")])) ∧
    (∀ tok : String,
      ((∀ lp ∈ st.map.layers, optCaseEq lp.name tok = false) → describeToken env st.map tok = []) ∧
      (∀ (pre post : List layerObj) (lp : layerObj), st.map.layers = pre ++ lp :: post →
        (∀ l ∈ pre, optCaseEq l.name tok = false) → optCaseEq lp.name tok = true →
        describeToken env st.map tok = describeOne env st.map lp)) ∧
    (msWMSDescribeLayer env st nVersion params).1 = MS_SUCCESS ∧
    (msWMSDescribeLayer env st nVersion params).2.out =
      st.out ++
      [Output.printf (env.msOWSPrintEncodeMetadata st.map.webmetadata "MO" "encoding"
          "<?xml version='1.0' encoding=\"%s\"?>\n" "ISO-8859-1"),
       Output.printf ("<!DOCTYPE WMS_DescribeLayerResponse SYSTEM \"" ++
          env.msEncodeHTMLEntities (env.msOWSGetSchemasLocation st.map) ++
          "/wms/1.1.1/WMS_DescribeLayerResponse.dtd\">\n"),
       Output.printf ("<WMS_DescribeLayerResponse version=\"" ++
          (lastParam "VERSION" params).getD "(null)" ++ "\" >\n")] ++
      (((stylesLayers env params).getD []).map (describeToken env st.map)).flatten ++
      [Output.printf "</WMS_DescribeLayerResponse>\n"] := by
  refine ⟨?_, ?_, ?_, rfl, ?_⟩
  · intro ns lp
    have hmap : ∀ s, mapOnlineResource env ns st.map = some s ↔
        env.msOWSLookupMetadata st.map.webmetadata ns "onlineresource" = some s ∧ s.length ≠ 0 := by
      intro s
      unfold mapOnlineResource
      cases h : env.msOWSLookupMetadata st.map.webmetadata ns "onlineresource" with
      | none => simp
      | some t =>
        simp only []
        by_cases ht : t.length = 0
        · rw [if_pos ht]
          constructor
          · intro hh; cases hh
          · rintro ⟨h1, h2⟩
            cases h1
            exact absurd ht h2
        · rw [if_neg ht]
          constructor
          · intro hh; cases hh; exact ⟨rfl, ht⟩
          · rintro ⟨h1, _⟩; rw [h1]
    refine ⟨?_, ?_, hmap, ?_⟩
    · intro s hs hl
      unfold layerOnlineResource
      rw [hs]
      simp only []
      rw [if_neg hl]
    · intro h
      unfold layerOnlineResource
      rcases h with h | ⟨s, h, hl⟩
      · rw [h]
      · rw [h]
        simp only []
        rw [if_pos hl]
    · intro s h
      unfold layerOnlineResource at h
      cases hl : env.msOWSLookupMetadata lp.metadata ns "onlineresource" with
      | none =>
        rw [hl] at h
        exact ((hmap s).1 h).2
      | some t =>
        rw [hl] at h
        simp only [] at h
        by_cases ht : t.length = 0
        · rw [if_pos ht] at h
          exact ((hmap s).1 h).2
        · rw [if_neg ht] at h
          cases h
          exact ht
  · intro lp
    refine ⟨?_, ?_, ?_⟩
    · intro wfs hv hw
      unfold describeOne
      simp only [hw, hv, decide_True]
    · intro wcs hnot hr hc hw
      unfold describeOne
      have h1 : ¬ (lp.type = MS_LAYER_POINT ∨ lp.type = MS_LAYER_LINE ∨ lp.type = MS_LAYER_POLYGON) := by
        rw [hr]; decide
      simp only [hw, h1, decide_False, hr, hc, ne_eq, not_false_eq_true, and_self, decide_True]
      split <;> simp_all
    · intro hnot1 hnot2
      unfold describeOne
      split
      · rename_i wfs hw hv
        exact absurd ⟨by simpa using hv, by rw [hw]; rfl⟩ hnot1
      · split
        · rename_i wcs hw hv
          have := of_decide_eq_true hv
          exact absurd ⟨this.1, this.2, by rw [hw]; rfl⟩ hnot2
        · rfl
  · intro tok
    refine ⟨?_, ?_⟩
    · intro h
      unfold describeToken
      rw [List.find?_eq_none.2 (fun lp hlp => by rw [h lp hlp]; exact Bool.false_ne_true)]
    · intro pre post lp hl hpre hlp
      unfold describeToken
      rw [hl, find_first _ pre post lp hpre hlp]
  · unfold msWMSDescribeLayer lastParam emit
    simp only [List.append_assoc]

/-- C26 at a map whose layer `roads` is a line layer with the online resource
`http://example.org/wfs`: the request DescribeLayer for `roads` gets a WFS description. -/
theorem describe_layer_witness :
    describeOne sampleEnv
      (sampleMap [{ sampleLayer "roads" none MS_ON with
        type := 1, metadata := [("ows_onlineresource", "http://example.org/wfs")] }])
      { sampleLayer "roads" none MS_ON with
        type := 1, metadata := [("ows_onlineresource", "http://example.org/wfs")] } =
      [Output.printf "<LayerDescription name=\"roads\" wfs=\"http://example.org/wfs\" owsType=\"WFS\" owsURL=\"http://example.org/wfs\">\n",
       Output.printf "<Query typeName=\"roads\" />\n",
       Output.printf "</LayerDescription>\n"] :=
  ((describe_layer sampleEnv
      (freshState (sampleMap [{ sampleLayer "roads" none MS_ON with
        type := 1, metadata := [("ows_onlineresource", "http://example.org/wfs")] }]))
      OWS_1_1_1 [("LAYERS", "roads")]).2.1
    { sampleLayer "roads" none MS_ON with
        type := 1, metadata := [("ows_onlineresource", "http://example.org/wfs")] }).1
    "http://example.org/wfs" (Or.inr (Or.inl rfl)) (by decide)

/-! ## The layers selected by msWMSGetStyles -/

theorem stylesTurnOn_fold (tokens : List String) : ∀ (ls : List layerObj) (n : Int),
    (tokens.foldl stylesTurnOn (ls, n)).1 =
      ls.map (fun lp =>
        if tokens.any (fun tok => optCaseEq lp.name tok) then { lp with status := MS_ON } else lp) ∧
    (tokens.foldl stylesTurnOn (ls, n)).2 =
      (if tokens.any (fun tok => ls.any (fun lp => optCaseEq lp.name tok)) then 1 else n) := by
  induction tokens with
  | nil => intro ls n; simp
  | cons tok toks ih =>
    intro ls n
    simp only [List.foldl_cons, List.any_cons]
    obtain ⟨a, b⟩ := ih (stylesTurnOn (ls, n) tok).1 (stylesTurnOn (ls, n) tok).2
    have e : stylesTurnOn (ls, n) tok =
        ((stylesTurnOn (ls, n) tok).1, (stylesTurnOn (ls, n) tok).2) := rfl
    rw [e, a, b]
    have hname : ∀ (t : String) (lp : layerObj),
        optCaseEq (if optCaseEq lp.name tok = true then { lp with status := MS_ON } else lp).name t =
          optCaseEq lp.name t := by
      intro t lp
      split_ifs <;> rfl
    constructor
    · simp only [stylesTurnOn, List.map_map]
      apply List.map_congr_left
      intro lp _
      simp only [Function.comp, hname]
      by_cases h1 : optCaseEq lp.name tok = true
      · simp only [h1, Bool.true_or, if_true]
        split_ifs <;> rfl
      · have h2 : optCaseEq lp.name tok = false := by simpa using h1
        simp only [h2, Bool.false_or, Bool.false_eq_true, if_false]
    · simp only [stylesTurnOn, List.any_map, Function.comp_def, hname]
      by_cases h1 : ls.any (fun lp => optCaseEq lp.name tok) = true
      · simp only [h1, Bool.true_or, if_true]
        split_ifs <;> rfl
      · have h2 : ls.any (fun lp => optCaseEq lp.name tok) = false := by simpa using h1
        simp only [h2, Bool.false_or, Bool.false_eq_true, if_false]

theorem getStylesScan_other (env : Env) (nVersion : Int) (ps : List (String × String)) :
    ∀ (st : wmsState) (n : Int), noParam "LAYERS" ps = true →
      getStylesScan env nVersion ps st n = .ok (st, n) := by
  induction ps with
  | nil => intro st n _; rfl
  | cons p ps ih =>
    intro st n hno
    unfold noParam at hno
    simp only [List.all_cons, Bool.and_eq_true, Bool.not_eq_true'] at hno
    simp only [getStylesScan, getStylesStep, hno.1, Bool.false_eq_true, if_false]
    exact ih st n (by unfold noParam; exact hno.2)

theorem getStylesScan_append (env : Env) (nVersion : Int) (pre post : List (String × String)) :
    ∀ (st : wmsState) (n : Int),
      getStylesScan env nVersion (pre ++ post) st n =
        match getStylesScan env nVersion pre st n with
        | .error e => .error e
        | .ok r => getStylesScan env nVersion post r.1 r.2 := by
  induction pre with
  | nil => intro st n; rfl
  | cons p pre ih =>
    intro st n
    simp only [List.cons_append, getStylesScan]
    split
    · rfl
    · exact ih _ _

/-- C28: let the request have exactly one LAYERS parameter, whose value splits into at least
one token.  `msWMSGetStyles` is the exception LayerNotDefined (and returns MS_FAILURE) exactly
when no token equals a layer name ignoring case; otherwise it returns MS_SUCCESS, and then a
layer is ON exactly when its name equals some token ignoring case and every other layer, also
one that was DEFAULT, is OFF.  Without any LAYERS parameter the call is the exception
LayerNotDefined. -/
theorem get_styles (env : Env) (q : OpsEnv) (st : wmsState) (nVersion : Int)
    (params : List (String × String)) :
    (∀ (pre post : List (String × String)) (name value : String),
      params = pre ++ (name, value) :: post → strcaseEq name "LAYERS" = true →
      noParam "LAYERS" pre = true → noParam "LAYERS" post = true →
      1 ≤ (env.msStringSplit value ',').length →
      ((∀ tok ∈ env.msStringSplit value ',', ∀ lp ∈ st.map.layers, optCaseEq lp.name tok = false) →
        msWMSGetStyles env q st nVersion params =
          msWMSException env
            (msSetError
              { st with map :=
                  { st.map with
                    layers := st.map.layers.map (fun lp => { lp with status := MS_OFF }) } }
              "Invalid layer(s) given in the LAYERS parameter.")
            nVersion (some "LayerNotDefined") ∧
        (msWMSGetStyles env q st nVersion params).1 = MS_FAILURE) ∧
      ((∃ tok ∈ env.msStringSplit value ',', ∃ lp ∈ st.map.layers, optCaseEq lp.name tok = true) →
        (msWMSGetStyles env q st nVersion params).1 = MS_SUCCESS ∧
        (msWMSGetStyles env q st nVersion params).2.raised = st.raised ∧
        (msWMSGetStyles env q st nVersion params).2.map.layers =
          st.map.layers.map (fun lp =>
            { lp with status :=
                if (env.msStringSplit value ',').any (fun tok => optCaseEq lp.name tok)
                then MS_ON else MS_OFF }))) ∧
    (noParam "LAYERS" params = true →
      msWMSGetStyles env q st nVersion params =
        msWMSException env (msSetError st "Invalid layer(s) given in the LAYERS parameter.")
          nVersion (some "LayerNotDefined")) := by
  refine ⟨?_, ?_⟩
  · intro pre post name value hps hn hpre hpost hlen
    have hscan : getStylesScan env nVersion params st 0 =
        .ok ({ st with map := { st.map with layers :=
                ((env.msStringSplit value ',').foldl stylesTurnOn
                  (st.map.layers.map (fun lp => { lp with status := MS_OFF }), 0)).1 } },
             ((env.msStringSplit value ',').foldl stylesTurnOn
                  (st.map.layers.map (fun lp => { lp with status := MS_OFF }), 0)).2) := by
      rw [hps, getStylesScan_append, getStylesScan_other env nVersion pre st 0 hpre]
      simp only [getStylesScan, getStylesStep, hn, if_true]
      rw [if_neg (by omega)]
      simp only []
      rw [getStylesScan_other env nVersion post _ _ hpost]
    obtain ⟨f1, f2⟩ := stylesTurnOn_fold (env.msStringSplit value ',')
      (st.map.layers.map (fun lp => { lp with status := MS_OFF })) 0
    have hany : ((env.msStringSplit value ',').any (fun tok =>
        (st.map.layers.map (fun lp => { lp with status := MS_OFF })).any
          (fun lp => optCaseEq lp.name tok))) =
        (env.msStringSplit value ',').any (fun tok =>
          st.map.layers.any (fun lp => optCaseEq lp.name tok)) := by
      simp only [List.any_map]
      rfl
    rw [hany] at f2
    constructor
    · intro hnone
      have hfalse : (env.msStringSplit value ',').any (fun tok =>
          st.map.layers.any (fun lp => optCaseEq lp.name tok)) = false := by
        rw [List.any_eq_false]
        intro tok ht
        rw [Bool.not_eq_true, List.any_eq_false]
        intro lp hlp
        rw [hnone tok ht lp hlp]
        exact Bool.false_ne_true
      have hlay : ((env.msStringSplit value ',').foldl stylesTurnOn
          (st.map.layers.map (fun lp => { lp with status := MS_OFF }), 0)).1 =
          st.map.layers.map (fun lp => { lp with status := MS_OFF }) := by
        rw [f1, List.map_map]
        apply List.map_congr_left
        intro lp hlp
        simp only [Function.comp]
        have : (env.msStringSplit value ',').any (fun tok => optCaseEq lp.name tok) = false := by
          rw [List.any_eq_false]
          intro tok ht
          rw [hnone tok ht lp hlp]
          exact Bool.false_ne_true
        rw [this]
        rfl
      have hres : msWMSGetStyles env q st nVersion params =
          msWMSException env
            (msSetError
              { st with map :=
                  { st.map with
                    layers := st.map.layers.map (fun lp => { lp with status := MS_OFF }) } }
              "Invalid layer(s) given in the LAYERS parameter.")
            nVersion (some "LayerNotDefined") := by
        unfold msWMSGetStyles
        rw [hscan]
        simp only [f2, hfalse, Bool.false_eq_true, if_false, if_true, hlay]
      exact ⟨hres, by rw [hres]; rfl⟩
    · rintro ⟨tok, ht, lp, hlp, hm⟩
      have htrue : (env.msStringSplit value ',').any (fun tok =>
          st.map.layers.any (fun lp => optCaseEq lp.name tok)) = true := by
        rw [List.any_eq_true]
        exact ⟨tok, ht, List.any_eq_true.2 ⟨lp, hlp, hm⟩⟩
      have hlay : ((env.msStringSplit value ',').foldl stylesTurnOn
          (st.map.layers.map (fun lp => { lp with status := MS_OFF }), 0)).1 =
          st.map.layers.map (fun lp =>
            { lp with status :=
                if (env.msStringSplit value ',').any (fun tok => optCaseEq lp.name tok)
                then MS_ON else MS_OFF }) := by
        rw [f1, List.map_map]
        apply List.map_congr_left
        intro lp _
        simp only [Function.comp]
        split_ifs <;> rfl
      have h1 : ¬ (((env.msStringSplit value ',').foldl stylesTurnOn
          (st.map.layers.map (fun lp => { lp with status := MS_OFF }), 0)).2 = 0) := by
        rw [f2, htrue]
        decide
      unfold msWMSGetStyles
      rw [hscan]
      simp only []
      rw [if_neg h1]
      split
      · exact ⟨rfl, rfl, hlay⟩
      · exact ⟨rfl, rfl, hlay⟩
  · intro hno
    unfold msWMSGetStyles
    rw [getStylesScan_other env nVersion params st 0 hno]
    simp

/-- C28 at the request `LAYERS=roads` on a map with the layers `roads` (OFF) and `rivers`
(DEFAULT): the call succeeds, `roads` is ON and `rivers` is OFF. -/
theorem get_styles_witness :
    (msWMSGetStyles sampleEnv sampleOps
      (freshState (sampleMap [sampleLayer "roads" none MS_OFF, sampleLayer "rivers" none MS_DEFAULT]))
      OWS_1_1_1 [("LAYERS", "roads")]).1 = MS_SUCCESS ∧
    (msWMSGetStyles sampleEnv sampleOps
      (freshState (sampleMap [sampleLayer "roads" none MS_OFF, sampleLayer "rivers" none MS_DEFAULT]))
      OWS_1_1_1 [("LAYERS", "roads")]).2.map.layers.map (fun lp => lp.status) = [MS_ON, MS_OFF] :=
  have w := ((get_styles sampleEnv sampleOps
      (freshState (sampleMap [sampleLayer "roads" none MS_OFF, sampleLayer "rivers" none MS_DEFAULT]))
      OWS_1_1_1 [("LAYERS", "roads")]).1 [] [] "LAYERS" "roads" rfl (by decide) (by decide)
      (by decide) (by decide)).2
      ⟨"roads", by decide, sampleLayer "roads" none MS_OFF, List.mem_cons_self _ _, by decide⟩
  ⟨w.1, by rw [w.2.2]; decide⟩

/-! ## The STYLE parameter of msWMSGetLegendGraphic -/

theorem legendScanStep_frame (env : Env) (acc : wmsState × legendVars) (p : String × String) :
    (legendScanStep env acc p).1.raised = acc.1.raised := by
  unfold legendScanStep
  dsimp only
  repeat' split
  all_goals rfl

theorem legendScan_frame (env : Env) (params : List (String × String)) :
    ∀ acc : wmsState × legendVars,
      (params.foldl (legendScanStep env) acc).1.raised = acc.1.raised := by
  induction params with
  | nil => intro acc; rfl
  | cons p ps ih =>
    intro acc
    rw [List.foldl_cons, ih, legendScanStep_frame]

theorem legendScanStep_layer (env : Env) (acc : wmsState × legendVars) (p : String × String) :
    (legendScanStep env acc p).2.pszLayer =
      if strcaseEq p.1 "LAYER" then some p.2 else acc.2.pszLayer := by
  unfold legendScanStep
  dsimp only
  by_cases hL : strcaseEq p.1 "LAYER" = true
  · simp only [hL, if_true]
  · have hL2 : strcaseEq p.1 "LAYER" = false := by simpa using hL
    simp only [hL2, Bool.false_eq_true, if_false]
    repeat' split
    all_goals rfl

theorem legendScan_layer (env : Env) (params : List (String × String)) :
    ∀ acc : wmsState × legendVars,
      (params.foldl (legendScanStep env) acc).2.pszLayer =
        params.foldl (fun a p => if strcaseEq p.1 "LAYER" then some p.2 else a)
          acc.2.pszLayer := by
  induction params with
  | nil => intro acc; rfl
  | cons p ps ih =>
    intro acc
    rw [List.foldl_cons, ih, legendScanStep_layer, List.foldl_cons]

theorem legendScanStep_format (env : Env) (acc : wmsState × legendVars) (p : String × String) :
    (legendScanStep env acc p).2.pszFormat =
      if strcaseEq p.1 "FORMAT" then some p.2 else acc.2.pszFormat := by
  unfold legendScanStep
  dsimp only
  by_cases hF : strcaseEq p.1 "FORMAT" = true
  · have h1 := strcaseEq_excl "LAYER" (by decide) hF
    have h2 := strcaseEq_excl "WIDTH" (by decide) hF
    have h3 := strcaseEq_excl "HEIGHT" (by decide) hF
    simp only [hF, h1, h2, h3, if_true, Bool.false_eq_true, if_false]
  · have hF2 : strcaseEq p.1 "FORMAT" = false := by simpa using hF
    simp only [hF2, Bool.false_eq_true, if_false]
    repeat' split
    all_goals rfl

theorem legendScan_format (env : Env) (params : List (String × String)) :
    ∀ acc : wmsState × legendVars,
      (params.foldl (legendScanStep env) acc).2.pszFormat =
        params.foldl (fun a p => if strcaseEq p.1 "FORMAT" then some p.2 else a)
          acc.2.pszFormat := by
  induction params with
  | nil => intro acc; rfl
  | cons p ps ih =>
    intro acc
    rw [List.foldl_cons, ih, legendScanStep_format, List.foldl_cons]

theorem legendScanStep_style (env : Env) (hogr : env.ogrEnabled ≠ 0)
    (acc : wmsState × legendVars) (p : String × String) :
    (legendScanStep env acc p).2.pszStyle =
      if strcaseEq p.1 "STYLE" then some p.2 else acc.2.pszStyle := by
  unfold legendScanStep
  dsimp only
  by_cases hS : strcaseEq p.1 "STYLE" = true
  · have h1 := strcaseEq_excl "LAYER" (by decide) hS
    have h2 := strcaseEq_excl "WIDTH" (by decide) hS
    have h3 := strcaseEq_excl "HEIGHT" (by decide) hS
    have h4 := strcaseEq_excl "FORMAT" (by decide) hS
    have h5 := strcaseEq_excl "SLD" (by decide) hS
    have h6 := strcaseEq_excl "SLD_BODY" (by decide) hS
    have h7 := strcaseEq_excl "RULE" (by decide) hS
    have h8 := strcaseEq_excl "SCALE" (by decide) hS
    simp only [hS, h1, h2, h3, h4, h5, h6, h7, h8, hogr, if_true, Bool.false_eq_true, if_false,
      false_and, ne_eq, not_false_eq_true]
  · have hS2 : strcaseEq p.1 "STYLE" = false := by simpa using hS
    simp only [hS2, Bool.false_eq_true, if_false]
    repeat' split
    all_goals rfl

theorem legendScan_style (env : Env) (hogr : env.ogrEnabled ≠ 0)
    (params : List (String × String)) :
    ∀ acc : wmsState × legendVars,
      (params.foldl (legendScanStep env) acc).2.pszStyle =
        params.foldl (fun a p => if strcaseEq p.1 "STYLE" then some p.2 else a)
          acc.2.pszStyle := by
  induction params with
  | nil => intro acc; rfl
  | cons p ps ih =>
    intro acc
    rw [List.foldl_cons, ih, legendScanStep_style env hogr, List.foldl_cons]

theorem legendScanStep_ignored (env : Env) (hogr : env.ogrEnabled = 0)
    (acc : wmsState × legendVars) (p : String × String) (hS : strcaseEq p.1 "STYLE" = true) :
    legendScanStep env acc p = acc := by
  unfold legendScanStep
  dsimp only
  have h1 := strcaseEq_excl "LAYER" (by decide) hS
  have h2 := strcaseEq_excl "WIDTH" (by decide) hS
  have h3 := strcaseEq_excl "HEIGHT" (by decide) hS
  have h4 := strcaseEq_excl "FORMAT" (by decide) hS
  simp only [h1, h2, h3, h4, hogr, Bool.false_eq_true, if_false, ne_eq, not_true_eq_false]

theorem legendScan_ignored (env : Env) (hogr : env.ogrEnabled = 0)
    (params : List (String × String)) :
    ∀ acc : wmsState × legendVars,
      (params.filter (fun p => !strcaseEq p.1 "STYLE")).foldl (legendScanStep env) acc =
        params.foldl (legendScanStep env) acc := by
  induction params with
  | nil => intro acc; rfl
  | cons p ps ih =>
    intro acc
    by_cases hS : strcaseEq p.1 "STYLE" = true
    · rw [List.filter_cons_of_neg (by simp [hS]), List.foldl_cons,
        legendScanStep_ignored env hogr acc p hS]
      exact ih acc
    · rw [List.filter_cons_of_pos (by simpa using hS), List.foldl_cons, List.foldl_cons]
      exact ih _

theorem enum_status_classgroups (idx : Nat) (l : List layerObj) :
    (l.enum.map (fun il =>
      if il.1 = idx then { il.2 with status := MS_ON } else { il.2 with status := MS_OFF })).map
        (fun lp => lp.classgroup) = l.map (fun lp => lp.classgroup) := by
  rw [List.map_map]
  have e : ((fun lp : layerObj => lp.classgroup) ∘ fun il : Nat × layerObj =>
      if il.1 = idx then { il.2 with status := MS_ON } else { il.2 with status := MS_OFF }) =
      (fun lp : layerObj => lp.classgroup) ∘ Prod.snd := by
    funext il
    simp only [Function.comp]
    split_ifs <;> rfl
  rw [e, ← List.map_map, List.enum_map_snd]

theorem legendImage_classgroups (env : Env) (q : OpsEnv) (nVersion : Int) (st : wmsState)
    (v : legendVars) (idx : Nat) (lp : layerObj) :
    (∀ e, legendImage env q nVersion st v idx lp = .error e →
      e.2.map.layers.map (fun l => l.classgroup) = st.map.layers.map (fun l => l.classgroup)) ∧
    (∀ r, legendImage env q nVersion st v idx lp = .ok r →
      r.1.map.layers.map (fun l => l.classgroup) =
        st.map.layers.map (fun l => l.classgroup)) := by
  unfold legendImage
  cases v.psRule with
  | none =>
    cases v.psScale with
    | none =>
      refine ⟨fun e h => (by cases h), fun r h => ?_⟩
      cases h
      exact enum_status_classgroups idx st.map.layers
    | some psScale =>
      refine ⟨fun e h => (by cases h), fun r h => ?_⟩
      cases h
      exact enum_status_classgroups idx st.map.layers
  | some psRule =>
    simp only []
    constructor
    · intro e h
      split at h
      · cases h
        rfl
      · cases h
    · intro r h
      split at h
      · cases h
      · cases h
        rfl

theorem legendDraw_classgroups (env : Env) (q : OpsEnv) (nVersion : Int) (st : wmsState)
    (v : legendVars) (idx : Nat) (lp : layerObj) :
    (legendDraw env q nVersion st v idx lp).2.map.layers.map (fun l => l.classgroup) =
      st.map.layers.map (fun l => l.classgroup) := by
  obtain ⟨he, hr⟩ := legendImage_classgroups env q nVersion st v idx lp
  unfold legendDraw
  split
  · rename_i e h
    exact he e h
  · rename_i s h
    exact hr _ h
  · rename_i s img h
    have := hr _ h
    simp only []
    split_ifs
    · exact this
    · exact this

theorem enum_find_getElem (p : Nat × layerObj → Bool) (l : List layerObj) (idx : Nat)
    (lp : layerObj) (h : l.enum.find? p = some (idx, lp)) : l[idx]? = some lp :=
  List.mk_mem_enum_iff_getElem?.1 (List.mem_of_find?_eq_some h)

theorem enum_classgroup_getElem (style : String) (l : List layerObj) (idx : Nat)
    (lp : layerObj) (h : l[idx]? = some lp) :
    ((l.enum.map (fun il =>
      if il.1 = idx then { il.2 with classgroup := some style } else il.2)).map
        (fun l => l.classgroup))[idx]? = some (some style) := by
  rw [List.getElem?_map, List.getElem?_map, List.getElem?_enum, h]
  simp

/-- C27: `msWMSGetLegendGraphic` on the request `params`, where `st1` below is the state at the
end of the parameter loop (the map of `st` after the SLD and SLD_BODY parameters).
Without LAYER the call is the exception LayerNotDefined; with LAYER and without FORMAT it is
the exception InvalidFormat.  In a build with OGR, when LAYER names the layer `lp` of index
`idx`, FORMAT selects a GD or AGG format and STYLE is not empty and not "default": if no class
of `lp` has the group STYLE (ignoring case) the call returns MS_FAILURE with the exception
StyleNotDefined and the layers are those of `st1`; otherwise the class group of the layer
`idx` is STYLE when the call returns.  In a build without OGR the STYLE parameter is not read:
the call does what it does on the request without its STYLE parameters. -/
theorem legend_graphic_style (env : Env) (q : OpsEnv) (st : wmsState) (nVersion : Int)
    (params : List (String × String)) :
    (lastParam "LAYER" params = none →
      (msWMSGetLegendGraphic env q st nVersion params).1 = MS_FAILURE ∧
      (msWMSGetLegendGraphic env q st nVersion params).2.raised =
        st.raised ++ [(nVersion, some "LayerNotDefined")]) ∧
    (lastParam "LAYER" params ≠ none → lastParam "FORMAT" params = none →
      (msWMSGetLegendGraphic env q st nVersion params).1 = MS_FAILURE ∧
      (msWMSGetLegendGraphic env q st nVersion params).2.raised =
        st.raised ++ [(nVersion, some "InvalidFormat")]) ∧
    (env.ogrEnabled ≠ 0 →
      ∀ (layer format style : String) (idx : Nat) (lp : layerObj) (f : outputFormatObj),
        lastParam "LAYER" params = some layer → lastParam "FORMAT" params = some format →
        lastParam "STYLE" params = some style →
        (params.foldl (legendScanStep env) (st, legendVars.init)).1.map.layers.enum.find?
          (fun il => optCaseEq il.2.name layer) = some (idx, lp) →
        env.msSelectOutputFormat (params.foldl (legendScanStep env) (st, legendVars.init)).1.map
          format = some f →
        (f.renderer = MS_RENDER_WITH_GD ∨ f.renderer = MS_RENDER_WITH_AGG) →
        0 < style.length → strcaseEq style "default" = false →
        ((∀ c ∈ lp.classes, optCaseEq c.group style = false) →
          (msWMSGetLegendGraphic env q st nVersion params).1 = MS_FAILURE ∧
          (msWMSGetLegendGraphic env q st nVersion params).2.raised =
            st.raised ++ [(nVersion, some "StyleNotDefined")] ∧
          (msWMSGetLegendGraphic env q st nVersion params).2.map.layers =
            (params.foldl (legendScanStep env) (st, legendVars.init)).1.map.layers) ∧
        ((∃ c ∈ lp.classes, optCaseEq c.group style = true) →
          ((msWMSGetLegendGraphic env q st nVersion params).2.map.layers.map
            (fun l => l.classgroup))[idx]? = some (some style))) ∧
    (env.ogrEnabled = 0 →
      msWMSGetLegendGraphic env q st nVersion params =
        msWMSGetLegendGraphic env q st nVersion
          (params.filter (fun p => !strcaseEq p.1 "STYLE"))) := by
  have hL := legendScan_layer env params (st, legendVars.init)
  have hF := legendScan_format env params (st, legendVars.init)
  have hR := legendScan_frame env params (st, legendVars.init)
  refine ⟨?_, ?_, ?_, ?_⟩
  · intro hl
    have hl2 : (params.foldl (legendScanStep env) (st, legendVars.init)).2.pszLayer = none :=
      hL.trans hl
    unfold msWMSGetLegendGraphic legendAfterScan
    rw [hl2]
    exact ⟨rfl, by rw [msWMSException_raised]; exact congrArg (· ++ _) hR⟩
  · intro hl hf
    have hf2 : (params.foldl (legendScanStep env) (st, legendVars.init)).2.pszFormat = none :=
      hF.trans hf
    obtain ⟨layer, hl2⟩ : ∃ layer,
        (params.foldl (legendScanStep env) (st, legendVars.init)).2.pszLayer = some layer := by
      cases hx : lastParam "LAYER" params with
      | none => exact absurd hx hl
      | some layer => exact ⟨layer, hL.trans hx⟩
    unfold msWMSGetLegendGraphic legendAfterScan
    rw [hl2, hf2]
    exact ⟨rfl, by rw [msWMSException_raised]; exact congrArg (· ++ _) hR⟩
  · intro hogr layer format style idx lp f hl hf hs hfind hsel hrend hlen hdef
    have hS := legendScan_style env hogr params (st, legendVars.init)
    have hl2 : (params.foldl (legendScanStep env) (st, legendVars.init)).2.pszLayer =
        some layer := hL.trans hl
    have hf2 : (params.foldl (legendScanStep env) (st, legendVars.init)).2.pszFormat =
        some format := hF.trans hf
    have hs2 : (params.foldl (legendScanStep env) (st, legendVars.init)).2.pszStyle =
        some style := hS.trans hs
    have hvalid : ¬ ((some f : Option outputFormatObj).isNone = true ∨
        (((some f : Option outputFormatObj).map (fun f => f.renderer)).getD 0 ≠
            MS_RENDER_WITH_GD ∧
          ((some f : Option outputFormatObj).map (fun f => f.renderer)).getD 0 ≠
            MS_RENDER_WITH_AGG)) := by
      rintro (h | ⟨h1, h2⟩)
      · cases h
      · rcases hrend with h | h
        · exact h1 h
        · exact h2 h
    have hcond : (style.length > 0 ∧ (!strcaseEq style "default") = true) := by
      refine ⟨hlen, ?_⟩
      rw [hdef]
      rfl
    constructor
    · intro hnone
      have hany : lp.classes.any (fun c => optCaseEq c.group style) = false := by
        rw [List.any_eq_false]
        intro c hc
        rw [hnone c hc]
        exact Bool.false_ne_true
      unfold msWMSGetLegendGraphic legendAfterScan
      rw [hl2, hf2]
      simp only []
      rw [hfind]
      simp only []
      rw [hsel, if_neg hvalid]
      unfold legendStyle
      rw [hs2]
      simp only []
      rw [if_pos hcond, hany]
      simp only [Bool.false_eq_true, if_false]
      exact ⟨rfl, by rw [msWMSException_raised]; exact congrArg (· ++ _) hR, rfl⟩
    · rintro ⟨c, hc, hm⟩
      have hany : lp.classes.any (fun c => optCaseEq c.group style) = true :=
        List.any_eq_true.2 ⟨c, hc, hm⟩
      unfold msWMSGetLegendGraphic legendAfterScan
      rw [hl2, hf2]
      simp only []
      rw [hfind]
      simp only []
      rw [hsel, if_neg hvalid]
      unfold legendStyle
      rw [hs2]
      simp only []
      rw [if_pos hcond, hany]
      simp only [if_true]
      rw [legendDraw_classgroups]
      exact enum_classgroup_getElem style _ idx lp (enum_find_getElem _ _ idx lp hfind)
  · intro hogr
    unfold msWMSGetLegendGraphic
    rw [legendScan_ignored env hogr params]

/-- C27 in a build without OGR, on a map whose layer `roads` has no class of group `nosuch`:
the request `LAYER=roads&FORMAT=image/png&STYLE=nosuch` does what the request without STYLE
does; it returns MS_SUCCESS, raises no exception and leaves the class group unset.  In the
build with OGR the same request raises StyleNotDefined. -/
theorem legend_graphic_style_witness :
    msWMSGetLegendGraphic sampleEnvNoOgr sampleOps (freshState legendMap) OWS_1_1_1
        [("LAYER", "roads"), ("FORMAT", "image/png"), ("STYLE", "nosuch")] =
      msWMSGetLegendGraphic sampleEnvNoOgr sampleOps (freshState legendMap) OWS_1_1_1
        [("LAYER", "roads"), ("FORMAT", "image/png")] ∧
    (msWMSGetLegendGraphic sampleEnvNoOgr sampleOps (freshState legendMap) OWS_1_1_1
        [("LAYER", "roads"), ("FORMAT", "image/png"), ("STYLE", "nosuch")]).1 = MS_SUCCESS ∧
    (msWMSGetLegendGraphic sampleEnvNoOgr sampleOps (freshState legendMap) OWS_1_1_1
        [("LAYER", "roads"), ("FORMAT", "image/png"), ("STYLE", "nosuch")]).2.raised = [] ∧
    (msWMSGetLegendGraphic sampleEnvNoOgr sampleOps (freshState legendMap) OWS_1_1_1
        [("LAYER", "roads"), ("FORMAT", "image/png"), ("STYLE", "nosuch")]).2.map.layers.map
          (fun l => l.classgroup) = [none] ∧
    (msWMSGetLegendGraphic sampleEnv sampleOps (freshState legendMap) OWS_1_1_1
        [("LAYER", "roads"), ("FORMAT", "image/png"), ("STYLE", "nosuch")]).2.raised =
      [(OWS_1_1_1, some "StyleNotDefined")] :=
  ⟨(legend_graphic_style sampleEnvNoOgr sampleOps (freshState legendMap) OWS_1_1_1
      [("LAYER", "roads"), ("FORMAT", "image/png"), ("STYLE", "nosuch")]).2.2.2 rfl,
   by with_unfolding_all rfl, by with_unfolding_all rfl, by with_unfolding_all rfl,
   by with_unfolding_all rfl⟩

/-! ## The exception format from one request to the next -/

theorem dispatchScanStep_exceptions (v : dispatchVars) (p : String × String) :
    (dispatchScanStep v p).wms_exception_format =
      if strcaseEq p.1 "EXCEPTIONS" then some p.2 else v.wms_exception_format := by
  unfold dispatchScanStep
  by_cases hE : strcaseEq p.1 "EXCEPTIONS" = true
  · have h1 := strcaseEq_excl "VERSION" (by decide) hE
    have h2 := strcaseEq_excl "WMTVER" (by decide) hE
    have h3 := strcaseEq_excl "UPDATESEQUENCE" (by decide) hE
    have h4 := strcaseEq_excl "REQUEST" (by decide) hE
    simp [hE, h1, h2, h3, h4]
  · split_ifs <;> simp_all

theorem dispatchScan_exceptions_aux (params : List (String × String)) (v : dispatchVars) :
    (params.foldl dispatchScanStep v).wms_exception_format =
      params.foldl (fun acc p => if strcaseEq p.1 "EXCEPTIONS" then some p.2 else acc)
        v.wms_exception_format := by
  induction params generalizing v with
  | nil => rfl
  | cons p ps ih =>
    simp only [List.foldl_cons]
    rw [ih, dispatchScanStep_exceptions]

/-- C29: the static `wms_exception_format` outlives a request.  After the parameter loop of
`msWMSDispatch` on a request without EXCEPTIONS it still holds the value `wef` the earlier
requests left; `msWMSException` replaces it by the default of the version only when it is
NULL, and otherwise reports in the format it holds, whatever the version is, and keeps it.
So the format of a report depends on the requests answered before. -/
theorem exception_format_leak (env : Env) (st : wmsState) (wef : Option String)
    (params : List (String × String)) (nVersion : Int) (code : Option String) :
    (noParam "EXCEPTIONS" params = true →
      (dispatchScan wef params).wms_exception_format = wef) ∧
    (st.wms_exception_format = none →
      (msWMSException env st nVersion code).2.wms_exception_format =
        some (defaultExceptionFormat (if nVersion ≤ 0 then OWS_1_1_1 else nVersion))) ∧
    (∀ f nVersion2, st.wms_exception_format = some f →
      (msWMSException env st nVersion code).2.wms_exception_format = some f ∧
      (msWMSException env st nVersion2 code).2.wms_exception_format = some f) := by
  refine ⟨?_, ?_, ?_⟩
  · intro hE
    unfold dispatchScan
    rw [dispatchScan_exceptions_aux]
    exact lastParam_foldl_none "EXCEPTIONS" params hE wef
  · intro h
    unfold msWMSException
    simp only [h]
  · intro f nVersion2 h
    unfold msWMSException
    simp only [h]
    exact ⟨trivial, trivial⟩

/-- C29 on the request `SERVICE=WMS&VERSION=1.1.1` (REQUEST is missing, so an exception is
reported) for a map without layers: in a fresh process the report is written as
application/vnd.ogc.se_xml; in a process that answered `SERVICE=WMS&VERSION=1.0.0` before, the
same request on an equal map is answered INIMAGE, with an error image and no XML. -/
theorem exception_format_leak_witness :
    (dispatchScan (some "INIMAGE") [("SERVICE", "WMS"), ("VERSION", "1.1.1")]).wms_exception_format =
      some "INIMAGE" ∧
    (afterRequest sampleEnv sampleHandlers (sampleMap [])
        ⟨[("SERVICE", "WMS"), ("VERSION", "1.0.0")]⟩).map = (freshState (sampleMap [])).map ∧
    (afterRequest sampleEnv sampleHandlers (sampleMap [])
        ⟨[("SERVICE", "WMS"), ("VERSION", "1.0.0")]⟩).wms_exception_format = some "INIMAGE" ∧
    (msWMSDispatch sampleEnv sampleHandlers (freshState (sampleMap []))
        ⟨[("SERVICE", "WMS"), ("VERSION", "1.1.1")]⟩).2.wms_exception_format =
      some "application/vnd.ogc.se_xml" ∧
    (msWMSDispatch sampleEnv sampleHandlers
        (afterRequest sampleEnv sampleHandlers (sampleMap [])
          ⟨[("SERVICE", "WMS"), ("VERSION", "1.0.0")]⟩)
        ⟨[("SERVICE", "WMS"), ("VERSION", "1.1.1")]⟩).2.wms_exception_format = some "INIMAGE" ∧
    (msWMSDispatch sampleEnv sampleHandlers
        (afterRequest sampleEnv sampleHandlers (sampleMap [])
          ⟨[("SERVICE", "WMS"), ("VERSION", "1.0.0")]⟩)
        ⟨[("SERVICE", "WMS"), ("VERSION", "1.1.1")]⟩).2.out = [Output.errorImage 0] ∧
    (msWMSDispatch sampleEnv sampleHandlers (freshState (sampleMap []))
        ⟨[("SERVICE", "WMS"), ("VERSION", "1.1.1")]⟩).2.out.head? =
      some (Output.printf "Content-type: application/vnd.ogc.se_xml\n\n") :=
  ⟨(exception_format_leak sampleEnv (freshState (sampleMap [])) (some "INIMAGE")
      [("SERVICE", "WMS"), ("VERSION", "1.1.1")] OWS_1_1_1 none).1 (by decide),
   rfl, by with_unfolding_all rfl, by with_unfolding_all rfl, by with_unfolding_all rfl,
   by with_unfolding_all rfl, by with_unfolding_all rfl⟩

/-! ## msWMSIsSubGroup -/

theorem strncmpEq_prefix_iff (a b : String) :
    strncmpEq a b a.length = true ↔ a.data <+: b.data := by
  unfold strncmpEq
  have hl : a.length = a.data.length := rfl
  rw [hl, List.take_length, beq_iff_eq]
  constructor
  · intro h
    rw [h]
    exact List.take_prefix _ _
  · intro h
    exact (List.prefix_iff_eq_take.1 h)

/-- C35: `msWMSIsSubGroup(current, level, other, n)` returns MS_TRUE exactly when `n > level`
and, for every `i ≤ level`, the segment `current[i]` is a prefix of the segment `other[i]`:
the segments are compared by `strncmp` over the length of the current one only, so a segment
that merely starts with the text of the current one passes the test. -/
theorem sub_group_prefix_test (current : List String) (level : Nat) (other : List String)
    (n : Nat) :
    msWMSIsSubGroup current level other n = MS_TRUE ↔
      (level < n ∧ ∀ i, i ≤ level → (current.getD i "").data <+: (other.getD i "").data) := by
  unfold msWMSIsSubGroup
  by_cases hn : n ≤ level
  · rw [if_pos hn]
    constructor
    · intro h
      exact absurd h (by decide)
    · intro h
      omega
  · rw [if_neg hn]
    have hall : ((List.range (level + 1)).all (fun i =>
        strncmpEq (current.getD i "") (other.getD i "") (current.getD i "").length) = true) ↔
        ∀ i, i ≤ level → (current.getD i "").data <+: (other.getD i "").data := by
      rw [List.all_eq_true]
      constructor
      · intro h i hi
        exact (strncmpEq_prefix_iff _ _).1 (h i (List.mem_range.2 (by omega)))
      · intro h i hi
        exact (strncmpEq_prefix_iff _ _).2 (h i (by have := List.mem_range.1 hi; omega))
    by_cases ha : (List.range (level + 1)).all (fun i =>
        strncmpEq (current.getD i "") (other.getD i "") (current.getD i "").length) = true
    · rw [if_pos ha]
      exact ⟨fun _ => ⟨by omega, hall.1 ha⟩, fun _ => rfl⟩
    · rw [if_neg ha]
      constructor
      · intro h
        exact absurd h (by decide)
      · intro h
        exact absurd (hall.2 h.2) ha

/-- C35 on the paths `/A` and `/AB`: at level 0 the layer of `/AB` passes for a member of the
group `A`, although its first segment is not equal to `A`. -/
theorem sub_group_prefix_test_witness :
    msWMSIsSubGroup ["A"] 0 ["AB"] 1 = MS_TRUE ∧ ("A" : String) ≠ "AB" :=
  ⟨(sub_group_prefix_test ["A"] 0 ["AB"] 1).2 ⟨by decide, by decide⟩, by decide⟩

/-! ## The entries appended by msTranslateWMS2Mapserv -/

theorem strcaseEq_comm (a b : String) : strcaseEq a b = strcaseEq b a := by
  unfold strcaseEq
  by_cases h : a.data.map Char.toLower = b.data.map Char.toLower
  · rw [beq_iff_eq.2 h, beq_iff_eq.2 h.symm]
  · have h1 : (a.data.map Char.toLower == b.data.map Char.toLower) = false := by simpa using h
    have h2 : (b.data.map Char.toLower == a.data.map Char.toLower) = false := by
      simpa using fun hh => h hh.symm
    rw [h1, h2]

theorem translate_foldl (f : String × String → List (String × String))
    (ps : List (String × String)) : ∀ acc : List (String × String),
    ps.foldl (fun acc p => acc ++ f p) acc = acc ++ (ps.map f).flatten := by
  induction ps with
  | nil => intro acc; simp
  | cons p ps ih =>
    intro acc
    rw [List.foldl_cons, ih, List.map_cons, List.flatten_cons, List.append_assoc]

/-- C36: `msTranslateWMS2Mapserv` returns MS_SUCCESS and leaves the `n` entries it was given,
followed by the entries it appends for them, in their order: `(img.x, v)` for an X,
`(img.y, v)` for a Y, one `(layer, t)` per token of a LAYERS value, one `(qlayer, t)` per token
of a QUERY_LAYERS value, `(imgext, msReplaceSubstring(v, ",", " "))` for a BBOX and nothing for
any other name; names are compared ignoring case, the appended entries are not translated
again, and the new count is `n` plus the number of appended entries. -/
theorem translate_wms (env : Env) (msReplaceSubstring : String → String → String → String)
    (entries : List (String × String)) :
    (msTranslateWMS2Mapserv env msReplaceSubstring entries).1 = MS_SUCCESS ∧
    (msTranslateWMS2Mapserv env msReplaceSubstring entries).2 =
      entries ++ (entries.map (translateEntry env msReplaceSubstring)).flatten ∧
    (msTranslateWMS2Mapserv env msReplaceSubstring entries).2.take entries.length = entries ∧
    (msTranslateWMS2Mapserv env msReplaceSubstring entries).2.length =
      entries.length + ((entries.map (translateEntry env msReplaceSubstring)).flatten).length ∧
    (∀ p : String × String,
      (strcaseEq p.1 "X" = true →
        translateEntry env msReplaceSubstring p = [("img.x", p.2)]) ∧
      (strcaseEq p.1 "Y" = true →
        translateEntry env msReplaceSubstring p = [("img.y", p.2)]) ∧
      (strcaseEq p.1 "LAYERS" = true →
        translateEntry env msReplaceSubstring p =
          (env.msStringSplit p.2 ',').map (fun t => ("layer", t))) ∧
      (strcaseEq p.1 "QUERY_LAYERS" = true →
        translateEntry env msReplaceSubstring p =
          (env.msStringSplit p.2 ',').map (fun t => ("qlayer", t))) ∧
      (strcaseEq p.1 "BBOX" = true →
        translateEntry env msReplaceSubstring p =
          [("imgext", msReplaceSubstring p.2 "," " ")]) ∧
      (strcaseEq p.1 "X" = false → strcaseEq p.1 "Y" = false →
        strcaseEq p.1 "LAYERS" = false → strcaseEq p.1 "QUERY_LAYERS" = false →
        strcaseEq p.1 "BBOX" = false → translateEntry env msReplaceSubstring p = [])) := by
  have key : (msTranslateWMS2Mapserv env msReplaceSubstring entries).2 =
      entries ++ (entries.map (translateEntry env msReplaceSubstring)).flatten :=
    translate_foldl _ entries entries
  refine ⟨rfl, key, ?_, ?_, ?_⟩
  · rw [key, List.take_left]
  · rw [key, List.length_append]
  · intro p
    unfold translateEntry
    rw [strcaseEq_comm "X", strcaseEq_comm "Y", strcaseEq_comm "LAYERS",
      strcaseEq_comm "QUERY_LAYERS", strcaseEq_comm "BBOX"]
    refine ⟨?_, ?_, ?_, ?_, ?_, ?_⟩
    · intro h
      rw [if_pos h]
    · intro h
      have h1 := strcaseEq_excl "X" (by decide) h
      rw [if_neg (by rw [h1]; decide), if_pos h]
    · intro h
      have h1 := strcaseEq_excl "X" (by decide) h
      have h2 := strcaseEq_excl "Y" (by decide) h
      rw [if_neg (by rw [h1]; decide), if_neg (by rw [h2]; decide), if_pos h]
    · intro h
      have h1 := strcaseEq_excl "X" (by decide) h
      have h2 := strcaseEq_excl "Y" (by decide) h
      have h3 := strcaseEq_excl "LAYERS" (by decide) h
      rw [if_neg (by rw [h1]; decide), if_neg (by rw [h2]; decide),
        if_neg (by rw [h3]; decide), if_pos h]
    · intro h
      have h1 := strcaseEq_excl "X" (by decide) h
      have h2 := strcaseEq_excl "Y" (by decide) h
      have h3 := strcaseEq_excl "LAYERS" (by decide) h
      have h4 := strcaseEq_excl "QUERY_LAYERS" (by decide) h
      rw [if_neg (by rw [h1]; decide), if_neg (by rw [h2]; decide),
        if_neg (by rw [h3]; decide), if_neg (by rw [h4]; decide), if_pos h]
    · intro h1 h2 h3 h4 h5
      rw [if_neg (by rw [h1]; decide), if_neg (by rw [h2]; decide),
        if_neg (by rw [h3]; decide), if_neg (by rw [h4]; decide), if_neg (by rw [h5]; decide)]

/-- C36 on the entries `layers=a,b`, `bbox=0,0,4,3`, `x=5`, `format=image/png`: the four
entries stay and `(layer, a)`, `(layer, b)`, `(imgext, 0 0 4 3)`, `(img.x, 5)` follow. -/
theorem translate_wms_witness :
    (msTranslateWMS2Mapserv sampleEnv sampleReplace
      [("layers", "a,b"), ("bbox", "0,0,4,3"), ("x", "5"), ("format", "image/png")]).2 =
    [("layers", "a,b"), ("bbox", "0,0,4,3"), ("x", "5"), ("format", "image/png"),
     ("layer", "a"), ("layer", "b"), ("imgext", "0 0 4 3"), ("img.x", "5")] :=
  (translate_wms sampleEnv sampleReplace
    [("layers", "a,b"), ("bbox", "0,0,4,3"), ("x", "5"), ("format", "image/png")]).2.1.trans
    (by decide)

/-! ## The requests that are not for the WMS -/

theorem exception_not_done (env : Env) (st : wmsState) (nVersion : Int) (code : Option String) :
    (msWMSException env st nVersion code).1 ≠ MS_DONE := by
  rw [msWMSException_fst]
  decide

theorem loadGetMapParams_not_done (env : Env) (st : wmsState) (nVersion : Int)
    (params : List (String × String)) :
    (msWMSLoadGetMapParams env st nVersion params).1 ≠ MS_DONE := by
  have hf : MS_FAILURE ≠ MS_DONE := by decide
  have hs : MS_SUCCESS ≠ MS_DONE := by decide
  rw [msWMSLoadGetMapParams_eq]
  split
  · rename_i e he
    rw [gmpScan_error env nVersion params _ _ e he]
    exact hf
  · rename_i r hr
    unfold gmpAfterScan
    split_ifs
    · exact hf
    · unfold gmpChecks
      split_ifs
      · exact exception_not_done _ _ _ _
      · exact exception_not_done _ _ _ _
      · rw [gmpFinish_eq]
        split_ifs
        · exact exception_not_done _ _ _ _
        · unfold gmpAfterSize
          split
          · rename_i e he
            rw [propagateStep_error env nVersion _ _ _ e he]
            exact hf
          · split
            · rename_i e he
              rw [srsStep_error env nVersion _ _ e he]
              exact hf
            · split
              · rename_i e he
                obtain ⟨st2, msg, h2⟩ := stylesStep_error env nVersion params _ _ e he
                rw [h2]
                exact exception_not_done _ _ _ _
              · unfold finishStep
                simp only []
                rcases requiredParams_cases env nVersion _ r.2 with h | ⟨msg, h⟩
                · rw [h]
                  exact hs
                · rw [h]
                  exact exception_not_done _ _ _ _

theorem getCapabilities_not_done (env : Env) (st : wmsState) (nVersion : Int)
    (req : cgiRequestObj) (u : Option String) :
    (msWMSGetCapabilities env st nVersion req u).1 ≠ MS_DONE := by
  have hs : MS_SUCCESS ≠ MS_DONE := by decide
  unfold msWMSGetCapabilities
  simp only []
  split_ifs
  · exact exception_not_done _ _ _ _
  · exact exception_not_done _ _ _ _
  · split
    · exact exception_not_done _ _ _ _
    · exact hs

theorem getLegendGraphic_not_done (env : Env) (q : OpsEnv) (st : wmsState) (nVersion : Int)
    (params : List (String × String)) :
    (msWMSGetLegendGraphic env q st nVersion params).1 ≠ MS_DONE := by
  have hs : MS_SUCCESS ≠ MS_DONE := by decide
  unfold msWMSGetLegendGraphic legendAfterScan
  split
  · exact exception_not_done _ _ _ _
  · split
    · exact exception_not_done _ _ _ _
    · split
      · exact exception_not_done _ _ _ _
      · simp only []
        split_ifs
        · exact exception_not_done _ _ _ _
        · split
          · rename_i e he
            unfold legendStyle at he
            split at he
            · split_ifs at he
              · cases he
                exact exception_not_done _ _ _ _
            · cases he
          · unfold legendDraw
            split
            · rename_i e he
              unfold legendImage at he
              split at he
              · split at he <;> cases he
              · simp only [] at he
                split at he
                · cases he
                  exact exception_not_done _ _ _ _
                · cases he
            · exact exception_not_done _ _ _ _
            · simp only []
              split_ifs
              · exact exception_not_done _ _ _ _
              · exact hs

theorem getStylesScan_error (env : Env) (nVersion : Int) (ps : List (String × String)) :
    ∀ (st : wmsState) (n : Int) (e : Int × wmsState),
      getStylesScan env nVersion ps st n = .error e → e.1 = MS_FAILURE := by
  induction ps with
  | nil => intro st n e h; cases h
  | cons p ps ih =>
    intro st n e h
    unfold getStylesScan at h
    cases hstep : getStylesStep env nVersion st n p with
    | error e2 =>
      rw [hstep] at h
      cases h
      unfold getStylesStep at hstep
      simp only [] at hstep
      split_ifs at hstep
      all_goals (cases hstep; rfl)
    | ok r =>
      rw [hstep] at h
      exact ih _ _ e h

theorem getStyles_not_done (env : Env) (q : OpsEnv) (st : wmsState) (nVersion : Int)
    (params : List (String × String)) :
    (msWMSGetStyles env q st nVersion params).1 ≠ MS_DONE := by
  have hs : MS_SUCCESS ≠ MS_DONE := by decide
  unfold msWMSGetStyles
  split
  · rename_i e he
    rw [getStylesScan_error env nVersion params _ _ e he]
    decide
  · split_ifs
    · exact exception_not_done _ _ _ _
    · simp only []
      split <;> exact hs

theorem featureInfoScan_error (env : Env) (nVersion : Int) (ps : List (String × String)) :
    ∀ (st : wmsState) (v : featureInfoVars) (e : Int × wmsState),
      featureInfoScan env nVersion ps st v = .error e → e.1 = MS_FAILURE := by
  induction ps with
  | nil => intro st v e h; cases h
  | cons p ps ih =>
    intro st v e h
    unfold featureInfoScan at h
    cases hstep : featureInfoStep env nVersion st v p with
    | error e2 =>
      rw [hstep] at h
      cases h
      unfold featureInfoStep at hstep
      simp only [] at hstep
      split_ifs at hstep
      all_goals (cases hstep; rfl)
    | ok r =>
      rw [hstep] at h
      exact ih _ _ e h

theorem featureInfoRespond_not_done (env : Env) (q : OpsEnv) (nVersion : Int)
    (params : List (String × String)) (st : wmsState) (v : featureInfoVars) (point : double × double)
    (query_status : Int) :
    (featureInfoRespond env q nVersion params st v point query_status).1 ≠ MS_DONE := by
  have hs : MS_SUCCESS ≠ MS_DONE := by decide
  unfold featureInfoRespond
  simp only []
  repeat' split
  all_goals first | exact exception_not_done _ _ _ _ | exact hs

theorem featureInfo_not_done (env : Env) (q : OpsEnv) (st : wmsState) (nVersion : Int)
    (params : List (String × String)) :
    (msWMSFeatureInfo env q st nVersion params).1 ≠ MS_DONE := by
  unfold msWMSFeatureInfo
  split
  · rename_i e he
    rw [featureInfoScan_error env nVersion params _ _ e he]
    decide
  · unfold featureInfoAfterScan
    simp only []
    repeat' split
    all_goals first
      | exact exception_not_done _ _ _ _
      | exact featureInfoRespond_not_done _ _ _ _ _ _ _ _

theorem getMap_not_done (env : Env) (q : OpsEnv) (d : DrawEnv) (st : wmsState) (nVersion : Int)
    (params : List (String × String)) :
    (msWMSGetMap env q d st nVersion params).1 ≠ MS_DONE := by
  have hs : MS_SUCCESS ≠ MS_DONE := by decide
  unfold msWMSGetMap
  simp only []
  split
  · exact exception_not_done _ _ _ _
  · split
    · exact exception_not_done _ _ _ _
    · exact hs

theorem ite_not_done {c : Prop} [Decidable c] {a b : Int × wmsState}
    (ha : c → a.1 ≠ MS_DONE) (hb : ¬ c → b.1 ≠ MS_DONE) :
    (if c then a else b).1 ≠ MS_DONE := by
  split_ifs with h
  · exact ha h
  · exact hb h

theorem dispatch_wms_not_done (env : Env) (h : Handlers) (st : wmsState) (req : cgiRequestObj)
    (hh : ∀ st nVersion req,
      (h.msWMSGetLegendGraphic st nVersion req).1 ≠ MS_DONE ∧
      (h.msWMSGetStyles st nVersion req).1 ≠ MS_DONE ∧
      (h.msWMSGetMap st nVersion req).1 ≠ MS_DONE ∧
      (h.msWMSFeatureInfo st nVersion req).1 ≠ MS_DONE ∧
      (h.msWMSDescribeLayer st nVersion req).1 ≠ MS_DONE)
    (hw : optCaseEq (lastParam "SERVICE" req.params) "WMS" = true) :
    (msWMSDispatch env h st req).1 ≠ MS_DONE := by
  have hs : MS_SUCCESS ≠ MS_DONE := by decide
  have e1 := dispatchScan_service st.wms_exception_format req.params
  cases hS : lastParam "SERVICE" req.params with
  | none =>
    rw [hS] at hw
    cases hw
  | some s =>
    rw [hS] at hw e1
    have hw2 : strcaseEq s "WMS" = true := hw
    unfold msWMSDispatch
    simp only [e1, optCaseEq, hw2, Option.isNone_some, Option.isSome_some, Bool.false_eq_true,
      if_false, Bool.not_true, and_false, false_and]
    generalize (dispatchScan st.wms_exception_format req.params).request = request
    cases request with
    | none =>
      simp only []
      repeat' first
        | exact exception_not_done _ _ _ _
        | exact getCapabilities_not_done _ _ _ _ _
        | exact hs
        | (apply ite_not_done <;> intro _)
    | some r =>
      simp only []
      repeat' first
        | exact exception_not_done _ _ _ _
        | exact getCapabilities_not_done _ _ _ _ _
        | exact loadGetMapParams_not_done _ _ _ _
        | exact hs
        | exact (hh _ _ _).1
        | exact (hh _ _ _).2.1
        | exact (hh _ _ _).2.2.1
        | exact (hh _ _ _).2.2.2.1
        | exact (hh _ _ _).2.2.2.2
        | exact absurd trivial (by assumption)
        | (apply ite_not_done <;> intro _)

/-- C38: with the operation handlers of mapwms.c, `msWMSDispatch` returns MS_DONE exactly
when the request has no SERVICE parameter or the value of its last SERVICE parameter is not
"WMS" ignoring case, whatever its other parameters are (VERSION and REQUEST=GetMap
included); with SERVICE=WMS it never returns MS_DONE. -/
theorem dispatch_done_iff (env : Env) (q : OpsEnv) (d : DrawEnv) (st : wmsState)
    (req : cgiRequestObj) :
    (msWMSDispatch env (wmsHandlers env q d) st req).1 = MS_DONE ↔
      optCaseEq (lastParam "SERVICE" req.params) "WMS" = false := by
  have hs : MS_SUCCESS ≠ MS_DONE := by decide
  constructor
  · intro hd
    by_contra hc
    have hw : optCaseEq (lastParam "SERVICE" req.params) "WMS" = true := by simpa using hc
    refine dispatch_wms_not_done env (wmsHandlers env q d) st req ?_ hw hd
    intro st2 nVersion req2
    exact ⟨getLegendGraphic_not_done _ _ _ _ _, getStyles_not_done _ _ _ _ _,
      getMap_not_done _ _ _ _ _ _, featureInfo_not_done _ _ _ _ _, hs⟩
  · intro hw
    have e1 := dispatchScan_service st.wms_exception_format req.params
    cases hS : lastParam "SERVICE" req.params with
    | none =>
      rw [hS] at e1
      unfold msWMSDispatch
      simp only [e1, Option.isNone_none, if_true]
    | some s =>
      rw [hS] at hw e1
      have hw2 : strcaseEq s "WMS" = false := hw
      unfold msWMSDispatch
      simp only [e1, optCaseEq, hw2, Option.isNone_some, Option.isSome_some, Bool.false_eq_true,
        if_false, Bool.not_false, and_self, if_true]

/-! ## X, Y and FEATURE_COUNT in msWMSFeatureInfo -/

theorem featureInfoStep_point (env : Env) (nVersion : Int) (st st2 : wmsState)
    (v v2 : featureInfoVars) (p : String × String)
    (h : featureInfoStep env nVersion st v p = .ok (st2, v2)) :
    v2.pointx = (if strcaseEq p.1 "X" then env.atof p.2 else v.pointx) ∧
    v2.pointy = (if strcaseEq p.1 "Y" then env.atof p.2 else v.pointy) ∧
    v2.feature_count =
      (if strcaseEq p.1 "FEATURE_COUNT" then env.atoi p.2 else v.feature_count) := by
  unfold featureInfoStep at h
  by_cases hq : strcaseEq p.1 "QUERY_LAYERS" = true
  · have x1 := strcaseEq_excl "X" (by decide) hq
    have x2 := strcaseEq_excl "Y" (by decide) hq
    have x3 := strcaseEq_excl "FEATURE_COUNT" (by decide) hq
    simp only [hq, if_true] at h
    split_ifs at h
    cases h
    simp only [x1, x2, x3, Bool.false_eq_true, if_false, and_self]
  · have hq2 : strcaseEq p.1 "QUERY_LAYERS" = false := by simpa using hq
    simp only [hq2, Bool.false_eq_true, if_false] at h
    by_cases hi : strcaseEq p.1 "INFO_FORMAT" = true
    · have x1 := strcaseEq_excl "X" (by decide) hi
      have x2 := strcaseEq_excl "Y" (by decide) hi
      have x3 := strcaseEq_excl "FEATURE_COUNT" (by decide) hi
      simp only [hi, if_true] at h
      cases h
      simp only [x1, x2, x3, Bool.false_eq_true, if_false, and_self]
    · have hi2 : strcaseEq p.1 "INFO_FORMAT" = false := by simpa using hi
      simp only [hi2, Bool.false_eq_true, if_false] at h
      by_cases hf : strcaseEq p.1 "FEATURE_COUNT" = true
      · have x1 := strcaseEq_excl "X" (by decide) hf
        have x2 := strcaseEq_excl "Y" (by decide) hf
        simp only [hf, if_true] at h
        cases h
        simp only [x1, x2, hf, Bool.false_eq_true, if_false, if_true, and_self]
      · have hf2 : strcaseEq p.1 "FEATURE_COUNT" = false := by simpa using hf
        simp only [hf2, Bool.false_eq_true, if_false] at h ⊢
        by_cases hx : strcaseEq p.1 "X" = true
        · have x2 := strcaseEq_excl "Y" (by decide) hx
          simp only [hx, if_true] at h
          cases h
          simp only [hx, x2, Bool.false_eq_true, if_false, if_true, and_self]
        · have hx2 : strcaseEq p.1 "X" = false := by simpa using hx
          simp only [hx2, Bool.false_eq_true, if_false] at h ⊢
          by_cases hy : strcaseEq p.1 "Y" = true
          · simp only [hy, if_true] at h
            cases h
            simp only [hy, if_true, and_self]
          · have hy2 : strcaseEq p.1 "Y" = false := by simpa using hy
            simp only [hy2, Bool.false_eq_true, if_false] at h ⊢
            split_ifs at h <;> cases h <;> exact ⟨rfl, rfl, rfl⟩

theorem featureInfoScan_point (env : Env) (nVersion : Int) (ps : List (String × String)) :
    ∀ (st st2 : wmsState) (v v2 : featureInfoVars),
      featureInfoScan env nVersion ps st v = .ok (st2, v2) →
      v2.pointx = ps.foldl (fun a p => if strcaseEq p.1 "X" then env.atof p.2 else a) v.pointx ∧
      v2.pointy = ps.foldl (fun a p => if strcaseEq p.1 "Y" then env.atof p.2 else a) v.pointy ∧
      v2.feature_count =
        ps.foldl (fun a p => if strcaseEq p.1 "FEATURE_COUNT" then env.atoi p.2 else a)
          v.feature_count := by
  induction ps with
  | nil => intro st st2 v v2 h; cases h; exact ⟨rfl, rfl, rfl⟩
  | cons p ps ih =>
    intro st st2 v v2 h
    simp only [featureInfoScan] at h
    split at h
    · cases h
    · rename_i r hr
      obtain ⟨a, b, c⟩ := featureInfoStep_point env nVersion st r.1 v r.2 p hr
      obtain ⟨a2, b2, c2⟩ := ih _ _ _ _ h
      simp only [List.foldl_cons]
      rw [a2, b2, c2, a, b, c]
      exact ⟨rfl, rfl, rfl⟩

theorem foldl_last_value {α : Type} (name : String) (f : String → α) (d : α)
    (ps : List (String × String)) : ∀ (a : α) (o : Option String), a = (o.map f).getD d →
    ps.foldl (fun a p => if strcaseEq p.1 name then f p.2 else a) a =
      ((ps.foldl (fun acc p => if strcaseEq p.1 name then some p.2 else acc) o).map f).getD d := by
  induction ps with
  | nil => intro a o h; exact h
  | cons p ps ih =>
    intro a o h
    simp only [List.foldl_cons]
    apply ih
    split_ifs
    · rfl
    · exact h

/-- C39: let the parameter loop of `msWMSFeatureInfo` end in the state `st1` with the locals
`v`, with a layer found and every ON layer queryable.  The point `v.pointx`, `v.pointy` is the
reading by `atof` of the last X and of the last Y parameter, and -1 for a parameter that is
missing; `v.feature_count` is the reading of the last FEATURE_COUNT, and 1 when it is missing.
When `v.pointx` or `v.pointy` is -1 the call is the exception "Required X/Y parameters
missing" and nothing is queried; otherwise it goes on with `msQueryByPoint`, called with the
count `max 1 feature_count` and in the mode MS_SINGLE exactly when that count is 1. -/
theorem feature_info_point (env : Env) (q : OpsEnv) (st : wmsState) (nVersion : Int)
    (params : List (String × String)) (st1 : wmsState) (v : featureInfoVars)
    (hscan : featureInfoScan env nVersion params st featureInfoVars.init = .ok (st1, v))
    (hfound : v.numlayers_found ≠ 0)
    (hquery : st1.map.layers.any (fun lp => lp.status = MS_ON ∧ q.msIsLayerQueryable lp = 0) =
      false) :
    v.pointx = ((lastParam "X" params).map env.atof).getD (-1) ∧
    v.pointy = ((lastParam "Y" params).map env.atof).getD (-1) ∧
    v.feature_count = ((lastParam "FEATURE_COUNT" params).map env.atoi).getD 1 ∧
    ((v.pointx = -1 ∨ v.pointy = -1) →
      msWMSFeatureInfo env q st nVersion params =
        msWMSException env
          (msSetError st1 "Required X/Y parameters missing for getFeatureInfo.") nVersion none) ∧
    (¬ (v.pointx = -1 ∨ v.pointy = -1) →
      ∃ (count mode : Int) (point : double × double),
        count = max 1 v.feature_count ∧
        (mode = MS_SINGLE ↔ count = 1) ∧ (mode = MS_MULTIPLE ↔ count ≠ 1) ∧
        msWMSFeatureInfo env q st nVersion params =
          (if (q.msQueryByPoint st1.map (-1) mode point 0 count).1 ≠ MS_SUCCESS ∧
              (q.msQueryByPoint st1.map (-1) mode point 0 count).2.1 ≠ MS_NOTFOUND then
            msWMSException env
              { st1 with map := (q.msQueryByPoint st1.map (-1) mode point 0 count).2.2 }
              nVersion none
          else
            featureInfoRespond env q nVersion params
              { st1 with map := (q.msQueryByPoint st1.map (-1) mode point 0 count).2.2 } v point
              (if (q.msQueryByPoint st1.map (-1) mode point 0 count).1 ≠ MS_SUCCESS then
                (q.msQueryByPoint st1.map (-1) mode point 0 count).2.1 else MS_NOERR))) := by
  obtain ⟨a, b, c⟩ := featureInfoScan_point env nVersion params st st1 _ v hscan
  refine ⟨?_, ?_, ?_, ?_, ?_⟩
  · rw [a]
    exact foldl_last_value "X" env.atof (-1) params _ none rfl
  · rw [b]
    exact foldl_last_value "Y" env.atof (-1) params _ none rfl
  · rw [c]
    exact foldl_last_value "FEATURE_COUNT" env.atoi 1 params _ none rfl
  · intro hp
    unfold msWMSFeatureInfo
    rw [hscan]
    simp only []
    unfold featureInfoAfterScan
    rw [if_neg hfound, hquery, if_pos hp]
    simp
  · intro hp
    refine ⟨if v.feature_count < 1 then 1 else v.feature_count,
      if (if v.feature_count < 1 then 1 else v.feature_count) = 1 then MS_SINGLE else MS_MULTIPLE,
      (MS_IMAGE2MAP_X v.pointx st1.map.extent.minx
          (MS_CELLSIZE st1.map.extent.minx st1.map.extent.maxx st1.map.width),
       MS_IMAGE2MAP_Y v.pointy st1.map.extent.maxy
          (MS_CELLSIZE st1.map.extent.miny st1.map.extent.maxy st1.map.height)), ?_, ?_, ?_, ?_⟩
    · split_ifs with h
      · rw [max_eq_left (by omega)]
      · rw [max_eq_right (by omega)]
    · generalize (if v.feature_count < 1 then (1 : Int) else v.feature_count) = cnt
      by_cases hc : cnt = 1 <;> simp [hc, MS_SINGLE, MS_MULTIPLE]
    · generalize (if v.feature_count < 1 then (1 : Int) else v.feature_count) = cnt
      by_cases hc : cnt = 1 <;> simp [hc, MS_SINGLE, MS_MULTIPLE]
    · unfold msWMSFeatureInfo
      rw [hscan]
      simp only []
      unfold featureInfoAfterScan
      rw [if_neg hfound, hquery, if_neg hp]
      simp

/-- C39 on the request `QUERY_LAYERS=roads&X=-1&Y=5` for a map with the layer `roads`: the
point is (-1, 5), so the call raises the exception for missing X/Y. -/
theorem feature_info_point_witness :
    (msWMSFeatureInfo sampleEnv sampleOps (freshState (sampleMap [sampleLayer "roads" none MS_OFF]))
      OWS_1_1_1 [("QUERY_LAYERS", "roads"), ("X", "-1"), ("Y", "5")]) =
    msWMSException sampleEnv
      (msSetError (freshState (sampleMap [sampleLayer "roads" none MS_ON]))
        "Required X/Y parameters missing for getFeatureInfo.") OWS_1_1_1 none :=
  (feature_info_point sampleEnv sampleOps (freshState (sampleMap [sampleLayer "roads" none MS_OFF]))
    OWS_1_1_1 [("QUERY_LAYERS", "roads"), ("X", "-1"), ("Y", "5")]
    (freshState (sampleMap [sampleLayer "roads" none MS_ON]))
    { featureInfoVars.init with query_layer := 1, numlayers_found := 1, pointx := -1, pointy := 5 }
    (by with_unfolding_all rfl) (by decide) (by decide)).2.2.2.1 (Or.inl (by with_unfolding_all rfl))

/-! ## mapcopy.c: counters and children -/

theorem msCopyStyle_eq (dst src : styleObj) : msCopyStyle dst src = (MS_SUCCESS, src) := by
  unfold msCopyStyle MS_COPYSTELEM MS_COPYSTRING MS_COPYCOLOR
  cases src
  simp only [Prod.mk.injEq, true_and, styleObj.mk.injEq, and_true]
  exact List.map_id _

theorem getElem?_lt_of_eq {α : Type} (l l2 : List α)
    (h : ∀ j, j < l.length → l2[j]? = l[j]?) (j : Nat) (hj : j < l.length) : j < l2.length := by
  by_contra hcon
  have h1 := h j hj
  rw [List.getElem?_eq_none (by omega), List.getElem?_eq_getElem hj] at h1
  cases h1

theorem copyClassStyles_entries (env : CopyEnv) (hg : growsStyles env) (src : Copy.classObj) :
    ∀ (k i : Nat) (dst : Copy.classObj) (errors : List String)
      (r : Int × Copy.classObj × List String),
    i ≤ dst.numstyles →
    copyClassStyles env src k i dst errors = some r → r.1 = MS_SUCCESS →
    r.2.1.numstyles = dst.numstyles + k ∧
    (0 < k → r.2.1.stylesReleased = false) ∧
    (∀ j, j < i → j < dst.styles.length → r.2.1.styles[j]? = dst.styles[j]?) ∧
    (∀ j, i ≤ j → j < i + k → r.2.1.styles[j]? = some (src.styles.getD j default)) := by
  intro k
  induction k with
  | zero =>
    intro i dst errors r _ h _
    cases h
    refine ⟨rfl, fun h => absurd h (by decide), fun j _ _ => rfl, fun j h1 h2 => ?_⟩
    omega
  | succ k ih =>
    intro i dst errors r hi h hs
    have hne : MS_FAILURE ≠ MS_SUCCESS := by decide
    unfold copyClassStyles at h
    by_cases hrel : dst.stylesReleased = true
    · rw [if_pos hrel] at h
      cases h
    · rw [if_neg hrel] at h
      cases hgrow : env.msGrowClassStyles dst with
      | none =>
        rw [hgrow] at h
        cases h
        exact absurd hs hne
      | some d2 =>
        rw [hgrow] at h
        obtain ⟨g1, g2, g3, -⟩ := hg dst d2 hgrow
        simp only [] at h
        by_cases hrel2 : d2.stylesReleased = true
        · rw [if_pos hrel2] at h
          cases h
        · rw [if_neg hrel2] at h
          cases hent : d2.styles[i]? with
          | none =>
            rw [hent] at h
            cases h
          | some s =>
            rw [hent] at h
            simp only [msCopyStyle_eq] at h
            by_cases hc : (env.initStyle s).1 = MS_SUCCESS
            · rw [if_neg (not_not.2 hc)] at h
              simp only [ne_eq, not_true_eq_false, if_false] at h
              have hlen : i < d2.styles.length := by omega
              obtain ⟨a, a2, b, c⟩ := ih (i + 1) _ _ r (by simp only []; omega) h hs
              simp only [List.length_set] at a a2 b c
              refine ⟨?_, ?_, ?_, ?_⟩
              · rw [a]
                omega
              · intro _
                by_cases hk : 0 < k
                · exact a2 hk
                · have hk0 : k = 0 := by omega
                  subst hk0
                  cases h
                  simp only []
                  exact Bool.eq_false_iff.2 hrel2
              · intro j hj hjl
                have hjl2 : j < d2.styles.length := getElem?_lt_of_eq _ _ g3 j hjl
                rw [b j (by omega) hjl2]
                rw [List.getElem?_set_ne (by omega), List.getElem?_set_ne (by omega)]
                exact g3 j hjl
              · intro j h1 h2
                by_cases hji : j = i
                · subst hji
                  rw [b j (by omega) hlen]
                  rw [List.getElem?_set_self (by simp only [List.length_set]; exact hlen)]
                · exact c j (by omega) (by omega)
            · rw [if_pos hc] at h
              cases h
              exact absurd hs hne

theorem copyClassStyles_code (env : CopyEnv) (src : Copy.classObj) :
    ∀ (k i : Nat) (dst : Copy.classObj) (errors : List String)
      (r : Int × Copy.classObj × List String),
    copyClassStyles env src k i dst errors = some r →
    r.1 = MS_SUCCESS ∨ r.1 = MS_FAILURE := by
  intro k
  induction k with
  | zero =>
    intro i dst errors r h
    cases h
    exact Or.inl rfl
  | succ k ih =>
    intro i dst errors r h
    unfold copyClassStyles at h
    by_cases hrel : dst.stylesReleased = true
    · rw [if_pos hrel] at h
      cases h
    · rw [if_neg hrel] at h
      cases hgrow : env.msGrowClassStyles dst with
      | none =>
        rw [hgrow] at h
        cases h
        exact Or.inr rfl
      | some d2 =>
        rw [hgrow] at h
        simp only [] at h
        by_cases hrel2 : d2.stylesReleased = true
        · rw [if_pos hrel2] at h
          cases h
        · rw [if_neg hrel2] at h
          cases hent : d2.styles[i]? with
          | none =>
            rw [hent] at h
            cases h
          | some s =>
            rw [hent] at h
            simp only [msCopyStyle_eq] at h
            by_cases hc : (env.initStyle s).1 = MS_SUCCESS
            · rw [if_neg (not_not.2 hc)] at h
              simp only [ne_eq, not_true_eq_false, if_false] at h
              exact ih _ _ _ _ h
            · rw [if_pos hc] at h
              cases h
              exact Or.inr rfl

theorem copyClassStyles_defined (env : CopyEnv) (hg : growsStyles env) (src : Copy.classObj) :
    ∀ (k i : Nat) (dst : Copy.classObj) (errors : List String),
    dst.stylesReleased = false → i = dst.numstyles →
    ∃ r, copyClassStyles env src k i dst errors = some r := by
  intro k
  induction k with
  | zero =>
    intro i dst errors _ _
    exact ⟨_, rfl⟩
  | succ k ih =>
    intro i dst errors hrel hi
    unfold copyClassStyles
    rw [if_neg (by rw [hrel]; decide)]
    cases hgrow : env.msGrowClassStyles dst with
    | none => exact ⟨_, rfl⟩
    | some d2 =>
      obtain ⟨g1, g2, -, g4⟩ := hg dst d2 hgrow
      simp only []
      rw [if_neg (by rw [g4 hrel]; decide)]
      have hlen : i < d2.styles.length := by omega
      rw [List.getElem?_eq_getElem hlen]
      simp only [msCopyStyle_eq]
      by_cases hc : (env.initStyle d2.styles[i]).1 = MS_SUCCESS
      · rw [if_neg (not_not.2 hc)]
        simp only [ne_eq, not_true_eq_false, if_false]
        exact ih _ _ _ (g4 hrel) (by simp only []; omega)
      · rw [if_pos hc]
        exact ⟨_, rfl⟩

theorem copyClassStyles_released (env : CopyEnv) (src : Copy.classObj) (k i : Nat)
    (dst : Copy.classObj) (errors : List String) (hrel : dst.stylesReleased = true)
    (hk : k ≠ 0) : copyClassStyles env src k i dst errors = none := by
  cases k with
  | zero => exact absurd rfl hk
  | succ k =>
    unfold copyClassStyles
    rw [if_pos hrel]

theorem copyClassRest_frame (env : CopyEnv) (errors : List String) (dst src : Copy.classObj) :
    (copyClassRest env errors dst src).1 = MS_SUCCESS ∧
    (copyClassRest env errors dst src).2.1.layer = src.layer ∧
    (copyClassRest env errors dst src).2.1.name = src.name ∧
    (copyClassRest env errors dst src).2.1.numstyles = dst.numstyles ∧
    (copyClassRest env errors dst src).2.1.styles = dst.styles ∧
    (copyClassRest env errors dst src).2.1.stylesReleased = dst.stylesReleased :=
  ⟨rfl, rfl, rfl, rfl, rfl, rfl⟩

theorem msCopyClass_success (env : CopyEnv) (errors : List String) (dst src : Copy.classObj)
    (layer : Option Nat) (r : Int × Copy.classObj × List String)
    (h : msCopyClass env errors dst src layer = some r) (hs : r.1 = MS_SUCCESS) :
    ∃ d1 r0,
      freeClassStyles { dst with expression := (msCopyExpression dst.expression src.expression).2,
                                 status := src.status } = some d1 ∧
      copyClassStyles env src src.numstyles 0 d1 errors = some r0 ∧ r0.1 = MS_SUCCESS ∧
      r = copyClassRest env r0.2.2 r0.2.1 src := by
  have x1 : ∀ a b, (msCopyExpression a b).1 = MS_SUCCESS := fun _ _ => rfl
  unfold msCopyClass at h
  simp only [x1, ne_eq, not_true_eq_false, if_false] at h
  cases hf : freeClassStyles { dst with
      expression := (msCopyExpression dst.expression src.expression).2,
      status := MS_COPYSTELEM dst.status src.status } with
  | none =>
    rw [hf] at h
    cases h
  | some d1 =>
    rw [hf] at h
    simp only [] at h
    cases hl : copyClassStyles env src src.numstyles 0 d1 errors with
    | none =>
      rw [hl] at h
      cases h
    | some r0 =>
      rw [hl] at h
      simp only [] at h
      by_cases hr : r0.1 = MS_SUCCESS
      · rw [if_neg (not_not.2 hr)] at h
        cases h
        exact ⟨d1, r0, hf, hl, hr, rfl⟩
      · rw [if_pos hr] at h
        cases h
        exact absurd hs hr

theorem freeClassStyles_some (dst d1 : Copy.classObj) (h : freeClassStyles dst = some d1) :
    dst.stylesReleased = false ∧ dst.numstyles ≤ dst.styles.length ∧
    d1.numstyles = 0 ∧ d1.styles = dst.styles ∧
    d1.stylesReleased = !dst.styles.isEmpty := by
  unfold freeClassStyles at h
  by_cases hc : dst.stylesReleased = true ∨ dst.styles.length < dst.numstyles
  · rw [if_pos hc] at h
    cases h
  · rw [if_neg hc] at h
    cases h
    refine ⟨?_, ?_, rfl, rfl, rfl⟩
    · cases hb : dst.stylesReleased
      · rfl
      · exact absurd (Or.inl hb) hc
    · by_contra hcon
      exact hc (Or.inr (by omega))

theorem msCopyClass_code (env : CopyEnv) (errors : List String) (dst src : Copy.classObj)
    (layer : Option Nat) (r : Int × Copy.classObj × List String)
    (h : msCopyClass env errors dst src layer = some r) :
    r.1 = MS_SUCCESS ∨ r.1 = MS_FAILURE := by
  have x1 : ∀ a b, (msCopyExpression a b).1 = MS_SUCCESS := fun _ _ => rfl
  unfold msCopyClass at h
  simp only [x1, ne_eq, not_true_eq_false, if_false] at h
  cases hf : freeClassStyles { dst with
      expression := (msCopyExpression dst.expression src.expression).2,
      status := MS_COPYSTELEM dst.status src.status } with
  | none =>
    rw [hf] at h
    cases h
  | some d1 =>
    rw [hf] at h
    simp only [] at h
    cases hl : copyClassStyles env src src.numstyles 0 d1 errors with
    | none =>
      rw [hl] at h
      cases h
    | some r0 =>
      rw [hl] at h
      simp only [] at h
      by_cases hr : r0.1 = MS_SUCCESS
      · rw [if_neg (not_not.2 hr)] at h
        cases h
        exact Or.inl rfl
      · rw [if_pos hr] at h
        cases h
        rcases copyClassStyles_code env src _ _ _ _ _ hl with h1 | h1
        · exact absurd h1 hr
        · exact Or.inr h1

theorem msCopyClass_defined (env : CopyEnv) (hg : growsStyles env) (errors : List String)
    (dst src : Copy.classObj) (layer : Option Nat) (h1 : dst.styles = [])
    (h2 : dst.numstyles = 0) (h3 : dst.stylesReleased = false) :
    ∃ r, msCopyClass env errors dst src layer = some r := by
  have x1 : ∀ a b, (msCopyExpression a b).1 = MS_SUCCESS := fun _ _ => rfl
  unfold msCopyClass
  simp only [x1, ne_eq, not_true_eq_false, if_false]
  have hf : freeClassStyles { dst with
      expression := (msCopyExpression dst.expression src.expression).2,
      status := MS_COPYSTELEM dst.status src.status } =
      some { dst with
        expression := (msCopyExpression dst.expression src.expression).2,
        status := MS_COPYSTELEM dst.status src.status,
        stylesReleased := false, numstyles := 0 } := by
    unfold freeClassStyles
    simp only [h1, h2, h3, List.length_nil, Nat.lt_irrefl, or_self, if_false, List.isEmpty_nil,
      Bool.not_true]
    rfl
  rw [hf]
  simp only []
  obtain ⟨r0, hr0⟩ := copyClassStyles_defined env hg src src.numstyles 0
    { dst with
        expression := (msCopyExpression dst.expression src.expression).2,
        status := MS_COPYSTELEM dst.status src.status,
        stylesReleased := false, numstyles := 0 } errors rfl rfl
  rw [hr0]
  simp only []
  split_ifs
  · exact ⟨_, rfl⟩
  · exact ⟨_, rfl⟩

theorem msCopyClass_undefined (env : CopyEnv) (errors : List String)
    (dst src : Copy.classObj) (layer : Option Nat) (h1 : dst.styles ≠ [])
    (h2 : src.numstyles ≠ 0) : msCopyClass env errors dst src layer = none := by
  have x1 : ∀ a b, (msCopyExpression a b).1 = MS_SUCCESS := fun _ _ => rfl
  unfold msCopyClass
  simp only [x1, ne_eq, not_true_eq_false, if_false]
  cases hf : freeClassStyles { dst with
      expression := (msCopyExpression dst.expression src.expression).2,
      status := MS_COPYSTELEM dst.status src.status } with
  | none => rfl
  | some d1 =>
    simp only []
    obtain ⟨-, -, -, -, f5⟩ := freeClassStyles_some _ _ hf
    have hrel : d1.stylesReleased = true := by
      rw [f5]
      simp only [Bool.not_eq_true', List.isEmpty_eq_false, List.isEmpty_iff]
      exact h1
    rw [copyClassStyles_released env src _ _ _ _ hrel h2]

theorem copyLayerClasses_entries (env : CopyEnv) (hg : growsClasses env) (dstp : Option Nat)
    (src : Copy.layerObj) : ∀ (k i : Nat) (dst : Copy.layerObj) (errors : List String)
      (r : Int × Copy.layerObj × List String),
    i ≤ dst.numclasses →
    copyLayerClasses env dstp src k i dst errors = some r → r.1 = MS_SUCCESS →
    r.2.1.numclasses = dst.numclasses + k ∧
    r.2.1.joins = dst.joins ∧
    (∀ j, j < i → j < dst.classes.length → r.2.1.classes[j]? = dst.classes[j]?) ∧
    (∀ j, i ≤ j → j < i + k → ∃ e old rc,
      msCopyClass env e (env.initClass old) (src.classes.getD j default) dstp = some rc ∧
      rc.1 = MS_SUCCESS ∧ r.2.1.classes[j]? = some rc.2.1) := by
  intro k
  induction k with
  | zero =>
    intro i dst errors r _ h _
    cases h
    refine ⟨rfl, rfl, fun j _ _ => rfl, fun j h1 h2 => ?_⟩
    omega
  | succ k ih =>
    intro i dst errors r hi h hs
    have hne : MS_FAILURE ≠ MS_SUCCESS := by decide
    unfold copyLayerClasses at h
    cases hgrow : env.msGrowLayerClasses dst with
    | none =>
      rw [hgrow] at h
      cases h
      exact absurd hs hne
    | some d2 =>
      rw [hgrow] at h
      obtain ⟨g1, g2, g3, -, -, -, g7⟩ := hg dst d2 hgrow
      simp only [] at h
      cases hent : d2.classes[i]? with
      | none =>
        rw [hent] at h
        cases h
      | some c0 =>
        rw [hent] at h
        simp only [] at h
        cases hcl : msCopyClass env errors (env.initClass c0) (src.classes.getD i default)
            dstp with
        | none =>
          rw [hcl] at h
          cases h
        | some rc =>
          rw [hcl] at h
          simp only [] at h
          by_cases hc : rc.1 = MS_SUCCESS
          · rw [if_neg (not_not.2 hc)] at h
            have hlen : i < d2.classes.length := by omega
            obtain ⟨a, a2, b, c⟩ := ih (i + 1) _ _ r (by simp only []; omega) h hs
            simp only [List.length_set] at a a2 b c
            refine ⟨?_, ?_, ?_, ?_⟩
            · rw [a]
              omega
            · rw [a2]
              exact g7
            · intro j hj hjl
              have hjl2 : j < d2.classes.length := getElem?_lt_of_eq _ _ g3 j hjl
              rw [b j (by omega) hjl2]
              rw [List.getElem?_set_ne (by omega)]
              exact g3 j hjl
            · intro j h1 h2
              by_cases hji : j = i
              · subst hji
                refine ⟨errors, c0, rc, hcl, hc, ?_⟩
                rw [b j (by omega) hlen]
                rw [List.getElem?_set_self hlen]
              · exact c j (by omega) (by omega)
          · rw [if_pos hc] at h
            cases h
            exact absurd hs hne

theorem copyLayerClasses_code (env : CopyEnv) (dstp : Option Nat) (src : Copy.layerObj) :
    ∀ (k i : Nat) (dst : Copy.layerObj) (errors : List String)
      (r : Int × Copy.layerObj × List String),
    copyLayerClasses env dstp src k i dst errors = some r →
    r.1 = MS_SUCCESS ∨ r.1 = MS_FAILURE := by
  intro k
  induction k with
  | zero =>
    intro i dst errors r h
    cases h
    exact Or.inl rfl
  | succ k ih =>
    intro i dst errors r h
    unfold copyLayerClasses at h
    cases hgrow : env.msGrowLayerClasses dst with
    | none =>
      rw [hgrow] at h
      cases h
      exact Or.inr rfl
    | some d2 =>
      rw [hgrow] at h
      simp only [] at h
      cases hent : d2.classes[i]? with
      | none =>
        rw [hent] at h
        cases h
      | some c0 =>
        rw [hent] at h
        simp only [] at h
        cases hcl : msCopyClass env errors (env.initClass c0) (src.classes.getD i default)
            dstp with
        | none =>
          rw [hcl] at h
          cases h
        | some rc =>
          rw [hcl] at h
          simp only [] at h
          by_cases hc : rc.1 = MS_SUCCESS
          · rw [if_neg (not_not.2 hc)] at h
            exact ih _ _ _ _ h
          · rw [if_pos hc] at h
            cases h
            exact Or.inr rfl

theorem copyLayerClasses_defined (env : CopyEnv) (hg : growsClasses env) (hs : growsStyles env)
    (hf : freshClasses env) (dstp : Option Nat) (src : Copy.layerObj) :
    ∀ (k i : Nat) (dst : Copy.layerObj) (errors : List String),
    i ≤ dst.numclasses → ∃ r, copyLayerClasses env dstp src k i dst errors = some r := by
  intro k
  induction k with
  | zero =>
    intro i dst errors _
    exact ⟨_, rfl⟩
  | succ k ih =>
    intro i dst errors hi
    unfold copyLayerClasses
    cases hgrow : env.msGrowLayerClasses dst with
    | none => exact ⟨_, rfl⟩
    | some d2 =>
      obtain ⟨g1, g2, -, -, -, -, -⟩ := hg dst d2 hgrow
      simp only []
      have hlen : i < d2.classes.length := by omega
      rw [List.getElem?_eq_getElem hlen]
      simp only []
      obtain ⟨f1, f2, f3⟩ := hf d2.classes[i]
      obtain ⟨rc, hrc⟩ := msCopyClass_defined env hs errors (env.initClass d2.classes[i])
        (src.classes.getD i default) dstp f1 f2 f3
      rw [hrc]
      simp only []
      by_cases hc : rc.1 = MS_SUCCESS
      · rw [if_neg (not_not.2 hc)]
        exact ih _ _ _ (by simp only []; omega)
      · rw [if_pos hc]
        exact ⟨_, rfl⟩

theorem copyLayerJoins_entries (env : CopyEnv) (src : Copy.layerObj) :
    ∀ (k i : Nat) (dst : Copy.layerObj) (r : Int × Copy.layerObj),
    copyLayerJoins env src k i dst = some r →
    r.1 = MS_SUCCESS ∧ r.2.classes = dst.classes ∧ r.2.numclasses = dst.numclasses ∧
    r.2.numjoins = dst.numjoins ∧ r.2.joins.length = dst.joins.length ∧
    (∀ t, t < i → r.2.joins[t]? = dst.joins[t]?) ∧
    (∀ t, i ≤ t → t < i + k → ∃ old, dst.joins[t]? = some old ∧
      r.2.joins[t]? = some (msCopyJoin (env.initJoin old) (src.joins.getD t default)).2) := by
  intro k
  induction k with
  | zero =>
    intro i dst r h
    cases h
    refine ⟨rfl, rfl, rfl, rfl, rfl, fun t _ => rfl, fun t h1 h2 => ?_⟩
    omega
  | succ k ih =>
    intro i dst r h
    have j1 : ∀ a b, (msCopyJoin a b).1 = MS_SUCCESS := fun _ _ => rfl
    unfold copyLayerJoins at h
    cases hent : dst.joins[i]? with
    | none =>
      rw [hent] at h
      cases h
    | some j0 =>
      rw [hent] at h
      simp only [j1, ne_eq, not_true_eq_false, if_false] at h
      obtain ⟨a1, a2, a3, a4, a5, b, c⟩ := ih _ _ _ h
      simp only [List.length_set] at a5 b c
      have hlen : i < dst.joins.length := by
        by_contra hcon
        rw [List.getElem?_eq_none (by omega)] at hent
        cases hent
      refine ⟨a1, a2, a3, a4, a5, ?_, ?_⟩
      · intro t ht
        rw [b t (by omega), List.getElem?_set_ne (by omega)]
      · intro t h1 h2
        by_cases hti : t = i
        · subst hti
          refine ⟨j0, hent, ?_⟩
          rw [b t (by omega), List.getElem?_set_self hlen]
        · obtain ⟨old, o1, o2⟩ := c t (by omega) (by omega)
          rw [List.getElem?_set_ne (fun hh => hti hh.symm)] at o1
          exact ⟨old, o1, o2⟩

theorem copyLayerJoins_defined (env : CopyEnv) (src : Copy.layerObj) :
    ∀ (k i : Nat) (dst : Copy.layerObj), i + k ≤ dst.joins.length →
    ∃ r, copyLayerJoins env src k i dst = some r := by
  intro k
  induction k with
  | zero =>
    intro i dst _
    exact ⟨_, rfl⟩
  | succ k ih =>
    intro i dst hlen
    have j1 : ∀ a b, (msCopyJoin a b).1 = MS_SUCCESS := fun _ _ => rfl
    unfold copyLayerJoins
    rw [List.getElem?_eq_getElem (by omega)]
    simp only [j1, ne_eq, not_true_eq_false, if_false]
    exact ih _ _ (by simp only [List.length_set]; omega)

theorem msCopyProjection_code (env : CopyEnv) (dst src : projectionObj) :
    (msCopyProjection env dst src).1 = MS_SUCCESS ∨
    (msCopyProjection env dst src).1 = MS_FAILURE := by
  unfold msCopyProjection
  simp only []
  split_ifs
  · exact Or.inr rfl
  · exact Or.inl rfl
  · exact Or.inl rfl

theorem copyLayerTail_frame (env : CopyEnv) (dst src : Copy.layerObj) :
    (copyLayerTail env dst src).classes = dst.classes ∧
    (copyLayerTail env dst src).numclasses = dst.numclasses ∧
    (copyLayerTail env dst src).numjoins = src.numjoins ∧
    (copyLayerTail env dst src).joins = dst.joins :=
  ⟨rfl, rfl, rfl, rfl⟩

theorem copyLayerRest_success (env : CopyEnv) (errors : List String) (dst src : Copy.layerObj)
    (r : Int × Copy.layerObj × List String)
    (h : copyLayerRest env errors dst src = some r) (hs : r.1 = MS_SUCCESS) :
    (msCopyProjection env src.projection src.projection).1 = MS_SUCCESS ∧
    r.2.1.classes = dst.classes ∧ r.2.1.numclasses = dst.numclasses ∧
    r.2.1.numjoins = src.numjoins ∧
    (∀ t, t < src.numjoins → ∃ old, dst.joins[t]? = some old ∧
      r.2.1.joins[t]? = some (msCopyJoin (env.initJoin old) (src.joins.getD t default)).2) := by
  have x1 : ∀ a b, (msCopyExpression a b).1 = MS_SUCCESS := fun _ _ => rfl
  have hne : MS_FAILURE ≠ MS_SUCCESS := by decide
  unfold copyLayerRest at h
  simp only [x1, ne_eq, not_true_eq_false, if_false] at h
  by_cases hp : (msCopyProjection env (copyLayerHead dst src).projection src.projection).1 =
      MS_SUCCESS
  · rw [if_neg (not_not.2 hp)] at h
    revert h
    generalize hd : copyLayerTail env _ src = d
    intro h
    obtain ⟨t1, t2, t3, t4⟩ := copyLayerTail_frame env _ src
    rw [hd] at t1 t2 t3 t4
    cases hj : copyLayerJoins env src d.numjoins 0 d with
    | none =>
      rw [hj] at h
      cases h
    | some j =>
      rw [hj] at h
      simp only [] at h
      obtain ⟨a1, a2, a3, a4, -, -, c⟩ := copyLayerJoins_entries env src _ _ _ _ hj
      rw [if_neg (not_not.2 a1)] at h
      cases h
      refine ⟨hp, ?_, ?_, ?_, ?_⟩
      · show j.2.classes = dst.classes
        rw [a2, t1]
        rfl
      · show j.2.numclasses = dst.numclasses
        rw [a3, t2]
        rfl
      · show j.2.numjoins = src.numjoins
        rw [a4, t3]
      · intro t ht
        obtain ⟨old, o1, o2⟩ := c t (Nat.zero_le _) (by rw [t3]; omega)
        rw [t4] at o1
        exact ⟨old, o1, o2⟩
  · rw [if_pos hp] at h
    cases h
    exact absurd hs hne

theorem copyLayerRest_code (env : CopyEnv) (errors : List String) (dst src : Copy.layerObj)
    (r : Int × Copy.layerObj × List String)
    (h : copyLayerRest env errors dst src = some r) :
    r.1 = MS_SUCCESS ∨ r.1 = MS_FAILURE := by
  have x1 : ∀ a b, (msCopyExpression a b).1 = MS_SUCCESS := fun _ _ => rfl
  unfold copyLayerRest at h
  simp only [x1, ne_eq, not_true_eq_false, if_false] at h
  by_cases hp : (msCopyProjection env (copyLayerHead dst src).projection src.projection).1 =
      MS_SUCCESS
  · rw [if_neg (not_not.2 hp)] at h
    revert h
    generalize copyLayerTail env _ src = d
    intro h
    cases hj : copyLayerJoins env src d.numjoins 0 d with
    | none =>
      rw [hj] at h
      cases h
    | some j =>
      rw [hj] at h
      simp only [] at h
      rw [if_neg (not_not.2 (copyLayerJoins_entries env src _ _ _ _ hj).1)] at h
      cases h
      exact Or.inl rfl
  · rw [if_pos hp] at h
    cases h
    exact Or.inr rfl

theorem copyLayerRest_defined (env : CopyEnv) (errors : List String) (dst src : Copy.layerObj)
    (h : (msCopyProjection env src.projection src.projection).1 ≠ MS_SUCCESS ∨
      src.numjoins ≤ dst.joins.length) :
    ∃ r, copyLayerRest env errors dst src = some r := by
  have x1 : ∀ a b, (msCopyExpression a b).1 = MS_SUCCESS := fun _ _ => rfl
  unfold copyLayerRest
  simp only [x1, ne_eq, not_true_eq_false, if_false]
  by_cases hp : (msCopyProjection env (copyLayerHead dst src).projection src.projection).1 =
      MS_SUCCESS
  · rw [if_neg (not_not.2 hp)]
    rcases h with h | h
    · exact absurd hp h
    · generalize hd : copyLayerTail env _ src = d
      obtain ⟨-, -, t3, t4⟩ := copyLayerTail_frame env _ src
      rw [hd] at t3 t4
      obtain ⟨j, hj⟩ := copyLayerJoins_defined env src d.numjoins 0 d (by
        rw [t3, t4]
        simp only [Nat.zero_add]
        exact h)
      rw [hj]
      simp only []
      split_ifs
      · exact ⟨_, rfl⟩
      · exact ⟨_, rfl⟩
  · rw [if_pos hp]
    exact ⟨_, rfl⟩

theorem copyLayerRest_failure (env : CopyEnv) (errors : List String) (dst src : Copy.layerObj)
    (h : (msCopyProjection env src.projection src.projection).1 ≠ MS_SUCCESS) :
    ∃ r, copyLayerRest env errors dst src = some r ∧ r.1 = MS_FAILURE := by
  obtain ⟨r, hr⟩ := copyLayerRest_defined env errors dst src (Or.inl h)
  refine ⟨r, hr, ?_⟩
  rcases copyLayerRest_code env errors dst src r hr with h1 | h1
  · exact absurd (copyLayerRest_success env errors dst src r hr h1).1 h
  · exact h1

theorem msCopyLayer_success (env : CopyEnv) (errors : List String) (dstp : Option Nat)
    (dst src : Copy.layerObj) (r : Int × Copy.layerObj × List String)
    (h : msCopyLayer env errors dstp dst src = some r) (hs : r.1 = MS_SUCCESS) :
    ∃ rc, msCopyLayerClasses env errors dstp dst src = some rc ∧ rc.1 = MS_SUCCESS ∧
      copyLayerRest env rc.2.2 rc.2.1 src = some r := by
  unfold msCopyLayer at h
  cases hc : msCopyLayerClasses env errors dstp dst src with
  | none =>
    rw [hc] at h
    cases h
  | some rc =>
    rw [hc] at h
    simp only [] at h
    by_cases hr : rc.1 = MS_SUCCESS
    · rw [if_neg (not_not.2 hr)] at h
      exact ⟨rc, rfl, hr, h⟩
    · rw [if_pos hr] at h
      cases h
      exact absurd hs hr

theorem msCopyLayer_code (env : CopyEnv) (errors : List String) (dstp : Option Nat)
    (dst src : Copy.layerObj) (r : Int × Copy.layerObj × List String)
    (h : msCopyLayer env errors dstp dst src = some r) :
    r.1 = MS_SUCCESS ∨ r.1 = MS_FAILURE := by
  unfold msCopyLayer at h
  cases hc : msCopyLayerClasses env errors dstp dst src with
  | none =>
    rw [hc] at h
    cases h
  | some rc =>
    rw [hc] at h
    simp only [] at h
    by_cases hr : rc.1 = MS_SUCCESS
    · rw [if_neg (not_not.2 hr)] at h
      exact copyLayerRest_code env _ _ _ _ h
    · rw [if_pos hr] at h
      cases h
      unfold msCopyLayerClasses at hc
      rcases copyLayerClasses_code env dstp src _ _ _ _ _ hc with h1 | h1
      · exact absurd h1 hr
      · exact Or.inr h1

theorem msCopyLayer_defined (env : CopyEnv) (hg : growsClasses env) (hs : growsStyles env)
    (hf : freshClasses env) (errors : List String) (dstp : Option Nat)
    (dst src : Copy.layerObj)
    (h : (msCopyProjection env src.projection src.projection).1 ≠ MS_SUCCESS ∨
      src.numjoins ≤ dst.joins.length) :
    ∃ r, msCopyLayer env errors dstp dst src = some r := by
  unfold msCopyLayer
  obtain ⟨rc, hrc⟩ := copyLayerClasses_defined env hg hs hf dstp src src.numclasses 0
    { dst with index := MS_COPYSTELEM dst.index src.index,
               classitem := MS_COPYSTRING dst.classitem src.classitem,
               classitemindex := MS_COPYSTELEM dst.classitemindex src.classitemindex }
    errors (Nat.zero_le _)
  have hc : msCopyLayerClasses env errors dstp dst src = some rc := hrc
  rw [hc]
  simp only []
  by_cases hr : rc.1 = MS_SUCCESS
  · rw [if_neg (not_not.2 hr)]
    apply copyLayerRest_defined
    rcases h with h | h
    · exact Or.inl h
    · right
      rw [(copyLayerClasses_entries env hg dstp src _ _ _ _ _ (Nat.zero_le _) hrc hr).2.1]
      exact h
  · rw [if_pos hr]
    exact ⟨_, rfl⟩

theorem msCopyLayer_failure (env : CopyEnv) (errors : List String) (dstp : Option Nat)
    (dst src : Copy.layerObj) (r : Int × Copy.layerObj × List String)
    (hp : (msCopyProjection env src.projection src.projection).1 ≠ MS_SUCCESS)
    (h : msCopyLayer env errors dstp dst src = some r) : r.1 = MS_FAILURE := by
  rcases msCopyLayer_code env errors dstp dst src r h with h1 | h1
  · obtain ⟨rc, -, -, h4⟩ := msCopyLayer_success env errors dstp dst src r h h1
    exact absurd (copyLayerRest_success env _ _ _ _ h4 h1).1 hp
  · exact h1

theorem msCopyJoin_eq (dst src : joinObj) :
    msCopyJoin dst src = (MS_SUCCESS, { src with joininfo := none }) := rfl

theorem copyMapLayers_code (env : CopyEnv) (dstp : Option Nat) (src : Copy.mapObj) :
    ∀ (k i : Nat) (dst : Copy.mapObj) (errors : List String)
      (r : Int × Copy.mapObj × List String),
    copyMapLayers env dstp src k i dst errors = some r →
    r.1 = MS_SUCCESS ∨ r.1 = MS_FAILURE := by
  intro k
  induction k with
  | zero =>
    intro i dst errors r h
    cases h
    exact Or.inl rfl
  | succ k ih =>
    intro i dst errors r h
    unfold copyMapLayers at h
    cases hgrow : env.msGrowMapLayers dst with
    | none =>
      rw [hgrow] at h
      cases h
      exact Or.inr rfl
    | some d2 =>
      rw [hgrow] at h
      simp only [] at h
      cases hent : d2.layers[i]? with
      | none =>
        rw [hent] at h
        cases h
      | some l0 =>
        rw [hent] at h
        simp only [] at h
        cases hcl : msCopyLayer env errors (env.layerAddress dstp i) (env.initLayer l0 dstp)
            (src.layers.getD i default) with
        | none =>
          rw [hcl] at h
          cases h
        | some rl =>
          rw [hcl] at h
          simp only [] at h
          by_cases hc : rl.1 = MS_SUCCESS
          · rw [if_neg (not_not.2 hc)] at h
            exact ih _ _ _ _ h
          · rw [if_pos hc] at h
            cases h
            exact Or.inr rfl

theorem copyMapLayers_entries (env : CopyEnv) (hg : growsLayers env) (dstp : Option Nat)
    (src : Copy.mapObj) : ∀ (k i : Nat) (dst : Copy.mapObj) (errors : List String)
      (r : Int × Copy.mapObj × List String),
    i ≤ dst.numlayers →
    copyMapLayers env dstp src k i dst errors = some r → r.1 = MS_SUCCESS →
    r.2.1.numlayers = dst.numlayers + k ∧
    (0 < k → dst.numlayers + k ≤ r.2.1.layerorder.length) ∧
    (∀ j, j < i → j < dst.layers.length → r.2.1.layers[j]? = dst.layers[j]?) ∧
    (∀ j, i ≤ j → j < i + k → ∃ e old rl,
      msCopyLayer env e (env.layerAddress dstp j) (env.initLayer old dstp)
        (src.layers.getD j default) = some rl ∧
      rl.1 = MS_SUCCESS ∧ r.2.1.layers[j]? = some rl.2.1) := by
  intro k
  induction k with
  | zero =>
    intro i dst errors r _ h _
    cases h
    refine ⟨rfl, fun h => absurd h (by decide), fun j _ _ => rfl, fun j h1 h2 => ?_⟩
    omega
  | succ k ih =>
    intro i dst errors r hi h hs
    have hne : MS_FAILURE ≠ MS_SUCCESS := by decide
    unfold copyMapLayers at h
    cases hgrow : env.msGrowMapLayers dst with
    | none =>
      rw [hgrow] at h
      cases h
      exact absurd hs hne
    | some d2 =>
      rw [hgrow] at h
      obtain ⟨g1, g2, g3, g4⟩ := hg dst d2 hgrow
      simp only [] at h
      cases hent : d2.layers[i]? with
      | none =>
        rw [hent] at h
        cases h
      | some l0 =>
        rw [hent] at h
        simp only [] at h
        cases hcl : msCopyLayer env errors (env.layerAddress dstp i) (env.initLayer l0 dstp)
            (src.layers.getD i default) with
        | none =>
          rw [hcl] at h
          cases h
        | some rl =>
          rw [hcl] at h
          simp only [] at h
          by_cases hc : rl.1 = MS_SUCCESS
          · rw [if_neg (not_not.2 hc)] at h
            have hlen : i < d2.layers.length := by omega
            obtain ⟨a, a2, b, c⟩ := ih (i + 1) _ _ r (by simp only []; omega) h hs
            simp only [List.length_set] at a a2 b c
            refine ⟨?_, ?_, ?_, ?_⟩
            · rw [a]
              omega
            · intro _
              by_cases hk : 0 < k
              · have := a2 hk
                omega
              · have hk0 : k = 0 := by omega
                subst hk0
                cases h
                simp only []
                omega
            · intro j hj hjl
              have hjl2 : j < d2.layers.length := getElem?_lt_of_eq _ _ g3 j hjl
              rw [b j (by omega) hjl2]
              rw [List.getElem?_set_ne (by omega)]
              exact g3 j hjl
            · intro j h1 h2
              by_cases hji : j = i
              · subst hji
                refine ⟨errors, l0, rl, hcl, hc, ?_⟩
                rw [b j (by omega) hlen]
                rw [List.getElem?_set_self hlen]
              · exact c j (by omega) (by omega)
          · rw [if_pos hc] at h
            cases h
            exact absurd hs hne

theorem copyMapLayers_each (env : CopyEnv) (dstp : Option Nat) (src : Copy.mapObj) :
    ∀ (k i : Nat) (dst : Copy.mapObj) (errors : List String)
      (r : Int × Copy.mapObj × List String),
    copyMapLayers env dstp src k i dst errors = some r → r.1 = MS_SUCCESS →
    ∀ j, i ≤ j → j < i + k → ∃ e p old rl,
      msCopyLayer env e p old (src.layers.getD j default) = some rl ∧ rl.1 = MS_SUCCESS := by
  intro k
  induction k with
  | zero =>
    intro i dst errors r _ _ j h1 h2
    omega
  | succ k ih =>
    intro i dst errors r h hs j h1 h2
    have hne : MS_FAILURE ≠ MS_SUCCESS := by decide
    unfold copyMapLayers at h
    cases hgrow : env.msGrowMapLayers dst with
    | none =>
      rw [hgrow] at h
      cases h
      exact absurd hs hne
    | some d2 =>
      rw [hgrow] at h
      simp only [] at h
      cases hent : d2.layers[i]? with
      | none =>
        rw [hent] at h
        cases h
      | some l0 =>
        rw [hent] at h
        simp only [] at h
        cases hcl : msCopyLayer env errors (env.layerAddress dstp i) (env.initLayer l0 dstp)
            (src.layers.getD i default) with
        | none =>
          rw [hcl] at h
          cases h
        | some rl =>
          rw [hcl] at h
          simp only [] at h
          by_cases hc : rl.1 = MS_SUCCESS
          · rw [if_neg (not_not.2 hc)] at h
            by_cases hji : j = i
            · subst hji
              exact ⟨_, _, _, rl, hcl, hc⟩
            · exact ih _ _ _ _ h hs j (by omega) (by omega)
          · rw [if_pos hc] at h
            cases h
            exact absurd hs hne

theorem copyMapLayers_defined (env : CopyEnv) (hl : growsLayers env) (hg : growsClasses env)
    (hs : growsStyles env) (hf : freshClasses env) (dstp : Option Nat) (src : Copy.mapObj)
    (hj : ∀ old m j, (src.layers.getD j default).numjoins ≤ (env.initLayer old m).joins.length) :
    ∀ (k i : Nat) (dst : Copy.mapObj) (errors : List String),
    i ≤ dst.numlayers → ∃ r, copyMapLayers env dstp src k i dst errors = some r := by
  intro k
  induction k with
  | zero =>
    intro i dst errors _
    exact ⟨_, rfl⟩
  | succ k ih =>
    intro i dst errors hi
    unfold copyMapLayers
    cases hgrow : env.msGrowMapLayers dst with
    | none => exact ⟨_, rfl⟩
    | some d2 =>
      obtain ⟨g1, g2, -, -⟩ := hl dst d2 hgrow
      simp only []
      have hlen : i < d2.layers.length := by omega
      rw [List.getElem?_eq_getElem hlen]
      simp only []
      obtain ⟨rl, hrl⟩ := msCopyLayer_defined env hg hs hf errors (env.layerAddress dstp i)
        (env.initLayer d2.layers[i] dstp) (src.layers.getD i default) (Or.inr (hj _ _ _))
      rw [hrl]
      simp only []
      by_cases hc : rl.1 = MS_SUCCESS
      · rw [if_neg (not_not.2 hc)]
        exact ih _ _ _ (by simp only []; omega)
      · rw [if_pos hc]
        exact ⟨_, rfl⟩

theorem copyMapLayers_add (env : CopyEnv) (dstp : Option Nat) (src : Copy.mapObj) (b : Nat) :
    ∀ (a i : Nat) (dst : Copy.mapObj) (errors : List String),
    copyMapLayers env dstp src (a + b) i dst errors =
      (copyMapLayers env dstp src a i dst errors).bind (fun r =>
        if r.1 ≠ MS_SUCCESS then some r
        else copyMapLayers env dstp src b (i + a) r.2.1 r.2.2) := by
  intro a
  induction a with
  | zero =>
    intro i dst errors
    have e : (copyMapLayers env dstp src 0 i dst errors) = some (MS_SUCCESS, dst, errors) := rfl
    rw [e, Nat.zero_add]
    simp only [Option.some_bind, ne_eq, not_true_eq_false, if_false, Nat.add_zero]
  | succ a ih =>
    intro i dst errors
    have hne : MS_FAILURE ≠ MS_SUCCESS := by decide
    have e1 : a + 1 + b = (a + b) + 1 := by omega
    rw [e1]
    generalize copyMapLayers env dstp src b = f at ih ⊢
    unfold copyMapLayers
    cases env.msGrowMapLayers dst with
    | none =>
      simp only [Option.some_bind]
      rw [if_pos hne]
    | some d2 =>
      simp only []
      cases d2.layers[i]? with
      | none => rfl
      | some l0 =>
        simp only []
        cases msCopyLayer env errors (env.layerAddress dstp i) (env.initLayer l0 dstp)
            (src.layers.getD i default) with
        | none => rfl
        | some rl =>
          simp only []
          by_cases hc : rl.1 = MS_SUCCESS
          · have e2 : i + 1 + a = i + (a + 1) := by omega
            simp only [if_neg (not_not.2 hc)]
            rw [ih, e2]
          · simp only [if_pos hc, Option.some_bind]
            rw [if_pos hne]

theorem copyMapLayers_stop (env : CopyEnv) (dstp : Option Nat) (src : Copy.mapObj)
    (n i : Nat) (dst : Copy.mapObj) (errors : List String)
    (r1 r2 : Int × Copy.mapObj × List String) (hi : i < n)
    (h1 : copyMapLayers env dstp src i 0 dst errors = some r1) (hs : r1.1 = MS_SUCCESS)
    (h2 : copyMapLayers env dstp src 1 i r1.2.1 r1.2.2 = some r2) (hf : r2.1 ≠ MS_SUCCESS) :
    copyMapLayers env dstp src n 0 dst errors = some r2 := by
  have e : n = i + (1 + (n - i - 1)) := by omega
  rw [e, copyMapLayers_add, h1]
  simp only [Option.some_bind]
  rw [if_neg (not_not.2 hs), Nat.zero_add, copyMapLayers_add, h2]
  simp only [Option.some_bind]
  rw [if_pos hf]

theorem copyLayerorder_length (src : List Int) (n : Nat) (dst : List Int) :
    (copyLayerorder src n dst).length = dst.length := by
  unfold copyLayerorder
  induction n with
  | zero => rfl
  | succ n ih =>
    rw [List.range_succ, List.foldl_append]
    simp only [List.foldl_cons, List.foldl_nil, List.length_set]
    exact ih

theorem copyLayerorder_get (src : List Int) (n : Nat) (dst : List Int) :
    ∀ i, i < dst.length →
      (copyLayerorder src n dst)[i]? =
        if i < n then some (src.getD i 0) else dst[i]? := by
  induction n with
  | zero =>
    intro i _
    rfl
  | succ n ih =>
    intro i hi
    have e : copyLayerorder src (n + 1) dst =
        (copyLayerorder src n dst).set n (src.getD n 0) := by
      unfold copyLayerorder
      rw [List.range_succ, List.foldl_append]
      rfl
    rw [e]
    by_cases hin : i = n
    · subst hin
      rw [List.getElem?_set_self (by rw [copyLayerorder_length]; exact hi)]
      simp
    · rw [List.getElem?_set_ne (fun h => hin h.symm), ih i hi]
      by_cases h1 : i < n
      · rw [if_pos h1, if_pos (by omega)]
      · rw [if_neg h1, if_neg (by omega)]

theorem copyMapRest_frame (env : CopyEnv) (errors : List String) (dstp : Option Nat)
    (dst src : Copy.mapObj) :
    ((copyMapRest env errors dstp dst src).1 = MS_SUCCESS ∨
      (copyMapRest env errors dstp dst src).1 = MS_FAILURE) ∧
    (copyMapRest env errors dstp dst src).2.1.layers = dst.layers ∧
    (copyMapRest env errors dstp dst src).2.1.numlayers = dst.numlayers ∧
    ((copyMapRest env errors dstp dst src).1 = MS_SUCCESS →
      (msCopyProjection env src.projection src.projection).1 = MS_SUCCESS ∧
      (copyMapRest env errors dstp dst src).2.1.layerorder =
        copyLayerorder src.layerorder dst.numlayers dst.layerorder) := by
  have hne : MS_FAILURE ≠ MS_SUCCESS := by decide
  have f1 : ∀ a b c, (msCopyFontSet env a b c).1 = MS_SUCCESS := fun _ _ _ => rfl
  have r1 : ∀ a b c, (msCopyReferenceMap env a b c).1 = MS_SUCCESS := fun _ _ _ => rfl
  have b1 : ∀ a b, (msCopyScalebar env a b).1 = MS_SUCCESS := fun _ _ => rfl
  have l1 : ∀ a b c, (msCopyLegend a b c).1 = MS_SUCCESS := fun _ _ _ => rfl
  have q1 : ∀ a b, (msCopyQueryMap a b).1 = MS_SUCCESS := fun _ _ => rfl
  have w1 : ∀ a b c, (msCopyWeb env a b c).1 = MS_SUCCESS := fun _ _ _ => rfl
  unfold copyMapRest
  simp only [f1, r1, b1, l1, q1, w1, ne_eq, not_true_eq_false, if_false]
  by_cases hy : (env.msCopySymbolSet dst.symbolset src.symbolset dstp).1 = MS_SUCCESS
  · rw [if_neg (not_not.2 hy)]
    by_cases hp : (msCopyProjection env
        (copyMapFormats env
          { dst with fontset := (msCopyFontSet env dst.fontset src.fontset dstp).2,
                     symbolset := (env.msCopySymbolSet dst.symbolset src.symbolset dstp).2 }
          src).projection src.projection).1 = MS_SUCCESS
    · rw [if_neg (not_not.2 hp)]
      exact ⟨Or.inl rfl, rfl, rfl, fun _ => ⟨hp, rfl⟩⟩
    · rw [if_pos hp]
      exact ⟨Or.inr rfl, rfl, rfl, fun h => absurd h hne⟩
  · rw [if_pos hy]
    exact ⟨Or.inr rfl, rfl, rfl, fun h => absurd h hne⟩

theorem msCopyMap_success (env : CopyEnv) (errors : List String) (dstp : Option Nat)
    (dst src : Copy.mapObj) (r : Int × Copy.mapObj × List String)
    (h : msCopyMap env errors dstp dst src = some r) (hs : r.1 = MS_SUCCESS) :
    ∃ r1, copyMapLayers env dstp src src.numlayers 0
        { dst with name := src.name, status := src.status, height := src.height,
                   width := src.width } errors = some r1 ∧
      r1.1 = MS_SUCCESS ∧
      (msCopyProjection env src.projection src.projection).1 = MS_SUCCESS ∧
      r.2.1.layers = r1.2.1.layers ∧ r.2.1.numlayers = r1.2.1.numlayers ∧
      r.2.1.layerorder = copyLayerorder src.layerorder r1.2.1.numlayers r1.2.1.layerorder := by
  unfold msCopyMap at h
  simp only [] at h
  cases hc : copyMapLayers env dstp src src.numlayers 0
      { dst with name := MS_COPYSTRING dst.name src.name,
                 status := MS_COPYSTELEM dst.status src.status,
                 height := MS_COPYSTELEM dst.height src.height,
                 width := MS_COPYSTELEM dst.width src.width } errors with
  | none =>
    rw [hc] at h
    cases h
  | some r1 =>
    rw [hc] at h
    simp only [] at h
    by_cases hr : r1.1 = MS_SUCCESS
    · rw [if_neg (not_not.2 hr)] at h
      cases h
      obtain ⟨-, f2, f3, f4⟩ := copyMapRest_frame env r1.2.2 dstp r1.2.1 src
      exact ⟨r1, hc, hr, (f4 hs).1, f2, f3, (f4 hs).2⟩
    · rw [if_pos hr] at h
      cases h
      exact absurd hs hr

theorem msCopyMap_code (env : CopyEnv) (errors : List String) (dstp : Option Nat)
    (dst src : Copy.mapObj) (r : Int × Copy.mapObj × List String)
    (h : msCopyMap env errors dstp dst src = some r) :
    r.1 = MS_SUCCESS ∨ r.1 = MS_FAILURE := by
  unfold msCopyMap at h
  simp only [] at h
  cases hc : copyMapLayers env dstp src src.numlayers 0
      { dst with name := MS_COPYSTRING dst.name src.name,
                 status := MS_COPYSTELEM dst.status src.status,
                 height := MS_COPYSTELEM dst.height src.height,
                 width := MS_COPYSTELEM dst.width src.width } errors with
  | none =>
    rw [hc] at h
    cases h
  | some r1 =>
    rw [hc] at h
    simp only [] at h
    by_cases hr : r1.1 = MS_SUCCESS
    · rw [if_neg (not_not.2 hr)] at h
      cases h
      exact (copyMapRest_frame env r1.2.2 dstp r1.2.1 src).1
    · rw [if_pos hr] at h
      cases h
      rcases copyMapLayers_code env dstp src _ _ _ _ _ hc with h1 | h1
      · exact absurd h1 hr
      · exact Or.inr h1

theorem msCopyMap_defined (env : CopyEnv) (hl : growsLayers env) (hg : growsClasses env)
    (hs : growsStyles env) (hf : freshClasses env) (errors : List String) (dstp : Option Nat)
    (dst src : Copy.mapObj)
    (hj : ∀ old m j, (src.layers.getD j default).numjoins ≤ (env.initLayer old m).joins.length) :
    ∃ r, msCopyMap env errors dstp dst src = some r := by
  unfold msCopyMap
  simp only []
  obtain ⟨r1, hr1⟩ := copyMapLayers_defined env hl hg hs hf dstp src hj src.numlayers 0
    { dst with name := MS_COPYSTRING dst.name src.name,
               status := MS_COPYSTELEM dst.status src.status,
               height := MS_COPYSTELEM dst.height src.height,
               width := MS_COPYSTELEM dst.width src.width } errors (Nat.zero_le _)
  rw [hr1]
  simp only []
  split_ifs
  · exact ⟨_, rfl⟩
  · exact ⟨_, rfl⟩

theorem msCopyMap_failure (env : CopyEnv) (errors : List String) (dstp : Option Nat)
    (dst src : Copy.mapObj) (r : Int × Copy.mapObj × List String)
    (h : msCopyMap env errors dstp dst src = some r)
    (hp : (msCopyProjection env src.projection src.projection).1 ≠ MS_SUCCESS ∨
      ∃ i, i < src.numlayers ∧
        (msCopyProjection env (src.layers.getD i default).projection
          (src.layers.getD i default).projection).1 ≠ MS_SUCCESS) : r.1 = MS_FAILURE := by
  rcases msCopyMap_code env errors dstp dst src r h with h1 | h1
  · obtain ⟨r1, a1, a2, a3, -, -, -⟩ := msCopyMap_success env errors dstp dst src r h h1
    rcases hp with hp | ⟨i, hi, hp⟩
    · exact absurd a3 hp
    · obtain ⟨e, p, old, rl, k1, k2⟩ := copyMapLayers_each env dstp src src.numlayers 0 _ errors
        r1 a1 a2 i (Nat.zero_le _) (by omega)
      obtain ⟨rc, -, -, m3⟩ := msCopyLayer_success env e p old _ rl k1 k2
      exact absurd (copyLayerRest_success env _ _ _ _ m3 k2).1 hp
  · exact h1

theorem sampleCopyEnv_growsStyles : growsStyles sampleCopyEnv := by
  intro c c2 h
  cases h
  refine ⟨rfl, ?_, ?_, fun h => h⟩
  · simp only [List.length_append, List.length_replicate]
    omega
  · intro j hj
    exact List.getElem?_append_left hj

theorem sampleCopyEnv_growsClasses : growsClasses sampleCopyEnv := by
  intro c c2 h
  cases h
  refine ⟨rfl, ?_, ?_, rfl, rfl, rfl, rfl⟩
  · simp only [List.length_append, List.length_replicate]
    omega
  · intro j hj
    exact List.getElem?_append_left hj

theorem sampleCopyEnv_growsLayers : growsLayers sampleCopyEnv := by
  intro c c2 h
  cases h
  refine ⟨rfl, ?_, ?_, ?_⟩
  · simp only [List.length_append, List.length_replicate]
    omega
  · intro j hj
    exact List.getElem?_append_left hj
  · simp only [List.length_append, List.length_replicate]
    omega

theorem sampleCopyEnv_freshClasses : freshClasses sampleCopyEnv :=
  fun _ => ⟨rfl, rfl, rfl⟩

theorem layerorder_range_count (n i : Nat) (hi : i < n) :
    ((List.range n).map (fun k : Nat => (k : Int))).count (i : Int) = 1 := by
  apply List.count_eq_one_of_mem
  · exact (List.nodup_range n).map (fun a b h => Int.ofNat.inj h)
  · exact List.mem_map.2 ⟨i, List.mem_range.2 hi, rfl⟩

theorem option_result {α : Type} (o : Option (Int × α)) (h1 : o.isSome = true)
    (h2 : o.map (fun r => r.1) = some MS_SUCCESS) : ∃ r, o = some r ∧ r.1 = MS_SUCCESS := by
  cases o with
  | none => cases h1
  | some r => exact ⟨r, rfl, Option.some.inj h2⟩

/-! ## The parent of a copied class -/

/-- C30: `msCopyClass(dst, src, layer)` does not read its argument `layer`: the call with
another layer gives the same result, and when the call returns MS_SUCCESS the parent of the
destination is the parent of the source class.  So after the loop over the classes of
`msCopyLayer` (lines 721-746), when it succeeds with a `msGrowLayerClasses` that allocates
the next entry, the class `j` of the destination layer has the parent of the class `j` of the
source layer, whatever the address `dstp` of the destination layer is. -/
theorem copy_class_parent (env : CopyEnv) (errors : List String) (dst src : Copy.classObj)
    (layer dstp : Option Nat) (dl sl : Copy.layerObj) :
    (∀ layer2, msCopyClass env errors dst src layer = msCopyClass env errors dst src layer2) ∧
    (∀ r, msCopyClass env errors dst src layer = some r → r.1 = MS_SUCCESS →
      r.2.1.layer = src.layer) ∧
    (growsClasses env → ∀ r, msCopyLayerClasses env errors dstp dl sl = some r →
      r.1 = MS_SUCCESS →
      ∀ j, j < sl.numclasses → ∃ c,
        r.2.1.classes[j]? = some c ∧ c.layer = (sl.classes.getD j default).layer) := by
  refine ⟨fun _ => rfl, fun r h hs => ?_, ?_⟩
  · obtain ⟨d1, r0, -, -, -, h4⟩ := msCopyClass_success env errors dst src layer r h hs
    rw [h4]
    exact (copyClassRest_frame env _ _ _).2.1
  · intro hg r h hs j hj
    unfold msCopyLayerClasses at h
    obtain ⟨-, -, -, c⟩ := copyLayerClasses_entries env hg dstp sl sl.numclasses 0 _ errors r
      (Nat.zero_le _) h hs
    obtain ⟨e, old, rc, h1, h2, h3⟩ := c j (Nat.zero_le _) (by omega)
    obtain ⟨d1, r0, -, -, -, h4⟩ := msCopyClass_success env e _ _ dstp rc h1 h2
    refine ⟨_, h3, ?_⟩
    rw [h4]
    exact (copyClassRest_frame env _ _ _).2.1

/-- C30 on a layer at the address 1 with two classes, copied to an empty layer at the
address 2: the copy of a class asked to have the parent 2 has the parent 1, and both classes
of the copied layer have the parent 1. -/
theorem copy_class_parent_witness :
    (∃ r, msCopyClass sampleCopyEnv [] default (sampleClass "major" 1) (some 2) = some r ∧
      r.1 = MS_SUCCESS ∧ r.2.1.layer = some 1) ∧
    (msCopyLayerClasses sampleCopyEnv [] (some 2) default (sampleCopyLayer 1)).map
      (fun r => (r.1, r.2.1.classes.map (fun c => c.layer))) =
      some (MS_SUCCESS, [some 1, some 1]) := by
  obtain ⟨r, hr, hs⟩ := option_result
    (msCopyClass sampleCopyEnv [] default (sampleClass "major" 1) (some 2))
    (by with_unfolding_all rfl) (by with_unfolding_all rfl)
  exact ⟨⟨r, hr, hs, (copy_class_parent sampleCopyEnv [] default (sampleClass "major" 1) (some 2)
      (some 2) default default).2.1 r hr hs⟩, by with_unfolding_all rfl⟩

/-! ## The children of a clone -/

/-- Claim C31, as the code has it.  `msCopyClass` releases the array `styles` of the
destination and leaves its address in the member `styles`: on a destination that holds a
style, with a source that has a style, the loop over the styles of the source works on the
released array and the call has no defined behaviour; a call that returns MS_SUCCESS with a
source that has a style started from a destination whose `styles` was NULL, and it leaves
the styles of the source, style by style; with a source without style it leaves the member
`styles` of a destination that held a style at the released array.  With grow functions that
allocate the next entry, a successful `msCopyLayer` leaves `numclasses` at the number the
destination had plus the number of classes of the source, and a successful `msCopyMap`
leaves `numlayers` at the number the destination had plus the number of layers of the
source: they do not dispose of the children of the destination. -/
theorem clone_children (env : CopyEnv) (errors : List String) (layer dstp mapp : Option Nat)
    (dc sc : Copy.classObj) (dl sl : Copy.layerObj) (dm sm : Copy.mapObj)
    (hs : growsStyles env) (hc : growsClasses env) (hl : growsLayers env) :
    (dc.styles ≠ [] → sc.numstyles ≠ 0 → msCopyClass env errors dc sc layer = none) ∧
    (∀ r, msCopyClass env errors dc sc layer = some r → r.1 = MS_SUCCESS →
      r.2.1.numstyles = sc.numstyles ∧
      (∀ j, j < sc.numstyles → r.2.1.styles[j]? = some (sc.styles.getD j default)) ∧
      (sc.numstyles ≠ 0 → dc.styles = [] ∧ r.2.1.stylesReleased = false) ∧
      (dc.styles ≠ [] → r.2.1.stylesReleased = true)) ∧
    (∀ r, msCopyLayer env errors dstp dl sl = some r → r.1 = MS_SUCCESS →
      r.2.1.numclasses = dl.numclasses + sl.numclasses) ∧
    (∀ r, msCopyMap env errors mapp dm sm = some r → r.1 = MS_SUCCESS →
      r.2.1.numlayers = dm.numlayers + sm.numlayers) := by
  refine ⟨fun h1 h2 => msCopyClass_undefined env errors dc sc layer h1 h2,
    fun r h hr => ?_, fun r h hr => ?_, fun r h hr => ?_⟩
  · obtain ⟨d1, r0, h1, h2, h3, h4⟩ := msCopyClass_success env errors dc sc layer r h hr
    obtain ⟨f1, f2, f3, f4, f5⟩ := freeClassStyles_some _ _ h1
    obtain ⟨a, a2, -, c⟩ := copyClassStyles_entries env hs sc sc.numstyles 0 d1 errors r0
      (Nat.zero_le _) h2 h3
    obtain ⟨-, -, -, q4, q5, q6⟩ := copyClassRest_frame env r0.2.2 r0.2.1 sc
    rw [h4, q4, q5, q6, a, f3]
    have hnil : sc.numstyles ≠ 0 → dc.styles = [] := by
      intro hn
      by_contra hcon
      rw [msCopyClass_undefined env errors dc sc layer hcon hn] at h
      cases h
    refine ⟨by simp only [Nat.zero_add], fun j hj => c j (Nat.zero_le _) (by omega),
      fun hn => ⟨hnil hn, a2 (by omega)⟩, fun hne => ?_⟩
    have h0 : sc.numstyles = 0 := by
      by_contra hn
      exact hne (hnil hn)
    rw [h0] at h2
    cases h2
    show d1.stylesReleased = true
    rw [f5]
    simp only [Bool.not_eq_true', List.isEmpty_eq_false, List.isEmpty_iff]
    exact hne
  · obtain ⟨rc, h1, h2, h3⟩ := msCopyLayer_success env errors dstp dl sl r h hr
    obtain ⟨-, -, m3, -, -⟩ := copyLayerRest_success env _ _ _ _ h3 hr
    rw [m3]
    unfold msCopyLayerClasses at h1
    exact (copyLayerClasses_entries env hc dstp sl sl.numclasses 0 _ errors rc
      (Nat.zero_le _) h1 h2).1
  · obtain ⟨r1, h1, h2, -, -, h5, -⟩ := msCopyMap_success env errors mapp dm sm r h hr
    rw [h5]
    exact (copyMapLayers_entries env hl mapp sm sm.numlayers 0 _ errors r1 (Nat.zero_le _)
      h1 h2).1

/-- C31 on a destination that already holds children: the clone of a class with two styles
onto a class with three styles has no defined behaviour, a layer with two classes cloned
from a layer with two classes ends with `numclasses = 4`, and a map with two layers cloned
from a map with two layers ends with `numlayers = 4`. -/
theorem clone_children_witness :
    msCopyClass sampleCopyEnv [] (sampleStyledClass 3) (sampleStyledClass 2) none = none ∧
    (∃ r, msCopyLayer sampleCopyEnv [] (some 2) (sampleCopyLayer 2) (sampleCopyLayer 1) =
      some r ∧ r.1 = MS_SUCCESS ∧ r.2.1.numclasses = 4) ∧
    (∃ r, msCopyMap sampleCopyEnv [] (some 10) sampleCopyMap sampleCopyMap = some r ∧
      r.1 = MS_SUCCESS ∧ r.2.1.numlayers = 4) := by
  have h := clone_children sampleCopyEnv [] none (some 2) (some 10) (sampleStyledClass 3)
    (sampleStyledClass 2) (sampleCopyLayer 2) (sampleCopyLayer 1) sampleCopyMap sampleCopyMap
    sampleCopyEnv_growsStyles sampleCopyEnv_growsClasses sampleCopyEnv_growsLayers
  obtain ⟨r1, hr1, hs1⟩ := option_result
    (msCopyLayer sampleCopyEnv [] (some 2) (sampleCopyLayer 2) (sampleCopyLayer 1))
    (by with_unfolding_all rfl) (by with_unfolding_all rfl)
  obtain ⟨r2, hr2, hs2⟩ := option_result
    (msCopyMap sampleCopyEnv [] (some 10) sampleCopyMap sampleCopyMap)
    (by with_unfolding_all rfl) (by with_unfolding_all rfl)
  exact ⟨h.1 (fun hcon => by cases hcon) (by decide), ⟨r1, hr1, hs1, h.2.2.1 r1 hr1 hs1⟩,
    ⟨r2, hr2, hs2, h.2.2.2 r2 hr2 hs2⟩⟩

/-! ## The counters of a clone -/

/-- Claim C32.  With grow functions that allocate the next entry and an `initLayer` that
leaves a layer without classes, a successful `msCopyMap` to a destination without layers
ends with the `numlayers` of the source; the layer `i` of the destination is held by the
array and has the `numclasses` and the `numjoins` of the layer `i` of the source; its join
`t` below `numjoins` is held by the array and is the join `t` of the source with `joininfo`
NULL; its class `j` is held by the array and has the `numstyles` of the class `j` of the
source, its array `styles` is not a released one when it has a style, and its styles below
`numstyles` are held by the array and are those of the source.  When the first `i` turns of
the loop over the layers succeed and `msCopyLayer` fails on the layer `i`, `msCopyMap`
returns MS_FAILURE and the `numlayers` of the destination is `i`. -/
theorem clone_counters (env : CopyEnv) (errors : List String) (dstp : Option Nat)
    (dst src : Copy.mapObj) (hs : growsStyles env) (hc : growsClasses env)
    (hl : growsLayers env) (hinit : ∀ l m, (env.initLayer l m).numclasses = 0)
    (hfresh : dst.numlayers = 0) :
    (∀ r, msCopyMap env errors dstp dst src = some r → r.1 = MS_SUCCESS →
      r.2.1.numlayers = src.numlayers ∧
      ∀ i, i < src.numlayers → ∃ l,
        r.2.1.layers[i]? = some l ∧
        l.numclasses = (src.layers.getD i default).numclasses ∧
        l.numjoins = (src.layers.getD i default).numjoins ∧
        (∀ t, t < l.numjoins → l.joins[t]? =
          some { ((src.layers.getD i default).joins.getD t default) with joininfo := none }) ∧
        ∀ j, j < l.numclasses → ∃ c, l.classes[j]? = some c ∧
          c.numstyles = ((src.layers.getD i default).classes.getD j default).numstyles ∧
          (0 < c.numstyles → c.stylesReleased = false) ∧
          ∀ s, s < c.numstyles → c.styles[s]? =
            some (((src.layers.getD i default).classes.getD j default).styles.getD s default)) ∧
    (∀ i d2 r1 l rl, i < src.numlayers →
      copyMapLayers env dstp src i 0
        { dst with name := src.name, status := src.status, height := src.height,
                   width := src.width } errors = some r1 →
      r1.1 = MS_SUCCESS →
      env.msGrowMapLayers r1.2.1 = some d2 →
      d2.layers[i]? = some l →
      msCopyLayer env r1.2.2 (env.layerAddress dstp i) (env.initLayer l dstp)
        (src.layers.getD i default) = some rl →
      rl.1 ≠ MS_SUCCESS →
      ∃ r, msCopyMap env errors dstp dst src = some r ∧ r.1 = MS_FAILURE ∧
        r.2.1.numlayers = i) := by
  refine ⟨fun r h hr => ?_, ?_⟩
  · obtain ⟨r1, h1, h2, -, h4, h5, -⟩ := msCopyMap_success env errors dstp dst src r h hr
    obtain ⟨a, -, -, c⟩ := copyMapLayers_entries env hl dstp src src.numlayers 0 _ errors r1
      (Nat.zero_le _) h1 h2
    rw [h4, h5, a]
    refine ⟨by simp only [hfresh, Nat.zero_add], fun i hi => ?_⟩
    obtain ⟨e, old, rl, k1, k2, k3⟩ := c i (Nat.zero_le _) (by omega)
    obtain ⟨rc, m1, m2, m3⟩ := msCopyLayer_success env e _ _ _ rl k1 k2
    obtain ⟨-, p2, p3, p4, p5⟩ := copyLayerRest_success env _ _ _ _ m3 k2
    unfold msCopyLayerClasses at m1
    obtain ⟨n1, -, -, n3⟩ := copyLayerClasses_entries env hc (env.layerAddress dstp i)
      (src.layers.getD i default) (src.layers.getD i default).numclasses 0 _ e rc
      (Nat.zero_le _) m1 m2
    have hnum : rl.2.1.numclasses = (src.layers.getD i default).numclasses := by
      rw [p3, n1]
      simp only [hinit, Nat.zero_add]
    refine ⟨rl.2.1, k3, hnum, p4, fun t ht => ?_, fun j hj => ?_⟩
    · rw [p4] at ht
      obtain ⟨o, -, o2⟩ := p5 t ht
      rw [o2, msCopyJoin_eq]
    · rw [hnum] at hj
      obtain ⟨e2, old2, rk, q1, q2, q3⟩ := n3 j (Nat.zero_le _) (by omega)
      obtain ⟨d1, r0, s1, s2, s3, s4⟩ := msCopyClass_success env e2 _ _ _ rk q1 q2
      obtain ⟨-, -, f3, -, -⟩ := freeClassStyles_some _ _ s1
      obtain ⟨t1, t2, -, t4⟩ := copyClassStyles_entries env hs _ _ 0 d1 e2 r0 (Nat.zero_le _)
        s2 s3
      obtain ⟨-, -, -, u4, u5, u6⟩ := copyClassRest_frame env r0.2.2 r0.2.1
        ((src.layers.getD i default).classes.getD j default)
      have hn : rk.2.1.numstyles =
          ((src.layers.getD i default).classes.getD j default).numstyles := by
        rw [s4, u4, t1, f3, Nat.zero_add]
      refine ⟨rk.2.1, by rw [p2]; exact q3, hn, fun hpos => ?_, fun s hs2 => ?_⟩
      · rw [s4, u6]
        exact t2 (by rw [hn] at hpos; exact hpos)
      · rw [s4, u5]
        exact t4 s (Nat.zero_le _) (by rw [hn] at hs2; omega)
  · intro i d2 r1 l rl hi h1 hs1 hgrow hent hcl hfail
    have hstep : copyMapLayers env dstp src 1 i r1.2.1 r1.2.2 =
        some (MS_FAILURE, { d2 with layers := d2.layers.set i rl.2.1 },
          rl.2.2 ++ ["Failed to copy layer."]) := by
      unfold copyMapLayers
      rw [hgrow]
      simp only []
      rw [hent]
      simp only []
      rw [hcl]
      simp only []
      rw [if_pos hfail]
    have hne : MS_FAILURE ≠ MS_SUCCESS := by decide
    have hstop := copyMapLayers_stop env dstp src src.numlayers i _ errors r1 _ hi h1 hs1
      hstep hne
    have hnum := (copyMapLayers_entries env hl dstp src i 0 _ errors r1 (Nat.zero_le _) h1
      hs1).1
    refine ⟨(MS_FAILURE, { d2 with layers := d2.layers.set i rl.2.1 },
      rl.2.2 ++ ["Failed to copy layer."]), ?_, rfl, ?_⟩
    · unfold msCopyMap
      simp only []
      have hstop2 : copyMapLayers env dstp src src.numlayers 0
          { dst with name := MS_COPYSTRING dst.name src.name,
                     status := MS_COPYSTELEM dst.status src.status,
                     height := MS_COPYSTELEM dst.height src.height,
                     width := MS_COPYSTELEM dst.width src.width } errors = _ := hstop
      rw [hstop2]
      simp only []
      rw [if_pos hne]
    · show d2.numlayers = i
      rw [(hl _ _ hgrow).1, hnum]
      simp only [hfresh, Nat.zero_add]

/-- C32 on the sample maps, cloned to a map without layers: the clone of `sampleCopyMap` has
two layers with the counters of the source, the second with the join `owners`, and the
clone of `sampleBadMap`, whose layer 1 cannot be copied, fails with `numlayers = 1`. -/
theorem clone_counters_witness :
    (∃ r, msCopyMap sampleCopyEnv [] (some 10) default sampleCopyMap = some r ∧
      r.1 = MS_SUCCESS ∧ r.2.1.numlayers = 2) ∧
    (msCopyMap sampleCopyEnv [] (some 10) default sampleCopyMap).map
      (fun r => r.2.1.layers.map (fun l =>
        (l.numclasses, l.numjoins, (l.joins.take l.numjoins).map (fun j => j.name),
          l.classes.map (fun c => c.numstyles)))) =
      some [(2, 0, [], [0, 0]), (1, 1, [some "owners"], [2])] ∧
    (∃ r, msCopyMap sampleCopyEnv [] (some 10) default sampleBadMap = some r ∧
      r.1 = MS_FAILURE ∧ r.2.1.numlayers = 1) := by
  have h := clone_counters sampleCopyEnv [] (some 10) default sampleCopyMap
    sampleCopyEnv_growsStyles sampleCopyEnv_growsClasses sampleCopyEnv_growsLayers
    (fun _ _ => rfl) rfl
  have h2 := (clone_counters sampleCopyEnv [] (some 10) default sampleBadMap
    sampleCopyEnv_growsStyles sampleCopyEnv_growsClasses sampleCopyEnv_growsLayers
    (fun _ _ => rfl) rfl).2 1
  obtain ⟨r, hr, hs⟩ := option_result
    (msCopyMap sampleCopyEnv [] (some 10) default sampleCopyMap)
    (by with_unfolding_all rfl) (by with_unfolding_all rfl)
  refine ⟨⟨r, hr, hs, (h.1 r hr hs).1⟩, by with_unfolding_all rfl, ?_⟩
  have hne : MS_FAILURE ≠ MS_SUCCESS := by decide
  exact h2 _
    ((copyMapLayers sampleCopyEnv (some 10) sampleBadMap 1 0
      { (default : Copy.mapObj) with
        name := sampleBadMap.name, status := sampleBadMap.status,
        height := sampleBadMap.height, width := sampleBadMap.width } []).get
      (by with_unfolding_all rfl))
    default
    ((msCopyLayer sampleCopyEnv [] (some 12)
      (sampleCopyEnv.initLayer default (some 10))
      { (default : Copy.layerObj) with projection := { args := ["bad"] } }).get
      (by with_unfolding_all rfl))
    (by decide) (Option.some_get _).symm (by with_unfolding_all rfl) rfl
    (by with_unfolding_all rfl) (by with_unfolding_all rfl)
    (fun hcon => hne ((by with_unfolding_all rfl : _ = MS_FAILURE).symm.trans hcon))

/-! ## The layer order of a clone -/

/-- Claim C33.  For a source map whose `layerorder[0..numlayers)` is a permutation of
`0..numlayers-1` and a destination without layers, with a `msGrowMapLayers` that allocates
the next entry of `layers` and of `layerorder`, after a successful `msCopyMap` the entry `i`
of the `layerorder` of the destination is the entry `i` of the source, for every `i` below
`numlayers`; so `layerorder[0..numlayers)` of the destination is that of the source, it is a
permutation of `0..numlayers-1`, and every layer index occurs exactly once in it. -/
theorem clone_layerorder (env : CopyEnv) (errors : List String) (dstp : Option Nat)
    (dst src : Copy.mapObj) (r : Int × Copy.mapObj × List String) (hl : growsLayers env)
    (hfresh : dst.numlayers = 0)
    (hperm : (src.layerorder.take src.numlayers).Perm
      ((List.range src.numlayers).map (fun k : Nat => (k : Int))))
    (hr : msCopyMap env errors dstp dst src = some r) (hs : r.1 = MS_SUCCESS) :
    (∀ i, i < src.numlayers → r.2.1.layerorder[i]? = src.layerorder[i]?) ∧
    r.2.1.layerorder.take r.2.1.numlayers = src.layerorder.take src.numlayers ∧
    (r.2.1.layerorder.take r.2.1.numlayers).Perm
      ((List.range r.2.1.numlayers).map (fun k : Nat => (k : Int))) ∧
    ∀ i, i < r.2.1.numlayers →
      (r.2.1.layerorder.take r.2.1.numlayers).count (i : Int) = 1 := by
  obtain ⟨r1, h1, h2, -, -, h4, h5⟩ := msCopyMap_success env errors dstp dst src r hr hs
  obtain ⟨a, a2, -, -⟩ := copyMapLayers_entries env hl dstp src src.numlayers 0 _ errors r1
    (Nat.zero_le _) h1 h2
  have hnum : r.2.1.numlayers = src.numlayers := by
    rw [h4, a]
    simp only [hfresh, Nat.zero_add]
  have hlen : src.numlayers ≤ src.layerorder.length := by
    have := hperm.length_eq
    simp only [List.length_take, List.length_map, List.length_range] at this
    omega
  have hget : ∀ i, i < src.numlayers → r.2.1.layerorder[i]? = src.layerorder[i]? := by
    intro i hi
    have hcap := a2 (by omega)
    simp only [hfresh, Nat.zero_add] at hcap
    rw [h5, a, copyLayerorder_get _ _ _ i (by omega)]
    simp only [hfresh, Nat.zero_add]
    rw [if_pos hi, List.getD_eq_getElem?_getD, List.getElem?_eq_getElem (by omega)]
    rfl
  have htake : r.2.1.layerorder.take r.2.1.numlayers = src.layerorder.take src.numlayers := by
    rw [hnum]
    apply List.ext_getElem?
    intro i
    rw [List.getElem?_take, List.getElem?_take]
    by_cases hi : i < src.numlayers
    · rw [if_pos hi, if_pos hi]
      exact hget i hi
    · rw [if_neg hi, if_neg hi]
  refine ⟨hget, htake, ?_, ?_⟩
  · rw [htake, hnum]
    exact hperm
  · intro i hi
    rw [htake, hperm.count_eq]
    exact layerorder_range_count _ _ (by rw [hnum] at hi; exact hi)

/-- C33 on `sampleCopyMap`, whose layer order is 1, 0, cloned to a map without layers: the
layer order of the clone is 1, 0. -/
theorem clone_layerorder_witness :
    ∃ r, msCopyMap sampleCopyEnv [] (some 10) default sampleCopyMap = some r ∧
      r.1 = MS_SUCCESS ∧ r.2.1.layerorder.take r.2.1.numlayers = [1, 0] := by
  obtain ⟨r, hr, hs⟩ := option_result
    (msCopyMap sampleCopyEnv [] (some 10) default sampleCopyMap)
    (by with_unfolding_all rfl) (by with_unfolding_all rfl)
  exact ⟨r, hr, hs,
   (clone_layerorder sampleCopyEnv [] (some 10) default sampleCopyMap r
      sampleCopyEnv_growsLayers rfl
      (List.Perm.swap (0 : Int) 1 [] : ([1, 0] : List Int).Perm [0, 1]) hr hs).2.1⟩

/-! ## The projection of a clone -/

/-- Claim C34.  `msCopyProjection(dst, src)`, built with USE_PROJ.  For a source without
arguments it returns MS_SUCCESS and a destination with no argument, and `msProcessProjection`
is not called.  For a source with an argument it hands a projection with the arguments of
the source to `msProcessProjection`, and returns MS_SUCCESS if and only if that call does,
and MS_FAILURE otherwise; when `msProcessProjection` keeps the arguments, the destination has
the arguments and the argument count of the source.  When the copy of the projection of the
source layer fails, a call of `msCopyLayer` that returns returns MS_FAILURE, and it does
return with grow functions that allocate the next entry and an `initClass` that leaves no
styles.  When the copy of the projection of the source map or of one of its layers fails, a
call of `msCopyMap` that returns returns MS_FAILURE, and it does return when moreover
`initLayer` leaves room for the joins of the layers of the source. -/
theorem copy_projection (env : CopyEnv) (errors : List String) (dstp : Option Nat)
    (dp sp : projectionObj) (dl sl : Copy.layerObj) (dm sm : Copy.mapObj) :
    (sp.numargs = 0 → msCopyProjection env dp sp = (MS_SUCCESS, { args := sp.args })) ∧
    (sp.numargs ≠ 0 →
      ((msCopyProjection env dp sp).1 = MS_SUCCESS ↔
        (env.msProcessProjection { args := sp.args }).1 = MS_SUCCESS) ∧
      ((msCopyProjection env dp sp).1 ≠ MS_SUCCESS → (msCopyProjection env dp sp).1 = MS_FAILURE) ∧
      (msCopyProjection env dp sp).2 = (env.msProcessProjection { args := sp.args }).2) ∧
    ((∀ p, (env.msProcessProjection p).2.args = p.args) →
      (msCopyProjection env dp sp).2.args = sp.args ∧
      (msCopyProjection env dp sp).2.numargs = sp.numargs) ∧
    ((msCopyProjection env dl.projection sl.projection).1 ≠ MS_SUCCESS →
      (∀ r, msCopyLayer env errors dstp dl sl = some r → r.1 = MS_FAILURE) ∧
      (growsClasses env → growsStyles env → freshClasses env →
        ∃ r, msCopyLayer env errors dstp dl sl = some r ∧ r.1 = MS_FAILURE)) ∧
    ((msCopyProjection env dm.projection sm.projection).1 ≠ MS_SUCCESS ∨
      (∃ i, i < sm.numlayers ∧
        (msCopyProjection env dp (sm.layers.getD i default).projection).1 ≠ MS_SUCCESS) →
      (∀ r, msCopyMap env errors dstp dm sm = some r → r.1 = MS_FAILURE) ∧
      (growsLayers env → growsClasses env → growsStyles env → freshClasses env →
        (∀ old m j,
          (sm.layers.getD j default).numjoins ≤ (env.initLayer old m).joins.length) →
        ∃ r, msCopyMap env errors dstp dm sm = some r ∧ r.1 = MS_FAILURE)) := by
  have hne : MS_FAILURE ≠ MS_SUCCESS := by decide
  have hnum : ({ args := sp.args } : projectionObj).numargs = sp.numargs := rfl
  refine ⟨fun h => ?_, fun h => ?_, fun hk => ?_, fun h => ?_, fun h => ?_⟩
  · unfold msCopyProjection
    simp only []
    rw [hnum, if_neg (not_not.2 h)]
  · unfold msCopyProjection
    simp only []
    rw [hnum, if_pos h]
    by_cases hp : (env.msProcessProjection { args := sp.args }).1 = MS_SUCCESS
    · rw [if_neg (not_not.2 hp)]
      exact ⟨⟨fun _ => hp, fun _ => rfl⟩, fun hcon => absurd rfl hcon, rfl⟩
    · rw [if_pos hp]
      exact ⟨⟨fun hcon => absurd hcon hne, fun hcon => absurd hcon hp⟩, fun _ => rfl, rfl⟩
  · have hargs : (msCopyProjection env dp sp).2.args = sp.args := by
      unfold msCopyProjection
      simp only []
      split_ifs
      · exact hk _
      · exact hk _
      · rfl
    refine ⟨hargs, ?_⟩
    unfold projectionObj.numargs
    rw [hargs]
  · refine ⟨fun r hr => msCopyLayer_failure env errors dstp dl sl r h hr, fun hg hs hf => ?_⟩
    obtain ⟨r, hr⟩ := msCopyLayer_defined env hg hs hf errors dstp dl sl (Or.inl h)
    exact ⟨r, hr, msCopyLayer_failure env errors dstp dl sl r h hr⟩
  · have h2 : (msCopyProjection env sm.projection sm.projection).1 ≠ MS_SUCCESS ∨
        ∃ i, i < sm.numlayers ∧
          (msCopyProjection env (sm.layers.getD i default).projection
            (sm.layers.getD i default).projection).1 ≠ MS_SUCCESS := h
    refine ⟨fun r hr => msCopyMap_failure env errors dstp dm sm r hr h2,
      fun hl hg hs hf hj => ?_⟩
    obtain ⟨r, hr⟩ := msCopyMap_defined env hl hg hs hf errors dstp dm sm hj
    exact ⟨r, hr, msCopyMap_failure env errors dstp dm sm r hr h2⟩

/-- C34 on the sample collaborators, whose `msProcessProjection` fails on the argument
`bad`: the copy of a projection without arguments and of the projection `init=epsg:4326`
succeed, the copy of the projection `bad` fails, and so do the copy of a layer with that
projection and the copy of `sampleBadMap`, whose layer 1 has it. -/
theorem copy_projection_witness :
    msCopyProjection sampleCopyEnv default { args := [] } = (MS_SUCCESS, { args := [] }) ∧
    (msCopyProjection sampleCopyEnv default { args := ["init=epsg:4326"] }).1 = MS_SUCCESS ∧
    (msCopyProjection sampleCopyEnv default { args := ["bad"] }).1 = MS_FAILURE ∧
    (∃ r, msCopyLayer sampleCopyEnv [] (some 2) default
      { (default : Copy.layerObj) with projection := { args := ["bad"] } } = some r ∧
      r.1 = MS_FAILURE) ∧
    (∃ r, msCopyMap sampleCopyEnv [] (some 10) default sampleBadMap = some r ∧
      r.1 = MS_FAILURE) :=
  have hne : MS_FAILURE ≠ MS_SUCCESS := by decide
  have hbad : ∀ d, (msCopyProjection sampleCopyEnv d { args := ["bad"] }).1 = MS_FAILURE :=
    fun _ => by with_unfolding_all rfl
  have h := copy_projection sampleCopyEnv [] (some 2) default { args := ["bad"] } default
    { (default : Copy.layerObj) with projection := { args := ["bad"] } } default sampleBadMap
  ⟨(copy_projection sampleCopyEnv [] none default { args := [] } default default default
      default).1 rfl,
   by with_unfolding_all rfl,
   hbad _,
   (h.2.2.2.1 (fun hcon => hne ((hbad _).symm.trans hcon))).2 sampleCopyEnv_growsClasses
     sampleCopyEnv_growsStyles sampleCopyEnv_freshClasses,
   ((copy_projection sampleCopyEnv [] (some 10) default { args := ["bad"] } default default
      default sampleBadMap).2.2.2.2
      (Or.inr ⟨1, by decide, fun hcon => hne ((hbad _).symm.trans hcon)⟩)).2
      sampleCopyEnv_growsLayers sampleCopyEnv_growsClasses sampleCopyEnv_growsStyles
      sampleCopyEnv_freshClasses (fun _ _ j => by
        show (sampleBadMap.layers.getD j default).numjoins ≤ 20
        have e : ∀ j, (sampleBadMap.layers.getD j default).numjoins = 0 := by
          intro j
          rcases j with _ | _ | j
          · rfl
          · rfl
          · rfl
        rw [e]
        exact Nat.zero_le _)⟩

/-! ## The layer section of the capabilities: every layer once -/

theorem foldlM_option_mono {σ α : Type} (f g : σ → α → Option σ)
    (h : ∀ s a r, f s a = some r → g s a = some r) :
    ∀ (l : List α) (s r : σ), l.foldlM f s = some r → l.foldlM g s = some r := by
  intro l
  induction l with
  | nil => intro s r h1; exact h1
  | cons a l ih =>
    intro s r h1
    rw [List.foldlM_cons] at h1 ⊢
    cases hf : f s a with
    | none =>
      rw [hf] at h1
      cases h1
    | some s1 =>
      rw [hf] at h1
      rw [h s a s1 hf]
      exact ih s1 r h1

theorem option_bind_mono {α β : Type} {x y : Option α} {f g : α → Option β}
    (hx : ∀ a, x = some a → y = some a) (hf : ∀ a b, f a = some b → g a = some b) (b : β)
    (h : x.bind f = some b) : y.bind g = some b := by
  cases x with
  | none => cases h
  | some a =>
    rw [hx a rfl]
    exact hf a b h

theorem dumpCount_append (a b : List capItem) (k : Nat) :
    dumpCount (a ++ b) k = dumpCount a k + dumpCount b k := by
  unfold dumpCount
  exact List.countP_append _ _ _

theorem dumpCount_dump (i k : Nat) (indent : String) :
    dumpCount [capItem.dumpLayer i indent] k = if i = k then 1 else 0 := by
  unfold dumpCount
  by_cases h : i = k
  · simp [h]
  · simp [h]

theorem groupDepth_le (nested : List (List String)) (i : Nat) :
    (nested.getD i []).length ≤ groupDepth nested := by
  unfold groupDepth
  induction nested generalizing i with
  | nil => simp
  | cons a l ih =>
    cases i with
    | zero => simp
    | succ i =>
      simp only [List.getD_cons_succ, List.map_cons, List.foldr_cons]
      exact le_trans (ih i) (le_max_right _ _)

theorem isSubGroup_num (c : List String) (l : Nat) (o : List String) (n : Nat)
    (h : msWMSIsSubGroup c l o n ≠ MS_FALSE) : l < n := by
  unfold msWMSIsSubGroup at h
  by_contra hcon
  rw [if_pos (by omega)] at h
  exact h rfl

theorem groupExt_refl (st : groupState) : groupExt st st [] := by
  refine ⟨by simp, rfl, fun k h => h, fun k => ?_⟩
  cases st.pabLayerProcessed.getD k false <;> simp [dumpCount]

theorem groupExt_trans (st st2 st3 : groupState) (a b : List capItem)
    (h1 : groupExt st st2 a) (h2 : groupExt st2 st3 b) : groupExt st st3 (a ++ b) := by
  obtain ⟨a1, a2, a3, a4⟩ := h1
  obtain ⟨b1, b2, b3, b4⟩ := h2
  refine ⟨by rw [b1, a1, List.append_assoc], by rw [b2, a2], fun k h => b3 k (a3 k h),
    fun k => ?_⟩
  rw [dumpCount_append, a4 k, b4 k]
  have m1 := a3 k
  have m2 := b3 k
  cases h1 : st.pabLayerProcessed.getD k false <;>
    cases h2 : st2.pabLayerProcessed.getD k false <;>
    cases h3 : st3.pabLayerProcessed.getD k false <;> simp_all

theorem groupExt_dump (st : groupState) (index : Nat) (indent : String)
    (hi : index < st.pabLayerProcessed.length)
    (hu : st.pabLayerProcessed.getD index false = false) :
    groupExt st (dumpAndMark st index indent) [capItem.dumpLayer index indent] ∧
    (dumpAndMark st index indent).pabLayerProcessed.getD index false = true ∧
    ∀ k, k ≠ index → (dumpAndMark st index indent).pabLayerProcessed.getD k false =
      st.pabLayerProcessed.getD k false := by
  have hget : ∀ k, (st.pabLayerProcessed.set index true).getD k false =
      if index = k then true else st.pabLayerProcessed.getD k false := by
    intro k
    simp only [List.getD_eq_getElem?_getD, List.getElem?_set]
    by_cases hk : index = k
    · subst hk
      simp [hi]
    · simp [hk]
  unfold dumpAndMark
  refine ⟨⟨rfl, by simp, fun k h => ?_, fun k => ?_⟩, ?_, fun k hk => ?_⟩
  · simp only [hget]
    split_ifs
    · rfl
    · exact h
  · rw [dumpCount_dump]
    simp only [hget]
    by_cases hk : index = k
    · subst hk
      rw [if_pos rfl, if_pos]
      exact ⟨by rw [if_pos rfl], hu⟩
    · rw [if_neg hk, if_neg]
      rintro ⟨h1, h2⟩
      rw [if_neg hk] at h1
      rw [h1] at h2
      cases h2
  · simp only [hget, if_true]
  · simp only [hget]
    rw [if_neg (fun h => hk h.symm)]

theorem nestedExt_refl (nested : List (List String)) (st : groupState) :
    nestedExt nested st st [] :=
  ⟨groupExt_refl st, fun _ _ => rfl, fun _ h => (by cases h), rfl⟩

theorem nestedExt_trans (nested : List (List String)) (st st2 st3 : groupState)
    (a b : List capItem) (h1 : nestedExt nested st st2 a) (h2 : nestedExt nested st2 st3 b) :
    nestedExt nested st st3 (a ++ b) := by
  obtain ⟨a1, a2, a3, a4⟩ := h1
  obtain ⟨b1, b2, b3, b4⟩ := h2
  refine ⟨groupExt_trans st st2 st3 a b a1 b1, fun k hk => by rw [b2 k hk, a2 k hk],
    fun g hg => ?_, ?_⟩
  · rcases List.mem_append.1 hg with h | h
    · exact a3 g h
    · exact b3 g h
  · rw [List.count_append, List.count_append, a4, b4]

theorem nestedExt_wrap (nested : List (List String)) (st st3 : groupState) (t : String)
    (new : List capItem)
    (h : nestedExt nested
      { st with items := st.items ++ [capItem.openGroup, capItem.title t] } st3 new) :
    nestedExt nested st { st3 with items := st3.items ++ [capItem.closeGroup] }
      ([capItem.openGroup, capItem.title t] ++ new ++ [capItem.closeGroup]) := by
  obtain ⟨⟨a1, a2, a3, a4⟩, b, c, d⟩ := h
  refine ⟨⟨?_, a2, a3, fun k => ?_⟩, b, fun g hg => ?_, ?_⟩
  · simp only [a1, List.append_assoc]
  · rw [dumpCount_append, dumpCount_append, a4 k]
    simp [dumpCount]
  · simp only [List.mem_append, List.mem_cons, List.mem_singleton, List.not_mem_nil,
      or_false] at hg
    rcases hg with (h | h) | h
    · rcases h with h | h <;> cases h
    · exact c g h
    · cases h
  · simp only [List.count_append, d]
    simp [List.count_cons]
    omega

theorem nestedLoop_ext (n : Nat) (nested : List (List String))
    (body : groupState → Nat → Option groupState)
    (hbody : ∀ st j, st.pabLayerProcessed.length = n → j < n →
      ∃ st2 new, body st j = some st2 ∧ nestedExt nested st st2 new) :
    ∀ (js : List Nat) (st : groupState), (∀ j ∈ js, j < n) →
      st.pabLayerProcessed.length = n →
      ∃ st2 new, js.foldlM body st = some st2 ∧ nestedExt nested st st2 new := by
  intro js
  induction js with
  | nil =>
    intro st _ _
    exact ⟨st, [], rfl, nestedExt_refl nested st⟩
  | cons j js ih =>
    intro st hjs hlen
    obtain ⟨s1, n1, e1, x1⟩ := hbody st j hlen (hjs j (List.mem_cons_self _ _))
    obtain ⟨s2, n2, e2, x2⟩ := ih s1 (fun k hk => hjs k (List.mem_cons_of_mem _ hk))
      (by rw [x1.1.2.1, hlen])
    refine ⟨s2, n1 ++ n2, ?_, nestedExt_trans nested st s1 s2 n1 n2 x1 x2⟩
    rw [List.foldlM_cons, e1]
    exact e2

theorem printNestedGroups_succ (n : Nat) (nested : List (List String)) (fuel : Nat)
    (st : groupState) (index level : Nat) :
    msWMSPrintNestedGroups n nested (fuel + 1) st index level =
      if (nested.getD index []).length ≤ level then some (dumpAndMark st index "")
      else
        (if st.pabLayerProcessed.getD index false = false then
          msWMSPrintNestedGroups n nested fuel
            { st with items := st.items ++
              [capItem.openGroup, capItem.title ((nested.getD index []).getD level "")] }
            index (level + 1)
         else some { st with items := st.items ++
              [capItem.openGroup, capItem.title ((nested.getD index []).getD level "")] }).bind
        fun st =>
        ((List.range' (index + 1) (n - (index + 1))).foldlM
          (fun st j =>
            if msWMSIsSubGroup (nested.getD index []) level (nested.getD j [])
                (nested.getD j []).length ≠ MS_FALSE then
              if st.pabLayerProcessed.getD j false = false then
                msWMSPrintNestedGroups n nested fuel st j (level + 1)
              else some st
            else some st) st).bind fun st =>
        some { st with items := st.items ++ [capItem.closeGroup] } := by
  rw [msWMSPrintNestedGroups]

theorem printNestedGroups_ext (n : Nat) (nested : List (List String)) :
    ∀ (fuel : Nat) (st : groupState) (index level : Nat),
    st.pabLayerProcessed.length = n → index < n →
    st.pabLayerProcessed.getD index false = false →
    level ≤ (nested.getD index []).length → 0 < (nested.getD index []).length →
    groupDepth nested + 1 ≤ fuel + level →
    ∃ st2 new, msWMSPrintNestedGroups n nested fuel st index level = some st2 ∧
      nestedExt nested st st2 new ∧ st2.pabLayerProcessed.getD index false = true := by
  intro fuel
  induction fuel with
  | zero =>
    intro st index level _ _ _ hl _ hf
    have := groupDepth_le nested index
    omega
  | succ fuel ih =>
    intro st index level hlen hi hu hl hpos hf
    rw [printNestedGroups_succ]
    by_cases hleaf : (nested.getD index []).length ≤ level
    · rw [if_pos hleaf]
      obtain ⟨x1, x2, x3⟩ := groupExt_dump st index "" (by rw [hlen]; exact hi) hu
      refine ⟨_, _, rfl, ⟨x1, fun k hk => x3 k (fun h => ?_), fun g hg => ?_, rfl⟩, x2⟩
      · subst h
        omega
      · simp only [List.mem_singleton] at hg
        cases hg
    · rw [if_neg hleaf, if_pos hu]
      obtain ⟨s2, n2, e2, x2, p2⟩ := ih
        { st with items := st.items ++
          [capItem.openGroup, capItem.title ((nested.getD index []).getD level "")] }
        index (level + 1) hlen hi hu (by omega) hpos (by omega)
      rw [e2, Option.some_bind]
      obtain ⟨s3, n3, e3, x3⟩ := nestedLoop_ext n nested
        (fun st j =>
            if msWMSIsSubGroup (nested.getD index []) level (nested.getD j [])
                (nested.getD j []).length ≠ MS_FALSE then
              if st.pabLayerProcessed.getD j false = false then
                msWMSPrintNestedGroups n nested fuel st j (level + 1)
              else some st
            else some st)
        (fun s j hs hj => by
          by_cases hsub : msWMSIsSubGroup (nested.getD index []) level (nested.getD j [])
              (nested.getD j []).length ≠ MS_FALSE
          · by_cases hup : s.pabLayerProcessed.getD j false = false
            · have hnum := isSubGroup_num _ _ _ _ hsub
              obtain ⟨s4, n4, e4, x4, -⟩ := ih s j (level + 1) hs hj hup (by omega) (by omega)
                (by omega)
              refine ⟨s4, n4, ?_, x4⟩
              simp only [if_pos hsub, if_pos hup]
              exact e4
            · refine ⟨s, [], ?_, nestedExt_refl nested s⟩
              simp only [if_pos hsub, if_neg hup]
          · refine ⟨s, [], ?_, nestedExt_refl nested s⟩
            simp only [if_neg hsub])
        (List.range' (index + 1) (n - (index + 1))) s2
        (fun j hj => by
          rw [List.mem_range'_1] at hj
          omega)
        (by rw [x2.1.2.1]; exact hlen)
      · rw [e3, Option.some_bind]
        refine ⟨_, _, rfl, nestedExt_wrap nested st s3 _ (n2 ++ n3)
          (nestedExt_trans nested _ s2 s3 n2 n3 x2 x3), ?_⟩
        exact x3.1.2.2.1 index p2

theorem printNestedGroups_mono (n : Nat) (nested : List (List String)) :
    ∀ (fuel : Nat) (st : groupState) (index level : Nat) (r : groupState),
    msWMSPrintNestedGroups n nested fuel st index level = some r →
    msWMSPrintNestedGroups n nested (fuel + 1) st index level = some r := by
  intro fuel
  induction fuel with
  | zero =>
    intro st index level r h
    cases h
  | succ fuel ih =>
    intro st index level r h
    rw [printNestedGroups_succ] at h ⊢
    by_cases hleaf : (nested.getD index []).length ≤ level
    · rw [if_pos hleaf] at h ⊢
      exact h
    · rw [if_neg hleaf] at h ⊢
      refine option_bind_mono (fun a ha => ?_) (fun a b hb => ?_) r h
      · split_ifs at ha ⊢
        · exact ih _ _ _ _ ha
        · exact ha
      · refine option_bind_mono (fun c hc => ?_) (fun _ _ h => h) b hb
        refine foldlM_option_mono _ _ (fun s j r2 hr => ?_) _ _ _ hc
        simp only [] at hr ⊢
        split_ifs at hr ⊢
        · exact ih _ _ _ _ hr
        · exact hr
        · exact hr

theorem layerGroup_lt (m : mapObj) (j : Nat) (g : String) (h : layerGroup m j = some g) :
    j < m.layers.length := by
  unfold layerGroup at h
  by_contra hcon
  rw [List.getElem?_eq_none (by omega)] at h
  cases h

theorem prepare_length (env : Env) (m : mapObj) :
    (msWMSPrepareNestedGroups env m).1.length = m.layers.length := by
  unfold msWMSPrepareNestedGroups
  exact List.length_map _ _

theorem prepare_flat (env : Env) (m : mapObj) (j : Nat) (g : String)
    (hg : layerGroup m j = some g) (hl : g.length ≠ 0) :
    ((msWMSPrepareNestedGroups env m).1.getD j []).length = 0 := by
  unfold layerGroup at hg
  unfold msWMSPrepareNestedGroups
  simp only [List.getD_eq_getElem?_getD, List.getElem?_map]
  cases hlp : m.layers[j]? with
  | none => rfl
  | some lp =>
    rw [hlp] at hg
    have hgrp : lp.group = some g := hg
    simp only [Option.map_some', Option.getD_some]
    unfold prepareNestedGroup
    cases env.msOWSLookupMetadata lp.metadata "MO" "layer_group" with
    | none => rfl
    | some groups =>
      have hboth : lp.group ≠ none ∧ (lp.group.getD "").length ≠ 0 := by
        rw [hgrp]
        exact ⟨fun h => (by cases h), hl⟩
      simp only []
      rw [if_pos hboth]
      split_ifs <;> rfl

theorem dumpCount_map (l : List Nat) (indent : String) (k : Nat) :
    dumpCount (l.map (fun j => capItem.dumpLayer j indent)) k = l.count k := by
  unfold dumpCount
  rw [List.countP_map]
  rfl

theorem count_map_dump (l : List Nat) (indent : String) (e : capItem)
    (he : ∀ j, e ≠ capItem.dumpLayer j indent) :
    (l.map (fun j => capItem.dumpLayer j indent)).count e = 0 := by
  apply List.count_eq_zero_of_not_mem
  intro h
  obtain ⟨j, -, hj⟩ := List.mem_map.1 h
  exact he j hj.symm

theorem dumpGroup_loop (m : mapObj) (g : String) :
    ∀ (js : List Nat) (st : groupState), js.Nodup →
    (∀ j ∈ js, j < st.pabLayerProcessed.length) →
    (js.foldl (dumpGroupLayer m g) st).pabLayerProcessed.length =
      st.pabLayerProcessed.length ∧
    (∀ k, (js.foldl (dumpGroupLayer m g) st).pabLayerProcessed.getD k false = true ↔
      (st.pabLayerProcessed.getD k false = true ∨ (k ∈ js ∧ layerGroup m k = some g))) ∧
    (js.foldl (dumpGroupLayer m g) st).items = st.items ++
      (js.filter (fun j => decide (st.pabLayerProcessed.getD j false = false ∧
        layerGroup m j = some g))).map (fun j => capItem.dumpLayer j "  ") := by
  intro js
  induction js with
  | nil =>
    intro st _ _
    refine ⟨rfl, fun k => ?_, by simp⟩
    simp
  | cons j js ih =>
    intro st hnd hlt
    rw [List.foldl_cons]
    have hj : j < st.pabLayerProcessed.length := hlt j (List.mem_cons_self _ _)
    have hnd2 : js.Nodup := (List.nodup_cons.1 hnd).2
    have hjs : j ∉ js := (List.nodup_cons.1 hnd).1
    by_cases hc : st.pabLayerProcessed.getD j false = false ∧ layerGroup m j = some g
    · have e1 : dumpGroupLayer m g st j = dumpAndMark st j "  " := by
        unfold dumpGroupLayer
        rw [if_pos hc]
      obtain ⟨⟨x1, x2, -, -⟩, y, z⟩ := groupExt_dump st j "  " hj hc.1
      rw [e1]
      obtain ⟨a, b, c⟩ := ih (dumpAndMark st j "  ") hnd2
        (fun k hk => by rw [x2]; exact hlt k (List.mem_cons_of_mem _ hk))
      have hf : js.filter (fun k => decide ((dumpAndMark st j "  ").pabLayerProcessed.getD k
          false = false ∧ layerGroup m k = some g)) =
          js.filter (fun k => decide (st.pabLayerProcessed.getD k false = false ∧
            layerGroup m k = some g)) :=
        List.filter_congr (fun k hk => by rw [z k (fun h => hjs (h ▸ hk))])
      refine ⟨by rw [a, x2], fun k => ?_, ?_⟩
      · rw [b k]
        by_cases hk : k = j
        · rw [hk]
          exact ⟨fun _ => Or.inr ⟨List.mem_cons_self _ _, hc.2⟩, fun _ => Or.inl y⟩
        · rw [z k hk]
          constructor
          · rintro (h | ⟨h1, h2⟩)
            · exact Or.inl h
            · exact Or.inr ⟨List.mem_cons_of_mem _ h1, h2⟩
          · rintro (h | ⟨h1, h2⟩)
            · exact Or.inl h
            · rcases List.mem_cons.1 h1 with h3 | h3
              · exact absurd h3 hk
              · exact Or.inr ⟨h3, h2⟩
      · rw [c, x1, hf, List.filter_cons, if_pos (by simpa using hc), List.map_cons,
          List.append_assoc, List.singleton_append]
    · have e1 : dumpGroupLayer m g st j = st := by
        unfold dumpGroupLayer
        rw [if_neg hc]
      rw [e1]
      obtain ⟨a, b, c⟩ := ih st hnd2 (fun k hk => hlt k (List.mem_cons_of_mem _ hk))
      refine ⟨a, fun k => ?_, ?_⟩
      · rw [b k]
        constructor
        · rintro (h | ⟨h1, h2⟩)
          · exact Or.inl h
          · exact Or.inr ⟨List.mem_cons_of_mem _ h1, h2⟩
        · rintro (h | ⟨h1, h2⟩)
          · exact Or.inl h
          · rcases List.mem_cons.1 h1 with h3 | h3
            · subst h3
              left
              by_contra hcon
              exact hc ⟨by simpa using hcon, h2⟩
            · exact Or.inr ⟨h3, h2⟩
      · rw [c, List.filter_cons, if_neg (by simpa using hc)]

theorem flat_clause_keep (m : mapObj) (g : String) (items new : List capItem) (p p2 : Bool)
    (hp : p2 = p) (hnew : new.count (capItem.groupHeader g) = 0)
    (h : if p = true then
        items.count (capItem.groupHeader g) = 1 ∧
        ∃ pre post, items = pre ++ [capItem.openGroup, capItem.groupHeader g] ++
          groupBlock m g ++ [capItem.closeGroup] ++ post
      else items.count (capItem.groupHeader g) = 0) :
    if p2 = true then
      (items ++ new).count (capItem.groupHeader g) = 1 ∧
      ∃ pre post, items ++ new = pre ++ [capItem.openGroup, capItem.groupHeader g] ++
        groupBlock m g ++ [capItem.closeGroup] ++ post
    else (items ++ new).count (capItem.groupHeader g) = 0 := by
  subst hp
  by_cases hp : p2 = true
  · rw [if_pos hp] at h ⊢
    obtain ⟨h1, pre, post, h2⟩ := h
    refine ⟨by rw [List.count_append, h1, hnew], pre, post ++ new, ?_⟩
    rw [h2]
    simp only [List.append_assoc]
  · rw [if_neg hp] at h ⊢
    rw [List.count_append, h, hnew]

theorem bool_true_of_not_false (b : Bool) (h : ¬b = false) : b = true := by
  cases b
  · exact absurd rfl h
  · rfl

theorem layersInv_step (m : mapObj) (i : Nat) (st st2 : groupState) (new : List capItem)
    (hinv : layersInv m i st) (hx : groupExt st st2 new)
    (hp : st2.pabLayerProcessed.getD i false = true)
    (hflat : ∀ j g, layerGroup m j = some g → g.length ≠ 0 →
      st2.pabLayerProcessed.getD j false = st.pabLayerProcessed.getD j false)
    (hhead : ∀ g, capItem.groupHeader g ∉ new)
    (hbal : new.count capItem.openGroup = new.count capItem.closeGroup) :
    layersInv m (i + 1) st2 := by
  obtain ⟨h1, h2, h3, h4, h5⟩ := hinv
  obtain ⟨a1, a2, a3, a4⟩ := hx
  refine ⟨a2.trans h1, fun k hk => ?_, fun k => ?_, ?_, fun j g hg hl => ?_⟩
  · by_cases hki : k = i
    · rw [hki]
      exact hp
    · exact a3 k (h2 k (by omega))
  · rw [a1, dumpCount_append, h3 k, a4 k]
    have m1 := a3 k
    cases h1 : st.pabLayerProcessed.getD k false <;>
      cases h2 : st2.pabLayerProcessed.getD k false <;> simp_all
  · rw [a1, List.count_append, List.count_append, h4, hbal]
  · rw [a1]
    exact flat_clause_keep m g st.items new _ _ (hflat j g hg hl)
      (List.count_eq_zero_of_not_mem (hhead g)) (h5 j g hg hl)

theorem range_split (n i : Nat) (hi : i ≤ n) :
    List.range n = List.range' 0 i ++ List.range' i (n - i) := by
  rw [List.range_eq_range']
  have h := List.range'_append_1 0 i (n - i)
  rw [Nat.zero_add] at h
  rw [h]
  congr 1
  omega

theorem capabilitiesLayer_inv (env : Env) (m : mapObj) (fuel i : Nat) (st : groupState)
    (hi : i < m.layers.length)
    (hfuel : groupDepth (msWMSPrepareNestedGroups env m).1 + 1 ≤ fuel)
    (hinv : layersInv m i st) :
    ∃ st2, capabilitiesLayer m (msWMSPrepareNestedGroups env m).1 fuel st i = some st2 ∧
      layersInv m (i + 1) st2 := by
  unfold capabilitiesLayer
  by_cases hproc : st.pabLayerProcessed.getD i false ≠ false
  · rw [if_pos hproc]
    refine ⟨st, rfl, hinv.1, fun k hk => ?_, hinv.2.2.1, hinv.2.2.2.1, hinv.2.2.2.2⟩
    by_cases hki : k = i
    · rw [hki]
      exact bool_true_of_not_false _ hproc
    · exact hinv.2.1 k (by omega)
  · rw [if_neg hproc]
    have hu : st.pabLayerProcessed.getD i false = false := not_not.1 hproc
    by_cases hn : ((msWMSPrepareNestedGroups env m).1.getD i []).length > 0
    · rw [if_pos hn]
      obtain ⟨st2, new, e, x, p⟩ := printNestedGroups_ext m.layers.length _ fuel st i 0
        hinv.1 hi hu (Nat.zero_le _) hn (by omega)
      exact ⟨st2, e, layersInv_step m i st st2 new hinv x.1 p
        (fun j g hg hl => x.2.1 j (prepare_flat env m j g hg hl)) x.2.2.1 x.2.2.2⟩
    · rw [if_neg hn]
      by_cases hg : layerGroup m i = none ∨ ((layerGroup m i).getD "").length = 0
      · rw [if_pos hg]
        obtain ⟨x, y, z⟩ := groupExt_dump st i "" (by rw [hinv.1]; exact hi) hu
        refine ⟨_, rfl, layersInv_step m i st _ _ hinv x y
          (fun j g hj hl => z j (fun h => ?_)) (fun g h => ?_) (by simp)⟩
        · rw [h] at hj
          rcases hg with h1 | h1
          · rw [hj] at h1
            cases h1
          · rw [hj] at h1
            exact hl h1
        · simp only [List.mem_singleton] at h
          cases h
      · rw [if_neg hg]
        obtain ⟨h1, h2, h3, h4, h5⟩ := hinv
        have hg2 : layerGroup m i ≠ none ∧ ((layerGroup m i).getD "").length ≠ 0 :=
          ⟨fun h => hg (Or.inl h), fun h => hg (Or.inr h)⟩
        obtain ⟨g0, hg0⟩ := Option.ne_none_iff_exists'.1 hg2.1
        have hl0 : g0.length ≠ 0 := by
          have := hg2.2
          rw [hg0] at this
          exact this
        simp only [hg0, Option.getD_some]
        obtain ⟨a, b, c⟩ := dumpGroup_loop m g0 (List.range' i (m.layers.length - i))
          { st with items := st.items ++ [capItem.openGroup, capItem.groupHeader g0] }
          (List.nodup_range' _ _)
          (fun j hj => by
            rw [List.mem_range'_1] at hj
            show j < st.pabLayerProcessed.length
            rw [h1]
            omega)
        have c1 : st.items.count (capItem.groupHeader g0) = 0 := by
          have := h5 i g0 hg0 hl0
          rw [if_neg (by rw [hu]; decide)] at this
          exact this
        have F1 : ∀ k, layerGroup m k = some g0 →
            st.pabLayerProcessed.getD k false = false := by
          intro k hk
          have c2 := h5 k g0 hk hl0
          by_contra hcon
          rw [if_pos (bool_true_of_not_false _ hcon)] at c2
          omega
        have F2 : ∀ k, layerGroup m k = some g0 →
            k ∈ List.range' i (m.layers.length - i) := by
          intro k hk
          rw [List.mem_range'_1]
          have hlt := layerGroup_lt m k g0 hk
          refine ⟨?_, by omega⟩
          by_contra hcon
          have := h2 k (by omega)
          rw [F1 k hk] at this
          cases this
        have hblock : ((List.range' i (m.layers.length - i)).filter
            (fun j => decide (st.pabLayerProcessed.getD j false = false ∧
              layerGroup m j = some g0))).map (fun j => capItem.dumpLayer j "  ") =
            groupBlock m g0 := by
          unfold groupBlock
          congr 1
          rw [range_split m.layers.length i (by omega), List.filter_append]
          have e1 : (List.range' 0 i).filter (fun j => decide (layerGroup m j = some g0)) =
              [] := by
            rw [List.filter_eq_nil_iff]
            intro k hk hd
            rw [List.mem_range'_1] at hk
            have := h2 k (by omega)
            rw [F1 k (of_decide_eq_true hd)] at this
            cases this
          rw [e1, List.nil_append]
          apply List.filter_congr
          intro k _
          by_cases hk : layerGroup m k = some g0
          · rw [decide_eq_true hk]
            exact decide_eq_true ⟨F1 k hk, hk⟩
          · rw [decide_eq_false hk]
            exact decide_eq_false (fun h => hk h.2)
        have hP : ∀ k, (List.foldl (dumpGroupLayer m g0)
            { st with items := st.items ++ [capItem.openGroup, capItem.groupHeader g0] }
            (List.range' i (m.layers.length - i))).pabLayerProcessed.getD k false = true ↔
            (st.pabLayerProcessed.getD k false = true ∨ layerGroup m k = some g0) := by
          intro k
          rw [b k]
          constructor
          · rintro (h | ⟨-, h⟩)
            · exact Or.inl h
            · exact Or.inr h
          · rintro (h | h)
            · exact Or.inl h
            · exact Or.inr ⟨F2 k h, h⟩
        have hitems : (List.foldl (dumpGroupLayer m g0)
            { st with items := st.items ++ [capItem.openGroup, capItem.groupHeader g0] }
            (List.range' i (m.layers.length - i))).items ++ [capItem.closeGroup] =
            st.items ++ ([capItem.openGroup, capItem.groupHeader g0] ++ groupBlock m g0 ++
              [capItem.closeGroup]) := by
          rw [c, hblock]
          simp only [List.append_assoc]
        have hnd : ((List.range m.layers.length).filter
            (fun j => decide (layerGroup m j = some g0))).Nodup :=
          (List.nodup_range _).filter _
        have hcount : ∀ k, dumpCount (groupBlock m g0) k =
            if layerGroup m k = some g0 then 1 else 0 := by
          intro k
          unfold groupBlock
          rw [dumpCount_map]
          by_cases hk : layerGroup m k = some g0
          · rw [if_pos hk]
            apply List.count_eq_one_of_mem hnd
            rw [List.mem_filter]
            exact ⟨List.mem_range.2 (layerGroup_lt m k g0 hk), decide_eq_true hk⟩
          · rw [if_neg hk]
            apply List.count_eq_zero_of_not_mem
            rw [List.mem_filter]
            rintro ⟨-, h⟩
            exact hk (of_decide_eq_true h)
        refine ⟨_, rfl, a.trans h1, fun k hk => ?_, fun k => ?_, ?_, fun j g hj hl => ?_⟩
        · by_cases hki : k = i
          · rw [hki]
            exact (hP i).2 (Or.inr hg0)
          · exact (hP k).2 (Or.inl (h2 k (by omega)))
        · show dumpCount (_ ++ [capItem.closeGroup]) k = _
          rw [hitems, dumpCount_append, dumpCount_append, dumpCount_append, hcount k, h3 k]
          have e0 : dumpCount [capItem.openGroup, capItem.groupHeader g0] k = 0 := rfl
          have e1 : dumpCount [capItem.closeGroup] k = 0 := rfl
          rw [e0, e1]
          by_cases hk : layerGroup m k = some g0
          · rw [if_pos hk, if_pos ((hP k).2 (Or.inr hk)), F1 k hk]
            rfl
          · rw [if_neg hk]
            by_cases hs : st.pabLayerProcessed.getD k false = true
            · rw [if_pos hs, if_pos ((hP k).2 (Or.inl hs))]
            · rw [if_neg hs, if_neg]
              intro hcon
              rcases (hP k).1 hcon with h | h
              · exact hs h
              · exact hk h
        · show List.count _ (_ ++ [capItem.closeGroup]) = List.count _ (_ ++ [capItem.closeGroup])
          rw [hitems]
          simp only [List.count_append, h4]
          unfold groupBlock
          rw [count_map_dump _ _ _ (fun j h => by cases h),
            count_map_dump _ _ _ (fun j h => by cases h)]
          simp [List.count_cons]
        · show if _ = true then List.count _ (_ ++ [capItem.closeGroup]) = 1 ∧
            ∃ pre post, _ ++ [capItem.closeGroup] = _ else
            List.count _ (_ ++ [capItem.closeGroup]) = 0
          rw [hitems]
          by_cases hgg : g = g0
          · subst hgg
            rw [if_pos ((hP j).2 (Or.inr hj))]
            refine ⟨?_, st.items, [], by simp only [List.append_assoc, List.append_nil]⟩
            simp only [List.count_append, c1]
            unfold groupBlock
            rw [count_map_dump _ _ _ (fun j h => by cases h)]
            simp [List.count_cons]
          · refine flat_clause_keep m g st.items _ _ _ ?_ ?_ (h5 j g hj hl)
            · rw [Bool.eq_iff_iff, hP j]
              constructor
              · rintro (h | h)
                · exact h
                · rw [hj] at h
                  exact absurd (Option.some.inj h) hgg
              · exact Or.inl
            · simp only [List.count_append]
              unfold groupBlock
              rw [count_map_dump _ _ _ (fun j h => by cases h)]
              have hne : capItem.groupHeader g0 ≠ capItem.groupHeader g :=
                fun h => hgg (capItem.groupHeader.inj h).symm
              simp [List.count_cons, hne]

theorem count_map_errorComment (l : List String) (e : capItem)
    (he : ∀ t, e ≠ capItem.errorComment t) : (l.map capItem.errorComment).count e = 0 := by
  apply List.count_eq_zero_of_not_mem
  intro h
  obtain ⟨t, -, ht⟩ := List.mem_map.1 h
  exact he t ht.symm

theorem dumpCount_map_errorComment (l : List String) (k : Nat) :
    dumpCount (l.map capItem.errorComment) k = 0 := by
  unfold dumpCount
  rw [List.countP_map]
  exact List.countP_eq_zero.2 (fun _ _ h => by cases h)

theorem getD_replicate_false (n k : Nat) : (List.replicate n false).getD k false = false := by
  rw [List.getD_eq_getElem?_getD, List.getElem?_replicate]
  split_ifs <;> rfl

theorem layersInv_start (m : mapObj) (errors : List String) :
    layersInv m 0 { pabLayerProcessed := List.replicate m.layers.length false,
                    items := errors.map capItem.errorComment } := by
  refine ⟨List.length_replicate _ _, fun k hk => absurd hk (Nat.not_lt_zero k), fun k => ?_,
    ?_, fun j g _ _ => ?_⟩
  · show dumpCount (errors.map capItem.errorComment) k =
      if (List.replicate m.layers.length false).getD k false = true then 1 else 0
    rw [dumpCount_map_errorComment, getD_replicate_false]
    rfl
  · show List.count _ (errors.map capItem.errorComment) =
      List.count _ (errors.map capItem.errorComment)
    rw [count_map_errorComment _ _ (fun t h => by cases h),
      count_map_errorComment _ _ (fun t h => by cases h)]
  · show if (List.replicate m.layers.length false).getD j false = true then _ else
      List.count _ (errors.map capItem.errorComment) = 0
    rw [getD_replicate_false, if_neg (by decide)]
    exact count_map_errorComment _ _ (fun t h => by cases h)

theorem capabilitiesLayers_loop (env : Env) (m : mapObj) (fuel : Nat)
    (hfuel : groupDepth (msWMSPrepareNestedGroups env m).1 + 1 ≤ fuel) :
    ∀ k, k ≤ m.layers.length → ∃ st,
      (List.range k).foldlM (capabilitiesLayer m (msWMSPrepareNestedGroups env m).1 fuel)
        { pabLayerProcessed := List.replicate m.layers.length false,
          items := (msWMSPrepareNestedGroups env m).2.map capItem.errorComment } = some st ∧
      layersInv m k st := by
  intro k
  induction k with
  | zero =>
    intro _
    exact ⟨_, rfl, layersInv_start m _⟩
  | succ k ih =>
    intro hk
    obtain ⟨st, e, hinv⟩ := ih (by omega)
    obtain ⟨st2, e2, hinv2⟩ := capabilitiesLayer_inv env m fuel k st (by omega) hfuel hinv
    refine ⟨st2, ?_, hinv2⟩
    rw [List.range_succ, List.foldlM_append, e]
    simp only [Option.bind_eq_bind, Option.some_bind, List.foldlM_cons, List.foldlM_nil, e2]
    rfl

theorem capabilitiesLayer_mono (m : mapObj) (nested : List (List String)) (fuel : Nat)
    (st : groupState) (i : Nat) (r : groupState)
    (h : capabilitiesLayer m nested fuel st i = some r) :
    capabilitiesLayer m nested (fuel + 1) st i = some r := by
  unfold capabilitiesLayer at h ⊢
  split_ifs at h ⊢
  · exact h
  · exact printNestedGroups_mono _ _ _ _ _ _ _ h
  · exact h
  · exact h

theorem capabilitiesLayers_mono (env : Env) (m : mapObj) (fuel : Nat) (r : groupState)
    (h : capabilitiesLayers env m fuel = some r) :
    capabilitiesLayers env m (fuel + 1) = some r := by
  unfold capabilitiesLayers at h ⊢
  split_ifs at h ⊢
  · exact foldlM_option_mono _ _ (fun s a r2 h2 => capabilitiesLayer_mono m _ fuel s a r2 h2)
      _ _ _ h
  · exact h

/-- Claim C37.  The layer section of `msWMSGetCapabilities` ends, with the same calls for
every bound of the recursion above the greatest number of nested groups of a layer.  In
these calls every layer of the map is handed to `msDumpLayer` exactly once, no other index
is, as many group elements are closed as are opened, and for every layer with a flat group
`g` the header of `g` is printed exactly once, in a group element that holds, between its
opening and its closing, the layers of the group `g`, all of them, in the order of the map. -/
theorem capabilities_layers (env : Env) (m : mapObj) :
    ∃ r,
      (∀ fuel, groupDepth (msWMSPrepareNestedGroups env m).1 + 1 ≤ fuel →
        capabilitiesLayers env m fuel = some r) ∧
      (∀ i, i < m.layers.length → dumpCount r.items i = 1) ∧
      (∀ i, m.layers.length ≤ i → dumpCount r.items i = 0) ∧
      r.items.count capItem.openGroup = r.items.count capItem.closeGroup ∧
      (∀ i g, layerGroup m i = some g → g.length ≠ 0 →
        r.items.count (capItem.groupHeader g) = 1 ∧
        ∃ pre post, r.items = pre ++ [capItem.openGroup, capItem.groupHeader g] ++
          groupBlock m g ++ [capItem.closeGroup] ++ post) := by
  by_cases hn : m.layers.length ≠ 0
  · obtain ⟨r, e, h1, h2, h3, h4, h5⟩ := capabilitiesLayers_loop env m
      (groupDepth (msWMSPrepareNestedGroups env m).1 + 1) (Nat.le_refl _) m.layers.length
      (Nat.le_refl _)
    have e0 : capabilitiesLayers env m (groupDepth (msWMSPrepareNestedGroups env m).1 + 1) =
        some r := by
      unfold capabilitiesLayers
      rw [if_pos hn]
      exact e
    refine ⟨r, fun fuel hf => ?_, fun i hi => ?_, fun i hi => ?_, h4, fun i g hg hl => ?_⟩
    · induction fuel, hf using Nat.le_induction with
      | base => exact e0
      | succ k _ ih => exact capabilitiesLayers_mono env m k r ih
    · rw [h3 i, if_pos (h2 i hi)]
    · rw [h3 i, List.getD_eq_getElem?_getD, List.getElem?_eq_none (by omega)]
      rfl
    · have := h5 i g hg hl
      rw [if_pos (h2 i (layerGroup_lt m i g hg))] at this
      exact this
  · have e0 : ∀ fuel, capabilitiesLayers env m fuel =
        some { pabLayerProcessed := [], items := [] } := by
      intro fuel
      unfold capabilitiesLayers
      rw [if_neg hn]
    refine ⟨_, fun fuel _ => e0 fuel, fun i hi => ?_, fun i _ => rfl, rfl,
      fun i g hg _ => ?_⟩
    · omega
    · have := layerGroup_lt m i g hg
      omega

/-- C37 on `sampleGroupMap`, with nested groups, two flat groups whose layers alternate and
a layer without group: the calls of the layer section; each of the eight layers is dumped
once and the header of the group `transport` is printed once. -/
theorem capabilities_layers_witness :
    (capabilitiesLayers sampleEnv sampleGroupMap 3).map (fun r => r.items) =
      some [capItem.openGroup, capItem.title "water",
        capItem.openGroup, capItem.title "lines", capItem.dumpLayer 0 "",
        capItem.dumpLayer 6 "", capItem.closeGroup,
        capItem.openGroup, capItem.title "areas", capItem.dumpLayer 3 "", capItem.closeGroup,
        capItem.dumpLayer 7 "", capItem.closeGroup,
        capItem.openGroup, capItem.groupHeader "transport", capItem.dumpLayer 1 "  ",
        capItem.dumpLayer 4 "  ", capItem.closeGroup,
        capItem.openGroup, capItem.groupHeader "cadastre", capItem.dumpLayer 2 "  ",
        capItem.closeGroup,
        capItem.dumpLayer 5 ""] ∧
    ∃ r, capabilitiesLayers sampleEnv sampleGroupMap 3 = some r ∧
      (∀ i, i < 8 → dumpCount r.items i = 1) ∧
      r.items.count (capItem.groupHeader "transport") = 1 :=
  ⟨by with_unfolding_all decide,
   (capabilities_layers sampleEnv sampleGroupMap).elim fun r h =>
     ⟨r, h.1 3 (by with_unfolding_all decide), h.2.1,
      (h.2.2.2.2 1 "transport" (by with_unfolding_all rfl) (by decide)).1⟩⟩

end MapServer
